import Mathlib

/-!
# xim-wayland: a shallow embedding of the XIM server engine

The definitions follow `src/xim.c` (wire codec, transport) and `src/main.c`
(session logic, preedit state machine).

Conventions of the embedding.

* Machine integers are `Nat` (or `Int` for `int32_t`) with an explicit
  `% 2 ^ w` wherever the C code converts to a `w`-bit type.
* A block of memory is a `List Nat` of bytes.  A multi-byte field of a
  wire-shaped struct is the pair of bytes at its offset; `HO16` / `HO32`
  decode it with the transport's endian byte and `NO16` / `NO32` produce the
  bytes that `PACK16` / `PACK32` store.
* A C string is the list of bytes it points to; `strlen` stops at the first
  zero byte (or at the end of the list, where the terminator sits).
* A read past the end of a block yields 0.  This only fixes a value for reads
  that are out of bounds in C; it is pointed out wherever it can happen.
* `size_t` is 64 bits wide: sums of a `size_t` and a 32-bit value do not wrap.
* `malloc` / `calloc` are assumed to succeed.  Round trips to the X server can
  fail; their outcome is an input of the model (`x_server_t`).
* Loops whose termination is not evident take a fuel argument and return
  `none` when the fuel runs out.
-/

namespace XimWayland

/-! ## Byte order and padding (`xim.c`, lines 69-116) -/

/-- The macro `PAD(n)`: `((4 - ((n) % 4)) % 4)`. -/
def PAD (n : Nat) : Nat := (4 - n % 4) % 4

/-- The struct `xcb_xim_transport_t` of `xim.h`: one peer connection.
`endian` is 66 (the character B) for big endian; anything else is handled as
little endian by the `NO16` / `HO16` family. -/
structure xcb_xim_transport_t where
  client_window : Nat
  server_window : Nat
  endian : Nat
deriving DecidableEq, Repr

/-- The macro `NO16(t, n)` followed by the store of `PACK16`: the two bytes
written for the 16-bit value `n` (converted to `uint16_t`). -/
def NO16 (t : xcb_xim_transport_t) (n : Nat) : List Nat :=
  if t.endian = 66 then [n % 65536 / 256, n % 256] else [n % 256, n % 65536 / 256]

/-- The macro `NO32(t, n)` followed by the store of `PACK32`: the four bytes
written for the 32-bit value `n` (converted to `uint32_t`). -/
def NO32 (t : xcb_xim_transport_t) (n : Nat) : List Nat :=
  if t.endian = 66 then
    [n % 4294967296 / 16777216, n % 16777216 / 65536, n % 65536 / 256, n % 256]
  else
    [n % 256, n % 65536 / 256, n % 16777216 / 65536, n % 4294967296 / 16777216]

/-- The macro `HO16(t, n)` applied to the field stored as bytes `b0 b1`. -/
def HO16 (t : xcb_xim_transport_t) (b0 b1 : Nat) : Nat :=
  if t.endian = 66 then b0 * 256 + b1 else b1 * 256 + b0

/-- The macro `HO32(t, n)` applied to the field stored as bytes `b0 b1 b2 b3`. -/
def HO32 (t : xcb_xim_transport_t) (b0 b1 b2 b3 : Nat) : Nat :=
  if t.endian = 66 then b0 * 16777216 + b1 * 65536 + b2 * 256 + b3
  else b3 * 16777216 + b2 * 65536 + b1 * 256 + b0

/-- The byte at offset `off` of a block (0 past its end). -/
def byte_at (mem : List Nat) (off : Nat) : Nat := mem.getD off 0

/-- A 16-bit field at offset `off` of a block, in host order. -/
def field16 (t : xcb_xim_transport_t) (mem : List Nat) (off : Nat) : Nat :=
  HO16 t (byte_at mem off) (byte_at mem (off + 1))

/-- A 32-bit field at offset `off` of a block, in host order. -/
def field32 (t : xcb_xim_transport_t) (mem : List Nat) (off : Nat) : Nat :=
  HO32 t (byte_at mem off) (byte_at mem (off + 1)) (byte_at mem (off + 2))
    (byte_at mem (off + 3))

/-- Modelled from the spec: `xcb_xim_card16` is declared in `xim.h` and called
by `main.c`, its body is not in the sources.  Section 4.1: multi-byte fields
of wire-shaped records are read via a 2-byte byteswap keyed by the transport's
endian byte.  The argument is the field as stored, bytes `b0 b1`. -/
def xcb_xim_card16 (t : xcb_xim_transport_t) (b0 b1 : Nat) : Nat := HO16 t b0 b1

/-- Modelled from the spec: `xcb_xim_card32` is declared in `xim.h` and called
by `main.c`, its body is not in the sources.  Section 4.1: multi-byte fields
of wire-shaped records are read via a 4-byte byteswap keyed by the transport's
endian byte.  The argument is the field as stored, bytes `b0 b1 b2 b3`. -/
def xcb_xim_card32 (t : xcb_xim_transport_t) (b0 b1 b2 b3 : Nat) : Nat :=
  HO32 t b0 b1 b2 b3

/-- The call `memcpy (p, src, n)`: the `n` bytes copied out of `src`. -/
def memcpy (src : List Nat) (n : Nat) : List Nat :=
  (List.range n).map (fun k => byte_at src k)

/-- The call `strlen (s)`. -/
def strlen (s : List Nat) : Nat := (s.takeWhile (fun b => b != 0)).length

/-! ## The X connection as seen by `write_data` (`xim.c`, lines 569-650) -/

/-- Index `_XIM_PROTOCOL` of the enum of well-known atoms (`xim.c`, lines
147-156: `XIM_SERVERS`, `_XIM_XCONNECT`, `_XIM_MOREDATA`, `_XIM_PROTOCOL`,
`LOCALES`, `TRANSPORT`). -/
def _XIM_PROTOCOL : Nat := 3

/-- The predefined atom `XCB_ATOM_STRING` of the X protocol. -/
def XCB_ATOM_STRING : Nat := 31

/-- The enumerator `XCB_PROP_MODE_APPEND` of the X protocol. -/
def XCB_PROP_MODE_APPEND : Nat := 2

/-- The `xcb_change_property` request of `write_data`: `payload` is appended
to the property `property` of `window`; the atom `property` is the reply to
interning the name `server<name>`. -/
structure x_property_t where
  mode : Nat
  window : Nat
  property : Nat
  name : Nat
  type : Nat
  format : Nat
  payload : List Nat
deriving DecidableEq, Repr

/-- One successful `write_data`: the client message sent to `window` and, on
the property path, the property written before it.  `type` and `format` are
the fields of the event; `data` is its data union, cleared by `memset`: 20
bytes for format 8, 5 words for format 32.  `payload` keeps the `length` bytes
that were handed to `write_data`. -/
structure xim_message_t where
  window : Nat
  type : Nat
  format : Nat
  data : List Nat
  payload : List Nat
  property : Option x_property_t
deriving DecidableEq, Repr

/-- The X server side of the connection: `intern_atom_reply n` is the reply
to the `n`-th round trip when it interns an atom (`none` is an error reply),
`get_property_reply n` tells whether the `n`-th round trip, when it reads a
property, is answered, and `get_property_value n` is the value it then
carries. -/
structure x_server_t where
  intern_atom_reply : Nat → Option Nat
  get_property_reply : Nat → Bool
  get_property_value : Nat → List Nat := fun _ => []

/-- The struct `xcb_xim_request_container_t`: a queued request.  `requestor`
is an index into `clients`, `request` holds the `length` bytes that
`do_client_message` copied behind the pointer. -/
structure xcb_xim_request_container_t where
  requestor : Nat
  request : List Nat
deriving DecidableEq, Repr

/-- What `do_selection_request` writes: the `xcb_change_property` request
(`window`, `property`, `type`, `format`, `data`) and the fields of the
`SELECTION_NOTIFY` event sent after it. -/
structure x_selection_reply_t where
  mode : Nat
  window : Nat
  property : Nat
  type : Nat
  format : Nat
  data : List Nat
  notify_time : Nat
  notify_requestor : Nat
  notify_selection : Nat
  notify_target : Nat
  notify_property : Nat
deriving DecidableEq, Repr

/-- The struct `xcb_xim_server_connection_t`, together with the traffic
written so far: `atoms` are the well-known atoms, `clients` the array of
transports (`nclients` is its length), `sent` lists the client messages in the
order they were sent, `serial` is the static counter of `write_data`,
`round_trips` counts the replies waited for, `requests` is the queue from its
head, `selections` lists the answers to selection requests. -/
structure xcb_xim_server_connection_t where
  atoms : List Nat
  clients : List xcb_xim_transport_t
  sent : List xim_message_t
  serial : Nat
  round_trips : Nat
  locale : List Nat := []
  requests : List xcb_xim_request_container_t := []
  selections : List x_selection_reply_t := []
deriving DecidableEq, Repr

/-- The function `write_data`: more than 20 bytes go through a property named
`server<serial>`, which takes two round trips that can fail (the second one
reads the property with the delete flag before the payload is appended); up
to 20 bytes are copied into the event. -/
def write_data (x : x_server_t) (xim : xcb_xim_server_connection_t)
    (client : xcb_xim_transport_t) (length : Nat) (data : List Nat) :
    xcb_xim_server_connection_t × Bool :=
  if length > 20 then
    let serial := xim.serial
    let xim1 := { xim with serial := (xim.serial + 1) % 256,
                           round_trips := xim.round_trips + 1 }
    match x.intern_atom_reply xim.round_trips with
    | none => (xim1, false)
    | some atom =>
      let xim2 := { xim1 with round_trips := xim1.round_trips + 1 }
      if x.get_property_reply xim1.round_trips then
        ({ xim2 with sent := xim2.sent ++
            [{ window := client.client_window, type := xim.atoms.getD _XIM_PROTOCOL 0,
               format := 32,
               data := [length % 4294967296, atom % 4294967296, 0, 0, 0],
               payload := memcpy data length,
               property := some
                 { mode := XCB_PROP_MODE_APPEND, window := client.client_window,
                   property := atom, name := serial, type := XCB_ATOM_STRING,
                   format := 8, payload := memcpy data length } }] }, true)
      else (xim2, false)
  else
    ({ xim with sent := xim.sent ++
        [{ window := client.client_window, type := xim.atoms.getD _XIM_PROTOCOL 0,
           format := 8,
           data := memcpy data length ++ List.replicate (20 - length) 0,
           payload := memcpy data length, property := none }] }, true)

/-- An X server that answers every round trip; interned atoms are numbered
from 1000. -/
def x_server_ok : x_server_t :=
  { intern_atom_reply := fun n => some (1000 + n), get_property_reply := fun _ => true }

/-- The frames sent so far, oldest first. -/
def frames_sent (xim : xcb_xim_server_connection_t) : List (List Nat) :=
  xim.sent.map (fun m => m.payload)

/-- The major opcodes of the frames sent so far, oldest first. -/
def opcodes_sent (xim : xcb_xim_server_connection_t) : List Nat :=
  xim.sent.map (fun m => byte_at m.payload 0)

/-! ## Frame builders (`xim.c`) -/

/-- What a frame builder hands to `write_data`: `alloc` is the size of the
buffer `data` (an array on the stack, or `malloc (length)` cleared by
`memset`), `bytes` are the bytes stored from `data` onwards in the order the
builder stores them (gaps it skips are the zeros of `memset`), `length` is the
length argument of `write_data`. -/
structure frame_t where
  alloc : Nat
  length : Nat
  bytes : List Nat
deriving DecidableEq, Repr

/-- The byte string `write_data` reads: `length` bytes from `data`. -/
def frame_t.payload (f : frame_t) : List Nat := memcpy f.bytes f.length

/-- Sends a frame: the call `write_data (xim, transport, length, data, error)`
that ends every builder. -/
def send_frame (x : x_server_t) (xim : xcb_xim_server_connection_t)
    (transport : xcb_xim_transport_t) (f : frame_t) :
    xcb_xim_server_connection_t × Bool :=
  write_data x xim transport f.length f.bytes

/-- The common shape of the builders with a buffer `data[8]` on the stack:
opcode, 0, length field, two 16-bit values. -/
def frame_8 (t : xcb_xim_transport_t) (opcode a b : Nat) : frame_t :=
  { alloc := 8, length := 8,
    bytes := [opcode % 256, 0] ++ NO16 t ((8 - 4) / 4) ++ NO16 t a ++ NO16 t b }

/-- Frame of `xcb_xim_connect_reply`. -/
def xcb_xim_connect_reply_frame (t : xcb_xim_transport_t) (major minor : Nat) : frame_t :=
  frame_8 t 2 major minor

/-- Frame of `xcb_xim_disconnect_reply`. -/
def xcb_xim_disconnect_reply_frame (t : xcb_xim_transport_t) : frame_t :=
  { alloc := 4, length := 4, bytes := [4, 0] ++ NO16 t ((4 - 4) / 4) }

/-- Size of an attribute-spec record as the builders compute it from the
record header: `6 + name_length + PAD (2 + name_length)`. -/
def spec_length (t : xcb_xim_transport_t) (spec : List Nat) : Nat :=
  6 + field16 t spec 4 + PAD (2 + field16 t spec 4)

/-- Size of an attribute record as the builders and iterators compute it from
the record header: `4 + value_byte_length + PAD (value_byte_length)`. -/
def attribute_byte_length (t : xcb_xim_transport_t) (record : List Nat) : Nat :=
  4 + field16 t record 2 + PAD (field16 t record 2)

/-- Size of an extension record: `4 + name_length + PAD (name_length)`. -/
def extension_byte_length (t : xcb_xim_transport_t) (extension : List Nat) : Nat :=
  4 + field16 t extension 2 + PAD (field16 t extension 2)

/-- A `uint16_t` accumulator: `acc += size (e)` over the array, wrapping. -/
def sum16 (size : List Nat → Nat) (records : List (List Nat)) : Nat :=
  records.foldl (fun acc e => (acc + size e) % 65536) 0

/-- Total of the sizes of the records of a list, without wrapping. -/
def records_size (size : List Nat → Nat) (records : List (List Nat)) : Nat :=
  (records.map size).sum

/-- The copy loop of the list-carrying builders:
`memcpy (p, records[i], size); p += size`. -/
def copy_records (size : List Nat → Nat) (records : List (List Nat)) : List Nat :=
  records.flatMap (fun e => memcpy e (size e))

/-- Frame of `xcb_xim_open_reply`.  The arrays are given as lists, the counts
are their lengths. -/
def xcb_xim_open_reply_frame (t : xcb_xim_transport_t) (input_method_id : Nat)
    (im_attrs ic_attrs : List (List Nat)) : frame_t :=
  let im_attrs_byte_length := sum16 (spec_length t) im_attrs
  let ic_attrs_byte_length := sum16 (spec_length t) ic_attrs
  let length := 4 + 4 + im_attrs_byte_length + 4 + ic_attrs_byte_length
  { alloc := length, length := length,
    bytes := [31, 0] ++ NO16 t ((length - 4) / 4)
      ++ NO16 t input_method_id ++ NO16 t im_attrs_byte_length
      ++ copy_records (spec_length t) im_attrs
      ++ NO16 t ic_attrs_byte_length ++ NO16 t 0
      ++ copy_records (spec_length t) ic_attrs }

/-- Frame of `xcb_xim_close_reply`. -/
def xcb_xim_close_reply_frame (t : xcb_xim_transport_t) (input_method_id : Nat) : frame_t :=
  frame_8 t 33 input_method_id 0

/-- Frame of `xcb_xim_query_extension_reply`; it hands `p - data` to
`write_data`. -/
def xcb_xim_query_extension_reply_frame (t : xcb_xim_transport_t) (input_method_id : Nat)
    (extensions : List (List Nat)) : frame_t :=
  let extensions_byte_length := sum16 (extension_byte_length t) extensions
  let length := 4 + 4 + extensions_byte_length
  let bytes := [41, 0] ++ NO16 t ((length - 4) / 4)
      ++ NO16 t input_method_id ++ NO16 t extensions_byte_length
      ++ copy_records (extension_byte_length t) extensions
  { alloc := length, length := bytes.length, bytes := bytes }

/-- Frame of `xcb_xim_encoding_negotiation_reply` (buffer `data[12]`). -/
def xcb_xim_encoding_negotiation_reply_frame (t : xcb_xim_transport_t)
    (input_method_id category index : Nat) : frame_t :=
  { alloc := 12, length := 12,
    bytes := [39, 0] ++ NO16 t ((12 - 4) / 4) ++ NO16 t input_method_id
      ++ NO16 t category ++ NO16 t index ++ NO16 t 0 }

/-- Frame of `xcb_xim_set_im_values_reply`. -/
def xcb_xim_set_im_values_reply_frame (t : xcb_xim_transport_t) (input_method_id : Nat) :
    frame_t :=
  frame_8 t 43 input_method_id 0

/-- Frame of `xcb_xim_get_im_values_reply`; it hands `p - data` to
`write_data`. -/
def xcb_xim_get_im_values_reply_frame (t : xcb_xim_transport_t) (input_method_id : Nat)
    (attributes : List (List Nat)) : frame_t :=
  let attributes_byte_length := sum16 (attribute_byte_length t) attributes
  let length := 4 + 4 + attributes_byte_length
  let bytes := [45, 0] ++ NO16 t ((length - 4) / 4)
      ++ NO16 t input_method_id ++ NO16 t attributes_byte_length
      ++ copy_records (attribute_byte_length t) attributes
  { alloc := length, length := bytes.length, bytes := bytes }

/-- Frame of `xcb_xim_create_ic_reply`. -/
def xcb_xim_create_ic_reply_frame (t : xcb_xim_transport_t)
    (input_method_id input_context_id : Nat) : frame_t :=
  frame_8 t 51 input_method_id input_context_id

/-- Frame of `xcb_xim_destroy_ic_reply`. -/
def xcb_xim_destroy_ic_reply_frame (t : xcb_xim_transport_t)
    (input_method_id input_context_id : Nat) : frame_t :=
  frame_8 t 53 input_method_id input_context_id

/-- Frame of `xcb_xim_set_ic_values_reply`. -/
def xcb_xim_set_ic_values_reply_frame (t : xcb_xim_transport_t)
    (input_method_id input_context_id : Nat) : frame_t :=
  frame_8 t 55 input_method_id input_context_id

/-- Frame of `xcb_xim_get_ic_values_reply`.  The buffer is
`malloc (4 + 4 + attributes_byte_length)`, the builder stores a 12-byte fixed
part before the attributes and hands `p - data` to `write_data`; the bytes it
stores past the end of the buffer are part of what `write_data` reads. -/
def xcb_xim_get_ic_values_reply_frame (t : xcb_xim_transport_t)
    (input_method_id input_context_id : Nat) (attributes : List (List Nat)) : frame_t :=
  let attributes_byte_length := sum16 (attribute_byte_length t) attributes
  let length := 4 + 4 + attributes_byte_length
  let bytes := [57, 0] ++ NO16 t ((length - 4) / 4)
      ++ NO16 t input_method_id ++ NO16 t input_context_id
      ++ NO16 t attributes_byte_length ++ NO16 t 0
      ++ copy_records (attribute_byte_length t) attributes
  { alloc := length, length := bytes.length, bytes := bytes }

/-- The store of `PACK32` for an `int32_t` argument. -/
def NO32i (t : xcb_xim_transport_t) (z : Int) : List Nat :=
  NO32 t (z % 4294967296).toNat

/-- Frame of `xcb_xim_commit`. -/
def xcb_xim_commit_frame (t : xcb_xim_transport_t)
    (input_method_id input_context_id flag keysym string_length : Nat)
    (string : List Nat) : frame_t :=
  let flag := flag % 65536
  let string_length := string_length % 65536
  let length0 := 10
  let length1 := if flag &&& 2 ≠ 0 then length0 + 6 else length0
  let length2 := if flag &&& 4 ≠ 0 then length1 + (2 + string_length) else length1
  let length := length2 + PAD length2
  { alloc := length, length := length,
    bytes := [63, 0] ++ NO16 t ((length - 4) / 4)
      ++ NO16 t input_method_id ++ NO16 t input_context_id ++ NO16 t flag
      ++ (if flag &&& 2 ≠ 0 then NO16 t 0 ++ NO32 t keysym else [])
      ++ (if flag &&& 4 ≠ 0 then NO16 t string_length ++ memcpy string string_length
          else []) }

/-- Frame of `xcb_xim_preedit_start`. -/
def xcb_xim_preedit_start_frame (t : xcb_xim_transport_t)
    (input_method_id input_context_id : Nat) : frame_t :=
  frame_8 t 73 input_method_id input_context_id

/-- Frame of `xcb_xim_preedit_draw`; it hands `p - data` to `write_data`.
The counts are `uint16_t` parameters, the arrays are what the pointers point
to. -/
def xcb_xim_preedit_draw_frame (t : xcb_xim_transport_t)
    (input_method_id input_context_id : Nat) (caret change_first change_length : Int)
    (status preedit_length : Nat) (preedit : List Nat)
    (feedbacks_length : Nat) (feedbacks : List Nat) : frame_t :=
  let preedit_length := preedit_length % 65536
  let feedbacks_length := feedbacks_length % 65536
  let length := 4 + 26 + preedit_length + PAD (2 + preedit_length) + 4 * feedbacks_length
  let bytes := [75, 0] ++ NO16 t ((length - 4) / 4)
      ++ NO16 t input_method_id ++ NO16 t input_context_id
      ++ NO32i t caret ++ NO32i t change_first ++ NO32i t change_length
      ++ NO32 t status
      ++ NO16 t preedit_length ++ memcpy preedit preedit_length
      ++ List.replicate (PAD (2 + preedit_length)) 0
      ++ NO16 t feedbacks_length ++ NO16 t 0
      ++ (List.range feedbacks_length).flatMap (fun i => NO32 t (feedbacks.getD i 0))
  { alloc := length, length := bytes.length, bytes := bytes }

/-- Frame of `xcb_xim_preedit_caret` (buffer `data[20]`). -/
def xcb_xim_preedit_caret_frame (t : xcb_xim_transport_t)
    (input_method_id input_context_id : Nat) (position : Int) (direction style : Nat) :
    frame_t :=
  { alloc := 20, length := 20,
    bytes := [76, 0] ++ NO16 t ((20 - 4) / 4)
      ++ NO16 t input_method_id ++ NO16 t input_context_id
      ++ NO32i t position ++ NO32 t direction ++ NO32 t style }

/-- Frame of `xcb_xim_preedit_done`. -/
def xcb_xim_preedit_done_frame (t : xcb_xim_transport_t)
    (input_method_id input_context_id : Nat) : frame_t :=
  frame_8 t 78 input_method_id input_context_id

/-! ## STR iterator (`xim.c`, lines 664-678 and 1440-1460) -/

/-- The struct `xcb_xim_str_iterator_t`; `data` is the offset of the current
STR from the start of the request. -/
structure xcb_xim_str_iterator_t where
  data : Nat
  index : Nat
  remainder : Nat
deriving DecidableEq, Repr

/-- The macro `MIN(x,y)`: `((x) > (y) ? (y) : (x))`. -/
def MIN (x y : Nat) : Nat := if x > y then y else x

/-- The function `xcb_xim_str_iterator_has_data`; `mem` is the request. -/
def xcb_xim_str_iterator_has_data (mem : List Nat) (i : xcb_xim_str_iterator_t) : Bool :=
  decide (i.remainder ≥ 1 + byte_at mem i.data)

/-- The function `xcb_xim_str_iterator_next`: `length` is a `uint8_t`,
`index` and `remainder` are `uint16_t`. -/
def xcb_xim_str_iterator_next (mem : List Nat) (i : xcb_xim_str_iterator_t) :
    xcb_xim_str_iterator_t :=
  let length := (1 + byte_at mem i.data) % 256
  { data := i.data + length,
    index := (i.index + 1) % 65536,
    remainder := (i.remainder + 65536 - length) % 65536 }

/-- The function `xcb_xim_encoding_negotiation_request_encoding_iterator`;
`r` is the request (8 bytes of fixed part), `t` the requestor. -/
def xcb_xim_encoding_negotiation_request_encoding_iterator (t : xcb_xim_transport_t)
    (r : List Nat) : xcb_xim_str_iterator_t :=
  let request_byte_length := (field16 t r 2 * 4) % 65536
  let encodings_byte_length := field16 t r 6
  { data := 8, index := 0, remainder := MIN request_byte_length encodings_byte_length }

/-- The call `strncmp (s1, s2, n) == 0`; each string is followed by its
terminator (a read past the end of the list yields 0). -/
def strncmp_eq : List Nat → List Nat → Nat → Bool
  | _, _, 0 => true
  | s1, s2, n + 1 =>
    if s1.headD 0 ≠ s2.headD 0 then false
    else if s1.headD 0 = 0 then true
    else strncmp_eq s1.tail s2.tail n

/-- The bytes of the string literal `"UTF-8"`. -/
def utf8_name : List Nat := [85, 84, 70, 45, 56]

/-! ## Data model of `main.c` (lines 33-116) -/

/-- Index `INPUT_STYLE` of the enum of IC attributes. -/
def INPUT_STYLE : Nat := 0

/-- Count `LAST_IC_ATTRIBUTE` of the enum of IC attributes. -/
def LAST_IC_ATTRIBUTE : Nat := 6

/-- Input style bit `XCB_XIM_PREEDIT_CALLBACKS`. -/
def XCB_XIM_PREEDIT_CALLBACKS : Nat := 0x0002

/-- Input style bit `XCB_XIM_STATUS_CALLBACKS`. -/
def XCB_XIM_STATUS_CALLBACKS : Nat := 0x0200

/-- Input style bit `XCB_XIM_PREEDIT_NOTHING`. -/
def XCB_XIM_PREEDIT_NOTHING : Nat := 0x0008

/-- Input style bit `XCB_XIM_STATUS_NOTHING`. -/
def XCB_XIM_STATUS_NOTHING : Nat := 0x0400

/-- Feedback flag `XCB_XIM_FEEDBACK_REVERSE`. -/
def XCB_XIM_FEEDBACK_REVERSE : Nat := 0x1

/-- Feedback flag `XCB_XIM_FEEDBACK_UNDERLINE`. -/
def XCB_XIM_FEEDBACK_UNDERLINE : Nat := 0x2

/-- Feedback flag `XCB_XIM_FEEDBACK_HIGHLIGHT`. -/
def XCB_XIM_FEEDBACK_HIGHLIGHT : Nat := 0x4

/-- Feedback flag `XCB_XIM_FEEDBACK_PRIMARY`. -/
def XCB_XIM_FEEDBACK_PRIMARY : Nat := 0x8

/-- Feedback flag `XCB_XIM_FEEDBACK_SECONDARY`. -/
def XCB_XIM_FEEDBACK_SECONDARY : Nat := 0x10

/-- Commit flag `XCB_XIM_COMMIT_FLAG_KEYSYM`. -/
def XCB_XIM_COMMIT_FLAG_KEYSYM : Nat := 0x2

/-- Commit flag `XCB_XIM_COMMIT_FLAG_STRING`. -/
def XCB_XIM_COMMIT_FLAG_STRING : Nat := 0x4

/-- Enumerator `XCB_XIM_CARET_DIRECTION_ABSOLUTE_POSITION` (the eleventh of
its enum). -/
def XCB_XIM_CARET_DIRECTION_ABSOLUTE_POSITION : Nat := 10

/-- Enumerator `XCB_XIM_CARET_STYLE_PRIMARY` (the second of its enum). -/
def XCB_XIM_CARET_STYLE_PRIMARY : Nat := 1

/-- The enumerators `WL_TEXT_INPUT_PREEDIT_STYLE_*` that
`handle_wayland_preedit_styling` switches on.  They come from
`text-client-protocol.h`, which is not in the sources, so they are a
parameter; being case labels of one `switch` they are pairwise distinct. -/
structure wl_text_input_preedit_style_t where
  HIGHLIGHT : Nat
  UNDERLINE : Nat
  ACTIVE : Nat
  INACTIVE : Nat
  SELECTION : Nat
  distinct : [HIGHLIGHT, UNDERLINE, ACTIVE, INACTIVE, SELECTION].Nodup

/-- The numbering of the preedit styles in the Wayland text protocol. -/
def wl_text_input_preedit_style : wl_text_input_preedit_style_t :=
  { HIGHLIGHT := 4, UNDERLINE := 5, ACTIVE := 2, INACTIVE := 3, SELECTION := 6,
    distinct := by decide }

/-- The struct `xim_wayland_styling_t`: one pending styling run. -/
structure xim_wayland_styling_t where
  index : Nat
  length : Nat
  feedback : Nat
deriving DecidableEq, Repr

/-- The struct `xim_wayland_input_context_t`.  Pointers to providers are
handles (0 is `NULL`), a slot of `attrs` is `none` when the pointer is `NULL`,
`preedit_styling_list` lists the runs from the head of the `wl_list`.  The back
pointer `input_method` is kept as the two fields the callbacks read through
it: `input_method_transport` (an index into the `clients` of the server
connection) and `input_method_id`. -/
structure xim_wayland_input_context_t where
  id : Nat
  text_input : Nat
  input_method_transport : Nat
  input_method_id : Nat
  surface : Nat
  serial : Nat
  attrs : List (Option (List Nat))
  preedit_started : Bool
  preedit_string : Option (List Nat)
  preedit_length : Nat
  preedit_caret : Int
  preedit_styling_list : List xim_wayland_styling_t
deriving DecidableEq, Repr

/-- The struct `xim_wayland_input_method_t`; `transport` is an index into the
`clients` of the server connection, `input_context_list` lists the contexts
from the head of the `wl_list`. -/
structure xim_wayland_input_method_t where
  transport : Nat
  id : Nat
  input_context_counter : Nat
  specs : List (Option (List Nat))
  attrs : List (Option (List Nat))
  ic_specs : List (Option (List Nat))
  input_context_list : List xim_wayland_input_context_t
deriving DecidableEq, Repr

/-- The struct `xim_wayland_t` (the Wayland globals are left out). -/
structure xim_wayland_t where
  xim : xcb_xim_server_connection_t
  input_method_counter : Nat
  input_method_list : List xim_wayland_input_method_t
deriving DecidableEq, Repr

/-- Dereferences a transport pointer, given as an index into `clients`. -/
def transport_at (xim : xcb_xim_server_connection_t) (p : Nat) : xcb_xim_transport_t :=
  xim.clients.getD p { client_window := 0, server_window := 0, endian := 0 }

/-- The function `xcb_xim_attribute_card32_new`. -/
def xcb_xim_attribute_card32_new (t : xcb_xim_transport_t) (attribute_id value : Nat) :
    List Nat :=
  NO16 t attribute_id ++ NO16 t 4 ++ NO32 t value

/-- The function `init_ic_attributes`: the four slots it fills. -/
def init_ic_attributes (t : xcb_xim_transport_t) : List (Option (List Nat)) :=
  [some (xcb_xim_attribute_card32_new t 0
          (XCB_XIM_PREEDIT_CALLBACKS ||| XCB_XIM_STATUS_CALLBACKS)),
   some (xcb_xim_attribute_card32_new t 1 0),
   some (xcb_xim_attribute_card32_new t 2 0),
   some (xcb_xim_attribute_card32_new t 3 0),
   none, none]

/-- The function `xim_wayland_input_context_new` when both providers return
an object: `calloc` clears the struct, then the fields are set. -/
def xim_wayland_input_context_new (xim : xcb_xim_server_connection_t)
    (text_input surface input_method_transport input_method_id id : Nat) :
    xim_wayland_input_context_t :=
  { id := id % 65536, text_input := text_input,
    input_method_transport := input_method_transport,
    input_method_id := input_method_id, surface := surface, serial := 0,
    attrs := init_ic_attributes (transport_at xim input_method_transport),
    preedit_started := false, preedit_string := none, preedit_length := 0,
    preedit_caret := 0, preedit_styling_list := [] }

/-- The input style of a context as the preedit callbacks read it:
`xcb_xim_card32 (transport, *(uint32_t *) (attrs[INPUT_STYLE] + 1))`.  The
four bytes follow the 4-byte header of the record; a record shorter than 8
bytes makes this a read past its end. -/
def input_style_of (t : xcb_xim_transport_t) (ic : xim_wayland_input_context_t) : Nat :=
  let record := ((ic.attrs.getD INPUT_STYLE none).getD [])
  xcb_xim_card32 t (byte_at record 4) (byte_at record 5) (byte_at record 6)
    (byte_at record 7)

/-! ## Preedit state machine (`main.c`, lines 148-422) -/

/-- The function `reset_preedit`: frees the pending runs and the string. -/
def reset_preedit (ic : xim_wayland_input_context_t) : xim_wayland_input_context_t :=
  { ic with preedit_styling_list := [], preedit_string := none, preedit_length := 0 }

/-- The array `feedbacks` of `update_preedit_string` while it is filled:
`cells` is the array (`calloc`, one entry per byte of text), `outside` lists
the indices of the stores that fall outside of it, in the order they happen. -/
structure feedbacks_t where
  cells : List Nat
  outside : List Nat
deriving DecidableEq, Repr

/-- The statement `feedbacks[k] |= f`. -/
def feedbacks_or (b : feedbacks_t) (k f : Nat) : feedbacks_t :=
  if k < b.cells.length then { b with cells := b.cells.set k (b.cells.getD k 0 ||| f) }
  else { b with outside := b.outside ++ [k] }

/-- The inner loop `for (i = 0; i < length; i++) feedbacks[i + index] |= feedback`
with `n` iterations left and the counter at `i`. -/
def styling_fill (index feedback : Nat) : Nat → Nat → feedbacks_t → feedbacks_t
  | 0, _, b => b
  | n + 1, i, b => styling_fill index feedback n (i + 1) (feedbacks_or b (i + index) feedback)

/-- The body of the loop over the pending runs (`main.c`, lines 237-241):
`index + length` is a sum of two `uint32_t`, `length` is the `size_t` length
of the text. -/
def styling_apply (length : Nat) (b : feedbacks_t) (s : xim_wayland_styling_t) :
    feedbacks_t :=
  if (s.index + s.length) % 4294967296 > length then b
  else styling_fill s.index s.feedback s.length 0 b

/-- Lines 232-242 of `update_preedit_string`: `calloc` and the loop over
`preedit_styling_list`. -/
def preedit_feedbacks (length : Nat) (stylings : List xim_wayland_styling_t) :
    feedbacks_t :=
  stylings.foldl (styling_apply length) { cells := List.replicate length 0, outside := [] }

/-- The function `xcb_xim_preedit_start`. -/
def xcb_xim_preedit_start (x : x_server_t) (xim : xcb_xim_server_connection_t)
    (t : xcb_xim_transport_t) (input_method_id input_context_id : Nat) :
    xcb_xim_server_connection_t × Bool :=
  send_frame x xim t (xcb_xim_preedit_start_frame t input_method_id input_context_id)

/-- The function `xcb_xim_preedit_draw`. -/
def xcb_xim_preedit_draw (x : x_server_t) (xim : xcb_xim_server_connection_t)
    (t : xcb_xim_transport_t) (input_method_id input_context_id : Nat)
    (caret change_first change_length : Int) (status preedit_length : Nat)
    (preedit : List Nat) (feedbacks_length : Nat) (feedbacks : List Nat) :
    xcb_xim_server_connection_t × Bool :=
  send_frame x xim t (xcb_xim_preedit_draw_frame t input_method_id input_context_id
    caret change_first change_length status preedit_length preedit
    feedbacks_length feedbacks)

/-- The function `xcb_xim_preedit_caret`. -/
def xcb_xim_preedit_caret (x : x_server_t) (xim : xcb_xim_server_connection_t)
    (t : xcb_xim_transport_t) (input_method_id input_context_id : Nat)
    (position : Int) (direction style : Nat) : xcb_xim_server_connection_t × Bool :=
  send_frame x xim t (xcb_xim_preedit_caret_frame t input_method_id input_context_id
    position direction style)

/-- The function `xcb_xim_preedit_done`. -/
def xcb_xim_preedit_done (x : x_server_t) (xim : xcb_xim_server_connection_t)
    (t : xcb_xim_transport_t) (input_method_id input_context_id : Nat) :
    xcb_xim_server_connection_t × Bool :=
  send_frame x xim t (xcb_xim_preedit_done_frame t input_method_id input_context_id)

/-- The function `xcb_xim_commit`. -/
def xcb_xim_commit (x : x_server_t) (xim : xcb_xim_server_connection_t)
    (t : xcb_xim_transport_t) (input_method_id input_context_id flag keysym
      string_length : Nat) (string : List Nat) : xcb_xim_server_connection_t × Bool :=
  send_frame x xim t (xcb_xim_commit_frame t input_method_id input_context_id flag keysym
    string_length string)

/-- The function `xcb_xim_encoding_negotiation_reply`. -/
def xcb_xim_encoding_negotiation_reply (x : x_server_t) (xim : xcb_xim_server_connection_t)
    (t : xcb_xim_transport_t) (input_method_id category index : Nat) :
    xcb_xim_server_connection_t × Bool :=
  send_frame x xim t (xcb_xim_encoding_negotiation_reply_frame t input_method_id category
    index)

/-- What `update_preedit_string` leaves behind: the connection, the context
and the returned flag. -/
structure preedit_result_t where
  xim : xcb_xim_server_connection_t
  ic : xim_wayland_input_context_t
  ok : Bool
deriving DecidableEq, Repr

/-- The function `update_preedit_string` (`main.c`, lines 165-267). -/
def update_preedit_string (x : x_server_t) (xim : xcb_xim_server_connection_t)
    (ic : xim_wayland_input_context_t) (text : List Nat) : preedit_result_t :=
  let transport := transport_at xim ic.input_method_transport
  if byte_at text 0 = 0 then
    match xcb_xim_preedit_draw x xim transport ic.input_method_id ic.id
        (strlen text) 0 ic.preedit_length 0 (strlen text) text 0 [] with
    | (xim1, false) => { xim := xim1, ic := reset_preedit ic, ok := false }
    | (xim1, true) =>
      if !ic.preedit_started then
        match xcb_xim_preedit_done x xim1 transport ic.input_method_id ic.id with
        | (xim2, false) => { xim := xim2, ic := reset_preedit ic, ok := false }
        | (xim2, true) =>
          { xim := xim2, ic := reset_preedit { ic with preedit_started := false },
            ok := true }
      else { xim := xim1, ic := reset_preedit ic, ok := true }
  else
    let started :=
      if !ic.preedit_started then
        match xcb_xim_preedit_start x xim transport ic.input_method_id ic.id with
        | (xim1, false) => (xim1, ic, false)
        | (xim1, true) => (xim1, { ic with preedit_started := true }, true)
      else (xim, ic, true)
    match started with
    | (xim1, ic1, false) => { xim := xim1, ic := reset_preedit ic1, ok := false }
    | (xim1, ic1, true) =>
      let length := strlen text
      let feedbacks := (preedit_feedbacks length ic1.preedit_styling_list).cells
      match xcb_xim_preedit_draw x xim1 transport ic1.input_method_id ic1.id
          (strlen text) 0 ic1.preedit_length 0 length text length feedbacks with
      | (xim2, false) => { xim := xim2, ic := reset_preedit ic1, ok := false }
      | (xim2, true) =>
        { xim := xim2,
          ic := { ic1 with preedit_string := some (memcpy text (strlen text)),
                           preedit_length := length % 65536 },
          ok := true }

/-- The function `handle_wayland_preedit_string` (the diagnostics on `stderr`
are left out). -/
def handle_wayland_preedit_string (x : x_server_t) (xim : xcb_xim_server_connection_t)
    (ic : xim_wayland_input_context_t) (text : List Nat) :
    xcb_xim_server_connection_t × xim_wayland_input_context_t :=
  let transport := transport_at xim ic.input_method_transport
  let input_style := input_style_of transport ic
  if input_style &&& XCB_XIM_PREEDIT_CALLBACKS ≠ 0 then
    let r := update_preedit_string x xim ic text
    (r.xim, r.ic)
  else (xim, ic)

/-- The function `handle_wayland_preedit_styling`.  The case `SELECTION`
assigns `feedback` and, having no `break`, runs into `default: return`. -/
def handle_wayland_preedit_styling (k : wl_text_input_preedit_style_t)
    (ic : xim_wayland_input_context_t) (index length style : Nat) :
    xim_wayland_input_context_t :=
  let feedback : Option Nat :=
    if style = k.HIGHLIGHT then some XCB_XIM_FEEDBACK_HIGHLIGHT
    else if style = k.UNDERLINE then some XCB_XIM_FEEDBACK_UNDERLINE
    else if style = k.ACTIVE then some XCB_XIM_FEEDBACK_PRIMARY
    else if style = k.INACTIVE then some XCB_XIM_FEEDBACK_SECONDARY
    else if style = k.SELECTION then none
    else none
  match feedback with
  | none => ic
  | some f =>
    { ic with preedit_styling_list :=
        { index := index % 4294967296, length := length % 4294967296, feedback := f }
          :: ic.preedit_styling_list }

/-- The function `handle_wayland_preedit_cursor`. -/
def handle_wayland_preedit_cursor (x : x_server_t) (xim : xcb_xim_server_connection_t)
    (ic : xim_wayland_input_context_t) (index : Int) :
    xcb_xim_server_connection_t × xim_wayland_input_context_t :=
  let transport := transport_at xim ic.input_method_transport
  ((xcb_xim_preedit_caret x xim transport ic.input_method_id ic.id index
      XCB_XIM_CARET_DIRECTION_ABSOLUTE_POSITION XCB_XIM_CARET_STYLE_PRIMARY).1, ic)

/-- The function `handle_wayland_commit_string`. -/
def handle_wayland_commit_string (x : x_server_t) (xim : xcb_xim_server_connection_t)
    (ic : xim_wayland_input_context_t) (text : List Nat) :
    xcb_xim_server_connection_t × xim_wayland_input_context_t :=
  let r := update_preedit_string x xim ic []
  let transport := transport_at r.xim r.ic.input_method_transport
  ((xcb_xim_commit x r.xim transport r.ic.input_method_id r.ic.id
      (XCB_XIM_COMMIT_FLAG_KEYSYM ||| XCB_XIM_COMMIT_FLAG_STRING) 0xffffff
      (strlen text) text).1, r.ic)

/-- The preedit callbacks of `text_input_listener`, as events. -/
inductive wl_text_input_event_t where
  | preedit_string (text : List Nat)
  | preedit_styling (index length style : Nat)
  | preedit_cursor (index : Int)
  | commit_string (text : List Nat)
deriving DecidableEq, Repr

/-- Delivers one event to the listener of the context. -/
def deliver (k : wl_text_input_preedit_style_t) (x : x_server_t)
    (s : xcb_xim_server_connection_t × xim_wayland_input_context_t)
    (e : wl_text_input_event_t) :
    xcb_xim_server_connection_t × xim_wayland_input_context_t :=
  match e with
  | .preedit_string text => handle_wayland_preedit_string x s.1 s.2 text
  | .preedit_styling index length style =>
    (s.1, handle_wayland_preedit_styling k s.2 index length style)
  | .preedit_cursor index => handle_wayland_preedit_cursor x s.1 s.2 index
  | .commit_string text => handle_wayland_commit_string x s.1 s.2 text

/-- Delivers a sequence of events in order. -/
def deliver_all (k : wl_text_input_preedit_style_t) (x : x_server_t)
    (s : xcb_xim_server_connection_t × xim_wayland_input_context_t)
    (es : List wl_text_input_event_t) :
    xcb_xim_server_connection_t × xim_wayland_input_context_t :=
  es.foldl (deliver k x) s

/-! ## Request handlers (`main.c`, lines 678-1216) -/

/-- The function `find_input_context`. -/
def find_input_context (input_method : xim_wayland_input_method_t) (id : Nat) :
    Option xim_wayland_input_context_t :=
  input_method.input_context_list.find? (fun ic => ic.id == id)

/-- The function `find_input_method`; transports are compared as pointers. -/
def find_input_method (xw : xim_wayland_t) (transport id : Nat) :
    Option xim_wayland_input_method_t :=
  xw.input_method_list.find? (fun im => im.transport == transport && im.id == id)

/-- Applies `f` to the first element that satisfies `p`: a store through the
pointer that a `wl_list_for_each` search returned. -/
def modify_first {α : Type} (p : α → Bool) (f : α → α) : List α → List α
  | [] => []
  | a :: l => if p a then f a :: l else a :: modify_first p f l

/-- A store through the pointer returned by `find_input_context` on the
result of `find_input_method`. -/
def store_input_context (xw : xim_wayland_t) (transport input_method_id input_context_id : Nat)
    (f : xim_wayland_input_context_t → xim_wayland_input_context_t) : xim_wayland_t :=
  let in_method (im : xim_wayland_input_method_t) : xim_wayland_input_method_t :=
    { im with
      input_context_list :=
        modify_first (fun ic => ic.id == input_context_id) f im.input_context_list }
  { xw with
    input_method_list :=
      modify_first (fun im => im.transport == transport && im.id == input_method_id)
        in_method xw.input_method_list }

/-- The context a request names, if any. -/
def lookup_input_context (xw : xim_wayland_t) (transport input_method_id input_context_id : Nat) :
    Option xim_wayland_input_context_t :=
  (find_input_method xw transport input_method_id).bind
    (fun im => find_input_context im input_context_id)

/-- The conversion of a `uint32_t` to `int32_t`. -/
def int32_of_uint32 (n : Nat) : Int :=
  if n % 4294967296 < 2147483648 then (n % 4294967296 : Nat)
  else ((n % 4294967296 : Nat) : Int) - 4294967296

/-- The loop of `handle_xim_encoding_negotiation_request` (`main.c`, lines
800-807); `mem` is the request.  The result is the iterator at the exit of the
loop, `none` when the fuel runs out first. -/
def encoding_walk (mem : List Nat) : Nat → xcb_xim_str_iterator_t →
    Option xcb_xim_str_iterator_t
  | 0, _ => none
  | fuel + 1, i =>
    if xcb_xim_str_iterator_has_data mem i then
      if strncmp_eq (mem.drop (i.data + 1)) utf8_name (byte_at mem i.data) then some i
      else encoding_walk mem fuel (xcb_xim_str_iterator_next mem i)
    else some i

/-- The function `handle_xim_encoding_negotiation_request`; `requestor` is an
index into `clients`.  The result is `none` when the loop does not end within
`fuel` steps. -/
def handle_xim_encoding_negotiation_request (fuel : Nat) (x : x_server_t)
    (xw : xim_wayland_t) (request : List Nat) (requestor : Nat) :
    Option (xim_wayland_t × Bool) :=
  let t := transport_at xw.xim requestor
  let input_method_id := xcb_xim_card16 t (byte_at request 4) (byte_at request 5)
  match encoding_walk request fuel
      (xcb_xim_encoding_negotiation_request_encoding_iterator t request) with
  | none => none
  | some i =>
    if !xcb_xim_str_iterator_has_data request i then some (xw, false)
    else
      let r := xcb_xim_encoding_negotiation_reply x xw.xim t input_method_id 0 i.index
      some ({ xw with xim := r.1 }, r.2)

/-- The function `handle_xim_preedit_caret_reply`; `requestor` is an index
into `clients`. -/
def handle_xim_preedit_caret_reply (xw : xim_wayland_t) (request : List Nat)
    (requestor : Nat) : xim_wayland_t × Bool :=
  let t := transport_at xw.xim requestor
  let input_method_id := xcb_xim_card16 t (byte_at request 4) (byte_at request 5)
  let input_context_id := xcb_xim_card16 t (byte_at request 6) (byte_at request 7)
  let position := xcb_xim_card32 t (byte_at request 8) (byte_at request 9)
    (byte_at request 10) (byte_at request 11)
  match find_input_method xw requestor input_method_id with
  | none => (xw, false)
  | some input_method =>
    match find_input_context input_method input_context_id with
    | none => (xw, false)
    | some input_context =>
      if input_context.text_input = 0 then (xw, false)
      else if position > input_context.preedit_length then
        (store_input_context xw requestor input_method_id input_context_id
          (fun ic => { ic with preedit_caret := int32_of_uint32 position }), true)
      else (xw, true)

/-! ## Attribute factories (`xim.c`, lines 764-1086) -/

/-- The store of `PACK16` for an `int16_t` argument. -/
def NO16i (t : xcb_xim_transport_t) (z : Int) : List Nat :=
  NO16 t (z % 65536).toNat

/-- The function `xcb_xim_attribute_card8_new`: 8 bytes, cleared, then the
header and one byte of value. -/
def xcb_xim_attribute_card8_new (t : xcb_xim_transport_t) (attribute_id value : Nat) :
    List Nat :=
  NO16 t attribute_id ++ NO16 t 1 ++ [value % 256] ++ List.replicate 3 0

/-- The function `xcb_xim_attribute_card16_new`. -/
def xcb_xim_attribute_card16_new (t : xcb_xim_transport_t) (attribute_id value : Nat) :
    List Nat :=
  NO16 t attribute_id ++ NO16 t 2 ++ NO16 t value ++ List.replicate 2 0

/-- The function `xcb_xim_attribute_string8_new`; `value_length` is a
`uint8_t`. -/
def xcb_xim_attribute_string8_new (t : xcb_xim_transport_t)
    (attribute_id value_length : Nat) (value : List Nat) : List Nat :=
  let value_length := value_length % 256
  NO16 t attribute_id ++ NO16 t value_length ++ memcpy value value_length
    ++ List.replicate (PAD value_length) 0

/-- The function `xcb_xim_attribute_styles_new`; `value_length` is a
`uint16_t`, `value` the array of styles. -/
def xcb_xim_attribute_styles_new (t : xcb_xim_transport_t)
    (attribute_id value_length : Nat) (value : List Nat) : List Nat :=
  let value_length := value_length % 65536
  NO16 t attribute_id ++ NO16 t (4 + 4 * value_length)
    ++ NO16 t value_length ++ NO16 t 0
    ++ (List.range value_length).flatMap (fun i => NO32 t (value.getD i 0))

/-- The struct `xcb_rectangle_t` of XCB. -/
structure xcb_rectangle_t where
  x : Int
  y : Int
  width : Nat
  height : Nat
deriving DecidableEq, Repr

/-- The struct `xcb_point_t` of XCB. -/
structure xcb_point_t where
  x : Int
  y : Int
deriving DecidableEq, Repr

/-- The function `xcb_xim_attribute_rectangle_new`. -/
def xcb_xim_attribute_rectangle_new (t : xcb_xim_transport_t) (attribute_id : Nat)
    (value : xcb_rectangle_t) : List Nat :=
  NO16 t attribute_id ++ NO16 t 8
    ++ NO16i t value.x ++ NO16i t value.y ++ NO16 t value.width ++ NO16 t value.height

/-- The function `xcb_xim_attribute_point_new`. -/
def xcb_xim_attribute_point_new (t : xcb_xim_transport_t) (attribute_id : Nat)
    (value : xcb_point_t) : List Nat :=
  NO16 t attribute_id ++ NO16 t 4 ++ NO16i t value.x ++ NO16i t value.y

/-- The function `xcb_xim_attribute_font_set_new`; `value_length` is a
`uint8_t`. -/
def xcb_xim_attribute_font_set_new (t : xcb_xim_transport_t)
    (attribute_id value_length : Nat) (value : List Nat) : List Nat :=
  let value_length := value_length % 256
  let value_byte_length := 2 + value_length + PAD (2 + value_length)
  NO16 t attribute_id ++ NO16 t value_byte_length
    ++ NO16 t value_length ++ memcpy value value_length
    ++ List.replicate (PAD (2 + value_length)) 0

/-- The function `xcb_xim_attribute_hotkey_triggers_new`; `value_length` is a
`uint32_t`, `triggers` the array of 12-byte trigger keys, `states` the array
of states.  The product `(12 + 4) * value_length` and the sum with 4 are
computed in `unsigned int`.  The result is the block of `length` bytes; from
`value_length = 2^28` on the stores of the C code run past it. -/
def xcb_xim_attribute_hotkey_triggers_new (t : xcb_xim_transport_t)
    (attribute_id value_length : Nat) (triggers : List (List Nat)) (states : List Nat) :
    List Nat :=
  let value_length := value_length % 4294967296
  let value_byte_length := (4 + (12 + 4) * value_length) % 4294967296
  let length := 4 + value_byte_length
  (NO16 t attribute_id ++ NO16 t value_byte_length
    ++ NO32 t value_length
    ++ (List.range value_length).flatMap (fun i => memcpy (triggers.getD i []) 12)
    ++ (List.range value_length).flatMap (fun i => NO32 t (states.getD i 0))).take length

/-- The function `xcb_xim_attribute_packed_new`; `value_byte_length` is a
`uint16_t`.  The record is `malloc (4 + value_byte_length)`: no padding. -/
def xcb_xim_attribute_packed_new (t : xcb_xim_transport_t)
    (attribute_id value_byte_length : Nat) (value : List Nat) : List Nat :=
  let value_byte_length := value_byte_length % 65536
  NO16 t attribute_id ++ NO16 t value_byte_length ++ memcpy value value_byte_length

/-- The function `xcb_xim_attribute_nested_list_new`; the array `value` is
given as a list, `value_length` is its length.  The total is a `size_t`, the
header keeps its low 16 bits. -/
def xcb_xim_attribute_nested_list_new (t : xcb_xim_transport_t) (attribute_id : Nat)
    (value : List (List Nat)) : List Nat :=
  let length := 4 + records_size (attribute_byte_length t) value
  NO16 t attribute_id ++ NO16 t (length - 4)
    ++ copy_records (attribute_byte_length t) value

/-! ## Iterators over attributes and attribute ids (`xim.c`) -/

/-- The function `xcb_xim_uint16` (`xim.c`, lines 652-656), applied to a field
stored as bytes `b0 b1`. -/
def xcb_xim_uint16 (t : xcb_xim_transport_t) (b0 b1 : Nat) : Nat := HO16 t b0 b1

/-- The function `xcb_xim_uint32` (`xim.c`, lines 658-662), applied to a field
stored as bytes `b0 b1 b2 b3`. -/
def xcb_xim_uint32 (t : xcb_xim_transport_t) (b0 b1 b2 b3 : Nat) : Nat :=
  HO32 t b0 b1 b2 b3

/-- The struct `xcb_xim_attribute_id_iterator_t`; `data` is the byte offset of
the current id from the start of the request. -/
structure xcb_xim_attribute_id_iterator_t where
  transport : xcb_xim_transport_t
  data : Nat
  index : Nat
  remainder : Nat
deriving DecidableEq, Repr

/-- The function `xcb_xim_attribute_id_iterator_has_data`. -/
def xcb_xim_attribute_id_iterator_has_data (i : xcb_xim_attribute_id_iterator_t) : Bool :=
  decide (i.remainder ≥ 2)

/-- The function `xcb_xim_attribute_id_iterator_next`; `data` is a
`uint16_t *`, `index` and `remainder` are `uint16_t`. -/
def xcb_xim_attribute_id_iterator_next (i : xcb_xim_attribute_id_iterator_t) :
    xcb_xim_attribute_id_iterator_t :=
  { i with data := i.data + 2,
           index := (i.index + 1) % 65536,
           remainder := (i.remainder + 65536 - 2) % 65536 }

/-- The struct `xcb_xim_attribute_iterator_t`; `data` is the byte offset of the
current attribute from the start of the block it lies in. -/
structure xcb_xim_attribute_iterator_t where
  transport : xcb_xim_transport_t
  data : Nat
  index : Nat
  remainder : Nat
deriving DecidableEq, Repr

/-- The function `xcb_xim_attribute_iterator_has_data`; `mem` is the block the
iterator walks. -/
def xcb_xim_attribute_iterator_has_data (mem : List Nat)
    (i : xcb_xim_attribute_iterator_t) : Bool :=
  if i.remainder < 4 then false
  else
    let value_byte_length := field16 i.transport mem (i.data + 2)
    decide (i.remainder ≥ 4 + value_byte_length + PAD value_byte_length)

/-- The function `xcb_xim_attribute_iterator_next`; `length` is a `size_t`
(at most 65540 for a 16-bit field), `index` and `remainder` are `uint16_t`. -/
def xcb_xim_attribute_iterator_next (mem : List Nat)
    (i : xcb_xim_attribute_iterator_t) : xcb_xim_attribute_iterator_t :=
  let value_byte_length := field16 i.transport mem (i.data + 2)
  let length := 4 + value_byte_length + PAD value_byte_length
  { i with data := i.data + length,
           index := (i.index + 1) % 65536,
           remainder := (i.remainder + 131072 - length) % 65536 }

/-- The function `xcb_xim_attribute_nested_list_attribute_iterator`; `a` is the
offset of the nested-list attribute in the block `mem`, `t` the requestor of
the request. -/
def xcb_xim_attribute_nested_list_attribute_iterator (t : xcb_xim_transport_t)
    (mem : List Nat) (a : Nat) : xcb_xim_attribute_iterator_t :=
  let value_byte_length := field16 t mem (a + 2)
  { transport := t, data := a + 4, index := 0, remainder := value_byte_length }

/-- The function `xcb_xim_query_extension_request_extension_iterator`; `r` is
the request, `t` its requestor.  `request_byte_length` is a `uint16_t`. -/
def xcb_xim_query_extension_request_extension_iterator (t : xcb_xim_transport_t)
    (r : List Nat) : xcb_xim_str_iterator_t :=
  let request_byte_length := (field16 t r 2 * 4) % 65536
  let extensions_byte_length := field16 t r 6
  { data := 8, index := 0, remainder := MIN request_byte_length extensions_byte_length }

/-- The function `xcb_xim_set_im_values_request_attribute_iterator`. -/
def xcb_xim_set_im_values_request_attribute_iterator (t : xcb_xim_transport_t)
    (r : List Nat) : xcb_xim_attribute_iterator_t :=
  let request_byte_length := (field16 t r 2 * 4) % 65536
  let attributes_byte_length := field16 t r 6
  { transport := t, data := 8, index := 0,
    remainder := MIN request_byte_length attributes_byte_length }

/-- The function `xcb_xim_get_im_values_request_attribute_id_iterator`. -/
def xcb_xim_get_im_values_request_attribute_id_iterator (t : xcb_xim_transport_t)
    (r : List Nat) : xcb_xim_attribute_id_iterator_t :=
  let request_byte_length := (field16 t r 2 * 4) % 65536
  let attributes_byte_length := field16 t r 6
  { transport := t, data := 8, index := 0,
    remainder := MIN request_byte_length attributes_byte_length }

/-- The function `xcb_xim_create_ic_request_attribute_iterator`. -/
def xcb_xim_create_ic_request_attribute_iterator (t : xcb_xim_transport_t)
    (r : List Nat) : xcb_xim_attribute_iterator_t :=
  let request_byte_length := (field16 t r 2 * 4) % 65536
  let attributes_byte_length := field16 t r 6
  { transport := t, data := 8, index := 0,
    remainder := MIN request_byte_length attributes_byte_length }

/-- The function `xcb_xim_set_ic_values_request_attribute_iterator`; the fixed
part of `xcb_xim_set_ic_values_request_t` has 12 bytes, the byte length of the
list is at offset 8. -/
def xcb_xim_set_ic_values_request_attribute_iterator (t : xcb_xim_transport_t)
    (r : List Nat) : xcb_xim_attribute_iterator_t :=
  let request_byte_length := (field16 t r 2 * 4) % 65536
  let attributes_byte_length := field16 t r 8
  { transport := t, data := 12, index := 0,
    remainder := MIN request_byte_length attributes_byte_length }

/-- The function `xcb_xim_get_ic_values_request_attribute_id_iterator`: the
list starts at `(uint8_t *) r + 10`, its byte length is at offset 8. -/
def xcb_xim_get_ic_values_request_attribute_id_iterator (t : xcb_xim_transport_t)
    (r : List Nat) : xcb_xim_attribute_id_iterator_t :=
  let request_byte_length := (field16 t r 2 * 4) % 65536
  let attributes_byte_length := field16 t r 8
  { transport := t, data := 10, index := 0,
    remainder := MIN request_byte_length attributes_byte_length }

/-! ## Attribute tables (`main.c`, lines 819-934) -/

/-- Index `QUERY_INPUT_STYLE` of the enum of IM attributes. -/
def QUERY_INPUT_STYLE : Nat := 0

/-- Count `LAST_IM_ATTRIBUTE` of the enum of IM attributes. -/
def LAST_IM_ATTRIBUTE : Nat := 1

/-- The function `set_values`; `mem` is the block the iterator walks,
`attributes` the table (a `NULL` slot is `none`).  `attribute_byte_length` is a
`uint16_t`.  The result is `none` when the loop does not end within `fuel`
steps. -/
def set_values (mem : List Nat) (transport : xcb_xim_transport_t)
    (max_attribute_id : Nat) :
    Nat → List (Option (List Nat)) → xcb_xim_attribute_iterator_t →
    Option (List (Option (List Nat)))
  | 0, _, _ => none
  | fuel + 1, attributes, iterator =>
    if xcb_xim_attribute_iterator_has_data mem iterator then
      let attribute_id := xcb_xim_card16 transport
        (byte_at mem iterator.data) (byte_at mem (iterator.data + 1))
      let attribute_byte_length := (4 + xcb_xim_card16 transport
        (byte_at mem (iterator.data + 2)) (byte_at mem (iterator.data + 3))) % 65536
      if attribute_id ≥ max_attribute_id then
        set_values mem transport max_attribute_id fuel attributes
          (xcb_xim_attribute_iterator_next mem iterator)
      else
        set_values mem transport max_attribute_id fuel
          (attributes.set attribute_id
            (some (memcpy (mem.drop iterator.data) attribute_byte_length)))
          (xcb_xim_attribute_iterator_next mem iterator)
    else some attributes

/-- The loop of `handle_xim_get_im_values_request` (`main.c`, lines 904-923):
the array `attributes` of pointers into the table of the input method, in the
order they were appended.  A request holds fewer than 32768 ids, so the
`uint16_t` counters of the loop do not wrap.  The result is `none` when the
loop does not end within `fuel` steps. -/
def get_im_values_walk (mem : List Nat) (requestor : xcb_xim_transport_t)
    (input_method : xim_wayland_input_method_t) :
    Nat → xcb_xim_attribute_id_iterator_t → List (Option (List Nat)) →
    Option (List (Option (List Nat)))
  | 0, _, _ => none
  | fuel + 1, iterator, attributes =>
    if xcb_xim_attribute_id_iterator_has_data iterator then
      let attribute_id := xcb_xim_card16 requestor
        (byte_at mem iterator.data) (byte_at mem (iterator.data + 1))
      if attribute_id ≥ LAST_IM_ATTRIBUTE then
        get_im_values_walk mem requestor input_method fuel
          (xcb_xim_attribute_id_iterator_next iterator) attributes
      else
        get_im_values_walk mem requestor input_method fuel
          (xcb_xim_attribute_id_iterator_next iterator)
          (attributes ++ [input_method.attrs.getD attribute_id none])
    else some attributes

/-- The records behind an array of attribute pointers; `none` when one of the
pointers is `NULL` (the builder of the reply reads through each of them). -/
def deref_all : List (Option (List Nat)) → Option (List (List Nat))
  | [] => some []
  | none :: _ => none
  | some a :: l => (deref_all l).map (fun r => a :: r)

/-- The function `handle_xim_get_im_values_request`; `requestor` is an index
into `clients`.  The result is `none` when the loop does not end within `fuel`
steps or the reply reads through a `NULL` pointer. -/
def handle_xim_get_im_values_request (fuel : Nat) (x : x_server_t)
    (xw : xim_wayland_t) (request : List Nat) (requestor : Nat) :
    Option (xim_wayland_t × Bool) :=
  let t := transport_at xw.xim requestor
  let input_method_id := xcb_xim_card16 t (byte_at request 4) (byte_at request 5)
  match find_input_method xw requestor input_method_id with
  | none => some (xw, false)
  | some input_method =>
    match get_im_values_walk request t input_method fuel
        (xcb_xim_get_im_values_request_attribute_id_iterator t request) [] with
    | none => none
    | some attributes =>
      match deref_all attributes with
      | none => none
      | some records =>
        let r := send_frame x xw.xim t
          (xcb_xim_get_im_values_reply_frame t input_method_id records)
        some ({ xw with xim := r.1 }, r.2)

/-! ## Input methods and the remaining request handlers (`main.c`) -/

/-- Attribute type `XCB_XIM_TYPE_CARD32`. -/
def XCB_XIM_TYPE_CARD32 : Nat := 3

/-- Attribute type `XCB_XIM_TYPE_WINDOW`. -/
def XCB_XIM_TYPE_WINDOW : Nat := 5

/-- Attribute type `XCB_XIM_TYPE_XIMSTYLES`. -/
def XCB_XIM_TYPE_XIMSTYLES : Nat := 10

/-- Attribute type `XCB_XIM_TYPE_NEST`. -/
def XCB_XIM_TYPE_NEST : Nat := 0x7fff

/-- Index `FILTER_EVENTS` of the enum of IC attributes. -/
def FILTER_EVENTS : Nat := 1

/-- Index `CLIENT_WINDOW` of the enum of IC attributes. -/
def CLIENT_WINDOW : Nat := 2

/-- Index `FOCUS_WINDOW` of the enum of IC attributes. -/
def FOCUS_WINDOW : Nat := 3

/-- Index `PREEDIT_ATTRIBUTES` of the enum of IC attributes. -/
def PREEDIT_ATTRIBUTES : Nat := 4

/-- Index `STATUS_ATTRIBUTES` of the enum of IC attributes. -/
def STATUS_ATTRIBUTES : Nat := 5

/-- The function `xcb_xim_attribute_spec_new` (`xim.c`, lines 704-727);
`name_length` is a `uint16_t`.  The id is stored with `HO16`, which swaps the
same bytes as `NO16`. -/
def xcb_xim_attribute_spec_new (t : xcb_xim_transport_t)
    (attribute_id type name_length : Nat) (name : List Nat) : List Nat :=
  let name_length := name_length % 65536
  NO16 t attribute_id ++ NO16 t type ++ NO16 t name_length
    ++ memcpy name name_length ++ List.replicate (PAD (2 + name_length)) 0

/-- The bytes of the string literal `"queryInputStyle"`. -/
def queryInputStyle : List Nat :=
  [113, 117, 101, 114, 121, 73, 110, 112, 117, 116, 83, 116, 121, 108, 101]

/-- The bytes of the string literal `"inputStyle"`. -/
def inputStyle : List Nat := [105, 110, 112, 117, 116, 83, 116, 121, 108, 101]

/-- The bytes of the string literal `"filterEvents"`. -/
def filterEvents : List Nat := [102, 105, 108, 116, 101, 114, 69, 118, 101, 110, 116, 115]

/-- The bytes of the string literal `"clientWindow"`. -/
def clientWindow : List Nat := [99, 108, 105, 101, 110, 116, 87, 105, 110, 100, 111, 119]

/-- The bytes of the string literal `"focusWindow"`. -/
def focusWindow : List Nat := [102, 111, 99, 117, 115, 87, 105, 110, 100, 111, 119]

/-- The bytes of the string literal `"preeditAttributes"`. -/
def preeditAttributes : List Nat :=
  [112, 114, 101, 101, 100, 105, 116, 65, 116, 116, 114, 105, 98, 117, 116, 101, 115]

/-- The bytes of the string literal `"statusAttributes"`. -/
def statusAttributes : List Nat :=
  [115, 116, 97, 116, 117, 115, 65, 116, 116, 114, 105, 98, 117, 116, 101, 115]

/-- The function `init_im_attributes` (`main.c`, lines 485-549): the tables
`specs`, `attrs` and `ic_specs` it fills, for the transport `t` of the input
method. -/
def init_im_attributes (t : xcb_xim_transport_t)
    (input_method : xim_wayland_input_method_t) : xim_wayland_input_method_t :=
  { input_method with
    specs :=
      [some (xcb_xim_attribute_spec_new t QUERY_INPUT_STYLE XCB_XIM_TYPE_XIMSTYLES
        (strlen queryInputStyle) queryInputStyle)],
    attrs :=
      [some (xcb_xim_attribute_styles_new t QUERY_INPUT_STYLE 3
        [XCB_XIM_PREEDIT_CALLBACKS ||| XCB_XIM_STATUS_CALLBACKS,
         XCB_XIM_PREEDIT_CALLBACKS ||| XCB_XIM_STATUS_NOTHING,
         XCB_XIM_PREEDIT_NOTHING ||| XCB_XIM_STATUS_NOTHING])],
    ic_specs :=
      [some (xcb_xim_attribute_spec_new t INPUT_STYLE XCB_XIM_TYPE_CARD32
        (strlen inputStyle) inputStyle),
       some (xcb_xim_attribute_spec_new t FILTER_EVENTS XCB_XIM_TYPE_CARD32
        (strlen filterEvents) filterEvents),
       some (xcb_xim_attribute_spec_new t CLIENT_WINDOW XCB_XIM_TYPE_WINDOW
        (strlen clientWindow) clientWindow),
       some (xcb_xim_attribute_spec_new t FOCUS_WINDOW XCB_XIM_TYPE_WINDOW
        (strlen focusWindow) focusWindow),
       some (xcb_xim_attribute_spec_new t PREEDIT_ATTRIBUTES XCB_XIM_TYPE_NEST
        (strlen preeditAttributes) preeditAttributes),
       some (xcb_xim_attribute_spec_new t STATUS_ATTRIBUTES XCB_XIM_TYPE_NEST
        (strlen statusAttributes) statusAttributes)] }

/-- The function `xim_wayland_input_method_new`: `calloc` clears the struct,
then the fields are set; `transport` is an index into `clients`. -/
def xim_wayland_input_method_new (xim : xcb_xim_server_connection_t)
    (transport id : Nat) : xim_wayland_input_method_t :=
  init_im_attributes (transport_at xim transport)
    { transport := transport, id := id % 65536, input_context_counter := 0,
      specs := [none], attrs := [none], ic_specs := List.replicate LAST_IC_ATTRIBUTE none,
      input_context_list := [] }

/-- A store through the pointer returned by `find_input_method`. -/
def store_input_method (xw : xim_wayland_t) (transport input_method_id : Nat)
    (f : xim_wayland_input_method_t → xim_wayland_input_method_t) : xim_wayland_t :=
  { xw with
    input_method_list :=
      modify_first (fun im => im.transport == transport && im.id == input_method_id)
        f xw.input_method_list }

/-- The function `handle_xim_open_request`; `requestor` is an index into
`clients`.  The counter is a `uint16_t` and is incremented before the input
method is made; `wl_list_insert` puts the new input method at the head of the
list.  The result is `none` when the reply reads through a `NULL` spec. -/
def handle_xim_open_request (x : x_server_t) (xw : xim_wayland_t) (_request : List Nat)
    (requestor : Nat) : Option (xim_wayland_t × Bool) :=
  let counter := (xw.input_method_counter + 1) % 65536
  let input_method := xim_wayland_input_method_new xw.xim requestor counter
  match deref_all input_method.specs, deref_all input_method.ic_specs with
  | some specs, some ic_specs =>
    let r := send_frame x xw.xim (transport_at xw.xim requestor)
      (xcb_xim_open_reply_frame (transport_at xw.xim requestor) input_method.id specs
        ic_specs)
    if !r.2 then some ({ xw with xim := r.1, input_method_counter := counter }, false)
    else
      some ({ xw with xim := r.1, input_method_counter := counter,
                      input_method_list := input_method :: xw.input_method_list }, true)
  | _, _ => none

/-- The function `handle_xim_close_request`: the input method found is
unlinked and freed with its contexts, then the reply is sent. -/
def handle_xim_close_request (x : x_server_t) (xw : xim_wayland_t) (request : List Nat)
    (requestor : Nat) : xim_wayland_t × Bool :=
  let t := transport_at xw.xim requestor
  let input_method_id := xcb_xim_card16 t (byte_at request 4) (byte_at request 5)
  match find_input_method xw requestor input_method_id with
  | none => (xw, false)
  | some _ =>
    let r := send_frame x xw.xim t (xcb_xim_close_reply_frame t input_method_id)
    ({ xw with
       xim := r.1,
       input_method_list :=
         xw.input_method_list.eraseP
           (fun im => im.transport == requestor && im.id == input_method_id) }, r.2)

/-- The function `handle_xim_query_extension_request`: the reply lists no
extension. -/
def handle_xim_query_extension_request (x : x_server_t) (xw : xim_wayland_t)
    (request : List Nat) (requestor : Nat) : xim_wayland_t × Bool :=
  let t := transport_at xw.xim requestor
  let input_method_id := xcb_xim_card16 t (byte_at request 4) (byte_at request 5)
  let r := send_frame x xw.xim t (xcb_xim_query_extension_reply_frame t input_method_id [])
  ({ xw with xim := r.1 }, r.2)

/-- The function `handle_xim_set_im_values_request`.  The result is `none`
when the loop of `set_values` does not end within `fuel` steps. -/
def handle_xim_set_im_values_request (fuel : Nat) (x : x_server_t) (xw : xim_wayland_t)
    (request : List Nat) (requestor : Nat) : Option (xim_wayland_t × Bool) :=
  let t := transport_at xw.xim requestor
  let input_method_id := xcb_xim_card16 t (byte_at request 4) (byte_at request 5)
  match find_input_method xw requestor input_method_id with
  | none => some (xw, false)
  | some input_method =>
    match set_values request t LAST_IM_ATTRIBUTE fuel input_method.attrs
        (xcb_xim_set_im_values_request_attribute_iterator t request) with
    | none => none
    | some attrs =>
      let xw1 := store_input_method xw requestor input_method_id
        (fun im => { im with attrs := attrs })
      let r := send_frame x xw.xim t (xcb_xim_set_im_values_reply_frame t input_method_id)
      some ({ xw1 with xim := r.1 }, r.2)

/-- The objects the Wayland compositor hands out for a new context: what
`wl_text_input_manager_create_text_input` and `wl_compositor_create_surface`
return (0 is `NULL`). -/
structure wl_proxies_t where
  text_input : Nat
  surface : Nat
deriving DecidableEq, Repr

/-- The function `handle_xim_create_ic_request`.  The counter of the input
method is a `uint16_t` and is incremented before
`xim_wayland_input_context_new` is entered, so it stays incremented when no
context is made; `wl_list_insert` puts the new context at the head of the
list.  The result is `none` when the loop of `set_values` does not end within
`fuel` steps. -/
def handle_xim_create_ic_request (fuel : Nat) (x : x_server_t) (wl : wl_proxies_t)
    (xw : xim_wayland_t) (request : List Nat) (requestor : Nat) :
    Option (xim_wayland_t × Bool) :=
  let t := transport_at xw.xim requestor
  let input_method_id := xcb_xim_card16 t (byte_at request 4) (byte_at request 5)
  match find_input_method xw requestor input_method_id with
  | none => some (xw, false)
  | some input_method =>
    let id := (input_method.input_context_counter + 1) % 65536
    let xw1 := store_input_method xw requestor input_method_id
      (fun im => { im with input_context_counter := id })
    if wl.text_input = 0 then some (xw1, false)
    else if wl.surface = 0 then some (xw1, false)
    else
      let input_context := xim_wayland_input_context_new xw.xim wl.text_input wl.surface
        input_method.transport input_method.id id
      match set_values request t LAST_IC_ATTRIBUTE fuel input_context.attrs
          (xcb_xim_create_ic_request_attribute_iterator t request) with
      | none => none
      | some attrs =>
        let r := send_frame x xw.xim t
          (xcb_xim_create_ic_reply_frame t input_method_id input_context.id)
        if !r.2 then some ({ xw1 with xim := r.1 }, false)
        else
          some ({ store_input_method xw1 requestor input_method_id
                    (fun im => { im with
                      input_context_list :=
                        { input_context with attrs := attrs } :: im.input_context_list })
                  with xim := r.1 }, true)

/-- The function `handle_xim_destroy_ic_request`: the context found is
unlinked and freed, then the reply is sent. -/
def handle_xim_destroy_ic_request (x : x_server_t) (xw : xim_wayland_t)
    (request : List Nat) (requestor : Nat) : xim_wayland_t × Bool :=
  let t := transport_at xw.xim requestor
  let input_method_id := xcb_xim_card16 t (byte_at request 4) (byte_at request 5)
  let input_context_id := xcb_xim_card16 t (byte_at request 6) (byte_at request 7)
  match find_input_method xw requestor input_method_id with
  | none => (xw, false)
  | some input_method =>
    match find_input_context input_method input_context_id with
    | none => (xw, false)
    | some _ =>
      let xw1 := store_input_method xw requestor input_method_id
        (fun im => { im with
          input_context_list :=
            im.input_context_list.eraseP (fun ic => ic.id == input_context_id) })
      let r := send_frame x xw.xim t
        (xcb_xim_destroy_ic_reply_frame t input_method_id input_context_id)
      ({ xw1 with xim := r.1 }, r.2)

/-- The function `handle_xim_set_ic_values_request`.  The result is `none`
when the loop of `set_values` does not end within `fuel` steps. -/
def handle_xim_set_ic_values_request (fuel : Nat) (x : x_server_t) (xw : xim_wayland_t)
    (request : List Nat) (requestor : Nat) : Option (xim_wayland_t × Bool) :=
  let t := transport_at xw.xim requestor
  let input_method_id := xcb_xim_card16 t (byte_at request 4) (byte_at request 5)
  let input_context_id := xcb_xim_card16 t (byte_at request 6) (byte_at request 7)
  match find_input_method xw requestor input_method_id with
  | none => some (xw, false)
  | some input_method =>
    match find_input_context input_method input_context_id with
    | none => some (xw, false)
    | some input_context =>
      match set_values request t LAST_IC_ATTRIBUTE fuel input_context.attrs
          (xcb_xim_set_ic_values_request_attribute_iterator t request) with
      | none => none
      | some attrs =>
        let xw1 := store_input_context xw requestor input_method_id input_context_id
          (fun ic => { ic with attrs := attrs })
        let r := send_frame x xw.xim t
          (xcb_xim_set_ic_values_reply_frame t input_method_id input_context_id)
        some ({ xw1 with xim := r.1 }, r.2)

/-- The loop of `handle_xim_get_ic_values_request` (`main.c`, lines
1085-1105): the array `attributes` of pointers into the table of the context,
in the order they were appended.  The result is `none` when the loop does not
end within `fuel` steps. -/
def get_ic_values_walk (mem : List Nat) (requestor : xcb_xim_transport_t)
    (input_context : xim_wayland_input_context_t) :
    Nat → xcb_xim_attribute_id_iterator_t → List (Option (List Nat)) →
    Option (List (Option (List Nat)))
  | 0, _, _ => none
  | fuel + 1, iterator, attributes =>
    if xcb_xim_attribute_id_iterator_has_data iterator then
      let attribute_id := xcb_xim_card16 requestor
        (byte_at mem iterator.data) (byte_at mem (iterator.data + 1))
      if attribute_id ≥ LAST_IC_ATTRIBUTE then
        get_ic_values_walk mem requestor input_context fuel
          (xcb_xim_attribute_id_iterator_next iterator) attributes
      else
        get_ic_values_walk mem requestor input_context fuel
          (xcb_xim_attribute_id_iterator_next iterator)
          (attributes ++ [input_context.attrs.getD attribute_id none])
    else some attributes

/-- The function `handle_xim_get_ic_values_request`.  The result is `none`
when the loop does not end within `fuel` steps or the reply reads through a
`NULL` pointer. -/
def handle_xim_get_ic_values_request (fuel : Nat) (x : x_server_t) (xw : xim_wayland_t)
    (request : List Nat) (requestor : Nat) : Option (xim_wayland_t × Bool) :=
  let t := transport_at xw.xim requestor
  let input_method_id := xcb_xim_card16 t (byte_at request 4) (byte_at request 5)
  let input_context_id := xcb_xim_card16 t (byte_at request 6) (byte_at request 7)
  match find_input_method xw requestor input_method_id with
  | none => some (xw, false)
  | some input_method =>
    match find_input_context input_method input_context_id with
    | none => some (xw, false)
    | some input_context =>
      match get_ic_values_walk request t input_context fuel
          (xcb_xim_get_ic_values_request_attribute_id_iterator t request) [] with
      | none => none
      | some attributes =>
        match deref_all attributes with
        | none => none
        | some records =>
          let r := send_frame x xw.xim t
            (xcb_xim_get_ic_values_reply_frame t input_method_id input_context_id records)
          some ({ xw with xim := r.1 }, r.2)

/-- The function `handle_xim_set_ic_focus_request`; the requests it sends to
the Wayland compositor (show the input panel, activate) are not part of the
state. -/
def handle_xim_set_ic_focus_request (xw : xim_wayland_t) (request : List Nat)
    (requestor : Nat) : xim_wayland_t × Bool :=
  let t := transport_at xw.xim requestor
  let input_method_id := xcb_xim_card16 t (byte_at request 4) (byte_at request 5)
  let input_context_id := xcb_xim_card16 t (byte_at request 6) (byte_at request 7)
  match find_input_method xw requestor input_method_id with
  | none => (xw, false)
  | some input_method =>
    match find_input_context input_method input_context_id with
    | none => (xw, false)
    | some input_context =>
      if input_context.text_input = 0 then (xw, false) else (xw, true)

/-- The function `handle_xim_unset_ic_focus_request`; the request it sends to
the Wayland compositor (deactivate) is not part of the state. -/
def handle_xim_unset_ic_focus_request (xw : xim_wayland_t) (request : List Nat)
    (requestor : Nat) : xim_wayland_t × Bool :=
  let t := transport_at xw.xim requestor
  let input_method_id := xcb_xim_card16 t (byte_at request 4) (byte_at request 5)
  let input_context_id := xcb_xim_card16 t (byte_at request 6) (byte_at request 7)
  match find_input_method xw requestor input_method_id with
  | none => (xw, false)
  | some input_method =>
    match find_input_context input_method input_context_id with
    | none => (xw, false)
    | some input_context =>
      if input_context.text_input = 0 then (xw, false) else (xw, true)

/-- Request opcode `XCB_XIM_OPEN`. -/
def XCB_XIM_OPEN : Nat := 30

/-- Request opcode `XCB_XIM_CLOSE`. -/
def XCB_XIM_CLOSE : Nat := 32

/-- Request opcode `XCB_XIM_QUERY_EXTENSION`. -/
def XCB_XIM_QUERY_EXTENSION : Nat := 40

/-- Request opcode `XCB_XIM_ENCODING_NEGOTIATION`. -/
def XCB_XIM_ENCODING_NEGOTIATION : Nat := 38

/-- Request opcode `XCB_XIM_SET_IM_VALUES`. -/
def XCB_XIM_SET_IM_VALUES : Nat := 42

/-- Request opcode `XCB_XIM_GET_IM_VALUES`. -/
def XCB_XIM_GET_IM_VALUES : Nat := 44

/-- Request opcode `XCB_XIM_CREATE_IC`. -/
def XCB_XIM_CREATE_IC : Nat := 50

/-- Request opcode `XCB_XIM_DESTROY_IC` as `xim.h` defines it. -/
def XCB_XIM_DESTROY_IC : Nat := 53

/-- Request opcode `XCB_XIM_SET_IC_VALUES`. -/
def XCB_XIM_SET_IC_VALUES : Nat := 54

/-- Request opcode `XCB_XIM_GET_IC_VALUES`. -/
def XCB_XIM_GET_IC_VALUES : Nat := 56

/-- Request opcode `XCB_XIM_SET_IC_FOCUS`. -/
def XCB_XIM_SET_IC_FOCUS : Nat := 58

/-- Request opcode `XCB_XIM_UNSET_IC_FOCUS`. -/
def XCB_XIM_UNSET_IC_FOCUS : Nat := 59

/-- Request opcode `XCB_XIM_FORWARD_EVENT`. -/
def XCB_XIM_FORWARD_EVENT : Nat := 60

/-- Request opcode `XCB_XIM_PREEDIT_CARET_REPLY`. -/
def XCB_XIM_PREEDIT_CARET_REPLY : Nat := 77

/-- The function `handle_xim_request` (`main.c`, lines 1224-1263): the first
entry of `xim_request_handlers` with the major opcode of the request is
called; when no entry has it the result is `true`.  `request` is the memory at
the request of the container, `wl` what the compositor hands out should a
context be made.  The result is `none` when a loop does not end within `fuel`
steps or a `NULL` pointer is read through. -/
def handle_xim_request (fuel : Nat) (x : x_server_t) (wl : wl_proxies_t)
    (xw : xim_wayland_t) (request : List Nat) (requestor : Nat) :
    Option (xim_wayland_t × Bool) :=
  let major_opcode := byte_at request 0
  if major_opcode = XCB_XIM_OPEN then handle_xim_open_request x xw request requestor
  else if major_opcode = XCB_XIM_CLOSE then
    some (handle_xim_close_request x xw request requestor)
  else if major_opcode = XCB_XIM_QUERY_EXTENSION then
    some (handle_xim_query_extension_request x xw request requestor)
  else if major_opcode = XCB_XIM_ENCODING_NEGOTIATION then
    handle_xim_encoding_negotiation_request fuel x xw request requestor
  else if major_opcode = XCB_XIM_SET_IM_VALUES then
    handle_xim_set_im_values_request fuel x xw request requestor
  else if major_opcode = XCB_XIM_GET_IM_VALUES then
    handle_xim_get_im_values_request fuel x xw request requestor
  else if major_opcode = XCB_XIM_CREATE_IC then
    handle_xim_create_ic_request fuel x wl xw request requestor
  else if major_opcode = XCB_XIM_DESTROY_IC then
    some (handle_xim_destroy_ic_request x xw request requestor)
  else if major_opcode = XCB_XIM_SET_IC_VALUES then
    handle_xim_set_ic_values_request fuel x xw request requestor
  else if major_opcode = XCB_XIM_GET_IC_VALUES then
    handle_xim_get_ic_values_request fuel x xw request requestor
  else if major_opcode = XCB_XIM_SET_IC_FOCUS then
    some (handle_xim_set_ic_focus_request xw request requestor)
  else if major_opcode = XCB_XIM_UNSET_IC_FOCUS then
    some (handle_xim_unset_ic_focus_request xw request requestor)
  else if major_opcode = XCB_XIM_PREEDIT_CARET_REPLY then
    some (handle_xim_preedit_caret_reply xw request requestor)
  else some (xw, true)

/-- The loop of `handle_x_events` over the queued requests (`main.c`, lines
1312-1339): each request is handled in turn, and the first request whose handler
returns `false` ends the loop and the program.  Every request comes with what
the compositor hands out while it is handled.  The result is `none` when a
handler gives `none`. -/
def handle_requests (fuel : Nat) (x : x_server_t) :
    xim_wayland_t → List (wl_proxies_t × xcb_xim_request_container_t) → Option xim_wayland_t
  | xw, [] => some xw
  | xw, c :: rest =>
    match handle_xim_request fuel x c.1 xw c.2.request c.2.requestor with
    | none => none
    | some (xw1, true) => handle_requests fuel x xw1 rest
    | some (xw1, false) => some xw1

/-- The state that `main` sets up with `memset` and `wl_list_init`: counter 0
and no input method. -/
def xim_wayland_init (xim : xcb_xim_server_connection_t) : xim_wayland_t :=
  { xim := xim, input_method_counter := 0, input_method_list := [] }

/-! ## Dispatch of X events (`xim.c`, lines 409-566 and 2288-2466) -/

/-- Index `_XIM_XCONNECT` of the enum of well-known atoms. -/
def _XIM_XCONNECT : Nat := 1

/-- Index `LOCALES` of the enum of well-known atoms. -/
def LOCALES : Nat := 4

/-- Index `TRANSPORT` of the enum of well-known atoms. -/
def TRANSPORT : Nat := 5

/-- Event code `XCB_SELECTION_REQUEST` of the X protocol. -/
def XCB_SELECTION_REQUEST : Nat := 30

/-- Event code `XCB_CLIENT_MESSAGE` of the X protocol. -/
def XCB_CLIENT_MESSAGE : Nat := 33

/-- The enumerator `XCB_PROP_MODE_REPLACE` of the X protocol. -/
def XCB_PROP_MODE_REPLACE : Nat := 0

/-- Opcode `XCB_XIM_CONNECT` (`xim.c`, line 34). -/
def XCB_XIM_CONNECT : Nat := 1

/-- Opcode `XCB_XIM_DISCONNECT` (`xim.c`, line 36). -/
def XCB_XIM_DISCONNECT : Nat := 3

/-- The enum `xcb_xim_dispatch_result_t`. -/
inductive xcb_xim_dispatch_result_t where
  | XCB_XIM_DISPATCH_CONTINUE
  | XCB_XIM_DISPATCH_REMOVE
  | XCB_XIM_DISPATCH_ERROR
deriving DecidableEq, Repr

/-- The struct `xcb_client_message_event_t` of XCB: `data8` are the 20 bytes
of the data union. -/
structure xcb_client_message_event_t where
  format : Nat
  window : Nat
  type : Nat
  data8 : List Nat
deriving DecidableEq, Repr

/-- The struct `xcb_selection_request_event_t` of XCB. -/
structure xcb_selection_request_event_t where
  time : Nat
  owner : Nat
  requestor : Nat
  selection : Nat
  target : Nat
  property : Nat
deriving DecidableEq, Repr

/-- The struct `xcb_generic_event_t` of XCB with the two views the dispatcher
casts it to. -/
structure xcb_generic_event_t where
  response_type : Nat
  selection_request : xcb_selection_request_event_t
  client_message : xcb_client_message_event_t
deriving DecidableEq, Repr

/-- A load of a `uint16_t` from two bytes of memory in the byte order of the
host, as `*(uint16_t *) p` does. -/
def load16 (host_big_endian : Bool) (b0 b1 : Nat) : Nat :=
  if host_big_endian then b0 * 256 + b1 else b1 * 256 + b0

/-- A load of a `uint32_t` from four bytes of memory in the byte order of the
host. -/
def load32 (host_big_endian : Bool) (b0 b1 b2 b3 : Nat) : Nat :=
  if host_big_endian then b0 * 16777216 + b1 * 65536 + b2 * 256 + b3
  else b3 * 16777216 + b2 * 65536 + b1 * 256 + b0

/-- The member `data.data32[i]` of a client message. -/
def data32 (host_big_endian : Bool) (event : xcb_client_message_event_t) (i : Nat) : Nat :=
  load32 host_big_endian (byte_at event.data8 (4 * i)) (byte_at event.data8 (4 * i + 1))
    (byte_at event.data8 (4 * i + 2)) (byte_at event.data8 (4 * i + 3))

/-- The function `accept_connection`: a new transport at the end of `clients`
and the client message that announces its window.  `fresh` gives what
`xcb_generate_id` returns and the byte that lies in the `endian` field of the
new slot, which the function does not set. -/
def accept_connection (host_big_endian : Bool) (fresh : xcb_xim_transport_t)
    (xim : xcb_xim_server_connection_t) (request : xcb_client_message_event_t) :
    xcb_xim_server_connection_t × Bool :=
  let client : xcb_xim_transport_t :=
    { client_window := data32 host_big_endian request 0,
      server_window := fresh.server_window, endian := fresh.endian }
  ({ xim with
     clients := xim.clients ++ [client],
     sent := xim.sent ++
       [{ window := client.client_window, type := xim.atoms.getD _XIM_XCONNECT 0,
          format := 32, data := [client.server_window, 0, 0, 20, 0], payload := [],
          property := none }] }, true)

/-- The function `find_transport`: the index of the last transport with the
server window, if any. -/
def find_transport (xim : xcb_xim_server_connection_t) (server_window : Nat) :
    Option Nat :=
  (List.range xim.clients.length).reverse.find?
    (fun i => (transport_at xim i).server_window == server_window)

/-- The function `read_data`: the frame (`data` and `*length`) an event
carries, `none` for `NULL`.  The count `nitems` is loaded from bytes 2..3 in
the byte order of the host.  A format-32 event takes one round trip, which
reads and deletes the property named by `data32[1]`. -/
def read_data (host_big_endian : Bool) (x : x_server_t)
    (xim : xcb_xim_server_connection_t) (_client : xcb_xim_transport_t)
    (event : xcb_client_message_event_t) :
    xcb_xim_server_connection_t × Option (List Nat × Nat) :=
  if event.format = 32 then
    let value_length := data32 host_big_endian event 0
    let xim1 := { xim with round_trips := xim.round_trips + 1 }
    if !x.get_property_reply xim.round_trips then (xim1, none)
    else
      let value := x.get_property_value xim.round_trips
      let actual_value_length := value.length
      if value_length > actual_value_length ∨ value_length < 4 then (xim1, none)
      else
        let nitems := load16 host_big_endian (byte_at value 2) (byte_at value 3)
        let request_length := nitems * 4 + 4
        if request_length > value_length then (xim1, none)
        else (xim1, some (memcpy value request_length, request_length))
  else
    let nitems := load16 host_big_endian (byte_at event.data8 2) (byte_at event.data8 3)
    let request_length := nitems * 4 + 4
    if request_length > 20 then (xim, none)
    else (xim, some (memcpy event.data8 request_length, request_length))

/-- The function `queue_request`: the container goes to the tail. -/
def queue_request (xim : xcb_xim_server_connection_t)
    (container : xcb_xim_request_container_t) : xcb_xim_server_connection_t × Bool :=
  ({ xim with requests := xim.requests ++ [container] }, true)

/-- The function `xcb_xim_server_connection_poll_request`: the container at
the head, `none` for `NULL`. -/
def xcb_xim_server_connection_poll_request (xim : xcb_xim_server_connection_t) :
    xcb_xim_server_connection_t × Option xcb_xim_request_container_t :=
  match xim.requests with
  | [] => (xim, none)
  | container :: requests => ({ xim with requests := requests }, some container)

/-- The bytes of the string literal `"@locale="`. -/
def locale_head : List Nat := [64, 108, 111, 99, 97, 108, 101, 61]

/-- The bytes of the string literal `"@transport=X/"`. -/
def transport_name : List Nat := [64, 116, 114, 97, 110, 115, 112, 111, 114, 116, 61, 88, 47]

/-- The function `do_selection_request`.  For a target that is neither
`LOCALES` nor `TRANSPORT` the buffer stays `NULL` and `strlen` reads through
it: the result is `none`. -/
def do_selection_request (xim : xcb_xim_server_connection_t)
    (event : xcb_selection_request_event_t) :
    Option (xcb_xim_server_connection_t × xcb_xim_dispatch_result_t) :=
  let buffer : Option (List Nat) :=
    if event.target = xim.atoms.getD LOCALES 0 then
      some (locale_head ++ memcpy xim.locale (strlen xim.locale))
    else if event.target = xim.atoms.getD TRANSPORT 0 then some transport_name
    else none
  match buffer with
  | none => none
  | some buffer =>
    some ({ xim with selections := xim.selections ++
      [{ mode := XCB_PROP_MODE_REPLACE, window := event.requestor,
         property := event.target, type := event.target, format := 8,
         data := memcpy buffer (strlen buffer),
         notify_time := event.time, notify_requestor := event.requestor,
         notify_selection := event.selection, notify_target := event.target,
         notify_property := event.property }] },
      xcb_xim_dispatch_result_t.XCB_XIM_DISPATCH_REMOVE)

/-- The function `do_client_message`.  A `CONNECT` frame sets the endian byte
of the transport and is answered; a `DISCONNECT` frame is answered; any other
frame is queued with the index of its transport. -/
def do_client_message (host_big_endian : Bool) (x : x_server_t)
    (fresh : xcb_xim_transport_t) (xim : xcb_xim_server_connection_t)
    (event : xcb_client_message_event_t) :
    xcb_xim_server_connection_t × xcb_xim_dispatch_result_t :=
  if event.type = xim.atoms.getD _XIM_XCONNECT 0 then
    match accept_connection host_big_endian fresh xim event with
    | (xim1, false) => (xim1, xcb_xim_dispatch_result_t.XCB_XIM_DISPATCH_ERROR)
    | (xim1, true) => (xim1, xcb_xim_dispatch_result_t.XCB_XIM_DISPATCH_CONTINUE)
  else if event.type = xim.atoms.getD _XIM_PROTOCOL 0 then
    match find_transport xim event.window with
    | none => (xim, xcb_xim_dispatch_result_t.XCB_XIM_DISPATCH_ERROR)
    | some transport =>
      match read_data host_big_endian x xim (transport_at xim transport) event with
      | (xim1, none) => (xim1, xcb_xim_dispatch_result_t.XCB_XIM_DISPATCH_ERROR)
      | (xim1, some (data, length)) =>
        let request := memcpy data length
        if byte_at request 0 = XCB_XIM_CONNECT then
          if length < 8 then (xim1, xcb_xim_dispatch_result_t.XCB_XIM_DISPATCH_ERROR)
          else
            let xim2 := { xim1 with
              clients := xim1.clients.set transport
                { transport_at xim1 transport with endian := byte_at data 4 } }
            match send_frame x xim2 (transport_at xim2 transport)
                (xcb_xim_connect_reply_frame (transport_at xim2 transport) 1 0) with
            | (xim3, false) => (xim3, xcb_xim_dispatch_result_t.XCB_XIM_DISPATCH_ERROR)
            | (xim3, true) => (xim3, xcb_xim_dispatch_result_t.XCB_XIM_DISPATCH_REMOVE)
        else if byte_at request 0 = XCB_XIM_DISCONNECT then
          match send_frame x xim1 (transport_at xim1 transport)
              (xcb_xim_disconnect_reply_frame (transport_at xim1 transport)) with
          | (xim2, false) => (xim2, xcb_xim_dispatch_result_t.XCB_XIM_DISPATCH_ERROR)
          | (xim2, true) => (xim2, xcb_xim_dispatch_result_t.XCB_XIM_DISPATCH_REMOVE)
        else
          match queue_request xim1 { requestor := transport, request := request } with
          | (xim2, false) => (xim2, xcb_xim_dispatch_result_t.XCB_XIM_DISPATCH_ERROR)
          | (xim2, true) => (xim2, xcb_xim_dispatch_result_t.XCB_XIM_DISPATCH_REMOVE)
  else (xim, xcb_xim_dispatch_result_t.XCB_XIM_DISPATCH_CONTINUE)

/-- The function `xcb_xim_server_connection_dispatch`: the switch on
`response_type & ~0x80` (`response_type` is a `uint8_t`). -/
def xcb_xim_server_connection_dispatch (host_big_endian : Bool) (x : x_server_t)
    (fresh : xcb_xim_transport_t) (xim : xcb_xim_server_connection_t)
    (event : xcb_generic_event_t) :
    Option (xcb_xim_server_connection_t × xcb_xim_dispatch_result_t) :=
  if event.response_type % 256 % 128 = XCB_SELECTION_REQUEST then
    do_selection_request xim event.selection_request
  else if event.response_type % 256 % 128 = XCB_CLIENT_MESSAGE then
    some (do_client_message host_big_endian x fresh xim event.client_message)
  else some (xim, xcb_xim_dispatch_result_t.XCB_XIM_DISPATCH_CONTINUE)

/-! ## The queue of requests as a linked list (`xim.c`, lines 168-172, 187-188 and 2288-2330) -/

/-- The struct `xcb_xim_list_t`: `next` is the address of the next node, 0 for
`NULL`. -/
structure xcb_xim_list_t where
  data : xcb_xim_request_container_t
  next : Nat
deriving DecidableEq, Repr

/-- The fields `requests` and `requests_tail` of `xcb_xim_server_connection_t`
as addresses (0 for `NULL`), with the heap they point into: `heap p` is the
node that is live at the address `p`, `none` when no node is live there. -/
structure xcb_xim_requests_t where
  heap : Nat → Option xcb_xim_list_t
  requests : Nat
  requests_tail : Nat

/-- The two fields after the `memset` of `xcb_xim_server_connection_new`, and a
heap without nodes. -/
def requests_empty : xcb_xim_requests_t :=
  { heap := fun _ => none, requests := 0, requests_tail := 0 }

/-- The function `queue_request` on the linked list; `list` is what `malloc`
returns.  The result is `none` when `requests_tail` is followed although no
node is live there. -/
def xcb_xim_requests_t.queue_request (q : xcb_xim_requests_t) (list : Nat)
    (container : xcb_xim_request_container_t) : Option (xcb_xim_requests_t × Bool) :=
  if list = 0 then some (q, false)
  else
    let heap := Function.update q.heap list (some { data := container, next := 0 })
    if q.requests = 0 then
      some ({ heap := heap, requests := list, requests_tail := list }, true)
    else
      match heap q.requests_tail with
      | none => none
      | some tail =>
        some ({ heap := Function.update heap q.requests_tail (some { tail with next := list }),
                requests := q.requests, requests_tail := list }, true)

/-- The function `xcb_xim_server_connection_poll_request` on the linked list;
the node at the head is freed.  The result is `none` when `requests` is
followed although no node is live there. -/
def xcb_xim_requests_t.poll_request (q : xcb_xim_requests_t) :
    Option (xcb_xim_requests_t × Option xcb_xim_request_container_t) :=
  if q.requests = 0 then some (q, none)
  else
    match q.heap q.requests with
    | none => none
    | some list =>
      some ({ heap := Function.update q.heap q.requests none, requests := list.next,
              requests_tail := if list.next = 0 then 0 else q.requests_tail },
            some list.data)

/-- A call of `queue_request` (with what its `malloc` returns) or of
`xcb_xim_server_connection_poll_request`. -/
inductive queue_call_t where
  | queue (list : Nat) (container : xcb_xim_request_container_t)
  | poll
deriving DecidableEq, Repr

/-- Runs a sequence of calls on the linked list and collects what the polls
return, oldest first. -/
def run_calls : xcb_xim_requests_t → List queue_call_t →
    Option (xcb_xim_requests_t × List (Option xcb_xim_request_container_t))
  | q, [] => some (q, [])
  | q, .queue list container :: rest =>
    match q.queue_request list container with
    | none => none
    | some (q1, _) => run_calls q1 rest
  | q, .poll :: rest =>
    match q.poll_request with
    | none => none
    | some (q1, r) => (run_calls q1 rest).map (fun s => (s.1, r :: s.2))

/-- Every `malloc` of the run returns `NULL` or the address of a block that is
not live at that moment. -/
def mallocs_fresh : xcb_xim_requests_t → List queue_call_t → Bool
  | _, [] => true
  | q, .queue list container :: rest =>
    (decide (list = 0) || (q.heap list).isNone) &&
      match q.queue_request list container with
      | none => true
      | some (q1, _) => mallocs_fresh q1 rest
  | q, .poll :: rest =>
    match q.poll_request with
    | none => true
    | some (q1, _) => mallocs_fresh q1 rest

/-! ## Properties the theorems are stated with -/

/-- Follows the words of the spec: the run `s` counts for position `j` of a
text of `n` bytes when `index + length <= n` and `index <= j < index + length`
(sums of natural numbers). -/
def run_covers (n j : Nat) (s : xim_wayland_styling_t) : Bool :=
  decide (s.index + s.length ≤ n) && decide (s.index ≤ j) && decide (j < s.index + s.length)

/-- Follows the words of the spec: entry `j` of the feedback array for a
text of `n` bytes is the bitwise OR of the feedback flags of the runs that
count for `j`, and 0 when there is none. -/
def feedback_spec (n : Nat) (stylings : List xim_wayland_styling_t) (j : Nat) : Nat :=
  ((stylings.filter (run_covers n j)).map (fun s => s.feedback)).foldl (fun a f => a ||| f) 0

/-- Every round trip to the X server is answered without error, so that every
`write_data` succeeds. -/
def x_server_answers (x : x_server_t) : Prop :=
  ∀ n, (x.intern_atom_reply n).isSome = true ∧ x.get_property_reply n = true

/-- The framing rule of the spec for a frame handed to `write_data`: its byte
length is a multiple of 4 and the 16-bit field at bytes 2..3, decoded in the
byte order of the transport, is `(byte length - 4) / 4`. -/
def frame_well_formed (t : xcb_xim_transport_t) (f : frame_t) : Prop :=
  f.payload.length % 4 = 0 ∧ field16 t f.payload 2 = (f.payload.length - 4) / 4

instance (t : xcb_xim_transport_t) (f : frame_t) : Decidable (frame_well_formed t f) :=
  inferInstanceAs (Decidable (_ ∧ _))

/-- The size rule of the spec for an attribute record: its total size is
`4 + v + PAD (v)`, where `v` is the `value_byte_length` of its header decoded
in the byte order of the transport. -/
def attribute_well_sized (t : xcb_xim_transport_t) (record : List Nat) : Prop :=
  record.length = attribute_byte_length t record

instance (t : xcb_xim_transport_t) (record : List Nat) :
    Decidable (attribute_well_sized t record) :=
  inferInstanceAs (Decidable (_ = _))

/-- The conversion of a `uint16_t` to `int16_t`. -/
def int16_of_uint16 (n : Nat) : Int :=
  if n % 65536 < 32768 then (n % 65536 : Nat)
  else ((n % 65536 : Nat) : Int) - 65536

/-- One walk over a single record: an attribute iterator placed on `record`
with the size of the record as remainder (a `uint16_t`, so the size is kept in
16 bits) has data, the id of the record read with `xcb_xim_card16` is
`attribute_id`, and after one `next` the remainder is 0 and the iterator has no
data. -/
def attribute_walks_once (t : xcb_xim_transport_t) (record : List Nat)
    (attribute_id : Nat) : Prop :=
  xcb_xim_attribute_iterator_has_data record
    { transport := t, data := 0, index := 0, remainder := record.length % 65536 } = true ∧
  xcb_xim_card16 t (byte_at record 0) (byte_at record 1) = attribute_id ∧
  (xcb_xim_attribute_iterator_next record
    { transport := t, data := 0, index := 0,
      remainder := record.length % 65536 }).remainder = 0 ∧
  xcb_xim_attribute_iterator_has_data record
    (xcb_xim_attribute_iterator_next record
      { transport := t, data := 0, index := 0,
        remainder := record.length % 65536 }) = false

instance (t : xcb_xim_transport_t) (record : List Nat) (attribute_id : Nat) :
    Decidable (attribute_walks_once t record attribute_id) :=
  inferInstanceAs (Decidable (_ ∧ _))

/-- The byte length `L = 4 + 4 * length` of a queued request, from its length
field. -/
def request_length (t : xcb_xim_transport_t) (r : List Nat) : Nat :=
  4 + 4 * field16 t r 2

/-- End offset of the STR a STR iterator yields: `1 + length` bytes from the
current offset. -/
def str_element_end (mem : List Nat) (i : xcb_xim_str_iterator_t) : Nat :=
  i.data + (1 + byte_at mem i.data)

/-- End offset of the id an id iterator yields: 2 bytes from the current
offset. -/
def attribute_id_element_end (i : xcb_xim_attribute_id_iterator_t) : Nat :=
  i.data + 2

/-- End offset of the attribute an attribute iterator yields:
`4 + value_byte_length + PAD (value_byte_length)` bytes from the current
offset. -/
def attribute_element_end (mem : List Nat) (i : xcb_xim_attribute_iterator_t) : Nat :=
  i.data + (4 + field16 i.transport mem (i.data + 2)
    + PAD (field16 i.transport mem (i.data + 2)))

/-- The elements a walk with `has_data` and `next` yields, each with the
`4 + value_byte_length + PAD (value_byte_length)` bytes at the offset of the
iterator; `none` when the walk does not end within `fuel` steps. -/
def attribute_walk (mem : List Nat) :
    Nat → xcb_xim_attribute_iterator_t → Option (List (List Nat))
  | 0, _ => none
  | fuel + 1, i =>
    if xcb_xim_attribute_iterator_has_data mem i then
      (attribute_walk mem fuel (xcb_xim_attribute_iterator_next mem i)).map
        (fun l => memcpy (mem.drop i.data)
          (attribute_byte_length i.transport (mem.drop i.data)) :: l)
    else some []

/-- The last attribute of the list `es` whose id is `k`, if there is one. -/
def last_attribute_with_id (t : xcb_xim_transport_t) (es : List (List Nat)) (k : Nat) :
    Option (List Nat) :=
  es.foldl (fun found e => if field16 t e 0 = k then some e else found) none

/-- The copy of an attribute that the claim on `set_values` names: its id, its
value byte length and its value bytes. -/
def attribute_copy (t : xcb_xim_transport_t) (e : List Nat) : List Nat :=
  e.take (4 + field16 t e 2)

/-- A well-formed `GET_IM_VALUES` request for the input method
`input_method_id` in the byte order of `t`: the ids `ids` (`n = 2 * ids.length`
bytes), `PAD (n)` bytes of padding, and the length field `(4 + n + PAD (n)) / 4`
of a request of `8 + n + PAD (n)` bytes. -/
def get_im_values_request (t : xcb_xim_transport_t) (input_method_id : Nat)
    (ids : List Nat) : List Nat :=
  [44, 0] ++ NO16 t ((4 + 2 * ids.length + PAD (2 * ids.length)) / 4)
    ++ NO16 t input_method_id ++ NO16 t (2 * ids.length)
    ++ (ids.flatMap (NO16 t) ++ List.replicate (PAD (2 * ids.length)) 0)

/-- The opcodes of the table `xim_request_handlers`, in its order. -/
def handled_opcodes : List Nat :=
  [XCB_XIM_OPEN, XCB_XIM_CLOSE, XCB_XIM_QUERY_EXTENSION, XCB_XIM_ENCODING_NEGOTIATION,
   XCB_XIM_SET_IM_VALUES, XCB_XIM_GET_IM_VALUES, XCB_XIM_CREATE_IC, XCB_XIM_DESTROY_IC,
   XCB_XIM_SET_IC_VALUES, XCB_XIM_GET_IC_VALUES, XCB_XIM_SET_IC_FOCUS,
   XCB_XIM_UNSET_IC_FOCUS, XCB_XIM_PREEDIT_CARET_REPLY]

/-- The opcodes of the requests that carry an input-method id in bytes 4..5
and look the input method up. -/
def id_bearing_opcodes : List Nat :=
  [XCB_XIM_CLOSE, XCB_XIM_SET_IM_VALUES, XCB_XIM_GET_IM_VALUES, XCB_XIM_CREATE_IC,
   XCB_XIM_DESTROY_IC, XCB_XIM_SET_IC_VALUES, XCB_XIM_GET_IC_VALUES, XCB_XIM_SET_IC_FOCUS,
   XCB_XIM_UNSET_IC_FOCUS, XCB_XIM_PREEDIT_CARET_REPLY]

/-- The wire layout of an attribute spec: id, type, name length `n`, the name
and `PAD (2 + n)` zero bytes, `6 + n + PAD (2 + n)` bytes in all. -/
def attribute_spec_wire (t : xcb_xim_transport_t) (attribute_id type : Nat)
    (name : List Nat) : List Nat :=
  NO16 t attribute_id ++ NO16 t type ++ NO16 t name.length ++ name
    ++ List.replicate (PAD (2 + name.length)) 0

/-- The IM attribute specs an `OPEN_REPLY` is to carry: `queryInputStyle` of
type `XIMSTYLES` with id 0. -/
def im_specs_wire (t : xcb_xim_transport_t) : List (List Nat) :=
  [attribute_spec_wire t 0 10 queryInputStyle]

/-- The IC attribute specs an `OPEN_REPLY` is to carry, ids 0..5. -/
def ic_specs_wire (t : xcb_xim_transport_t) : List (List Nat) :=
  [attribute_spec_wire t 0 3 inputStyle, attribute_spec_wire t 1 3 filterEvents,
   attribute_spec_wire t 2 5 clientWindow, attribute_spec_wire t 3 5 focusWindow,
   attribute_spec_wire t 4 0x7fff preeditAttributes,
   attribute_spec_wire t 5 0x7fff statusAttributes]

/-- The `OPEN_REPLY` frame for the input method `input_method_id`: opcode 31,
length field 39, the id, the byte length 24 of the IM specs, the IM specs, the
byte length 124 of the IC specs, two unused bytes, the IC specs. -/
def open_reply_wire (t : xcb_xim_transport_t) (input_method_id : Nat) : List Nat :=
  [31, 0] ++ NO16 t 39 ++ NO16 t input_method_id ++ NO16 t 24
    ++ (im_specs_wire t).flatten ++ NO16 t 124 ++ NO16 t 0 ++ (ic_specs_wire t).flatten

/-- A well-formed `CREATE_IC` request for the input method `input_method_id`
in the byte order of `t`: the attributes `es` (`n` bytes in all) after the
8-byte fixed part, and the length field `(4 + n) / 4` of a request of `8 + n`
bytes. -/
def create_ic_request (t : xcb_xim_transport_t) (input_method_id : Nat)
    (es : List (List Nat)) : List Nat :=
  ([50, 0] ++ NO16 t ((4 + (es.map List.length).sum) / 4) ++ NO16 t input_method_id
    ++ NO16 t (es.map List.length).sum) ++ es.flatten

/-- Replays the frames sent so far, oldest first: true after the frame
`start_frame`, false after the frame `done_frame`, unchanged by any other
frame, false at the beginning. -/
def preedit_open (start_frame done_frame : List Nat) (frames : List (List Nat)) : Bool :=
  frames.foldl
    (fun o f => if f = start_frame then true else if f = done_frame then false else o) false

/-- The frame `start_frame` has been emitted and the frame `done_frame` has not
been emitted after the most recent `start_frame`; `frames` are the frames sent
so far, oldest first. -/
def preedit_start_pending (start_frame done_frame : List Nat) (frames : List (List Nat)) :
    Prop :=
  ∃ before after, frames = before ++ start_frame :: after ∧ start_frame ∉ after ∧
    done_frame ∉ after

/-- The context of the state `s` is the context `input_context_id` of the
input method `input_method_id` on the transport `t`, and its flag
`preedit_started` is what `preedit_open` tells from the frames sent. -/
def preedit_flag_agrees (t : xcb_xim_transport_t) (input_method_id input_context_id : Nat)
    (s : xcb_xim_server_connection_t × xim_wayland_input_context_t) : Prop :=
  transport_at s.1 s.2.input_method_transport = t ∧
  s.2.input_method_id = input_method_id ∧ s.2.id = input_context_id ∧
  s.2.preedit_started
    = preedit_open (xcb_xim_preedit_start_frame t input_method_id input_context_id).payload
        (xcb_xim_preedit_done_frame t input_method_id input_context_id).payload
        (frames_sent s.1)

/-- The ids of the input methods of the server, in the order of its list. -/
def input_method_ids (xw : xim_wayland_t) : List Nat :=
  xw.input_method_list.map (fun im => im.id)

/-- The ids of the contexts of an input method, in the order of its list. -/
def input_context_ids (im : xim_wayland_input_method_t) : List Nat :=
  im.input_context_list.map (fun ic => ic.id)

/-- No two input methods of the server have the same id and no two contexts of
the same input method have the same id. -/
def ids_unique (xw : xim_wayland_t) : Prop :=
  (input_method_ids xw).Nodup ∧ ∀ im ∈ xw.input_method_list, (input_context_ids im).Nodup

instance (xw : xim_wayland_t) : Decidable (ids_unique xw) :=
  inferInstanceAs (Decidable (_ ∧ _))

/-- The request is one of `OPEN`, `CLOSE`, `CREATE_IC` and `DESTROY_IC`. -/
def is_lifecycle_request (c : wl_proxies_t × xcb_xim_request_container_t) : Prop :=
  byte_at c.2.request 0 = XCB_XIM_OPEN ∨ byte_at c.2.request 0 = XCB_XIM_CLOSE ∨
  byte_at c.2.request 0 = XCB_XIM_CREATE_IC ∨ byte_at c.2.request 0 = XCB_XIM_DESTROY_IC

instance (c : wl_proxies_t × xcb_xim_request_container_t) :
    Decidable (is_lifecycle_request c) :=
  inferInstanceAs (Decidable (_ ∨ _))

/-- The number of requests of `rs` with the major opcode `opcode`. -/
def count_requests (opcode : Nat) (rs : List (wl_proxies_t × xcb_xim_request_container_t)) :
    Nat :=
  rs.countP (fun c => byte_at c.2.request 0 == opcode)

/-- The invariant behind `ids_unique`: the counter of input methods is at most
`n`, the ids of the input methods differ and none is greater than the counter;
the counter of every input method is at most `m`, the ids of its contexts
differ and none is greater than its counter. -/
def lifecycle_invariant (n m : Nat) (xw : xim_wayland_t) : Prop :=
  xw.input_method_counter ≤ n ∧ (input_method_ids xw).Nodup ∧
  ∀ im ∈ xw.input_method_list,
    im.id ≤ xw.input_method_counter ∧ im.input_context_counter ≤ m ∧
    (∀ ic ∈ im.input_context_list, ic.id ≤ im.input_context_counter) ∧
    (input_context_ids im).Nodup

/-- First in, first out: the containers still queued after the calls and what
the polls return, when `pending` are the containers queued before them.  A
call of `queue_request` whose `malloc` fails queues nothing; a poll returns the
oldest container still queued, `none` when there is none. -/
def fifo_calls : List xcb_xim_request_container_t → List queue_call_t →
    List xcb_xim_request_container_t × List (Option xcb_xim_request_container_t)
  | pending, [] => (pending, [])
  | pending, .queue list container :: rest =>
    fifo_calls (if list = 0 then pending else pending ++ [container]) rest
  | pending, .poll :: rest =>
    ((fifo_calls pending.tail rest).1, pending.head? :: (fifo_calls pending.tail rest).2)

/-- The nodes of a list given with their addresses are live in the heap and
linked in this order, the last one to `NULL`. -/
def nodes_linked (heap : Nat → Option xcb_xim_list_t) :
    List (Nat × xcb_xim_request_container_t) → Prop
  | [] => True
  | n :: ns =>
    heap n.1 = some { data := n.2, next := (ns.head?.map Prod.fst).getD 0 } ∧
      nodes_linked heap ns

/-- The linked list `q` holds the nodes `ns` (address and container, oldest
first): the addresses differ and are not `NULL`, `requests` is the first and
`requests_tail` the last address (`NULL` when there is no node), and the nodes
are linked in this order. -/
def requests_hold (q : xcb_xim_requests_t)
    (ns : List (Nat × xcb_xim_request_container_t)) : Prop :=
  (ns.map Prod.fst).Nodup ∧ (∀ n ∈ ns, n.1 ≠ 0) ∧
  q.requests = (ns.head?.map Prod.fst).getD 0 ∧
  q.requests_tail = (ns.getLast?.map Prod.fst).getD 0 ∧
  nodes_linked q.heap ns

/-- A well-formed `SET_IM_VALUES` request for the input method
`input_method_id` in the byte order of `t`: the attributes `es` (`n` bytes in
all) after the 8-byte fixed part, and the length field `(4 + n) / 4` of a
request of `8 + n` bytes. -/
def set_im_values_request (t : xcb_xim_transport_t) (input_method_id : Nat)
    (es : List (List Nat)) : List Nat :=
  ([42, 0] ++ NO16 t ((4 + (es.map List.length).sum) / 4) ++ NO16 t input_method_id
    ++ NO16 t (es.map List.length).sum) ++ es.flatten

/-- The run `s` is stored into cell `j` of the array of a text of `n` bytes:
the test `index + length > length of the text` (a sum of two `uint32_t`) lets
it pass, `j` is one of its positions and lies in the array. -/
def run_stores (n j : Nat) (s : xim_wayland_styling_t) : Bool :=
  decide ((s.index + s.length) % 4294967296 ≤ n) && decide (s.index ≤ j)
    && decide (j < s.index + s.length) && decide (j < n)

/-- The events of a sequence of preedit_styling callbacks, each given by its
index, length and style. -/
def styling_events (cs : List (Nat × Nat × Nat)) : List wl_text_input_event_t :=
  cs.map (fun c => wl_text_input_event_t.preedit_styling c.1 c.2.1 c.2.2)

/-! ## Concrete inputs -/

/-- A little-endian transport (endian byte `l`). -/
def transport_l : xcb_xim_transport_t :=
  { client_window := 7, server_window := 8, endian := 108 }

/-- A server connection with the single client `transport_l` and nothing
sent yet. -/
def xim_l : xcb_xim_server_connection_t :=
  { atoms := [301, 302, 303, 304, 305, 306], clients := [transport_l], sent := [],
    serial := 0, round_trips := 0 }

/-- The context that `CREATE_IC` makes on `xim_l` for input method 1 with the
default attributes: its input style is `PREEDIT_CALLBACKS | STATUS_CALLBACKS`. -/
def ic_fresh : xim_wayland_input_context_t :=
  xim_wayland_input_context_new xim_l 1 1 0 1 1

/-- The 9 bytes of the three hiragana letters a, i, u in UTF-8. -/
def text_aiu : List Nat := [227, 129, 130, 227, 129, 132, 227, 129, 134]

/-- The 3 bytes of the kanji for love in UTF-8. -/
def text_ai : List Nat := [230, 132, 155]

/-- An `ENCODING_NEGOTIATION` request in little-endian order for input method
1: the encoding list `strs` of `n` bytes, `PAD (n)` bytes of padding and an
empty list of encoding infos. -/
def encoding_request (strs : List Nat) : List Nat :=
  [38, 0] ++ NO16 transport_l ((4 + strs.length + PAD strs.length + 4) / 4)
    ++ NO16 transport_l 1 ++ NO16 transport_l strs.length
    ++ strs ++ List.replicate (PAD strs.length) 0 ++ [0, 0, 0, 0]

/-- A length-prefixed STR. -/
def str_of (name : List Nat) : List Nat := name.length :: name

/-- The context `ic_fresh` after the callback preedit_string with the 9-byte
text `text_aiu`: it is ACTIVE with a stored preedit of 9 bytes. -/
def ic_active : xim_wayland_input_context_t :=
  (handle_wayland_preedit_string x_server_ok xim_l ic_fresh text_aiu).2

/-- A `PREEDIT_CARET_REPLY` request in little-endian order. -/
def caret_reply_request (input_method_id input_context_id position : Nat) : List Nat :=
  [77, 0] ++ NO16 transport_l 2 ++ NO16 transport_l input_method_id
    ++ NO16 transport_l input_context_id ++ NO32 transport_l position

/-- A session on `xim_l` with input method 1 holding the single context
`ic_active` (preedit of 9 bytes, caret 0). -/
def xw_active : xim_wayland_t :=
  { xim := xim_l, input_method_counter := 1,
    input_method_list :=
      [{ transport := 0, id := 1, input_context_counter := 1,
         specs := [], attrs := [], ic_specs := [],
         input_context_list := [ic_active] }] }

/-- The caret of the context a request names, after a handler ran. -/
def caret_after (r : xim_wayland_t × Bool) : Option Int :=
  (lookup_input_context r.1 0 1 1).map (fun ic => ic.preedit_caret)

/-- The context `ic_fresh` after the callback preedit_styling (0, 3,
HIGHLIGHT): one pending run. -/
def ic_styled : xim_wayland_input_context_t :=
  handle_wayland_preedit_styling wl_text_input_preedit_style ic_fresh 0 3
    wl_text_input_preedit_style.HIGHLIGHT

/-- The context `ic_fresh` after a `SET_IC_VALUES` that stored the input style
`PREEDIT_NOTHING | STATUS_NOTHING`: the bit `PREEDIT_CALLBACKS` is not set. -/
def ic_nothing : xim_wayland_input_context_t :=
  { ic_fresh with
    attrs := ic_fresh.attrs.set INPUT_STYLE
      (some (xcb_xim_attribute_card32_new transport_l 0
        (XCB_XIM_PREEDIT_NOTHING ||| XCB_XIM_STATUS_NOTHING))) }

/-- An `ENCODING_NEGOTIATION` request whose list is one STR of 255 bytes (the
letter A repeated). -/
def encoding_request_255 : List Nat :=
  encoding_request (str_of (List.replicate 255 65))

/-- The 20-byte frame of `PREEDIT_CARET` for input method 1, context 1. -/
def frame_caret_20 : frame_t :=
  xcb_xim_preedit_caret_frame transport_l 1 1 0 XCB_XIM_CARET_DIRECTION_ABSOLUTE_POSITION
    XCB_XIM_CARET_STYLE_PRIMARY

/-- A 64-byte frame of `GET_IM_VALUES_REPLY` for input method 1: one styles
attribute with 12 styles. -/
def frame_values_64 : frame_t :=
  xcb_xim_get_im_values_reply_frame transport_l 1
    [xcb_xim_attribute_styles_new transport_l QUERY_INPUT_STYLE 12
      [1, 2, 3, 4, 5, 6, 7, 8, 9, 10, 11, 12]]

/-- A big-endian transport: the client sent the byte order mark `B`. -/
def transport_B : xcb_xim_transport_t :=
  { client_window := 9, server_window := 10, endian := 66 }

/-- A `QUERY_EXTENSION` request of 12 bytes in little-endian order: length
field 2, list of 8 bytes announced, one STR with length byte 7. -/
def query_extension_request_12 : List Nat := [40, 0, 2, 0, 1, 0, 8, 0, 7, 97, 98, 99]

/-- An `ENCODING_NEGOTIATION` request of 12 bytes in little-endian order:
length field 2, list of 8 bytes announced, one STR with length byte 7. -/
def encoding_negotiation_request_12 : List Nat := [38, 0, 2, 0, 1, 0, 8, 0, 7, 97, 98, 99]

/-- A `SET_IM_VALUES` request of 12 bytes in little-endian order: length field
2, list of 8 bytes announced, one attribute header with value byte length 4. -/
def set_im_values_request_12 : List Nat := [42, 0, 2, 0, 1, 0, 8, 0, 0, 0, 4, 0]

/-- A `GET_IM_VALUES` request of 8 bytes in little-endian order: length field
1, list of 4 bytes announced, no byte after the fixed part. -/
def get_im_values_request_8 : List Nat := [44, 0, 1, 0, 1, 0, 4, 0]

/-- A `CREATE_IC` request of 12 bytes in little-endian order: length field 2,
list of 8 bytes announced, one attribute header with value byte length 4. -/
def create_ic_request_12 : List Nat := [50, 0, 2, 0, 1, 0, 8, 0, 0, 0, 4, 0]

/-- A `SET_IC_VALUES` request of 16 bytes in little-endian order: length field
3, list of 12 bytes announced, one attribute header with value byte length 8. -/
def set_ic_values_request_16 : List Nat :=
  [54, 0, 3, 0, 1, 0, 1, 0, 12, 0, 0, 0, 0, 0, 8, 0]

/-- A `GET_IC_VALUES` request of 12 bytes in little-endian order: length field
2, list of 8 bytes announced, one id after the 10 bytes of the fixed part. -/
def get_ic_values_request_12 : List Nat := [56, 0, 2, 0, 1, 0, 1, 0, 8, 0, 0, 0]

/-- A `SET_IC_VALUES`-like block in little-endian order: 8 bytes of fixed
part, then the attributes of `es`. -/
def attribute_request (es : List (List Nat)) : List Nat :=
  [42, 0, 0, 0, 1, 0, 0, 0] ++ (es.flatten ++ [])

/-- Three CARD32 attributes with the ids 0, 7 and 0 again. -/
def attributes_0_7_0 : List (List Nat) :=
  [xcb_xim_attribute_card32_new transport_l 0 1,
   xcb_xim_attribute_card32_new transport_l 7 9,
   xcb_xim_attribute_card32_new transport_l 0 2]

/-- The record that `init_im_attributes` stores in slot `QUERY_INPUT_STYLE` of
an input method on the little-endian transport: the three supported styles. -/
def im_styles_record : List Nat :=
  xcb_xim_attribute_styles_new transport_l QUERY_INPUT_STYLE 3
    [XCB_XIM_PREEDIT_CALLBACKS ||| XCB_XIM_STATUS_CALLBACKS,
     XCB_XIM_PREEDIT_CALLBACKS ||| XCB_XIM_STATUS_NOTHING,
     XCB_XIM_PREEDIT_NOTHING ||| XCB_XIM_STATUS_NOTHING]

/-- The state after `OPEN` on `xim_l`: input method 1 of client 0, with its
attribute table filled by `init_im_attributes`, no context yet. -/
def xw_opened : xim_wayland_t :=
  { xim := xim_l, input_method_counter := 1,
    input_method_list :=
      [{ transport := 0, id := 1, input_context_counter := 0,
         specs := [], attrs := [some im_styles_record], ic_specs := [],
         input_context_list := [] }] }

/-- The ids of a `GET_IM_VALUES` request with 32765 ids: the known id 0
followed by 32764 times the unknown id 257. -/
def ids_32765 : List Nat := 0 :: List.replicate 32764 257

/-- A compositor that hands out no object. -/
def wl_none : wl_proxies_t := { text_input := 0, surface := 0 }

/-- A compositor that hands out the text input 41 and the surface 42. -/
def wl_some : wl_proxies_t := { text_input := 41, surface := 42 }

/-- A `SYNC` request (opcode 61) of 8 bytes in little-endian order for input
method 1, context 1. -/
def sync_request : List Nat := [61, 0, 1, 0, 1, 0, 1, 0]

/-- A `CLOSE` frame of 4 bytes: length field 0, no byte after the header. -/
def close_request_4 : List Nat := [32, 0, 0, 0]

/-- A `PREEDIT_CARET_REPLY` frame of 4 bytes: length field 0. -/
def caret_reply_request_4 : List Nat := [77, 0, 0, 0]

/-- A server connection with two clients: `transport_l` and `transport_B`. -/
def xim_two : xcb_xim_server_connection_t :=
  { atoms := [301, 302, 303, 304, 305, 306], clients := [transport_l, transport_B],
    sent := [], serial := 0, round_trips := 0 }

/-- The input method 1 of client 0 on `xim_two`, made by
`xim_wayland_input_method_new`, with the context `ic_active`. -/
def xw_two : xim_wayland_t :=
  { xim := xim_two, input_method_counter := 1,
    input_method_list :=
      [{ xim_wayland_input_method_new xim_two 0 1 with
         input_context_counter := 1, input_context_list := [ic_active] }] }

/-- A client message of format 8 and type `_XIM_PROTOCOL` (atom 304 of
`xim_two`) on the server window `window`; `frame` is padded to the 20 bytes of
the data union. -/
def protocol_event (window : Nat) (frame : List Nat) : xcb_client_message_event_t :=
  { format := 8, window := window, type := 304, data8 := memcpy frame 20 }

/-- A `CONNECT` frame of 12 bytes with the byte order mark `order` and the
length field 2 stored in little-endian order. -/
def connect_frame (order : Nat) : List Nat := [1, 0, 2, 0, order, 0, 1, 0, 0, 0, 0, 0]

/-- The `CONNECT` frame of 12 bytes a big-endian client sends: byte order mark
`B`, the length field 2 and the major version 1 stored in big-endian order. -/
def connect_frame_B : List Nat := [1, 0, 0, 2, 66, 0, 0, 1, 0, 0, 0, 0]

/-- A `DISCONNECT` frame: 4 bytes, length field 0. -/
def disconnect_frame : List Nat := [3, 0, 0, 0]

/-- What `xcb_generate_id` and the uninitialised slot give for a new
transport. -/
def fresh_slot : xcb_xim_transport_t :=
  { client_window := 0, server_window := 99, endian := 0 }

/-- The generic event whose client-message view is `event`. -/
def client_message_event (event : xcb_client_message_event_t) : xcb_generic_event_t :=
  { response_type := XCB_CLIENT_MESSAGE,
    selection_request :=
      { time := 0, owner := 0, requestor := 0, selection := 0, target := 0, property := 0 },
    client_message := event }

/-- The attributes of a `CREATE_IC` request with 65532 bytes of attributes: the
input style `PREEDIT_NOTHING | STATUS_NOTHING` (id 0), then 16381 attributes
with the unknown id 7 and no value. -/
def attributes_65532 : List (List Nat) :=
  xcb_xim_attribute_card32_new transport_l 0 0x0408 :: List.replicate 16381 [7, 0, 0, 0]

/-- A `CREATE_IC` request for input method 1 that sets the input style to
`PREEDIT_NOTHING | STATUS_NOTHING` and the client window to 77. -/
def attributes_style_window : List (List Nat) :=
  [xcb_xim_attribute_card32_new transport_l 0 0x0408,
   xcb_xim_attribute_card32_new transport_l 2 77]

/-- Four preedit callbacks: an empty preedit string, the text `text_aiu`, an
empty preedit string again, and the commit of `text_ai`. -/
def events_empty_text_empty_commit : List wl_text_input_event_t :=
  [.preedit_string [], .preedit_string text_aiu, .preedit_string [], .commit_string text_ai]

/-- An `OPEN` request for the locale `ja_JP.UTF-8` in little-endian order. -/
def open_request : List Nat :=
  [30, 0, 3, 0, 11, 106, 97, 95, 74, 80, 46, 85, 84, 70, 45, 56]

/-- The request `open_request` of client 0, handled while the compositor hands
out nothing. -/
def open_by_client_0 : wl_proxies_t × xcb_xim_request_container_t :=
  (wl_none, { requestor := 0, request := open_request })

/-- The requests `OPEN`, `CREATE_IC` (input method 1), `CREATE_IC` (input
method 1), `DESTROY_IC` (input method 1, context 1), `OPEN`, `CLOSE` (input
method 1) of client 0 in little-endian order. -/
def lifecycle_requests : List (wl_proxies_t × xcb_xim_request_container_t) :=
  [open_by_client_0,
   (wl_some, { requestor := 0, request := create_ic_request transport_l 1 [] }),
   (wl_some, { requestor := 0, request := create_ic_request transport_l 1 [] }),
   (wl_some, { requestor := 0, request := [53, 0, 1, 0, 1, 0, 1, 0] }),
   open_by_client_0,
   (wl_some, { requestor := 0, request := [32, 0, 1, 0, 1, 0, 0, 0] })]

/-- A container of client 0 holding the one-byte request `[tag]`. -/
def container_of (tag : Nat) : xcb_xim_request_container_t :=
  { requestor := 0, request := [tag] }

/-- Nine calls: a poll of the empty queue, three requests queued at the
addresses 16, 32 and 48, two polls, a request whose `malloc` fails, a request
queued at the address 16 again (freed by the first successful poll), and three
polls. -/
def queue_calls : List queue_call_t :=
  [.poll, .queue 16 (container_of 1), .queue 32 (container_of 2), .queue 48 (container_of 3),
   .poll, .poll, .queue 0 (container_of 4), .queue 16 (container_of 5), .poll, .poll, .poll]

/-- The bytes of the locale `ja_JP.UTF-8`. -/
def locale_ja : List Nat := [106, 97, 95, 74, 80, 46, 85, 84, 70, 45, 56]

/-- The server connection `xim_two` with the locale `ja_JP.UTF-8`. -/
def xim_ja : xcb_xim_server_connection_t := { xim_two with locale := locale_ja }

/-- A selection request of the window 7 for the selection 310 with the given
target, to be answered in the property 320. -/
def selection_request (target : Nat) : xcb_selection_request_event_t :=
  { time := 5, owner := 8, requestor := 7, selection := 310, target := target,
    property := 320 }

/-- The generic event whose selection-request view is `event`. -/
def selection_request_event (event : xcb_selection_request_event_t) : xcb_generic_event_t :=
  { response_type := XCB_SELECTION_REQUEST, selection_request := event,
    client_message := { format := 8, window := 0, type := 0, data8 := [] } }

/-- An attribute with id 0 whose value is 65528 bytes 1, in little-endian
order: 65532 bytes with its header, no padding. -/
def attribute_65528 : List Nat :=
  [0, 0] ++ (NO16 transport_l 65528 ++ List.replicate 65528 1)

/-- An attribute with id 0 whose value is the 5 bytes 1, 2, 3, 4, 5 (3 bytes
of padding) in the byte order of `t`. -/
def attribute_5 (t : xcb_xim_transport_t) : List Nat :=
  NO16 t 0 ++ NO16 t 5 ++ [1, 2, 3, 4, 5, 0, 0, 0]

/-- The state after `OPEN` on a connection whose single client is
`transport_B`: input method 1 of client 0. -/
def xw_opened_B : xim_wayland_t :=
  { xim := { xim_l with clients := [transport_B] }, input_method_counter := 1,
    input_method_list := [xim_wayland_input_method_new { xim_l with clients := [transport_B] } 0 1] }

/-- The state after the `CREATE_IC` request with an empty attribute list for
input method 1 on `xw_opened`: context 1 with the attributes of
`init_ic_attributes`. -/
def xw_created : xim_wayland_t :=
  ((handle_xim_create_ic_request 1 x_server_ok wl_some xw_opened
    (create_ic_request transport_l 1 []) 0).map Prod.fst).getD xw_opened

/-- A `GET_IC_VALUES` request of 12 bytes in little-endian order for input
method 1, context 1: the 10 bytes of the fixed part (length field 2, 2 bytes of
ids announced) and one attribute id. -/
def get_ic_values_request (attribute_id : Nat) : List Nat :=
  [56, 0, 2, 0, 1, 0, 1, 0, 2, 0] ++ NO16 transport_l attribute_id

/-- Three preedit_styling callbacks on a 9-byte text: underline on the bytes
0 to 5, highlight on the bytes 3 to 8, and a selection, which adds no run. -/
def stylings_a : List (Nat × Nat × Nat) := [(0, 6, 5), (3, 6, 4), (0, 9, 6)]

/-- The callbacks of `stylings_a` in another order. -/
def stylings_b : List (Nat × Nat × Nat) := [(0, 9, 6), (3, 6, 4), (0, 6, 5)]

/-! ## Theorems -/

/-! ### The feedback array and `write_data` -/

theorem getD_set_or (l : List Nat) (k v j : Nat) (hk : k < l.length) :
    (l.set k v).getD j 0 = if j = k then v else l.getD j 0 := by
  simp only [List.getD_eq_getElem?_getD, List.getElem?_set]
  by_cases h : k = j
  · subst h; simp [hk]
  · have h' : ¬ j = k := fun e => h e.symm
    simp [h, h']

theorem feedbacks_or_inside (b : feedbacks_t) (k f : Nat) (hk : k < b.cells.length) :
    (feedbacks_or b k f).cells.length = b.cells.length ∧
    (feedbacks_or b k f).outside = b.outside ∧
    ∀ j, (feedbacks_or b k f).cells.getD j 0
      = if j = k then b.cells.getD j 0 ||| f else b.cells.getD j 0 := by
  refine ⟨?_, ?_, ?_⟩
  · simp [feedbacks_or, hk]
  · simp [feedbacks_or, hk]
  · intro j
    simp only [feedbacks_or, hk, if_true]
    rw [getD_set_or _ _ _ _ hk]
    by_cases h : j = k
    · subst h; simp
    · simp [h]

theorem styling_fill_inside (index f : Nat) :
    ∀ (n i : Nat) (b : feedbacks_t), index + i + n ≤ b.cells.length →
      (styling_fill index f n i b).cells.length = b.cells.length ∧
      (styling_fill index f n i b).outside = b.outside ∧
      ∀ j, (styling_fill index f n i b).cells.getD j 0
        = if index + i ≤ j ∧ j < index + i + n then b.cells.getD j 0 ||| f
          else b.cells.getD j 0 := by
  intro n
  induction n with
  | zero =>
    intro i b _
    refine ⟨rfl, rfl, ?_⟩
    intro j
    have : ¬ (index + i ≤ j ∧ j < index + i + 0) := by omega
    simp only [styling_fill]
    rw [if_neg this]
  | succ n ih =>
    intro i b hb
    have hk : i + index < b.cells.length := by omega
    obtain ⟨hlen, hout, hget⟩ := feedbacks_or_inside b (i + index) f hk
    have hb1 : index + (i + 1) + n ≤ (feedbacks_or b (i + index) f).cells.length := by
      rw [hlen]; omega
    obtain ⟨ilen, iout, iget⟩ := ih (i + 1) (feedbacks_or b (i + index) f) hb1
    refine ⟨?_, ?_, ?_⟩
    · simp only [styling_fill]; rw [ilen, hlen]
    · simp only [styling_fill]; rw [iout, hout]
    · intro j
      simp only [styling_fill]
      rw [iget j, hget j]
      by_cases h1 : j = i + index
      · have c1 : ¬ (index + (i + 1) ≤ j ∧ j < index + (i + 1) + n) := by omega
        have c2 : index + i ≤ j ∧ j < index + i + (n + 1) := by omega
        rw [if_neg c1, if_pos h1, if_pos c2]
      · by_cases h2 : index + (i + 1) ≤ j ∧ j < index + (i + 1) + n
        · have c2 : index + i ≤ j ∧ j < index + i + (n + 1) := by omega
          rw [if_pos h2, if_neg h1, if_pos c2]
        · have c2 : ¬ (index + i ≤ j ∧ j < index + i + (n + 1)) := by omega
          rw [if_neg h2, if_neg h1, if_neg c2]

theorem styling_apply_inside (n : Nat) (b : feedbacks_t) (s : xim_wayland_styling_t)
    (hs : s.index + s.length < 4294967296) (hb : b.cells.length = n) :
    (styling_apply n b s).cells.length = n ∧
    (styling_apply n b s).outside = b.outside ∧
    ∀ j, (styling_apply n b s).cells.getD j 0
      = if run_covers n j s = true then b.cells.getD j 0 ||| s.feedback
        else b.cells.getD j 0 := by
  have hmod : (s.index + s.length) % 4294967296 = s.index + s.length := Nat.mod_eq_of_lt hs
  by_cases hgt : s.index + s.length > n
  · have hc : ∀ j, ¬ (run_covers n j s = true) := by
      intro j
      simp only [run_covers, Bool.and_eq_true, decide_eq_true_eq]
      omega
    refine ⟨?_, ?_, ?_⟩
    · simp only [styling_apply, hmod, hgt, if_true]; exact hb
    · simp only [styling_apply, hmod, hgt, if_true]
    · intro j
      simp only [styling_apply, hmod, hgt, if_true]
      rw [if_neg (hc j)]
  · have hle : s.index + 0 + s.length ≤ b.cells.length := by omega
    obtain ⟨hlen, hout, hget⟩ := styling_fill_inside s.index s.feedback s.length 0 b hle
    refine ⟨?_, ?_, ?_⟩
    · simp only [styling_apply, hmod, hgt, if_false]; rw [hlen]; exact hb
    · simp only [styling_apply, hmod, hgt, if_false]; exact hout
    · intro j
      simp only [styling_apply, hmod, hgt, if_false]
      rw [hget j]
      by_cases hc : run_covers n j s = true
      · have hc' := hc
        simp only [run_covers, Bool.and_eq_true, decide_eq_true_eq] at hc'
        have c : s.index + 0 ≤ j ∧ j < s.index + 0 + s.length := by omega
        rw [if_pos c, if_pos hc]
      · have hc' := hc
        simp only [run_covers, Bool.and_eq_true, decide_eq_true_eq] at hc'
        have c : ¬ (s.index + 0 ≤ j ∧ j < s.index + 0 + s.length) := by omega
        rw [if_neg c, if_neg hc]

theorem foldl_styling_apply (n : Nat) :
    ∀ (l : List xim_wayland_styling_t) (b : feedbacks_t),
      (∀ s ∈ l, s.index + s.length < 4294967296) → b.cells.length = n →
      (l.foldl (styling_apply n) b).cells.length = n ∧
      (l.foldl (styling_apply n) b).outside = b.outside ∧
      ∀ j, (l.foldl (styling_apply n) b).cells.getD j 0
        = ((l.filter (run_covers n j)).map (fun s => s.feedback)).foldl (fun a f => a ||| f)
            (b.cells.getD j 0) := by
  intro l
  induction l with
  | nil => intro b _ hb; exact ⟨hb, rfl, fun j => rfl⟩
  | cons s l ih =>
    intro b hl hb
    have hs : s.index + s.length < 4294967296 := hl s (List.mem_cons_self s l)
    have hl' : ∀ s' ∈ l, s'.index + s'.length < 4294967296 :=
      fun s' h' => hl s' (List.mem_cons_of_mem s h')
    obtain ⟨alen, aout, aget⟩ := styling_apply_inside n b s hs hb
    obtain ⟨ilen, iout, iget⟩ := ih (styling_apply n b s) hl' alen
    refine ⟨?_, ?_, ?_⟩
    · simpa only [List.foldl_cons] using ilen
    · simp only [List.foldl_cons]; rw [iout, aout]
    · intro j
      simp only [List.foldl_cons]
      rw [iget j, aget j]
      by_cases hc : run_covers n j s = true
      · rw [if_pos hc, List.filter_cons_of_pos hc]
        simp only [List.map_cons, List.foldl_cons]
      · rw [if_neg hc, List.filter_cons_of_neg hc]

theorem preedit_feedbacks_spec (n : Nat) (l : List xim_wayland_styling_t)
    (hl : ∀ s ∈ l, s.index + s.length < 4294967296) :
    (preedit_feedbacks n l).cells.length = n ∧
    (preedit_feedbacks n l).outside = [] ∧
    ∀ j, j < n → (preedit_feedbacks n l).cells.getD j 0 = feedback_spec n l j := by
  obtain ⟨hlen, hout, hget⟩ :=
    foldl_styling_apply n l { cells := List.replicate n 0, outside := [] } hl
      (List.length_replicate n 0)
  refine ⟨hlen, hout, ?_⟩
  intro j hj
  have h0 : (List.replicate n 0).getD j 0 = 0 := by
    simp [List.getD_eq_getElem?_getD, List.getElem?_replicate, hj]
  simp only [preedit_feedbacks, feedback_spec]
  rw [hget j, h0]

theorem write_data_answered (x : x_server_t) (hx : x_server_answers x)
    (xim : xcb_xim_server_connection_t) (client : xcb_xim_transport_t) (length : Nat)
    (data : List Nat) :
    (write_data x xim client length data).2 = true ∧
    frames_sent (write_data x xim client length data).1
      = frames_sent xim ++ [memcpy data length] ∧
    (write_data x xim client length data).1.clients = xim.clients := by
  unfold write_data
  by_cases h : length > 20
  · obtain ⟨a, ha⟩ := Option.isSome_iff_exists.mp (hx xim.round_trips).1
    have hg := (hx (xim.round_trips + 1)).2
    simp [h, ha, hg, frames_sent]
  · simp [h, frames_sent]

theorem send_frame_answered (x : x_server_t) (hx : x_server_answers x)
    (xim : xcb_xim_server_connection_t) (t : xcb_xim_transport_t) (f : frame_t) :
    (send_frame x xim t f).2 = true ∧
    frames_sent (send_frame x xim t f).1 = frames_sent xim ++ [f.payload] ∧
    (send_frame x xim t f).1.clients = xim.clients :=
  write_data_answered x hx xim t f.length f.bytes

/-! ### The two branches of `update_preedit_string` -/

/-- The non-empty branch of `update_preedit_string` when every send succeeds:
it returns true, marks the context started, stores the text and its length
(as `uint16_t`), leaves the pending styling list as it was, and sends
PREEDIT_START (when the context was not started) and PREEDIT_DRAW. -/
theorem update_preedit_string_nonempty (x : x_server_t) (hx : x_server_answers x)
    (xim : xcb_xim_server_connection_t) (ic : xim_wayland_input_context_t)
    (text : List Nat) (htext : byte_at text 0 ≠ 0) :
    (update_preedit_string x xim ic text).ok = true ∧
    (update_preedit_string x xim ic text).ic
      = { ic with preedit_started := true,
                  preedit_string := some (memcpy text (strlen text)),
                  preedit_length := strlen text % 65536 } ∧
    (update_preedit_string x xim ic text).xim.clients = xim.clients ∧
    frames_sent (update_preedit_string x xim ic text).xim
      = frames_sent xim
        ++ (if ic.preedit_started = true then []
            else [(xcb_xim_preedit_start_frame (transport_at xim ic.input_method_transport)
                    ic.input_method_id ic.id).payload])
        ++ [(xcb_xim_preedit_draw_frame (transport_at xim ic.input_method_transport)
              ic.input_method_id ic.id (strlen text) 0 ic.preedit_length 0 (strlen text)
              text (strlen text)
              (preedit_feedbacks (strlen text) ic.preedit_styling_list).cells).payload] := by
  unfold update_preedit_string
  rw [if_neg htext]
  cases hst : ic.preedit_started with
  | true =>
    rw [if_neg (by decide), if_pos rfl]
    dsimp only
    obtain ⟨hok, hfr, hcl⟩ := send_frame_answered x hx xim
      (transport_at xim ic.input_method_transport)
      (xcb_xim_preedit_draw_frame (transport_at xim ic.input_method_transport)
        ic.input_method_id ic.id (strlen text) 0 ic.preedit_length 0 (strlen text)
        text (strlen text) (preedit_feedbacks (strlen text) ic.preedit_styling_list).cells)
    unfold xcb_xim_preedit_draw
    rcases hd : send_frame x xim (transport_at xim ic.input_method_transport)
      (xcb_xim_preedit_draw_frame (transport_at xim ic.input_method_transport)
        ic.input_method_id ic.id (strlen text) 0 ic.preedit_length 0 (strlen text)
        text (strlen text) (preedit_feedbacks (strlen text) ic.preedit_styling_list).cells)
      with ⟨xim2, ok⟩
    rw [hd] at hok hfr hcl
    dsimp only at hok hfr hcl
    subst hok
    dsimp only
    refine ⟨rfl, ?_, hcl, ?_⟩
    · rw [hst]
    · rw [hfr, List.append_nil]
  | false =>
    rw [if_pos (by decide), if_neg (by decide)]
    obtain ⟨sok, sfr, scl⟩ := send_frame_answered x hx xim
      (transport_at xim ic.input_method_transport)
      (xcb_xim_preedit_start_frame (transport_at xim ic.input_method_transport)
        ic.input_method_id ic.id)
    unfold xcb_xim_preedit_start
    rcases hs : send_frame x xim (transport_at xim ic.input_method_transport)
      (xcb_xim_preedit_start_frame (transport_at xim ic.input_method_transport)
        ic.input_method_id ic.id) with ⟨xim1, ok1⟩
    rw [hs] at sok sfr scl
    dsimp only at sok sfr scl
    subst sok
    dsimp only
    obtain ⟨hok, hfr, hcl⟩ := send_frame_answered x hx xim1
      (transport_at xim ic.input_method_transport)
      (xcb_xim_preedit_draw_frame (transport_at xim ic.input_method_transport)
        ic.input_method_id ic.id (strlen text) 0 ic.preedit_length 0 (strlen text)
        text (strlen text) (preedit_feedbacks (strlen text) ic.preedit_styling_list).cells)
    unfold xcb_xim_preedit_draw
    rcases hd : send_frame x xim1 (transport_at xim ic.input_method_transport)
      (xcb_xim_preedit_draw_frame (transport_at xim ic.input_method_transport)
        ic.input_method_id ic.id (strlen text) 0 ic.preedit_length 0 (strlen text)
        text (strlen text) (preedit_feedbacks (strlen text) ic.preedit_styling_list).cells)
      with ⟨xim2, ok⟩
    rw [hd] at hok hfr hcl
    dsimp only at hok hfr hcl
    subst hok
    dsimp only
    refine ⟨rfl, rfl, ?_, ?_⟩
    · rw [hcl, scl]
    · rw [hfr, sfr]

/-- The empty branch of `update_preedit_string` when every send succeeds: it
returns true, clears the string, the length and the pending styling list,
keeps `preedit_started` as it was, and sends PREEDIT_DRAW followed by
PREEDIT_DONE exactly when the context was not started. -/
theorem update_preedit_string_empty (x : x_server_t) (hx : x_server_answers x)
    (xim : xcb_xim_server_connection_t) (ic : xim_wayland_input_context_t)
    (text : List Nat) (htext : byte_at text 0 = 0) :
    (update_preedit_string x xim ic text).ok = true ∧
    (update_preedit_string x xim ic text).ic = reset_preedit ic ∧
    (update_preedit_string x xim ic text).xim.clients = xim.clients ∧
    frames_sent (update_preedit_string x xim ic text).xim
      = frames_sent xim
        ++ [(xcb_xim_preedit_draw_frame (transport_at xim ic.input_method_transport)
              ic.input_method_id ic.id (strlen text) 0 ic.preedit_length 0 (strlen text)
              text 0 []).payload]
        ++ (if ic.preedit_started = true then []
            else [(xcb_xim_preedit_done_frame (transport_at xim ic.input_method_transport)
                    ic.input_method_id ic.id).payload]) := by
  unfold update_preedit_string
  rw [if_pos htext]
  obtain ⟨hok, hfr, hcl⟩ := send_frame_answered x hx xim
    (transport_at xim ic.input_method_transport)
    (xcb_xim_preedit_draw_frame (transport_at xim ic.input_method_transport)
      ic.input_method_id ic.id (strlen text) 0 ic.preedit_length 0 (strlen text)
      text 0 [])
  unfold xcb_xim_preedit_draw
  rcases hd : send_frame x xim (transport_at xim ic.input_method_transport)
    (xcb_xim_preedit_draw_frame (transport_at xim ic.input_method_transport)
      ic.input_method_id ic.id (strlen text) 0 ic.preedit_length 0 (strlen text)
      text 0 []) with ⟨xim1, ok⟩
  rw [hd] at hok hfr hcl
  dsimp only at hok hfr hcl
  subst hok
  dsimp only
  cases hst : ic.preedit_started with
  | true =>
    rw [if_neg (by decide), if_pos rfl]
    exact ⟨rfl, rfl, hcl, by rw [hfr, List.append_nil]⟩
  | false =>
    rw [if_pos (by decide), if_neg (by decide)]
    obtain ⟨dok, dfr, dcl⟩ := send_frame_answered x hx xim1
      (transport_at xim ic.input_method_transport)
      (xcb_xim_preedit_done_frame (transport_at xim ic.input_method_transport)
        ic.input_method_id ic.id)
    unfold xcb_xim_preedit_done
    rcases hs : send_frame x xim1 (transport_at xim ic.input_method_transport)
      (xcb_xim_preedit_done_frame (transport_at xim ic.input_method_transport)
        ic.input_method_id ic.id) with ⟨xim2, ok2⟩
    rw [hs] at dok dfr dcl
    dsimp only at dok dfr dcl
    subst dok
    dsimp only
    refine ⟨rfl, ?_, ?_, ?_⟩
    · rw [← hst]
    · rw [dcl, hcl]
    · rw [dfr, hfr]

/-! ### Frames: lengths and length fields -/

theorem PAD_add_mod (n : Nat) : (n + PAD n) % 4 = 0 := by
  unfold PAD; omega

theorem PAD_le (n : Nat) : PAD n ≤ 3 := by
  unfold PAD; omega

theorem NO16_length (t : xcb_xim_transport_t) (n : Nat) : (NO16 t n).length = 2 := by
  unfold NO16; split <;> rfl

theorem NO32_length (t : xcb_xim_transport_t) (n : Nat) : (NO32 t n).length = 4 := by
  unfold NO32; split <;> rfl

theorem NO32i_length (t : xcb_xim_transport_t) (z : Int) : (NO32i t z).length = 4 :=
  NO32_length t _

theorem memcpy_length (s : List Nat) (n : Nat) : (memcpy s n).length = n := by
  simp [memcpy]

theorem byte_at_memcpy (s : List Nat) (n k : Nat) (h : k < n) :
    byte_at (memcpy s n) k = byte_at s k := by
  simp [memcpy, byte_at, List.getD_eq_getElem?_getD, List.getElem?_map, List.getElem?_range h]

theorem field16_memcpy (t : xcb_xim_transport_t) (s : List Nat) (n off : Nat)
    (h : off + 1 < n) : field16 t (memcpy s n) off = field16 t s off := by
  unfold field16
  rw [byte_at_memcpy s n off (by omega), byte_at_memcpy s n (off + 1) h]

theorem field16_header (t : xcb_xim_transport_t) (a b v : Nat) (rest : List Nat) :
    field16 t (a :: b :: (NO16 t v ++ rest)) 2 = v % 65536 := by
  unfold field16 HO16 NO16 byte_at
  split
  · simp; omega
  · simp; omega

theorem frame_well_formed_of (t : xcb_xim_transport_t) (f : frame_t) (a b v : Nat)
    (rest : List Nat) (hb : f.bytes = a :: b :: (NO16 t v ++ rest))
    (h4 : f.length % 4 = 0) (hge : 4 ≤ f.length)
    (hv : v % 65536 = (f.length - 4) / 4) : frame_well_formed t f := by
  unfold frame_well_formed frame_t.payload
  rw [memcpy_length, field16_memcpy t f.bytes f.length 2 (by omega), hb, field16_header]
  exact ⟨h4, hv⟩

theorem frame_8_well_formed (t : xcb_xim_transport_t) (opcode a b : Nat) :
    frame_well_formed t (frame_8 t opcode a b) :=
  frame_well_formed_of t _ (opcode % 256) 0 ((8 - 4) / 4) (NO16 t a ++ NO16 t b)
    (by simp [frame_8]) (by simp [frame_8]) (by simp [frame_8]) (by simp [frame_8])

theorem foldl_sum16 (size : List Nat → Nat) :
    ∀ (records : List (List Nat)) (acc : Nat),
      records.foldl (fun acc e => (acc + size e) % 65536) acc % 65536
        = (acc + records_size size records) % 65536 := by
  intro records
  induction records with
  | nil => intro acc; simp [records_size]
  | cons e l ih =>
    intro acc
    simp only [List.foldl_cons]
    rw [ih]
    simp only [records_size, List.map_cons, List.sum_cons]
    omega

theorem foldl_sum16_lt (size : List Nat → Nat) :
    ∀ (records : List (List Nat)) (acc : Nat), acc < 65536 →
      records.foldl (fun acc e => (acc + size e) % 65536) acc < 65536 := by
  intro records
  induction records with
  | nil => intro acc h; exact h
  | cons e l ih =>
    intro acc _
    simp only [List.foldl_cons]
    exact ih _ (Nat.mod_lt _ (by decide))

theorem sum16_lt (size : List Nat → Nat) (records : List (List Nat)) :
    sum16 size records < 65536 :=
  foldl_sum16_lt size records 0 (by decide)

theorem sum16_eq (size : List Nat → Nat) (records : List (List Nat))
    (h : records_size size records < 65536) :
    sum16 size records = records_size size records := by
  have h1 := foldl_sum16 size records 0
  have h2 := sum16_lt size records
  unfold sum16 at h2 ⊢
  omega

theorem copy_records_length (size : List Nat → Nat) (records : List (List Nat)) :
    (copy_records size records).length = records_size size records := by
  induction records with
  | nil => rfl
  | cons e l ih =>
    simp only [copy_records, List.flatMap_cons, List.length_append, memcpy_length,
      records_size, List.map_cons, List.sum_cons] at ih ⊢
    rw [ih]

theorem records_size_mod (size : List Nat → Nat) (hsize : ∀ e, size e % 4 = 0)
    (records : List (List Nat)) : records_size size records % 4 = 0 := by
  induction records with
  | nil => rfl
  | cons e l ih =>
    simp only [records_size, List.map_cons, List.sum_cons] at ih ⊢
    have := hsize e
    omega

theorem attribute_byte_length_mod (t : xcb_xim_transport_t) (e : List Nat) :
    attribute_byte_length t e % 4 = 0 := by
  unfold attribute_byte_length PAD; omega

theorem spec_length_mod (t : xcb_xim_transport_t) (e : List Nat) :
    spec_length t e % 4 = 0 := by
  unfold spec_length PAD; omega

theorem extension_byte_length_mod (t : xcb_xim_transport_t) (e : List Nat) :
    extension_byte_length t e % 4 = 0 := by
  unfold extension_byte_length PAD; omega

theorem get_im_values_reply_well_formed (t : xcb_xim_transport_t) (input_method_id : Nat)
    (attributes : List (List Nat))
    (h : records_size (attribute_byte_length t) attributes < 65536) :
    frame_well_formed t (xcb_xim_get_im_values_reply_frame t input_method_id attributes) := by
  have hs := sum16_eq _ _ h
  have hm := records_size_mod _ (attribute_byte_length_mod t) attributes
  have hl := copy_records_length (attribute_byte_length t) attributes
  refine frame_well_formed_of t _ 45 0
    ((4 + 4 + sum16 (attribute_byte_length t) attributes - 4) / 4)
    (NO16 t input_method_id ++ (NO16 t (sum16 (attribute_byte_length t) attributes)
      ++ copy_records (attribute_byte_length t) attributes)) ?_ ?_ ?_ ?_
  · simp [xcb_xim_get_im_values_reply_frame, List.append_assoc]
  · simp only [xcb_xim_get_im_values_reply_frame, List.length_append, List.length_cons,
      List.length_nil, NO16_length, hl]
    omega
  · simp only [xcb_xim_get_im_values_reply_frame, List.length_append, List.length_cons,
      List.length_nil, NO16_length, hl]
    omega
  · simp only [xcb_xim_get_im_values_reply_frame, List.length_append, List.length_cons,
      List.length_nil, NO16_length, hl, hs]
    omega

theorem flatMap_NO32_length (t : xcb_xim_transport_t) (g : Nat → Nat) (l : List Nat) :
    (l.flatMap (fun i => NO32 t (g i))).length = 4 * l.length := by
  induction l with
  | nil => rfl
  | cons a l ih =>
    simp only [List.flatMap_cons, List.length_append, NO32_length, List.length_cons, ih]
    omega

theorem connect_reply_well_formed (t : xcb_xim_transport_t) (major minor : Nat) :
    frame_well_formed t (xcb_xim_connect_reply_frame t major minor) :=
  frame_8_well_formed t 2 major minor

theorem disconnect_reply_well_formed (t : xcb_xim_transport_t) :
    frame_well_formed t (xcb_xim_disconnect_reply_frame t) :=
  frame_well_formed_of t _ 4 0 ((4 - 4) / 4) []
    (by simp [xcb_xim_disconnect_reply_frame]) (by simp [xcb_xim_disconnect_reply_frame])
    (by simp [xcb_xim_disconnect_reply_frame]) (by simp [xcb_xim_disconnect_reply_frame])

theorem open_reply_well_formed (t : xcb_xim_transport_t) (input_method_id : Nat)
    (im_attrs ic_attrs : List (List Nat))
    (him : records_size (spec_length t) im_attrs < 65536)
    (hic : records_size (spec_length t) ic_attrs < 65536) :
    frame_well_formed t (xcb_xim_open_reply_frame t input_method_id im_attrs ic_attrs) := by
  have hs1 := sum16_eq _ _ him
  have hs2 := sum16_eq _ _ hic
  have hm1 := records_size_mod _ (spec_length_mod t) im_attrs
  have hm2 := records_size_mod _ (spec_length_mod t) ic_attrs
  refine frame_well_formed_of t _ 31 0
    ((4 + 4 + sum16 (spec_length t) im_attrs + 4 + sum16 (spec_length t) ic_attrs - 4) / 4)
    (NO16 t input_method_id ++ (NO16 t (sum16 (spec_length t) im_attrs)
      ++ (copy_records (spec_length t) im_attrs
      ++ (NO16 t (sum16 (spec_length t) ic_attrs) ++ (NO16 t 0
      ++ copy_records (spec_length t) ic_attrs))))) ?_ ?_ ?_ ?_
  · simp [xcb_xim_open_reply_frame, List.append_assoc]
  · simp only [xcb_xim_open_reply_frame, hs1, hs2]
    omega
  · simp only [xcb_xim_open_reply_frame]
    omega
  · simp only [xcb_xim_open_reply_frame, hs1, hs2]
    omega

theorem close_reply_well_formed (t : xcb_xim_transport_t) (input_method_id : Nat) :
    frame_well_formed t (xcb_xim_close_reply_frame t input_method_id) :=
  frame_8_well_formed t 33 input_method_id 0

theorem query_extension_reply_well_formed (t : xcb_xim_transport_t) (input_method_id : Nat)
    (extensions : List (List Nat))
    (h : records_size (extension_byte_length t) extensions < 65536) :
    frame_well_formed t
      (xcb_xim_query_extension_reply_frame t input_method_id extensions) := by
  have hs := sum16_eq _ _ h
  have hm := records_size_mod _ (extension_byte_length_mod t) extensions
  have hl := copy_records_length (extension_byte_length t) extensions
  refine frame_well_formed_of t _ 41 0
    ((4 + 4 + sum16 (extension_byte_length t) extensions - 4) / 4)
    (NO16 t input_method_id ++ (NO16 t (sum16 (extension_byte_length t) extensions)
      ++ copy_records (extension_byte_length t) extensions)) ?_ ?_ ?_ ?_
  · simp [xcb_xim_query_extension_reply_frame, List.append_assoc]
  · simp only [xcb_xim_query_extension_reply_frame, List.length_append, List.length_cons,
      List.length_nil, NO16_length, hl]
    omega
  · simp only [xcb_xim_query_extension_reply_frame, List.length_append, List.length_cons,
      List.length_nil, NO16_length, hl]
    omega
  · simp only [xcb_xim_query_extension_reply_frame, List.length_append, List.length_cons,
      List.length_nil, NO16_length, hl, hs]
    omega

theorem encoding_negotiation_reply_well_formed (t : xcb_xim_transport_t)
    (input_method_id category index : Nat) :
    frame_well_formed t
      (xcb_xim_encoding_negotiation_reply_frame t input_method_id category index) :=
  frame_well_formed_of t _ 39 0 ((12 - 4) / 4)
    (NO16 t input_method_id ++ (NO16 t category ++ (NO16 t index ++ NO16 t 0)))
    (by simp [xcb_xim_encoding_negotiation_reply_frame, List.append_assoc])
    (by simp [xcb_xim_encoding_negotiation_reply_frame])
    (by simp [xcb_xim_encoding_negotiation_reply_frame])
    (by simp [xcb_xim_encoding_negotiation_reply_frame])

theorem preedit_caret_well_formed (t : xcb_xim_transport_t)
    (input_method_id input_context_id : Nat) (position : Int) (direction style : Nat) :
    frame_well_formed t
      (xcb_xim_preedit_caret_frame t input_method_id input_context_id position direction
        style) :=
  frame_well_formed_of t _ 76 0 ((20 - 4) / 4)
    (NO16 t input_method_id ++ (NO16 t input_context_id ++ (NO32i t position
      ++ (NO32 t direction ++ NO32 t style))))
    (by simp [xcb_xim_preedit_caret_frame, List.append_assoc])
    (by simp [xcb_xim_preedit_caret_frame])
    (by simp [xcb_xim_preedit_caret_frame])
    (by simp [xcb_xim_preedit_caret_frame])

theorem preedit_draw_well_formed (t : xcb_xim_transport_t)
    (input_method_id input_context_id : Nat) (caret change_first change_length : Int)
    (status preedit_length : Nat) (preedit : List Nat) (feedbacks_length : Nat)
    (feedbacks : List Nat)
    (hfit : (26 + preedit_length % 65536 + PAD (2 + preedit_length % 65536)
              + 4 * (feedbacks_length % 65536)) / 4 < 65536) :
    frame_well_formed t
      (xcb_xim_preedit_draw_frame t input_method_id input_context_id caret change_first
        change_length status preedit_length preedit feedbacks_length feedbacks) := by
  have hp := PAD_add_mod (2 + preedit_length % 65536)
  have hfl := flatMap_NO32_length t (fun i => feedbacks.getD i 0)
    (List.range (feedbacks_length % 65536))
  rw [List.length_range] at hfl
  have hb : (xcb_xim_preedit_draw_frame t input_method_id input_context_id caret
      change_first change_length status preedit_length preedit feedbacks_length
      feedbacks).bytes = 75 :: 0 :: (NO16 t
        ((4 + 26 + preedit_length % 65536 + PAD (2 + preedit_length % 65536)
          + 4 * (feedbacks_length % 65536) - 4) / 4)
      ++ (NO16 t input_method_id ++ (NO16 t input_context_id ++ (NO32i t caret
      ++ (NO32i t change_first ++ (NO32i t change_length ++ (NO32 t status
      ++ (NO16 t (preedit_length % 65536) ++ (memcpy preedit (preedit_length % 65536)
      ++ (List.replicate (PAD (2 + preedit_length % 65536)) 0
      ++ (NO16 t (feedbacks_length % 65536) ++ (NO16 t 0
      ++ (List.range (feedbacks_length % 65536)).flatMap
          (fun i => NO32 t (feedbacks.getD i 0)))))))))))))) := by
    simp [xcb_xim_preedit_draw_frame, List.append_assoc]
  have hlen : (xcb_xim_preedit_draw_frame t input_method_id input_context_id caret
      change_first change_length status preedit_length preedit feedbacks_length
      feedbacks).length = 30 + preedit_length % 65536 + PAD (2 + preedit_length % 65536)
        + 4 * (feedbacks_length % 65536) := by
    simp only [xcb_xim_preedit_draw_frame, List.length_append, List.length_cons,
      List.length_nil, NO16_length, NO32_length, NO32i_length, memcpy_length,
      List.length_replicate, hfl]
    omega
  exact frame_well_formed_of t _ 75 0 _ _ hb (by rw [hlen]; omega) (by rw [hlen]; omega)
    (by rw [hlen]; omega)

theorem commit_well_formed (t : xcb_xim_transport_t)
    (input_method_id input_context_id flag keysym string_length : Nat) (string : List Nat) :
    frame_well_formed t
      (xcb_xim_commit_frame t input_method_id input_context_id flag keysym string_length
        string) := by
  have hlt : string_length % 65536 < 65536 := Nat.mod_lt _ (by decide)
  unfold xcb_xim_commit_frame
  dsimp only
  by_cases h2 : flag % 65536 &&& 2 ≠ 0
  · by_cases h4 : flag % 65536 &&& 4 ≠ 0
    · simp only [if_pos h2, if_pos h4]
      have hp := PAD_add_mod (10 + 6 + (2 + string_length % 65536))
      have hq := PAD_le (10 + 6 + (2 + string_length % 65536))
      exact frame_well_formed_of t _ 63 0
        ((10 + 6 + (2 + string_length % 65536)
          + PAD (10 + 6 + (2 + string_length % 65536)) - 4) / 4)
        (NO16 t input_method_id ++ (NO16 t input_context_id ++ (NO16 t (flag % 65536)
          ++ ((NO16 t 0 ++ NO32 t keysym)
          ++ (NO16 t (string_length % 65536) ++ memcpy string (string_length % 65536))))))
        (by simp [List.append_assoc]) (by dsimp only; omega) (by dsimp only; omega)
        (by dsimp only; omega)
    · simp only [if_pos h2, if_neg h4]
      exact frame_well_formed_of t _ 63 0 ((10 + 6 + PAD (10 + 6) - 4) / 4)
        (NO16 t input_method_id ++ (NO16 t input_context_id ++ (NO16 t (flag % 65536)
          ++ ((NO16 t 0 ++ NO32 t keysym) ++ []))))
        (by simp [List.append_assoc]) (by simp [PAD]) (by simp [PAD]) (by simp [PAD])
  · by_cases h4 : flag % 65536 &&& 4 ≠ 0
    · simp only [if_neg h2, if_pos h4]
      have hp := PAD_add_mod (10 + (2 + string_length % 65536))
      have hq := PAD_le (10 + (2 + string_length % 65536))
      exact frame_well_formed_of t _ 63 0
        ((10 + (2 + string_length % 65536)
          + PAD (10 + (2 + string_length % 65536)) - 4) / 4)
        (NO16 t input_method_id ++ (NO16 t input_context_id ++ (NO16 t (flag % 65536)
          ++ ([] ++ (NO16 t (string_length % 65536)
          ++ memcpy string (string_length % 65536))))))
        (by simp [List.append_assoc]) (by dsimp only; omega) (by dsimp only; omega)
        (by dsimp only; omega)
    · simp only [if_neg h2, if_neg h4]
      exact frame_well_formed_of t _ 63 0 ((10 + PAD 10 - 4) / 4)
        (NO16 t input_method_id ++ (NO16 t input_context_id ++ (NO16 t (flag % 65536)
          ++ ([] ++ []))))
        (by simp [List.append_assoc]) (by simp [PAD]) (by simp [PAD]) (by simp [PAD])

theorem preedit_start_well_formed (t : xcb_xim_transport_t)
    (input_method_id input_context_id : Nat) :
    frame_well_formed t (xcb_xim_preedit_start_frame t input_method_id input_context_id) :=
  frame_8_well_formed t 73 input_method_id input_context_id

theorem preedit_done_well_formed (t : xcb_xim_transport_t)
    (input_method_id input_context_id : Nat) :
    frame_well_formed t (xcb_xim_preedit_done_frame t input_method_id input_context_id) :=
  frame_8_well_formed t 78 input_method_id input_context_id

theorem set_im_values_reply_well_formed (t : xcb_xim_transport_t) (input_method_id : Nat) :
    frame_well_formed t (xcb_xim_set_im_values_reply_frame t input_method_id) :=
  frame_8_well_formed t 43 input_method_id 0

theorem create_ic_reply_well_formed (t : xcb_xim_transport_t)
    (input_method_id input_context_id : Nat) :
    frame_well_formed t (xcb_xim_create_ic_reply_frame t input_method_id input_context_id) :=
  frame_8_well_formed t 51 input_method_id input_context_id

theorem destroy_ic_reply_well_formed (t : xcb_xim_transport_t)
    (input_method_id input_context_id : Nat) :
    frame_well_formed t (xcb_xim_destroy_ic_reply_frame t input_method_id input_context_id) :=
  frame_8_well_formed t 53 input_method_id input_context_id

theorem set_ic_values_reply_well_formed (t : xcb_xim_transport_t)
    (input_method_id input_context_id : Nat) :
    frame_well_formed t
      (xcb_xim_set_ic_values_reply_frame t input_method_id input_context_id) :=
  frame_8_well_formed t 55 input_method_id input_context_id

/-- The frame of `xcb_xim_get_ic_values_reply` never satisfies the framing
rule when the attributes fit in 16 bits: its length field is one less than
`(byte length - 4) / 4`, and it is 4 bytes longer than its buffer. -/
theorem get_ic_values_reply_ill_formed (t : xcb_xim_transport_t)
    (input_method_id input_context_id : Nat) (attributes : List (List Nat))
    (h : records_size (attribute_byte_length t) attributes < 65536) :
    (xcb_xim_get_ic_values_reply_frame t input_method_id input_context_id
        attributes).payload.length % 4 = 0 ∧
    field16 t (xcb_xim_get_ic_values_reply_frame t input_method_id input_context_id
        attributes).payload 2 + 1
      = ((xcb_xim_get_ic_values_reply_frame t input_method_id input_context_id
          attributes).payload.length - 4) / 4 ∧
    (xcb_xim_get_ic_values_reply_frame t input_method_id input_context_id
        attributes).payload.length
      = (xcb_xim_get_ic_values_reply_frame t input_method_id input_context_id
          attributes).alloc + 4 := by
  have hs := sum16_eq _ _ h
  have hm := records_size_mod _ (attribute_byte_length_mod t) attributes
  have hl := copy_records_length (attribute_byte_length t) attributes
  have hb : (xcb_xim_get_ic_values_reply_frame t input_method_id input_context_id
      attributes).bytes = 57 :: 0 :: (NO16 t
        ((4 + 4 + sum16 (attribute_byte_length t) attributes - 4) / 4)
      ++ (NO16 t input_method_id ++ (NO16 t input_context_id
      ++ (NO16 t (sum16 (attribute_byte_length t) attributes) ++ (NO16 t 0
      ++ copy_records (attribute_byte_length t) attributes))))) := by
    simp [xcb_xim_get_ic_values_reply_frame, List.append_assoc]
  have hlen : (xcb_xim_get_ic_values_reply_frame t input_method_id input_context_id
      attributes).length = 12 + records_size (attribute_byte_length t) attributes := by
    simp only [xcb_xim_get_ic_values_reply_frame, List.length_append, List.length_cons,
      List.length_nil, NO16_length, hl]
  have hal : (xcb_xim_get_ic_values_reply_frame t input_method_id input_context_id
      attributes).alloc = 8 + records_size (attribute_byte_length t) attributes := by
    simp only [xcb_xim_get_ic_values_reply_frame, hs]
  unfold frame_t.payload
  rw [memcpy_length, field16_memcpy t _ _ 2 (by omega), hb, field16_header, hlen, hal, hs]
  omega

/-! ### Lookup after a store, and the caret reply -/

theorem find_modify_first {α : Type} (p : α → Bool) (f : α → α)
    (hp : ∀ a, p (f a) = p a) :
    ∀ l : List α, (modify_first p f l).find? p = (l.find? p).map f := by
  intro l
  induction l with
  | nil => rfl
  | cons a l ih =>
    by_cases h : p a = true
    · have h' : p (f a) = true := by rw [hp]; exact h
      simp [modify_first, h, h', List.find?_cons]
    · have hf : p a = false := by simpa using h
      simp [modify_first, hf, List.find?_cons, ih]

theorem lookup_store_input_context (xw : xim_wayland_t) (transport im_id ic_id : Nat)
    (f : xim_wayland_input_context_t → xim_wayland_input_context_t)
    (hf : ∀ ic, (f ic).id = ic.id) :
    lookup_input_context (store_input_context xw transport im_id ic_id f) transport im_id ic_id
      = (lookup_input_context xw transport im_id ic_id).map f := by
  unfold lookup_input_context store_input_context find_input_method find_input_context
  dsimp only
  rw [find_modify_first]
  · cases h : List.find? (fun im => im.transport == transport && im.id == im_id)
        xw.input_method_list with
    | none => rfl
    | some im =>
      simp only [Option.map_some', Option.some_bind]
      rw [find_modify_first]
      intro a
      simp [hf a]
  · intro a
    rfl

/-- The handler `handle_xim_preedit_caret_reply` on a request that names an
existing context with a text-input object: it succeeds, and afterwards the
context has the reported position as caret exactly when the position is
greater than `preedit_length`; otherwise nothing changes. -/
theorem handle_xim_preedit_caret_reply_spec (xw : xim_wayland_t) (request : List Nat)
    (requestor : Nat) (ic : xim_wayland_input_context_t)
    (hic : lookup_input_context xw requestor
        (field16 (transport_at xw.xim requestor) request 4)
        (field16 (transport_at xw.xim requestor) request 6) = some ic)
    (htext : ic.text_input ≠ 0) :
    (handle_xim_preedit_caret_reply xw request requestor).2 = true ∧
    lookup_input_context (handle_xim_preedit_caret_reply xw request requestor).1 requestor
        (field16 (transport_at xw.xim requestor) request 4)
        (field16 (transport_at xw.xim requestor) request 6)
      = some (if field32 (transport_at xw.xim requestor) request 8 > ic.preedit_length then
          { ic with preedit_caret :=
              int32_of_uint32 (field32 (transport_at xw.xim requestor) request 8) }
        else ic) := by
  have hic' := hic
  unfold lookup_input_context at hic'
  cases hm : find_input_method xw requestor
      (field16 (transport_at xw.xim requestor) request 4) with
  | none => rw [hm] at hic'; simp at hic'
  | some im =>
    rw [hm] at hic'
    simp only [Option.some_bind] at hic'
    have hm' : find_input_method xw requestor
        (xcb_xim_card16 (transport_at xw.xim requestor) (byte_at request 4)
          (byte_at request 5)) = some im := hm
    have hc' : find_input_context im
        (xcb_xim_card16 (transport_at xw.xim requestor) (byte_at request 6)
          (byte_at request (6 + 1))) = some ic := hic'
    unfold handle_xim_preedit_caret_reply
    dsimp only
    rw [hm']
    dsimp only
    rw [hc']
    dsimp only
    rw [if_neg htext]
    by_cases hp : field32 (transport_at xw.xim requestor) request 8 > ic.preedit_length
    · have hp' : xcb_xim_card32 (transport_at xw.xim requestor) (byte_at request 8)
          (byte_at request 9) (byte_at request 10) (byte_at request 11)
          > ic.preedit_length := hp
      rw [if_pos hp', if_pos hp]
      refine ⟨rfl, ?_⟩
      dsimp only
      have hl := lookup_store_input_context xw requestor
        (field16 (transport_at xw.xim requestor) request 4)
        (field16 (transport_at xw.xim requestor) request 6)
        (fun ic =>
          { ic with
            preedit_caret :=
              int32_of_uint32 (field32 (transport_at xw.xim requestor) request 8) })
        (fun _ => rfl)
      rw [hic] at hl
      exact hl
    · have hp' : ¬ (xcb_xim_card32 (transport_at xw.xim requestor) (byte_at request 8)
          (byte_at request 9) (byte_at request 10) (byte_at request 11)
          > ic.preedit_length) := hp
      rw [if_neg hp', if_neg hp]
      exact ⟨rfl, hic⟩


theorem byte_at_append_left (a b : List Nat) (k : Nat) (h : k < a.length) :
    byte_at (a ++ b) k = byte_at a k := by
  unfold byte_at
  rw [List.getD_append _ _ _ _ h]

theorem byte_at_append_right (a b : List Nat) (k : Nat) :
    byte_at (a ++ b) (a.length + k) = byte_at b k := by
  unfold byte_at
  rw [List.getD_append_right _ _ _ _ (by omega)]
  congr 1
  omega

theorem field16_append_right (t : xcb_xim_transport_t) (a b : List Nat) (k : Nat) :
    field16 t (a ++ b) (a.length + k) = field16 t b k := by
  unfold field16
  rw [Nat.add_assoc, byte_at_append_right, byte_at_append_right]

theorem field16_append_left (t : xcb_xim_transport_t) (a b : List Nat) (k : Nat)
    (h : k + 1 < a.length) : field16 t (a ++ b) k = field16 t a k := by
  unfold field16
  rw [byte_at_append_left _ _ _ (by omega), byte_at_append_left _ _ _ h]

theorem field16_NO16 (t : xcb_xim_transport_t) (v : Nat) (rest : List Nat) :
    field16 t (NO16 t v ++ rest) 0 = v % 65536 := by
  unfold field16 HO16 NO16 byte_at
  split <;> simp <;> omega

theorem field32_NO32 (t : xcb_xim_transport_t) (v : Nat) (rest : List Nat) :
    field32 t (NO32 t v ++ rest) 0 = v % 4294967296 := by
  unfold field32 HO32 NO32 byte_at
  split <;> simp <;> omega

theorem field16_record_header (t : xcb_xim_transport_t) (a v : Nat) (rest : List Nat) :
    field16 t (NO16 t a ++ NO16 t v ++ rest) 0 = a % 65536 ∧
    field16 t (NO16 t a ++ NO16 t v ++ rest) 2 = v % 65536 := by
  constructor
  · rw [List.append_assoc, field16_NO16]
  · rw [List.append_assoc]
    have := field16_append_right t (NO16 t a) (NO16 t v ++ rest) 0
    rw [NO16_length] at this
    rw [this, field16_NO16]

theorem flatMap_memcpy_length (g : Nat → List Nat) (n : Nat) (l : List Nat) :
    (l.flatMap (fun i => memcpy (g i) n)).length = n * l.length := by
  induction l with
  | nil => rfl
  | cons a l ih =>
    simp only [List.flatMap_cons, List.length_append, memcpy_length, List.length_cons, ih]
    rw [Nat.mul_succ]; omega

theorem card8_well_sized (t : xcb_xim_transport_t) (attribute_id value : Nat) :
    attribute_well_sized t (xcb_xim_attribute_card8_new t attribute_id value) := by
  unfold attribute_well_sized attribute_byte_length xcb_xim_attribute_card8_new
  rw [List.append_assoc (NO16 t attribute_id ++ NO16 t 1), (field16_record_header t _ _ _).2]
  simp [NO16_length, PAD]

theorem card16_well_sized (t : xcb_xim_transport_t) (attribute_id value : Nat) :
    attribute_well_sized t (xcb_xim_attribute_card16_new t attribute_id value) := by
  unfold attribute_well_sized attribute_byte_length xcb_xim_attribute_card16_new
  rw [List.append_assoc (NO16 t attribute_id ++ NO16 t 2), (field16_record_header t _ _ _).2]
  simp [NO16_length, PAD]

theorem card32_well_sized (t : xcb_xim_transport_t) (attribute_id value : Nat) :
    attribute_well_sized t (xcb_xim_attribute_card32_new t attribute_id value) := by
  unfold attribute_well_sized attribute_byte_length xcb_xim_attribute_card32_new
  rw [(field16_record_header t _ _ _).2]
  simp [NO16_length, NO32_length, PAD]

theorem string8_well_sized (t : xcb_xim_transport_t) (attribute_id value_length : Nat)
    (value : List Nat) :
    attribute_well_sized t
      (xcb_xim_attribute_string8_new t attribute_id value_length value) := by
  unfold attribute_well_sized attribute_byte_length xcb_xim_attribute_string8_new
  dsimp only
  rw [List.append_assoc (NO16 t attribute_id ++ NO16 t _), (field16_record_header t _ _ _).2]
  have h : value_length % 256 % 65536 = value_length % 256 := by omega
  rw [h]
  simp [NO16_length, memcpy_length]
  omega

theorem styles_length (t : xcb_xim_transport_t) (attribute_id value_length : Nat)
    (value : List Nat) :
    (xcb_xim_attribute_styles_new t attribute_id value_length value).length
      = 8 + 4 * (value_length % 65536) := by
  unfold xcb_xim_attribute_styles_new
  simp only [List.length_append, NO16_length, flatMap_NO32_length, List.length_range]

theorem styles_value_byte_length (t : xcb_xim_transport_t)
    (attribute_id value_length : Nat) (value : List Nat) :
    field16 t (xcb_xim_attribute_styles_new t attribute_id value_length value) 2
      = (4 + 4 * (value_length % 65536)) % 65536 := by
  unfold xcb_xim_attribute_styles_new
  dsimp only
  rw [List.append_assoc (NO16 t attribute_id ++ NO16 t _),
    List.append_assoc (NO16 t attribute_id ++ NO16 t _), (field16_record_header t _ _ _).2]

theorem styles_well_sized (t : xcb_xim_transport_t) (attribute_id value_length : Nat)
    (value : List Nat) (h : value_length % 65536 ≤ 16382) :
    attribute_well_sized t
      (xcb_xim_attribute_styles_new t attribute_id value_length value) := by
  unfold attribute_well_sized attribute_byte_length
  rw [styles_length, styles_value_byte_length]
  unfold PAD
  omega

theorem rectangle_well_sized (t : xcb_xim_transport_t) (attribute_id : Nat)
    (value : xcb_rectangle_t) :
    attribute_well_sized t (xcb_xim_attribute_rectangle_new t attribute_id value) := by
  unfold attribute_well_sized attribute_byte_length xcb_xim_attribute_rectangle_new
  repeat rw [List.append_assoc (NO16 t attribute_id ++ NO16 t 8)]
  rw [(field16_record_header t _ _ _).2]
  simp [NO16_length, NO16i, PAD]

theorem point_well_sized (t : xcb_xim_transport_t) (attribute_id : Nat)
    (value : xcb_point_t) :
    attribute_well_sized t (xcb_xim_attribute_point_new t attribute_id value) := by
  unfold attribute_well_sized attribute_byte_length xcb_xim_attribute_point_new
  repeat rw [List.append_assoc (NO16 t attribute_id ++ NO16 t 4)]
  rw [(field16_record_header t _ _ _).2]
  simp [NO16_length, NO16i, PAD]

theorem font_set_well_sized (t : xcb_xim_transport_t) (attribute_id value_length : Nat)
    (value : List Nat) :
    attribute_well_sized t
      (xcb_xim_attribute_font_set_new t attribute_id value_length value) := by
  unfold attribute_well_sized attribute_byte_length xcb_xim_attribute_font_set_new
  dsimp only
  repeat rw [List.append_assoc (NO16 t attribute_id ++ NO16 t _)]
  rw [(field16_record_header t _ _ _).2]
  simp only [List.length_append, NO16_length, memcpy_length, List.length_replicate]
  unfold PAD
  omega

theorem field16_take (t : xcb_xim_transport_t) (l : List Nat) (n k : Nat)
    (h : k + 1 < n) : field16 t (l.take n) k = field16 t l k := by
  have hb : ∀ j, j < n → byte_at (l.take n) j = byte_at l j := by
    intro j hj
    unfold byte_at
    simp [List.getD_eq_getElem?_getD, List.getElem?_take, hj]
  unfold field16
  rw [hb _ (by omega), hb _ h]

theorem hotkey_triggers_length (t : xcb_xim_transport_t)
    (attribute_id value_length : Nat) (triggers : List (List Nat)) (states : List Nat)
    (h : value_length % 4294967296 < 268435456) :
    (xcb_xim_attribute_hotkey_triggers_new t attribute_id value_length triggers
      states).length = 8 + 16 * (value_length % 4294967296) := by
  unfold xcb_xim_attribute_hotkey_triggers_new
  simp only [List.length_take, List.length_append, NO16_length, NO32_length,
    flatMap_NO32_length, flatMap_memcpy_length, List.length_range]
  omega

theorem hotkey_triggers_value_byte_length (t : xcb_xim_transport_t)
    (attribute_id value_length : Nat) (triggers : List (List Nat)) (states : List Nat) :
    field16 t (xcb_xim_attribute_hotkey_triggers_new t attribute_id value_length
      triggers states) 2 = (4 + 16 * (value_length % 4294967296)) % 65536 := by
  unfold xcb_xim_attribute_hotkey_triggers_new
  dsimp only
  repeat rw [List.append_assoc (NO16 t attribute_id ++ NO16 t _)]
  rw [field16_take _ _ _ _ (by omega), (field16_record_header t _ _ _).2]
  omega

theorem hotkey_triggers_well_sized (t : xcb_xim_transport_t)
    (attribute_id value_length : Nat) (triggers : List (List Nat)) (states : List Nat)
    (h : value_length % 4294967296 ≤ 4095) :
    attribute_well_sized t
      (xcb_xim_attribute_hotkey_triggers_new t attribute_id value_length triggers
        states) := by
  unfold attribute_well_sized attribute_byte_length
  rw [hotkey_triggers_length _ _ _ _ _ (by omega), hotkey_triggers_value_byte_length]
  unfold PAD
  omega

theorem packed_length (t : xcb_xim_transport_t) (attribute_id value_byte_length : Nat)
    (value : List Nat) :
    (xcb_xim_attribute_packed_new t attribute_id value_byte_length value).length
      = 4 + value_byte_length % 65536 := by
  unfold xcb_xim_attribute_packed_new
  simp only [List.length_append, NO16_length, memcpy_length]

theorem packed_value_byte_length (t : xcb_xim_transport_t)
    (attribute_id value_byte_length : Nat) (value : List Nat) :
    field16 t (xcb_xim_attribute_packed_new t attribute_id value_byte_length value) 2
      = value_byte_length % 65536 := by
  unfold xcb_xim_attribute_packed_new
  dsimp only
  rw [(field16_record_header t _ _ _).2]
  omega

theorem packed_well_sized (t : xcb_xim_transport_t) (attribute_id value_byte_length : Nat)
    (value : List Nat) (h : value_byte_length % 65536 % 4 = 0) :
    attribute_well_sized t
      (xcb_xim_attribute_packed_new t attribute_id value_byte_length value) := by
  unfold attribute_well_sized attribute_byte_length
  rw [packed_length, packed_value_byte_length]
  unfold PAD
  omega

theorem nested_list_length (t : xcb_xim_transport_t) (attribute_id : Nat)
    (value : List (List Nat)) :
    (xcb_xim_attribute_nested_list_new t attribute_id value).length
      = 4 + records_size (attribute_byte_length t) value := by
  unfold xcb_xim_attribute_nested_list_new
  simp only [List.length_append, NO16_length, copy_records_length]

theorem nested_list_value_byte_length (t : xcb_xim_transport_t) (attribute_id : Nat)
    (value : List (List Nat)) :
    field16 t (xcb_xim_attribute_nested_list_new t attribute_id value) 2
      = records_size (attribute_byte_length t) value % 65536 := by
  unfold xcb_xim_attribute_nested_list_new
  dsimp only
  rw [(field16_record_header t _ _ _).2, Nat.add_sub_cancel_left]

theorem nested_list_well_sized (t : xcb_xim_transport_t) (attribute_id : Nat)
    (value : List (List Nat))
    (h : records_size (attribute_byte_length t) value < 65536) :
    attribute_well_sized t (xcb_xim_attribute_nested_list_new t attribute_id value) := by
  unfold attribute_well_sized attribute_byte_length
  rw [nested_list_length, nested_list_value_byte_length]
  have := records_size_mod (attribute_byte_length t) (attribute_byte_length_mod t) value
  unfold PAD
  omega

theorem field16_at (t : xcb_xim_transport_t) (pre : List Nat) (v : Nat) (rest : List Nat)
    (k : Nat) (h : pre.length = k) :
    field16 t (pre ++ (NO16 t v ++ rest)) k = v % 65536 := by
  have := field16_append_right t pre (NO16 t v ++ rest) 0
  rw [Nat.add_zero, h] at this
  rw [this, field16_NO16]

theorem field32_append_right (t : xcb_xim_transport_t) (a b : List Nat) (k : Nat) :
    field32 t (a ++ b) (a.length + k) = field32 t b k := by
  unfold field32
  rw [Nat.add_assoc, Nat.add_assoc, Nat.add_assoc, byte_at_append_right,
    byte_at_append_right, byte_at_append_right, byte_at_append_right]

theorem field32_at (t : xcb_xim_transport_t) (pre : List Nat) (v : Nat) (rest : List Nat)
    (k : Nat) (h : pre.length = k) :
    field32 t (pre ++ (NO32 t v ++ rest)) k = v % 4294967296 := by
  have := field32_append_right t pre (NO32 t v ++ rest) 0
  rw [Nat.add_zero, h] at this
  rw [this, field32_NO32]

theorem memcpy_eq_take (s : List Nat) (n : Nat) (h : n ≤ s.length) :
    memcpy s n = s.take n := by
  apply List.ext_getElem
  · simp [memcpy_length, h]
  · intro i h1 h2
    simp only [memcpy_length] at h1
    simp [memcpy, byte_at, List.getD_eq_getElem?_getD, List.getElem?_eq_getElem (by omega : i < s.length)]

theorem memcpy_self (s : List Nat) : memcpy s s.length = s := by
  rw [memcpy_eq_take _ _ (Nat.le_refl _), List.take_length]

theorem memcpy_append (a b : List Nat) (n : Nat) (h : n ≤ a.length) :
    memcpy (a ++ b) n = a.take n := by
  rw [memcpy_eq_take _ _ (by rw [List.length_append]; omega), List.take_append_of_le_length h]

theorem byte_at_flatMap_NO32 (t : xcb_xim_transport_t) (g : Nat → Nat) (l : List Nat)
    (k j : Nat) (hk : k < l.length) (hj : j < 4) :
    byte_at (l.flatMap (fun i => NO32 t (g i))) (4 * k + j)
      = byte_at (NO32 t (g (l.getD k 0))) j := by
  induction l generalizing k with
  | nil => simp at hk
  | cons a l ih =>
    rw [List.flatMap_cons]
    cases k with
    | zero =>
      rw [byte_at_append_left _ _ _ (by rw [NO32_length]; omega)]
      simp
    | succ k =>
      have h4 : 4 * (k + 1) + j = (NO32 t (g a)).length + (4 * k + j) := by
        rw [NO32_length]; omega
      rw [h4, byte_at_append_right, ih k (by simpa using hk)]
      simp

theorem field32_flatMap_NO32 (t : xcb_xim_transport_t) (g : Nat → Nat) (n k : Nat)
    (hk : k < n) :
    field32 t ((List.range n).flatMap (fun i => NO32 t (g i))) (4 * k)
      = g k % 4294967296 := by
  have h := fun j hj => byte_at_flatMap_NO32 t g (List.range n) k j
    (by rw [List.length_range]; exact hk) hj
  have hget : (List.range n).getD k 0 = k := by
    simp [List.getD_eq_getElem?_getD, List.getElem?_range hk]
  rw [hget] at h
  have h0 := h 0 (by omega)
  rw [Nat.add_zero] at h0
  unfold field32
  rw [h0, h 1 (by omega), h 2 (by omega), h 3 (by omega)]
  have := field32_NO32 t (g k) []
  rw [List.append_nil] at this
  unfold field32 at this
  exact this

theorem attribute_walks_once_of (t : xcb_xim_transport_t) (record : List Nat)
    (attribute_id : Nat) (hsize : attribute_well_sized t record)
    (hlen : record.length < 65536) (hid : field16 t record 0 = attribute_id) :
    attribute_walks_once t record attribute_id := by
  unfold attribute_well_sized attribute_byte_length at hsize
  unfold attribute_walks_once xcb_xim_attribute_iterator_has_data
    xcb_xim_attribute_iterator_next
  rw [Nat.mod_eq_of_lt hlen]
  dsimp only
  rw [Nat.zero_add]
  refine ⟨?_, hid, ?_, ?_⟩
  · rw [if_neg (by omega)]
    exact decide_eq_true (by omega)
  · omega
  · rw [if_pos (by omega)]

theorem field16_id (t : xcb_xim_transport_t) (a v : Nat) (rest : List Nat)
    (h : a < 65536) : field16 t (NO16 t a ++ NO16 t v ++ rest) 0 = a := by
  rw [(field16_record_header t a v rest).1, Nat.mod_eq_of_lt h]

theorem card8_round_trip (t : xcb_xim_transport_t) (attribute_id value : Nat)
    (hid : attribute_id < 65536) (hv : value < 256) :
    attribute_walks_once t (xcb_xim_attribute_card8_new t attribute_id value)
      attribute_id ∧
    byte_at (xcb_xim_attribute_card8_new t attribute_id value) 4 = value := by
  refine ⟨attribute_walks_once_of t _ _ (card8_well_sized t _ _) ?_ ?_, ?_⟩
  · simp [xcb_xim_attribute_card8_new, NO16_length]
  · unfold xcb_xim_attribute_card8_new
    rw [List.append_assoc (NO16 t attribute_id ++ NO16 t 1), field16_id _ _ _ _ hid]
  · unfold xcb_xim_attribute_card8_new
    rw [List.append_assoc]
    have := byte_at_append_right (NO16 t attribute_id ++ NO16 t 1)
      ([value % 256] ++ List.replicate 3 0) 0
    simp only [List.length_append, NO16_length] at this
    rw [this]
    simp [byte_at, Nat.mod_eq_of_lt hv]

theorem card16_round_trip (t : xcb_xim_transport_t) (attribute_id value : Nat)
    (hid : attribute_id < 65536) (hv : value < 65536) :
    attribute_walks_once t (xcb_xim_attribute_card16_new t attribute_id value)
      attribute_id ∧
    xcb_xim_uint16 t (byte_at (xcb_xim_attribute_card16_new t attribute_id value) 4)
      (byte_at (xcb_xim_attribute_card16_new t attribute_id value) 5) = value := by
  refine ⟨attribute_walks_once_of t _ _ (card16_well_sized t _ _) ?_ ?_, ?_⟩
  · simp [xcb_xim_attribute_card16_new, NO16_length]
  · unfold xcb_xim_attribute_card16_new
    rw [List.append_assoc (NO16 t attribute_id ++ NO16 t 2), field16_id _ _ _ _ hid]
  · show field16 t _ 4 = value
    unfold xcb_xim_attribute_card16_new
    rw [List.append_assoc, field16_at _ _ _ _ _ (by simp [NO16_length]),
      Nat.mod_eq_of_lt hv]

theorem card32_round_trip (t : xcb_xim_transport_t) (attribute_id value : Nat)
    (hid : attribute_id < 65536) (hv : value < 4294967296) :
    attribute_walks_once t (xcb_xim_attribute_card32_new t attribute_id value)
      attribute_id ∧
    xcb_xim_uint32 t (byte_at (xcb_xim_attribute_card32_new t attribute_id value) 4)
      (byte_at (xcb_xim_attribute_card32_new t attribute_id value) 5)
      (byte_at (xcb_xim_attribute_card32_new t attribute_id value) 6)
      (byte_at (xcb_xim_attribute_card32_new t attribute_id value) 7) = value := by
  refine ⟨attribute_walks_once_of t _ _ (card32_well_sized t _ _) ?_ ?_, ?_⟩
  · simp [xcb_xim_attribute_card32_new, NO16_length, NO32_length]
  · unfold xcb_xim_attribute_card32_new
    rw [field16_id _ _ _ _ hid]
  · show field32 t _ 4 = value
    unfold xcb_xim_attribute_card32_new
    have := field32_at t (NO16 t attribute_id ++ NO16 t 4) value [] 4
      (by simp [NO16_length])
    rw [List.append_nil] at this
    rw [this, Nat.mod_eq_of_lt hv]

theorem string8_round_trip (t : xcb_xim_transport_t) (attribute_id : Nat)
    (value : List Nat) (hid : attribute_id < 65536) (hv : value.length < 256) :
    attribute_walks_once t
      (xcb_xim_attribute_string8_new t attribute_id value.length value) attribute_id ∧
    field16 t (xcb_xim_attribute_string8_new t attribute_id value.length value) 2
      = value.length ∧
    memcpy ((xcb_xim_attribute_string8_new t attribute_id value.length value).drop 4)
      value.length = value := by
  have hm : value.length % 256 = value.length := Nat.mod_eq_of_lt hv
  refine ⟨attribute_walks_once_of t _ _ (string8_well_sized t _ _ _) ?_ ?_, ?_, ?_⟩
  · have := PAD_le (value.length % 256)
    simp only [xcb_xim_attribute_string8_new, List.length_append, NO16_length,
      memcpy_length, List.length_replicate]
    omega
  · by_cases h : t.endian = 66 <;>
      simp [xcb_xim_attribute_string8_new, NO16, field16, HO16, byte_at, h] <;> omega
  · by_cases h : t.endian = 66 <;>
      simp [xcb_xim_attribute_string8_new, NO16, field16, HO16, byte_at, h] <;> omega
  · unfold xcb_xim_attribute_string8_new
    dsimp only
    rw [hm, memcpy_self, List.append_assoc (NO16 t attribute_id ++ NO16 t _),
      List.drop_left' (by simp [NO16_length]), memcpy_append _ _ _ (Nat.le_refl _),
      List.take_length]

theorem styles_round_trip (t : xcb_xim_transport_t) (attribute_id : Nat)
    (value : List Nat) (hid : attribute_id < 65536) (hn : value.length ≤ 16381)
    (hv : ∀ k, k < value.length → value.getD k 0 < 4294967296) :
    attribute_walks_once t
      (xcb_xim_attribute_styles_new t attribute_id value.length value) attribute_id ∧
    xcb_xim_uint16 t
      (byte_at (xcb_xim_attribute_styles_new t attribute_id value.length value) 4)
      (byte_at (xcb_xim_attribute_styles_new t attribute_id value.length value) 5)
      = value.length ∧
    ∀ k, k < value.length →
      field32 t (xcb_xim_attribute_styles_new t attribute_id value.length value)
        (8 + 4 * k) = value.getD k 0 := by
  have hm : value.length % 65536 = value.length := Nat.mod_eq_of_lt (by omega)
  refine ⟨attribute_walks_once_of t _ _ (styles_well_sized t _ _ _ (by omega)) ?_ ?_,
    ?_, ?_⟩
  · rw [styles_length]; omega
  · by_cases h : t.endian = 66 <;>
      simp [xcb_xim_attribute_styles_new, NO16, field16, HO16, byte_at, h] <;> omega
  · by_cases h : t.endian = 66 <;>
      simp [xcb_xim_attribute_styles_new, xcb_xim_uint16, NO16, HO16, byte_at, h] <;> omega
  · intro k hk
    unfold xcb_xim_attribute_styles_new
    dsimp only
    have := field32_append_right t
      (NO16 t attribute_id ++ NO16 t (4 + 4 * (value.length % 65536))
        ++ NO16 t (value.length % 65536) ++ NO16 t 0)
      ((List.range (value.length % 65536)).flatMap (fun i => NO32 t (value.getD i 0)))
      (4 * k)
    simp only [List.length_append, NO16_length] at this
    rw [this, field32_flatMap_NO32 t _ _ _ (by omega), Nat.mod_eq_of_lt (hv k hk)]

theorem rectangle_round_trip (t : xcb_xim_transport_t) (attribute_id : Nat)
    (value : xcb_rectangle_t) (hid : attribute_id < 65536)
    (hx : -32768 ≤ value.x ∧ value.x < 32768) (hy : -32768 ≤ value.y ∧ value.y < 32768)
    (hw : value.width < 65536) (hh : value.height < 65536) :
    attribute_walks_once t (xcb_xim_attribute_rectangle_new t attribute_id value)
      attribute_id ∧
    ({ x := int16_of_uint16
          (field16 t (xcb_xim_attribute_rectangle_new t attribute_id value) 4),
       y := int16_of_uint16
          (field16 t (xcb_xim_attribute_rectangle_new t attribute_id value) 6),
       width := field16 t (xcb_xim_attribute_rectangle_new t attribute_id value) 8,
       height := field16 t (xcb_xim_attribute_rectangle_new t attribute_id value) 10 }
      : xcb_rectangle_t) = value := by
  refine ⟨attribute_walks_once_of t _ _ (rectangle_well_sized t _ _) ?_ ?_, ?_⟩
  · simp [xcb_xim_attribute_rectangle_new, NO16_length, NO16i]
  · by_cases h : t.endian = 66 <;>
      simp [xcb_xim_attribute_rectangle_new, NO16, field16, HO16, byte_at, h] <;> omega
  · have hf : field16 t (xcb_xim_attribute_rectangle_new t attribute_id value) 4
          = (value.x % 65536).toNat ∧
        field16 t (xcb_xim_attribute_rectangle_new t attribute_id value) 6
          = (value.y % 65536).toNat ∧
        field16 t (xcb_xim_attribute_rectangle_new t attribute_id value) 8
          = value.width ∧
        field16 t (xcb_xim_attribute_rectangle_new t attribute_id value) 10
          = value.height := by
      by_cases h : t.endian = 66 <;>
        simp [xcb_xim_attribute_rectangle_new, NO16, NO16i, field16, HO16, byte_at, h] <;>
        omega
    rw [hf.1, hf.2.1, hf.2.2.1, hf.2.2.2]
    cases value with
    | mk x y w h =>
      simp only at hx hy ⊢
      have h1 : int16_of_uint16 (x % 65536).toNat = x := by
        unfold int16_of_uint16; split <;> omega
      have h2 : int16_of_uint16 (y % 65536).toNat = y := by
        unfold int16_of_uint16; split <;> omega
      rw [h1, h2]

theorem point_round_trip (t : xcb_xim_transport_t) (attribute_id : Nat)
    (value : xcb_point_t) (hid : attribute_id < 65536)
    (hx : -32768 ≤ value.x ∧ value.x < 32768) (hy : -32768 ≤ value.y ∧ value.y < 32768) :
    attribute_walks_once t (xcb_xim_attribute_point_new t attribute_id value)
      attribute_id ∧
    ({ x := int16_of_uint16
          (field16 t (xcb_xim_attribute_point_new t attribute_id value) 4),
       y := int16_of_uint16
          (field16 t (xcb_xim_attribute_point_new t attribute_id value) 6) }
      : xcb_point_t) = value := by
  refine ⟨attribute_walks_once_of t _ _ (point_well_sized t _ _) ?_ ?_, ?_⟩
  · simp [xcb_xim_attribute_point_new, NO16_length, NO16i]
  · by_cases h : t.endian = 66 <;>
      simp [xcb_xim_attribute_point_new, NO16, field16, HO16, byte_at, h] <;> omega
  · have hf : field16 t (xcb_xim_attribute_point_new t attribute_id value) 4
          = (value.x % 65536).toNat ∧
        field16 t (xcb_xim_attribute_point_new t attribute_id value) 6
          = (value.y % 65536).toNat := by
      by_cases h : t.endian = 66 <;>
        simp [xcb_xim_attribute_point_new, NO16, NO16i, field16, HO16, byte_at, h] <;>
        omega
    rw [hf.1, hf.2]
    cases value with
    | mk x y =>
      simp only at hx hy ⊢
      have h1 : int16_of_uint16 (x % 65536).toNat = x := by
        unfold int16_of_uint16; split <;> omega
      have h2 : int16_of_uint16 (y % 65536).toNat = y := by
        unfold int16_of_uint16; split <;> omega
      rw [h1, h2]

theorem well_sized_length (t : xcb_xim_transport_t) (e : List Nat)
    (he : attribute_well_sized t e) : e.length = 4 + field16 t e 2 + PAD (field16 t e 2) :=
  he

theorem attribute_iterator_step (t : xcb_xim_transport_t) (pre e rest : List Nat)
    (idx rem : Nat) (he : attribute_well_sized t e) (hrem : e.length ≤ rem)
    (hlt : rem < 65536) :
    field16 t (pre ++ (e ++ rest)) pre.length = field16 t e 0 ∧
    field16 t (pre ++ (e ++ rest)) (pre.length + 2) = field16 t e 2 ∧
    xcb_xim_attribute_iterator_has_data (pre ++ (e ++ rest))
      { transport := t, data := pre.length, index := idx, remainder := rem } = true ∧
    xcb_xim_attribute_iterator_next (pre ++ (e ++ rest))
      { transport := t, data := pre.length, index := idx, remainder := rem }
      = { transport := t, data := pre.length + e.length, index := (idx + 1) % 65536,
          remainder := rem - e.length } := by
  have hl := well_sized_length t e he
  have h0 : field16 t (pre ++ (e ++ rest)) pre.length = field16 t e 0 := by
    have := field16_append_right t pre (e ++ rest) 0
    rw [Nat.add_zero] at this
    rw [this, field16_append_left _ _ _ _ (by omega)]
  have h2 : field16 t (pre ++ (e ++ rest)) (pre.length + 2) = field16 t e 2 := by
    rw [field16_append_right, field16_append_left _ _ _ _ (by omega)]
  refine ⟨h0, h2, ?_, ?_⟩
  · unfold xcb_xim_attribute_iterator_has_data
    dsimp only
    rw [if_neg (by omega), h2]
    exact decide_eq_true (by omega)
  · unfold xcb_xim_attribute_iterator_next
    dsimp only
    rw [h2, ← hl]
    congr 1
    omega

theorem attribute_iterator_done (t : xcb_xim_transport_t) (mem : List Nat) (d idx : Nat) :
    xcb_xim_attribute_iterator_has_data mem
      { transport := t, data := d, index := idx, remainder := 0 } = false := by
  unfold xcb_xim_attribute_iterator_has_data
  rfl

theorem attribute_walk_flatten (t : xcb_xim_transport_t) (es : List (List Nat))
    (hes : ∀ e ∈ es, attribute_well_sized t e) (rest : List Nat) :
    ∀ (pre : List Nat) (idx fuel : Nat), (es.map List.length).sum < 65536 →
      es.length < fuel →
      attribute_walk (pre ++ (es.flatten ++ rest)) fuel
        { transport := t, data := pre.length, index := idx,
          remainder := (es.map List.length).sum } = some es := by
  induction es with
  | nil =>
    intro pre idx fuel _ hfuel
    cases fuel with
    | zero => simp at hfuel
    | succ fuel =>
      unfold attribute_walk
      simp only [List.map_nil, List.sum_nil]
      rw [attribute_iterator_done]
      rfl
  | cons e es ih =>
    intro pre idx fuel hsum hfuel
    cases fuel with
    | zero => simp at hfuel
    | succ fuel =>
      have he := hes e (List.mem_cons_self _ _)
      simp only [List.map_cons, List.sum_cons] at hsum ⊢
      have hmem : pre ++ ((e :: es).flatten ++ rest)
          = pre ++ (e ++ (es.flatten ++ rest)) := by
        rw [List.flatten_cons, List.append_assoc]
      have hstep := attribute_iterator_step t pre e (es.flatten ++ rest) idx
        (e.length + (es.map List.length).sum) he (by omega) hsum
      unfold attribute_walk
      rw [hmem, hstep.2.2.1, if_pos rfl, hstep.2.2.2, Nat.add_sub_cancel_left]
      have hih := ih (fun x hx => hes x (List.mem_cons_of_mem _ hx)) (pre ++ e)
        ((idx + 1) % 65536) fuel (by omega) (by simpa using hfuel)
      rw [List.length_append, List.append_assoc] at hih
      rw [hih]
      dsimp only
      rw [List.drop_left, Option.map_some']
      have hl := well_sized_length t e he
      have hsz : attribute_byte_length t (e ++ (es.flatten ++ rest)) = e.length := by
        unfold attribute_byte_length
        rw [field16_append_left _ _ _ _ (by omega), ← hl]
      rw [hsz, memcpy_append _ _ _ (Nat.le_refl _), List.take_length]

theorem copy_records_well_sized (t : xcb_xim_transport_t) (es : List (List Nat))
    (hes : ∀ e ∈ es, attribute_well_sized t e) :
    copy_records (attribute_byte_length t) es = es.flatten ∧
    records_size (attribute_byte_length t) es = (es.map List.length).sum := by
  induction es with
  | nil => exact ⟨rfl, rfl⟩
  | cons e es ih =>
    have he : e.length = attribute_byte_length t e := hes e (List.mem_cons_self _ _)
    have ih := ih (fun x hx => hes x (List.mem_cons_of_mem _ hx))
    unfold copy_records records_size at ih ⊢
    simp only [List.flatMap_cons, List.map_cons, List.sum_cons, List.flatten_cons]
    rw [ih.1, ih.2, ← he, memcpy_self]
    exact ⟨rfl, rfl⟩

theorem set_values_flatten (t : xcb_xim_transport_t) (max_attribute_id : Nat)
    (es : List (List Nat)) (hes : ∀ e ∈ es, attribute_well_sized t e) (rest : List Nat) :
    ∀ (pre : List Nat) (attributes : List (Option (List Nat))) (idx fuel : Nat),
      (es.map List.length).sum < 65536 → es.length < fuel →
      set_values (pre ++ (es.flatten ++ rest)) t max_attribute_id fuel attributes
        { transport := t, data := pre.length, index := idx,
          remainder := (es.map List.length).sum }
      = some (es.foldl (fun table e =>
          if field16 t e 0 ≥ max_attribute_id then table
          else table.set (field16 t e 0) (some (attribute_copy t e))) attributes) := by
  induction es with
  | nil =>
    intro pre attributes idx fuel _ hfuel
    cases fuel with
    | zero => simp at hfuel
    | succ fuel =>
      unfold set_values
      simp only [List.map_nil, List.sum_nil]
      rw [attribute_iterator_done]
      rfl
  | cons e es ih =>
    intro pre attributes idx fuel hsum hfuel
    cases fuel with
    | zero => simp at hfuel
    | succ fuel =>
      have he := hes e (List.mem_cons_self _ _)
      have hl := well_sized_length t e he
      simp only [List.map_cons, List.sum_cons] at hsum ⊢
      have hmem : pre ++ ((e :: es).flatten ++ rest)
          = pre ++ (e ++ (es.flatten ++ rest)) := by
        rw [List.flatten_cons, List.append_assoc]
      have hstep := attribute_iterator_step t pre e (es.flatten ++ rest) idx
        (e.length + (es.map List.length).sum) he (by omega) hsum
      have hid : xcb_xim_card16 t (byte_at (pre ++ (e ++ (es.flatten ++ rest))) pre.length)
          (byte_at (pre ++ (e ++ (es.flatten ++ rest))) (pre.length + 1))
          = field16 t e 0 := hstep.1
      have hvl : xcb_xim_card16 t
          (byte_at (pre ++ (e ++ (es.flatten ++ rest))) (pre.length + 2))
          (byte_at (pre ++ (e ++ (es.flatten ++ rest))) (pre.length + 3))
          = field16 t e 2 := hstep.2.1
      have hih := fun attributes => ih (fun x hx => hes x (List.mem_cons_of_mem _ hx))
        (pre ++ e) attributes ((idx + 1) % 65536) fuel (by omega) (by simpa using hfuel)
      simp only [List.length_append, List.append_assoc] at hih
      unfold set_values
      rw [hmem, hstep.2.2.1, if_pos rfl]
      dsimp only
      rw [hid, hvl, hstep.2.2.2, Nat.add_sub_cancel_left, List.foldl_cons]
      have hcopy : memcpy (List.drop pre.length (pre ++ (e ++ (es.flatten ++ rest))))
          ((4 + field16 t e 2) % 65536) = attribute_copy t e := by
        rw [List.drop_left, Nat.mod_eq_of_lt (by omega), memcpy_append _ _ _ (by omega)]
        rfl
      by_cases hmax : field16 t e 0 ≥ max_attribute_id
      · rw [if_pos hmax, if_pos hmax, hih]
      · rw [if_neg hmax, if_neg hmax, hcopy, hih]

theorem last_attribute_with_id_append (t : xcb_xim_transport_t) (es : List (List Nat))
    (e : List Nat) (k : Nat) :
    last_attribute_with_id t (es ++ [e]) k
      = if field16 t e 0 = k then some e else last_attribute_with_id t es k := by
  unfold last_attribute_with_id
  rw [List.foldl_append]
  rfl

theorem set_values_fold_slots (t : xcb_xim_transport_t) (max_attribute_id : Nat)
    (attributes : List (Option (List Nat))) (es : List (List Nat)) :
    (es.foldl (fun table e =>
        if field16 t e 0 ≥ max_attribute_id then table
        else table.set (field16 t e 0) (some (attribute_copy t e))) attributes).length
      = attributes.length ∧
    ∀ k, k < attributes.length →
      (k < max_attribute_id → ∀ e, last_attribute_with_id t es k = some e →
        (es.foldl (fun table e =>
          if field16 t e 0 ≥ max_attribute_id then table
          else table.set (field16 t e 0) (some (attribute_copy t e))) attributes).getD k none
          = some (attribute_copy t e)) ∧
      (last_attribute_with_id t es k = none ∨ max_attribute_id ≤ k →
        (es.foldl (fun table e =>
          if field16 t e 0 ≥ max_attribute_id then table
          else table.set (field16 t e 0) (some (attribute_copy t e))) attributes).getD k none
          = attributes.getD k none) := by
  induction es using List.reverseRecOn with
  | nil =>
    refine ⟨rfl, fun k _ => ⟨fun _ e h => ?_, fun _ => rfl⟩⟩
    simp [last_attribute_with_id] at h
  | append_singleton es e ih =>
    rw [List.foldl_append, List.foldl_cons, List.foldl_nil]
    obtain ⟨hlen, hslot⟩ := ih
    generalize es.foldl (fun table e =>
        if field16 t e 0 ≥ max_attribute_id then table
        else table.set (field16 t e 0) (some (attribute_copy t e))) attributes = table
      at hlen hslot ⊢
    constructor
    · split
      · exact hlen
      · rw [List.length_set, hlen]
    · intro k hk
      have hk2 : k < table.length := by omega
      rw [last_attribute_with_id_append]
      by_cases hmax : field16 t e 0 ≥ max_attribute_id
      · rw [if_pos hmax]
        constructor
        · intro hkm e1 h1
          rw [if_neg (by omega)] at h1
          exact (hslot k hk).1 hkm e1 h1
        · intro h1
          refine (hslot k hk).2 ?_
          rcases h1 with h1 | h1
          · by_cases hek : field16 t e 0 = k
            · right; omega
            · rw [if_neg hek] at h1; left; exact h1
          · right; exact h1
      · rw [if_neg hmax]
        by_cases hek : field16 t e 0 = k
        · rw [if_pos hek, hek]
          constructor
          · intro _ e1 h1
            cases h1
            simp [List.getD_eq_getElem?_getD, List.getElem?_set, hk2]
          · intro h1
            rcases h1 with h1 | h1
            · cases h1
            · omega
        · rw [if_neg hek]
          have hget : (table.set (field16 t e 0) (some (attribute_copy t e))).getD k none
              = table.getD k none := by
            simp [List.getD_eq_getElem?_getD, List.getElem?_set, hek]
          rw [hget]
          exact hslot k hk


theorem get_im_values_request_fields (t : xcb_xim_transport_t) (input_method_id : Nat)
    (ids : List Nat) :
    field16 t (get_im_values_request t input_method_id ids) 2
      = (4 + 2 * ids.length + PAD (2 * ids.length)) / 4 % 65536 ∧
    field16 t (get_im_values_request t input_method_id ids) 4 = input_method_id % 65536 ∧
    field16 t (get_im_values_request t input_method_id ids) 6
      = 2 * ids.length % 65536 := by
  by_cases h : t.endian = 66 <;>
    simp [get_im_values_request, NO16, field16, HO16, byte_at, h] <;> omega

theorem get_im_values_request_length (t : xcb_xim_transport_t) (input_method_id : Nat)
    (ids : List Nat) :
    (get_im_values_request t input_method_id ids).length
      = 8 + 2 * ids.length + PAD (2 * ids.length) := by
  have h : ∀ l : List Nat, (l.flatMap (NO16 t)).length = 2 * l.length := by
    intro l
    induction l with
    | nil => rfl
    | cons a l ih =>
      simp only [List.flatMap_cons, List.length_append, NO16_length, List.length_cons, ih]
      omega
  simp only [get_im_values_request, List.length_append, NO16_length, h,
    List.length_replicate, List.length_cons, List.length_nil]
  omega

theorem get_im_values_walk_done (mem : List Nat) (t : xcb_xim_transport_t)
    (input_method : xim_wayland_input_method_t) (fuel d idx : Nat)
    (attributes : List (Option (List Nat))) :
    get_im_values_walk mem t input_method (fuel + 1)
      { transport := t, data := d, index := idx, remainder := 0 } attributes
      = some attributes := by
  unfold get_im_values_walk
  rfl

theorem handle_xim_get_im_values_request_empty (fuel : Nat) (x : x_server_t)
    (xw : xim_wayland_t) (r : List Nat) (requestor : Nat)
    (input_method : xim_wayland_input_method_t)
    (hfind : find_input_method xw requestor
      (field16 (transport_at xw.xim requestor) r 4) = some input_method)
    (hrem : xcb_xim_get_im_values_request_attribute_id_iterator
      (transport_at xw.xim requestor) r
      = { transport := transport_at xw.xim requestor, data := 8, index := 0,
          remainder := 0 }) :
    handle_xim_get_im_values_request (fuel + 1) x xw r requestor
      = some ({ xw with xim :=
          (send_frame x xw.xim (transport_at xw.xim requestor)
            (xcb_xim_get_im_values_reply_frame (transport_at xw.xim requestor)
              (field16 (transport_at xw.xim requestor) r 4) [])).1 },
          (send_frame x xw.xim (transport_at xw.xim requestor)
            (xcb_xim_get_im_values_reply_frame (transport_at xw.xim requestor)
              (field16 (transport_at xw.xim requestor) r 4) [])).2) := by
  unfold handle_xim_get_im_values_request
  dsimp only
  have h4 : xcb_xim_card16 (transport_at xw.xim requestor) (byte_at r 4) (byte_at r 5)
      = field16 (transport_at xw.xim requestor) r 4 := rfl
  rw [h4, hfind]
  dsimp only
  rw [hrem, get_im_values_walk_done]
  rfl

theorem ids_32765_length : ids_32765.length = 32765 := by
  unfold ids_32765
  rw [List.length_cons, List.length_replicate]


theorem flatMap_NO16_length (t : xcb_xim_transport_t) (l : List Nat) :
    (l.flatMap (NO16 t)).length = 2 * l.length := by
  induction l with
  | nil => rfl
  | cons a l ih =>
    simp only [List.flatMap_cons, List.length_append, NO16_length, List.length_cons, ih]
    omega

theorem get_im_values_walk_ids (t : xcb_xim_transport_t)
    (input_method : xim_wayland_input_method_t) (ids : List Nat)
    (hids : ∀ id ∈ ids, id < 65536) (rest : List Nat) :
    ∀ (pre : List Nat) (attributes : List (Option (List Nat))) (idx fuel : Nat),
      2 * ids.length < 65536 → ids.length < fuel →
      get_im_values_walk (pre ++ (ids.flatMap (NO16 t) ++ rest)) t input_method fuel
        { transport := t, data := pre.length, index := idx, remainder := 2 * ids.length }
        attributes
      = some (attributes ++ (ids.filter (fun id => decide (id < LAST_IM_ATTRIBUTE))).map
          (fun id => input_method.attrs.getD id none)) := by
  induction ids with
  | nil =>
    intro pre attributes idx fuel _ hfuel
    cases fuel with
    | zero => simp at hfuel
    | succ fuel =>
      rw [List.length_nil, Nat.mul_zero, get_im_values_walk_done]
      simp
  | cons id ids ih =>
    intro pre attributes idx fuel hsum hfuel
    cases fuel with
    | zero => simp at hfuel
    | succ fuel =>
      have hid := hids id (List.mem_cons_self _ _)
      rw [List.length_cons] at hsum hfuel
      have hmem : pre ++ ((id :: ids).flatMap (NO16 t) ++ rest)
          = pre ++ (NO16 t id ++ (ids.flatMap (NO16 t) ++ rest)) := by
        rw [List.flatMap_cons, List.append_assoc]
      have hread : xcb_xim_card16 t
          (byte_at (pre ++ (NO16 t id ++ (ids.flatMap (NO16 t) ++ rest))) pre.length)
          (byte_at (pre ++ (NO16 t id ++ (ids.flatMap (NO16 t) ++ rest))) (pre.length + 1))
          = id := by
        show field16 t _ pre.length = id
        rw [field16_at _ _ _ _ _ rfl, Nat.mod_eq_of_lt hid]
      have hih := fun attributes => ih (fun x hx => hids x (List.mem_cons_of_mem _ hx))
        (pre ++ NO16 t id) attributes ((idx + 1) % 65536) fuel (by omega) (by omega)
      simp only [List.length_append, NO16_length, List.append_assoc] at hih
      have hnext : xcb_xim_attribute_id_iterator_next
          { transport := t, data := pre.length, index := idx,
            remainder := 2 * (ids.length + 1) }
          = { transport := t, data := pre.length + 2, index := (idx + 1) % 65536,
              remainder := 2 * ids.length } := by
        unfold xcb_xim_attribute_id_iterator_next
        dsimp only
        have h : (2 * (ids.length + 1) + 65536 - 2) % 65536 = 2 * ids.length := by omega
        rw [h]
      have hhas : xcb_xim_attribute_id_iterator_has_data
          { transport := t, data := pre.length, index := idx,
            remainder := 2 * (ids.length + 1) } = true := by
        unfold xcb_xim_attribute_id_iterator_has_data
        exact decide_eq_true (by dsimp only; omega)
      unfold get_im_values_walk
      rw [List.length_cons, hmem, hhas, if_pos rfl]
      dsimp only
      rw [hread, hnext]
      by_cases hk : id ≥ LAST_IM_ATTRIBUTE
      · rw [if_pos hk, hih, List.filter_cons_of_neg (by simpa using hk)]
      · rw [if_neg hk, hih, List.filter_cons_of_pos (by simpa using hk), List.map_cons,
          List.append_assoc]
        rfl

theorem deref_all_stored (attrs : List (Option (List Nat))) (stored : Nat → List Nat)
    (hattrs : ∀ id, id < LAST_IM_ATTRIBUTE → attrs.getD id none = some (stored id))
    (ids : List Nat) :
    deref_all ((ids.filter (fun id => decide (id < LAST_IM_ATTRIBUTE))).map
        (fun id => attrs.getD id none))
      = some ((ids.filter (fun id => decide (id < LAST_IM_ATTRIBUTE))).map stored) := by
  induction ids with
  | nil => rfl
  | cons id ids ih =>
    by_cases hk : id < LAST_IM_ATTRIBUTE
    · rw [List.filter_cons_of_pos (by simpa using hk), List.map_cons, List.map_cons,
        hattrs id hk]
      unfold deref_all
      rw [ih]
      rfl
    · rw [List.filter_cons_of_neg (by simpa using hk)]
      exact ih

theorem handle_xim_get_im_values_request_filtered (fuel : Nat) (x : x_server_t)
    (xw : xim_wayland_t) (requestor input_method_id : Nat) (ids : List Nat)
    (input_method : xim_wayland_input_method_t) (stored : Nat → List Nat)
    (t : xcb_xim_transport_t) (ht : transport_at xw.xim requestor = t)
    (himid : input_method_id < 65536) (hids : ∀ id ∈ ids, id < 65536)
    (hlen : ids.length ≤ 32764)
    (hfind : find_input_method xw requestor input_method_id = some input_method)
    (hattrs : ∀ id, id < LAST_IM_ATTRIBUTE →
      input_method.attrs.getD id none = some (stored id))
    (hfuel : ids.length < fuel) :
    handle_xim_get_im_values_request fuel x xw
        (get_im_values_request t input_method_id ids) requestor
      = some ({ xw with xim :=
          (send_frame x xw.xim t
            (xcb_xim_get_im_values_reply_frame t input_method_id
              ((ids.filter (fun id => decide (id < LAST_IM_ATTRIBUTE))).map stored))).1 },
          (send_frame x xw.xim t
            (xcb_xim_get_im_values_reply_frame t input_method_id
              ((ids.filter (fun id => decide (id < LAST_IM_ATTRIBUTE))).map stored))).2) := by
  have hf := get_im_values_request_fields t input_method_id ids
  have hpad := PAD_le (2 * ids.length)
  have hpm := PAD_add_mod (2 * ids.length)
  have h4 : xcb_xim_card16 t (byte_at (get_im_values_request t input_method_id ids) 4)
      (byte_at (get_im_values_request t input_method_id ids) 5) = input_method_id := by
    show field16 t _ 4 = input_method_id
    rw [hf.2.1, Nat.mod_eq_of_lt himid]
  have hit : xcb_xim_get_im_values_request_attribute_id_iterator t
      (get_im_values_request t input_method_id ids)
      = { transport := t, data := 8, index := 0, remainder := 2 * ids.length } := by
    unfold xcb_xim_get_im_values_request_attribute_id_iterator MIN
    dsimp only
    rw [hf.1, hf.2.2]
    have h1 : (4 + 2 * ids.length + PAD (2 * ids.length)) / 4 % 65536 * 4 % 65536
        = 4 + 2 * ids.length + PAD (2 * ids.length) := by omega
    have h2 : 2 * ids.length % 65536 = 2 * ids.length := by omega
    rw [h1, h2, if_pos (by omega)]
  have hwalk := get_im_values_walk_ids t input_method ids hids
    (List.replicate (PAD (2 * ids.length)) 0)
    ([44, 0] ++ NO16 t ((4 + 2 * ids.length + PAD (2 * ids.length)) / 4)
      ++ NO16 t input_method_id ++ NO16 t (2 * ids.length)) [] 0 fuel (by omega) hfuel
  simp only [List.length_append, NO16_length, List.length_cons, List.length_nil,
    List.nil_append] at hwalk
  unfold handle_xim_get_im_values_request
  dsimp only
  rw [ht, h4, hfind]
  dsimp only
  rw [hit]
  unfold get_im_values_request
  rw [hwalk]
  dsimp only
  rw [deref_all_stored _ stored hattrs]

theorem get_im_values_known_and_unknown :
    (handle_xim_get_im_values_request 3 x_server_ok xw_opened
        (get_im_values_request transport_l 1 [0, 5]) 0).map
        (fun r => (frames_sent r.1.xim, r.2))
      = some ([(xcb_xim_get_im_values_reply_frame transport_l 1
          [im_styles_record]).payload], true) := by
  decide

theorem request_length_eq (t : xcb_xim_transport_t) (r : List Nat) :
    request_length t r = 4 + 4 * field16 t r 2 := rfl


theorem handle_xim_request_unhandled (fuel : Nat) (x : x_server_t) (wl : wl_proxies_t)
    (xw : xim_wayland_t) (request : List Nat) (requestor : Nat)
    (h : byte_at request 0 ∉ handled_opcodes) :
    handle_xim_request fuel x wl xw request requestor = some (xw, true) := by
  simp only [handled_opcodes, List.mem_cons, List.mem_singleton, List.not_mem_nil,
    not_or, or_false] at h
  obtain ⟨h1, h2, h3, h4, h5, h6, h7, h8, h9, h10, h11, h12, h13⟩ := h
  unfold handle_xim_request
  simp only [h1, h2, h3, h4, h5, h6, h7, h8, h9, h10, h11, h12, h13, if_false]

theorem handle_xim_request_no_input_method (fuel : Nat) (x : x_server_t)
    (wl : wl_proxies_t) (xw : xim_wayland_t) (request : List Nat) (requestor : Nat)
    (hop : byte_at request 0 ∈ id_bearing_opcodes)
    (hfind : find_input_method xw requestor
      (xcb_xim_card16 (transport_at xw.xim requestor) (byte_at request 4)
        (byte_at request 5)) = none) :
    handle_xim_request fuel x wl xw request requestor = some (xw, false) := by
  simp only [id_bearing_opcodes, List.mem_cons, List.mem_singleton, List.not_mem_nil,
    or_false] at hop
  unfold handle_xim_request
  rcases hop with h | h | h | h | h | h | h | h | h | h <;>
  · rw [h]
    simp only [XCB_XIM_OPEN, XCB_XIM_CLOSE, XCB_XIM_QUERY_EXTENSION,
      XCB_XIM_ENCODING_NEGOTIATION, XCB_XIM_SET_IM_VALUES, XCB_XIM_GET_IM_VALUES,
      XCB_XIM_CREATE_IC, XCB_XIM_DESTROY_IC, XCB_XIM_SET_IC_VALUES, XCB_XIM_GET_IC_VALUES,
      XCB_XIM_SET_IC_FOCUS, XCB_XIM_UNSET_IC_FOCUS, XCB_XIM_PREEDIT_CARET_REPLY]
    simp only [Nat.reduceEqDiff, if_true, if_false, handle_xim_close_request,
      handle_xim_set_im_values_request, handle_xim_get_im_values_request,
      handle_xim_create_ic_request, handle_xim_destroy_ic_request,
      handle_xim_set_ic_values_request, handle_xim_get_ic_values_request,
      handle_xim_set_ic_focus_request, handle_xim_unset_ic_focus_request,
      handle_xim_preedit_caret_reply, hfind]

theorem find_input_method_eq_none (xw : xim_wayland_t) (transport id : Nat)
    (h : ∀ im ∈ xw.input_method_list, im.transport = transport → im.id ≠ id) :
    find_input_method xw transport id = none := by
  unfold find_input_method
  rw [List.find?_eq_none]
  intro im him
  have := h im him
  simp only [Bool.and_eq_true, beq_iff_eq, not_and]
  exact this


theorem read_data_format_8 (host_big_endian : Bool) (x : x_server_t)
    (xim : xcb_xim_server_connection_t) (client : xcb_xim_transport_t)
    (event : xcb_client_message_event_t) (h : event.format ≠ 32) :
    read_data host_big_endian x xim client event
      = if load16 host_big_endian (byte_at event.data8 2) (byte_at event.data8 3) * 4 + 4
            > 20 then (xim, none)
        else (xim, some (memcpy event.data8
          (load16 host_big_endian (byte_at event.data8 2) (byte_at event.data8 3) * 4 + 4),
          load16 host_big_endian (byte_at event.data8 2) (byte_at event.data8 3) * 4 + 4)) := by
  unfold read_data
  rw [if_neg h]

theorem load16_eq_HO16 (t : xcb_xim_transport_t) (b0 b1 : Nat) :
    load16 (decide (t.endian = 66)) b0 b1 = HO16 t b0 b1 := by
  unfold load16 HO16
  by_cases h : t.endian = 66 <;> simp [h]

theorem read_data_some (host_big_endian : Bool) (x : x_server_t)
    (xim xim1 : xcb_xim_server_connection_t) (client : xcb_xim_transport_t)
    (event : xcb_client_message_event_t) (data : List Nat) (length : Nat)
    (h : read_data host_big_endian x xim client event = (xim1, some (data, length))) :
    4 ≤ length ∧ data.length = length ∧
    xim1 = { xim with round_trips := xim1.round_trips } := by
  unfold read_data at h
  by_cases h32 : event.format = 32
  · rw [if_pos h32] at h
    dsimp only at h
    split at h
    · cases h
    · split at h
      · cases h
      · split at h
        · cases h
        · simp only [Prod.mk.injEq, Option.some.injEq] at h
          obtain ⟨h1, h2, h3⟩ := h
          subst h1 h2 h3
          exact ⟨by omega, memcpy_length _ _, rfl⟩
  · rw [if_neg h32] at h
    dsimp only at h
    split at h
    · cases h
    · simp only [Prod.mk.injEq, Option.some.injEq] at h
      obtain ⟨h1, h2, h3⟩ := h
      subst h1 h2 h3
      exact ⟨by omega, memcpy_length _ _, rfl⟩

theorem find_transport_lt (xim : xcb_xim_server_connection_t) (server_window i : Nat)
    (h : find_transport xim server_window = some i) :
    i < xim.clients.length ∧ (transport_at xim i).server_window = server_window := by
  unfold find_transport at h
  have hm := List.mem_of_find?_eq_some h
  have hp := List.find?_some h
  simp only [List.mem_reverse, List.mem_range] at hm
  simp only [beq_iff_eq] at hp
  exact ⟨hm, hp⟩

theorem transport_at_set (xim : xcb_xim_server_connection_t) (i : Nat)
    (t : xcb_xim_transport_t) (h : i < xim.clients.length) :
    transport_at { xim with clients := xim.clients.set i t } i = t := by
  unfold transport_at
  simp [List.getD_eq_getElem?_getD, List.getElem?_set, h]

theorem connect_reply_payload (t : xcb_xim_transport_t) :
    (xcb_xim_connect_reply_frame t 1 0).length = 8 ∧
    memcpy (xcb_xim_connect_reply_frame t 1 0).bytes 8
      = if t.endian = 66 then [2, 0, 0, 1, 0, 1, 0, 0] else [2, 0, 1, 0, 1, 0, 0, 0] := by
  refine ⟨rfl, ?_⟩
  by_cases h : t.endian = 66 <;>
    simp [xcb_xim_connect_reply_frame, frame_8, NO16, memcpy, byte_at, h, List.range_succ]


theorem disconnect_reply_payload (t : xcb_xim_transport_t) :
    (xcb_xim_disconnect_reply_frame t).length = 4 ∧
    memcpy (xcb_xim_disconnect_reply_frame t).bytes 4 = [4, 0, 0, 0] := by
  refine ⟨rfl, ?_⟩
  by_cases h : t.endian = 66 <;>
    simp [xcb_xim_disconnect_reply_frame, NO16, memcpy, byte_at, h, List.range_succ]

theorem find_transport_congr (xim xim1 : xcb_xim_server_connection_t)
    (h : xim1.clients = xim.clients) (w : Nat) :
    find_transport xim1 w = find_transport xim w := by
  unfold find_transport transport_at
  rw [h]

/-- What `do_client_message` does with a `CONNECT` frame once `read_data` has
returned it: with at least 8 bytes the endian byte of the transport becomes
byte 4 of the frame, nothing is queued, `CONNECT_REPLY` is sent in that byte
order and the result is `REMOVE`; with fewer bytes the result is `ERROR` and
nothing is sent. -/
theorem do_client_message_connect (host_big_endian : Bool) (x : x_server_t)
    (fresh : xcb_xim_transport_t) (xim xim1 : xcb_xim_server_connection_t)
    (event : xcb_client_message_event_t) (transport : Nat) (data : List Nat) (length : Nat)
    (hx : event.type ≠ xim.atoms.getD _XIM_XCONNECT 0)
    (hp : event.type = xim.atoms.getD _XIM_PROTOCOL 0)
    (hfind : find_transport xim event.window = some transport)
    (hread : read_data host_big_endian x xim (transport_at xim transport) event
      = (xim1, some (data, length)))
    (hop : byte_at data 0 = XCB_XIM_CONNECT) :
    (8 ≤ length →
      do_client_message host_big_endian x fresh xim event
        = ({ xim1 with
             clients := xim1.clients.set transport
               { transport_at xim1 transport with endian := byte_at data 4 },
             sent := xim1.sent ++
               [{ window := (transport_at xim1 transport).client_window,
                  type := xim1.atoms.getD _XIM_PROTOCOL 0, format := 8,
                  data := (if byte_at data 4 = 66 then [2, 0, 0, 1, 0, 1, 0, 0]
                    else [2, 0, 1, 0, 1, 0, 0, 0]) ++ List.replicate 12 0,
                  payload := if byte_at data 4 = 66 then [2, 0, 0, 1, 0, 1, 0, 0]
                    else [2, 0, 1, 0, 1, 0, 0, 0],
                  property := none }] },
            xcb_xim_dispatch_result_t.XCB_XIM_DISPATCH_REMOVE)) ∧
    (length < 8 →
      do_client_message host_big_endian x fresh xim event
        = (xim1, xcb_xim_dispatch_result_t.XCB_XIM_DISPATCH_ERROR)) := by
  obtain ⟨hl4, _, hxim1⟩ := read_data_some host_big_endian x xim xim1 _ event data length hread
  have hlt := (find_transport_lt xim event.window transport hfind).1
  have hclients : xim1.clients = xim.clients := by rw [hxim1]
  have hop2 : byte_at (memcpy data length) 0 = XCB_XIM_CONNECT := by
    rw [byte_at_memcpy _ _ _ (by omega), hop]
  constructor
  · intro h8
    unfold do_client_message
    rw [if_neg hx, if_pos hp, hfind]
    dsimp only
    rw [hread]
    dsimp only
    rw [if_pos hop2, if_neg (by omega)]
    rw [transport_at_set xim1 transport _ (by rw [hclients]; exact hlt)]
    unfold send_frame write_data
    rw [(connect_reply_payload _).1, if_neg (by omega), (connect_reply_payload _).2]
  · intro h8
    unfold do_client_message
    rw [if_neg hx, if_pos hp, hfind]
    dsimp only
    rw [hread]
    dsimp only
    rw [if_pos hop2, if_pos h8]

/-! ### The reply to XIM_OPEN -/

theorem spec_new_eq_wire (t : xcb_xim_transport_t) (attribute_id type : Nat)
    (name : List Nat) (hn : name.length < 65536) (h0 : ∀ b ∈ name, b ≠ 0) :
    xcb_xim_attribute_spec_new t attribute_id type (strlen name) name
      = attribute_spec_wire t attribute_id type name := by
  have hs : strlen name = name.length := by
    unfold strlen
    rw [List.takeWhile_eq_self_iff.mpr]
    intro b hb
    simpa using h0 b hb
  unfold xcb_xim_attribute_spec_new attribute_spec_wire
  dsimp only
  rw [hs, Nat.mod_eq_of_lt hn, memcpy_self]

theorem spec_wire_length (t : xcb_xim_transport_t) (attribute_id type : Nat)
    (name : List Nat) (hn : name.length < 65536) :
    (attribute_spec_wire t attribute_id type name).length
      = 6 + name.length + PAD (2 + name.length) ∧
    spec_length t (attribute_spec_wire t attribute_id type name)
      = 6 + name.length + PAD (2 + name.length) := by
  constructor
  · simp only [attribute_spec_wire, List.length_append, NO16_length, List.length_replicate]
  · unfold spec_length attribute_spec_wire
    have : field16 t (NO16 t attribute_id ++ NO16 t type ++ NO16 t name.length ++ name ++
        List.replicate (PAD (2 + name.length)) 0) 4 = name.length := by
      rw [List.append_assoc, List.append_assoc,
        field16_at _ _ _ _ _ (by simp [NO16_length]), Nat.mod_eq_of_lt hn]
    rw [this]

theorem copy_records_exact (size : List Nat → Nat) (es : List (List Nat))
    (h : ∀ e ∈ es, size e = e.length) : copy_records size es = es.flatten := by
  induction es with
  | nil => rfl
  | cons e es ih =>
    unfold copy_records at ih ⊢
    rw [List.flatMap_cons, List.flatten_cons, h e (List.mem_cons_self _ _), memcpy_self,
      ih (fun x hx => h x (List.mem_cons_of_mem _ hx))]

theorem specs_wire_sizes (t : xcb_xim_transport_t) :
    (∀ e ∈ im_specs_wire t, spec_length t e = e.length) ∧
    (∀ e ∈ ic_specs_wire t, spec_length t e = e.length) ∧
    (im_specs_wire t).map (spec_length t) = [24] ∧
    (ic_specs_wire t).map (spec_length t) = [16, 20, 20, 20, 24, 24] := by
  have h := fun id ty name hn => spec_wire_length t id ty name hn
  refine ⟨?_, ?_, ?_, ?_⟩
  · intro e he
    simp only [im_specs_wire, List.mem_singleton] at he
    subst he
    rw [(h _ _ _ (by decide)).1, (h _ _ _ (by decide)).2]
  · intro e he
    simp only [ic_specs_wire, List.mem_cons, List.mem_singleton, List.not_mem_nil,
      or_false] at he
    rcases he with he | he | he | he | he | he <;> subst he <;>
      rw [(h _ _ _ (by decide)).1, (h _ _ _ (by decide)).2]
  · simp only [im_specs_wire, List.map_cons, List.map_nil,
      (h _ _ _ (by decide : queryInputStyle.length < 65536)).2]
    rfl
  · simp only [ic_specs_wire, List.map_cons, List.map_nil,
      (h _ _ _ (by decide : inputStyle.length < 65536)).2,
      (h _ _ _ (by decide : filterEvents.length < 65536)).2,
      (h _ _ _ (by decide : clientWindow.length < 65536)).2,
      (h _ _ _ (by decide : focusWindow.length < 65536)).2,
      (h _ _ _ (by decide : preeditAttributes.length < 65536)).2,
      (h _ _ _ (by decide : statusAttributes.length < 65536)).2]
    rfl

theorem sum16_map (size : List Nat → Nat) (es : List (List Nat)) :
    sum16 size es = (es.map size).foldl (fun acc n => (acc + n) % 65536) 0 := by
  unfold sum16
  rw [List.foldl_map]

theorem open_reply_frame_wire (t : xcb_xim_transport_t) (input_method_id : Nat) :
    xcb_xim_open_reply_frame t input_method_id (im_specs_wire t) (ic_specs_wire t)
      = { alloc := 160, length := 160, bytes := open_reply_wire t input_method_id } := by
  have hs := specs_wire_sizes t
  have h1 : sum16 (spec_length t) (im_specs_wire t) = 24 := by
    rw [sum16_map, hs.2.2.1]; rfl
  have h2 : sum16 (spec_length t) (ic_specs_wire t) = 124 := by
    rw [sum16_map, hs.2.2.2]; rfl
  unfold xcb_xim_open_reply_frame open_reply_wire
  rw [h1, h2, copy_records_exact _ _ hs.1, copy_records_exact _ _ hs.2.1]

theorem open_reply_wire_length (t : xcb_xim_transport_t) (input_method_id : Nat) :
    (open_reply_wire t input_method_id).length = 160 := by
  have hs := specs_wire_sizes t
  have h1 : ((im_specs_wire t).map List.length) = [24] := by
    rw [← hs.2.2.1]
    exact List.map_congr_left (fun e he => (hs.1 e he).symm)
  have h2 : ((ic_specs_wire t).map List.length) = [16, 20, 20, 20, 24, 24] := by
    rw [← hs.2.2.2]
    exact List.map_congr_left (fun e he => (hs.2.1 e he).symm)
  simp only [open_reply_wire, List.length_append, NO16_length, List.length_flatten, h1, h2,
    List.length_cons, List.length_nil, List.sum_cons, List.sum_nil]
  rfl

theorem input_method_new_specs (xim : xcb_xim_server_connection_t) (transport id : Nat) :
    deref_all (xim_wayland_input_method_new xim transport id).specs
      = some (im_specs_wire (transport_at xim transport)) ∧
    deref_all (xim_wayland_input_method_new xim transport id).ic_specs
      = some (ic_specs_wire (transport_at xim transport)) ∧
    (xim_wayland_input_method_new xim transport id).id = id % 65536 ∧
    (xim_wayland_input_method_new xim transport id).transport = transport ∧
    (xim_wayland_input_method_new xim transport id).input_context_list = [] ∧
    (xim_wayland_input_method_new xim transport id).input_context_counter = 0 := by
  have h := fun a ty name hn h0 => spec_new_eq_wire (transport_at xim transport) a ty name hn h0
  refine ⟨?_, ?_, rfl, rfl, rfl, rfl⟩
  · unfold xim_wayland_input_method_new init_im_attributes
    dsimp only
    rw [h _ _ _ (by decide) (by decide)]
    rfl
  · unfold xim_wayland_input_method_new init_im_attributes
    dsimp only
    rw [h _ _ inputStyle (by decide) (by decide), h _ _ filterEvents (by decide) (by decide),
      h _ _ clientWindow (by decide) (by decide), h _ _ focusWindow (by decide) (by decide),
      h _ _ preeditAttributes (by decide) (by decide),
      h _ _ statusAttributes (by decide) (by decide)]
    rfl


/-! ### The handler of CREATE_IC -/

theorem frame_8_sent (x : x_server_t) (xim : xcb_xim_server_connection_t)
    (t : xcb_xim_transport_t) (opcode a b : Nat) :
    (send_frame x xim t (frame_8 t opcode a b)).2 = true ∧
    frames_sent (send_frame x xim t (frame_8 t opcode a b)).1
      = frames_sent xim ++ [[opcode % 256, 0] ++ NO16 t 1 ++ NO16 t a ++ NO16 t b] := by
  have hp : memcpy (frame_8 t opcode a b).bytes 8
      = [opcode % 256, 0] ++ NO16 t 1 ++ NO16 t a ++ NO16 t b := by
    by_cases h : t.endian = 66 <;>
      simp [frame_8, NO16, memcpy, byte_at, h, List.range_succ]
  unfold send_frame write_data
  have hl : (frame_8 t opcode a b).length = 8 := rfl
  rw [hl, if_neg (by omega), hp]
  simp [frames_sent]

theorem create_ic_request_fields (t : xcb_xim_transport_t) (input_method_id : Nat)
    (es : List (List Nat)) :
    field16 t (create_ic_request t input_method_id es) 2
      = (4 + (es.map List.length).sum) / 4 % 65536 ∧
    field16 t (create_ic_request t input_method_id es) 4 = input_method_id % 65536 ∧
    field16 t (create_ic_request t input_method_id es) 6
      = (es.map List.length).sum % 65536 := by
  by_cases h : t.endian = 66 <;>
    simp [create_ic_request, NO16, field16, HO16, byte_at, h] <;> omega

theorem handle_xim_create_ic_request_found (fuel : Nat) (x : x_server_t) (wl : wl_proxies_t)
    (xw : xim_wayland_t) (request : List Nat) (requestor : Nat)
    (im : xim_wayland_input_method_t) (table : List (Option (List Nat)))
    (hfind : find_input_method xw requestor
      (field16 (transport_at xw.xim requestor) request 4) = some im)
    (hti : wl.text_input ≠ 0) (hsf : wl.surface ≠ 0)
    (hset : set_values request (transport_at xw.xim requestor) LAST_IC_ATTRIBUTE fuel
      (init_ic_attributes (transport_at xw.xim requestor))
      (xcb_xim_create_ic_request_attribute_iterator (transport_at xw.xim requestor) request)
      = some table) :
    ∃ r, handle_xim_create_ic_request fuel x wl xw request requestor = some (r, true) ∧
      frames_sent r.xim = frames_sent xw.xim ++
        [[51, 0] ++ NO16 (transport_at xw.xim requestor) 1
          ++ NO16 (transport_at xw.xim requestor)
              (field16 (transport_at xw.xim requestor) request 4)
          ++ NO16 (transport_at xw.xim requestor) ((im.input_context_counter + 1) % 65536)] ∧
      find_input_method r requestor (field16 (transport_at xw.xim requestor) request 4)
        = some { im with
            input_context_counter := (im.input_context_counter + 1) % 65536,
            input_context_list :=
              { xim_wayland_input_context_new xw.xim wl.text_input wl.surface requestor
                  (field16 (transport_at xw.xim requestor) request 4)
                  ((im.input_context_counter + 1) % 65536) with attrs := table }
                :: im.input_context_list } := by
  have hp := List.find?_some hfind
  simp only [Bool.and_eq_true, beq_iff_eq] at hp
  obtain ⟨htr, hid⟩ := hp
  have h4 : xcb_xim_card16 (transport_at xw.xim requestor) (byte_at request 4)
      (byte_at request 5) = field16 (transport_at xw.xim requestor) request 4 := rfl
  have hs := frame_8_sent x xw.xim (transport_at xw.xim requestor) 51
    (field16 (transport_at xw.xim requestor) request 4)
    ((im.input_context_counter + 1) % 65536)
  unfold handle_xim_create_ic_request
  dsimp only
  rw [h4, hfind]
  dsimp only
  rw [if_neg hti, if_neg hsf]
  have hattrs : (xim_wayland_input_context_new xw.xim wl.text_input wl.surface im.transport
      im.id ((im.input_context_counter + 1) % 65536)).attrs
      = init_ic_attributes (transport_at xw.xim requestor) := by
    rw [htr]; rfl
  rw [hattrs, hset]
  dsimp only
  have hicid : (xim_wayland_input_context_new xw.xim wl.text_input wl.surface im.transport
      im.id ((im.input_context_counter + 1) % 65536)).id
      = (im.input_context_counter + 1) % 65536 := by
    unfold xim_wayland_input_context_new
    exact Nat.mod_mod _ _
  rw [hicid]
  unfold xcb_xim_create_ic_reply_frame
  rw [hs.1]
  refine ⟨_, rfl, hs.2, ?_⟩
  unfold find_input_method store_input_method
  dsimp only
  rw [htr, hid]
  unfold find_input_method at hfind
  rw [find_modify_first, find_modify_first, hfind]
  · simp [htr, hid, xim_wayland_input_context_new]
  · intro a; rfl
  · intro a; rfl

theorem create_ic_request_iterator (t : xcb_xim_transport_t) (input_method_id : Nat)
    (es : List (List Nat)) (hsum : 4 + (es.map List.length).sum < 65536) :
    xcb_xim_create_ic_request_attribute_iterator t (create_ic_request t input_method_id es)
      = { transport := t, data := 8, index := 0, remainder := (es.map List.length).sum } := by
  have hf := create_ic_request_fields t input_method_id es
  unfold xcb_xim_create_ic_request_attribute_iterator
  dsimp only
  rw [hf.1, hf.2.2]
  have h1 : (4 + (es.map List.length).sum) / 4 % 65536 * 4 % 65536
      > (es.map List.length).sum % 65536 := by omega
  unfold MIN
  rw [if_pos h1, Nat.mod_eq_of_lt (by omega)]

theorem create_ic_request_set_values (t : xcb_xim_transport_t) (input_method_id : Nat)
    (es : List (List Nat)) (hes : ∀ e ∈ es, attribute_well_sized t e)
    (hsum : 4 + (es.map List.length).sum < 65536) (fuel : Nat) (hfuel : es.length < fuel)
    (attributes : List (Option (List Nat))) :
    set_values (create_ic_request t input_method_id es) t LAST_IC_ATTRIBUTE fuel attributes
      (xcb_xim_create_ic_request_attribute_iterator t (create_ic_request t input_method_id es))
      = some (es.foldl (fun table e =>
          if field16 t e 0 ≥ LAST_IC_ATTRIBUTE then table
          else table.set (field16 t e 0) (some (attribute_copy t e))) attributes) := by
  rw [create_ic_request_iterator t input_method_id es hsum]
  have h := set_values_flatten t LAST_IC_ATTRIBUTE es hes []
    ([50, 0] ++ NO16 t ((4 + (es.map List.length).sum) / 4) ++ NO16 t input_method_id
      ++ NO16 t (es.map List.length).sum) attributes 0 fuel (by omega) hfuel
  rw [List.append_nil] at h
  have hl : ([50, 0] ++ NO16 t ((4 + (es.map List.length).sum) / 4) ++ NO16 t input_method_id
      ++ NO16 t (es.map List.length).sum).length = 8 := by
    simp [NO16_length]
  rw [hl] at h
  exact h

theorem create_ic_request_handled (fuel : Nat) (x : x_server_t) (wl : wl_proxies_t)
    (xw : xim_wayland_t) (requestor input_method_id : Nat) (es : List (List Nat))
    (im : xim_wayland_input_method_t)
    (hfind : find_input_method xw requestor input_method_id = some im)
    (hid : input_method_id < 65536) (hti : wl.text_input ≠ 0) (hsf : wl.surface ≠ 0)
    (hes : ∀ e ∈ es, attribute_well_sized (transport_at xw.xim requestor) e)
    (hsum : 4 + (es.map List.length).sum < 65536) (hfuel : es.length < fuel) :
    ∃ r table,
      handle_xim_create_ic_request fuel x wl xw
        (create_ic_request (transport_at xw.xim requestor) input_method_id es) requestor
        = some (r, true) ∧
      frames_sent r.xim = frames_sent xw.xim ++
        [[51, 0] ++ NO16 (transport_at xw.xim requestor) 1
          ++ NO16 (transport_at xw.xim requestor) input_method_id
          ++ NO16 (transport_at xw.xim requestor) ((im.input_context_counter + 1) % 65536)] ∧
      find_input_method r requestor input_method_id
        = some { im with
            input_context_counter := (im.input_context_counter + 1) % 65536,
            input_context_list :=
              { xim_wayland_input_context_new xw.xim wl.text_input wl.surface requestor
                  input_method_id ((im.input_context_counter + 1) % 65536)
                with attrs := table } :: im.input_context_list } ∧
      table.length = LAST_IC_ATTRIBUTE ∧
      ∀ k, k < LAST_IC_ATTRIBUTE →
        (∀ e, last_attribute_with_id (transport_at xw.xim requestor) es k = some e →
          table.getD k none = some (attribute_copy (transport_at xw.xim requestor) e)) ∧
        (last_attribute_with_id (transport_at xw.xim requestor) es k = none →
          table.getD k none
            = (init_ic_attributes (transport_at xw.xim requestor)).getD k none) := by
  have hf := create_ic_request_fields (transport_at xw.xim requestor) input_method_id es
  have h4 : field16 (transport_at xw.xim requestor)
      (create_ic_request (transport_at xw.xim requestor) input_method_id es) 4
      = input_method_id := by
    rw [hf.2.1, Nat.mod_eq_of_lt hid]
  have hset := create_ic_request_set_values (transport_at xw.xim requestor) input_method_id es
    hes hsum fuel hfuel (init_ic_attributes (transport_at xw.xim requestor))
  obtain ⟨r, hr, hsent, hfound⟩ := handle_xim_create_ic_request_found fuel x wl xw
    (create_ic_request (transport_at xw.xim requestor) input_method_id es) requestor im _
    (by rw [h4]; exact hfind) hti hsf hset
  rw [h4] at hsent hfound
  have hslots := set_values_fold_slots (transport_at xw.xim requestor) LAST_IC_ATTRIBUTE
    (init_ic_attributes (transport_at xw.xim requestor)) es
  refine ⟨r, _, hr, hsent, hfound, hslots.1, ?_⟩
  intro k hk
  have h := hslots.2 k hk
  exact ⟨h.1 hk, fun hn => h.2 (Or.inl hn)⟩

theorem create_ic_request_length (t : xcb_xim_transport_t) (input_method_id : Nat)
    (es : List (List Nat)) :
    (create_ic_request t input_method_id es).length = 8 + (es.map List.length).sum := by
  simp only [create_ic_request, List.length_append, NO16_length, List.length_flatten,
    List.length_cons, List.length_nil]

theorem set_values_done (mem : List Nat) (t : xcb_xim_transport_t) (max_attribute_id : Nat)
    (fuel d idx : Nat) (attributes : List (Option (List Nat))) :
    set_values mem t max_attribute_id (fuel + 1) attributes
      { transport := t, data := d, index := idx, remainder := 0 } = some attributes := by
  unfold set_values
  rw [attribute_iterator_done]
  rfl

theorem attributes_65532_sum : (attributes_65532.map List.length).sum = 65532 := by
  unfold attributes_65532
  rw [List.map_cons, List.sum_cons, List.map_replicate, List.sum_replicate]
  rfl

theorem last_attribute_with_id_replicate (t : xcb_xim_transport_t) (e b : List Nat)
    (k n : Nat) (he : field16 t e 0 = k) (hb : field16 t b 0 ≠ k) :
    last_attribute_with_id t (e :: List.replicate n b) k = some e := by
  unfold last_attribute_with_id
  rw [List.foldl_cons, if_pos he]
  induction n with
  | zero => rfl
  | succ n ih =>
    rw [List.replicate_succ', List.foldl_append, ih, List.foldl_cons, if_neg hb]
    rfl


/-! ### The flag `preedit_started` and the frames sent -/

theorem preedit_open_snoc (S D : List Nat) (fs : List (List Nat)) (f : List Nat) :
    preedit_open S D (fs ++ [f])
      = if f = S then true else if f = D then false else preedit_open S D fs := by
  unfold preedit_open
  rw [List.foldl_append]
  rfl

theorem preedit_open_iff (S D : List Nat) (hSD : D ≠ S) (fs : List (List Nat)) :
    preedit_open S D fs = true ↔ preedit_start_pending S D fs := by
  induction fs using List.reverseRecOn with
  | nil =>
    constructor
    · intro h
      exact absurd h (by simp [preedit_open])
    · rintro ⟨b, a, h, _⟩
      simp at h
  | append_singleton fs f ih =>
    rw [preedit_open_snoc]
    by_cases h1 : f = S
    · rw [if_pos h1]
      subst h1
      exact ⟨fun _ => ⟨fs, [], rfl, by simp, by simp⟩, fun _ => rfl⟩
    · rw [if_neg h1]
      have hsplit : ∀ b a, fs ++ [f] = b ++ S :: a →
          ∃ a1, a = a1 ++ [f] ∧ fs = b ++ S :: a1 := by
        intro b a h
        rcases List.eq_nil_or_concat a with ha | ⟨a1, g, ha⟩
        · subst ha
          have := List.append_inj_right' h rfl
          simp only [List.cons.injEq, and_true] at this
          exact absurd this h1
        · subst ha
          have h2 : fs ++ [f] = (b ++ S :: a1) ++ [g] := by
            rw [h]; simp
          have h3 := List.append_inj_right' h2 rfl
          have h4 := List.append_inj_left' h2 rfl
          simp only [List.cons.injEq, and_true] at h3
          subst h3
          exact ⟨a1, by simp, h4⟩
      by_cases h2 : f = D
      · rw [if_pos h2]
        constructor
        · intro h
          exact absurd h (by simp)
        · rintro ⟨b, a, h, _, hd⟩
          obtain ⟨a1, ha, _⟩ := hsplit b a h
          subst ha
          exact absurd (by simp [h2]) hd
      · rw [if_neg h2, ih]
        constructor
        · rintro ⟨b, a, h, hs, hd⟩
          refine ⟨b, a ++ [f], by rw [h]; simp, ?_, ?_⟩
          · simp only [List.mem_append, List.mem_singleton, not_or]
            exact ⟨hs, fun h => h1 h.symm⟩
          · simp only [List.mem_append, List.mem_singleton, not_or]
            exact ⟨hd, fun h => h2 h.symm⟩
        · rintro ⟨b, a, h, hs, hd⟩
          obtain ⟨a1, ha, hfs⟩ := hsplit b a h
          subst ha
          simp only [List.mem_append, List.mem_singleton, not_or] at hs hd
          exact ⟨b, a1, hfs, hs.1, hd.1⟩

theorem frame_8_payload (t : xcb_xim_transport_t) (opcode a b : Nat) :
    (frame_8 t opcode a b).payload = [opcode % 256, 0] ++ NO16 t 1 ++ NO16 t a ++ NO16 t b := by
  unfold frame_t.payload
  by_cases h : t.endian = 66 <;>
    simp [frame_8, NO16, memcpy, byte_at, h, List.range_succ]

theorem frame_8_opcode (t : xcb_xim_transport_t) (opcode a b : Nat) :
    byte_at (frame_8 t opcode a b).payload 0 = opcode % 256 := by
  rw [frame_8_payload]
  rfl

theorem preedit_draw_opcode (t : xcb_xim_transport_t)
    (input_method_id input_context_id : Nat) (caret change_first change_length : Int)
    (status preedit_length : Nat) (preedit : List Nat)
    (feedbacks_length : Nat) (feedbacks : List Nat) :
    byte_at (xcb_xim_preedit_draw_frame t input_method_id input_context_id caret change_first
      change_length status preedit_length preedit feedbacks_length feedbacks).payload 0
      = 75 := by
  unfold frame_t.payload xcb_xim_preedit_draw_frame
  dsimp only
  rw [memcpy_self]
  simp [byte_at]

theorem preedit_caret_opcode (t : xcb_xim_transport_t)
    (input_method_id input_context_id : Nat) (position : Int) (direction style : Nat) :
    byte_at (xcb_xim_preedit_caret_frame t input_method_id input_context_id position
      direction style).payload 0 = 76 := by
  unfold frame_t.payload xcb_xim_preedit_caret_frame
  dsimp only
  rw [byte_at_memcpy _ _ _ (by omega)]
  simp [byte_at]

theorem commit_opcode (t : xcb_xim_transport_t)
    (input_method_id input_context_id flag keysym string_length : Nat) (string : List Nat) :
    byte_at (xcb_xim_commit_frame t input_method_id input_context_id flag keysym
      string_length string).payload 0 = 63 := by
  unfold frame_t.payload xcb_xim_commit_frame
  dsimp only
  rw [byte_at_memcpy _ _ _ (by split <;> split <;> omega)]
  simp [byte_at]

theorem preedit_open_other (S D : List Nat) (fs : List (List Nat)) (f : List Nat)
    (hS : byte_at f 0 ≠ byte_at S 0) (hD : byte_at f 0 ≠ byte_at D 0) :
    preedit_open S D (fs ++ [f]) = preedit_open S D fs := by
  rw [preedit_open_snoc, if_neg (fun h => hS (by rw [h])), if_neg (fun h => hD (by rw [h]))]

theorem transport_at_clients (xim xim1 : xcb_xim_server_connection_t)
    (h : xim1.clients = xim.clients) (p : Nat) : transport_at xim1 p = transport_at xim p := by
  unfold transport_at
  rw [h]

theorem update_preedit_string_agrees (x : x_server_t) (hx : x_server_answers x)
    (t : xcb_xim_transport_t) (input_method_id input_context_id : Nat)
    (xim : xcb_xim_server_connection_t) (ic : xim_wayland_input_context_t) (text : List Nat)
    (h : preedit_flag_agrees t input_method_id input_context_id (xim, ic)) :
    preedit_flag_agrees t input_method_id input_context_id
      ((update_preedit_string x xim ic text).xim, (update_preedit_string x xim ic text).ic) := by
  unfold preedit_flag_agrees at h ⊢
  dsimp only at h ⊢
  obtain ⟨ht, him, hic, hst⟩ := h
  have hSD : byte_at (xcb_xim_preedit_done_frame t input_method_id input_context_id).payload 0
      ≠ byte_at (xcb_xim_preedit_start_frame t input_method_id input_context_id).payload 0 := by
    unfold xcb_xim_preedit_done_frame xcb_xim_preedit_start_frame
    rw [frame_8_opcode, frame_8_opcode]
    decide
  have hdraw : ∀ a b c d e f g h,
      preedit_open (xcb_xim_preedit_start_frame t input_method_id input_context_id).payload
        (xcb_xim_preedit_done_frame t input_method_id input_context_id).payload
        (frames_sent xim ++ [(xcb_xim_preedit_draw_frame t input_method_id input_context_id
          a b c d e f g h).payload])
      = preedit_open (xcb_xim_preedit_start_frame t input_method_id input_context_id).payload
        (xcb_xim_preedit_done_frame t input_method_id input_context_id).payload
        (frames_sent xim) := by
    intro a b c d e f g h
    apply preedit_open_other
    · unfold xcb_xim_preedit_start_frame
      rw [preedit_draw_opcode, frame_8_opcode]
      decide
    · unfold xcb_xim_preedit_done_frame
      rw [preedit_draw_opcode, frame_8_opcode]
      decide
  by_cases htext : byte_at text 0 = 0
  · obtain ⟨_, hr, hcl, hfr⟩ := update_preedit_string_empty x hx xim ic text htext
    rw [hr, hfr, ht, him, hic]
    refine ⟨?_, him, hic, ?_⟩
    · rw [transport_at_clients _ _ hcl]
      exact ht
    · show ic.preedit_started = _
      cases hs : ic.preedit_started
      · rw [if_neg (by simp), preedit_open_snoc, if_neg (fun h => hSD (by rw [h])),
          if_pos rfl]
      · rw [if_pos rfl, List.append_nil, hdraw, ← hst, hs]
  · obtain ⟨_, hr, hcl, hfr⟩ := update_preedit_string_nonempty x hx xim ic text htext
    rw [hr, hfr, ht, him, hic]
    refine ⟨?_, rfl, rfl, ?_⟩
    · rw [transport_at_clients _ _ hcl]
      exact ht
    · show true = _
      cases hs : ic.preedit_started
      · rw [if_neg (by simp), List.append_assoc, List.singleton_append,
          ← List.singleton_append, ← List.append_assoc, preedit_open_other, preedit_open_snoc,
          if_pos rfl]
        · unfold xcb_xim_preedit_start_frame
          rw [preedit_draw_opcode, frame_8_opcode]
          decide
        · unfold xcb_xim_preedit_done_frame
          rw [preedit_draw_opcode, frame_8_opcode]
          decide
      · rw [if_pos rfl, List.append_nil, hdraw, ← hst, hs]

theorem deliver_agrees (k : wl_text_input_preedit_style_t) (x : x_server_t)
    (hx : x_server_answers x) (t : xcb_xim_transport_t)
    (input_method_id input_context_id : Nat)
    (s : xcb_xim_server_connection_t × xim_wayland_input_context_t)
    (e : wl_text_input_event_t)
    (h : preedit_flag_agrees t input_method_id input_context_id s) :
    preedit_flag_agrees t input_method_id input_context_id (deliver k x s e) := by
  obtain ⟨xim, ic⟩ := s
  have hstart : byte_at
      (xcb_xim_preedit_start_frame t input_method_id input_context_id).payload 0 = 73 := by
    unfold xcb_xim_preedit_start_frame
    rw [frame_8_opcode]
  have hdone : byte_at
      (xcb_xim_preedit_done_frame t input_method_id input_context_id).payload 0 = 78 := by
    unfold xcb_xim_preedit_done_frame
    rw [frame_8_opcode]
  cases e with
  | preedit_string text =>
    unfold deliver handle_wayland_preedit_string
    dsimp only
    split
    · exact update_preedit_string_agrees x hx t _ _ xim ic text h
    · exact h
  | preedit_styling index length style =>
    unfold deliver handle_wayland_preedit_styling
    dsimp only
    split <;> exact h
  | preedit_cursor index =>
    unfold deliver handle_wayland_preedit_cursor xcb_xim_preedit_caret
    dsimp only
    obtain ⟨_, hfr, hcl⟩ := send_frame_answered x hx xim
      (transport_at xim ic.input_method_transport)
      (xcb_xim_preedit_caret_frame (transport_at xim ic.input_method_transport)
        ic.input_method_id ic.id index XCB_XIM_CARET_DIRECTION_ABSOLUTE_POSITION
        XCB_XIM_CARET_STYLE_PRIMARY)
    unfold preedit_flag_agrees at h ⊢
    dsimp only at h ⊢
    obtain ⟨ht, him, hic, hst⟩ := h
    refine ⟨?_, him, hic, ?_⟩
    · rw [transport_at_clients _ _ hcl]
      exact ht
    · rw [hfr, preedit_open_other, hst]
      · rw [preedit_caret_opcode, hstart]
        decide
      · rw [preedit_caret_opcode, hdone]
        decide
  | commit_string text =>
    unfold deliver handle_wayland_commit_string xcb_xim_commit
    dsimp only
    have h1 := update_preedit_string_agrees x hx t input_method_id input_context_id xim ic []
      h
    generalize (update_preedit_string x xim ic []).xim = xim1 at h1 ⊢
    generalize (update_preedit_string x xim ic []).ic = ic1 at h1 ⊢
    obtain ⟨_, hfr, hcl⟩ := send_frame_answered x hx xim1
      (transport_at xim1 ic1.input_method_transport)
      (xcb_xim_commit_frame (transport_at xim1 ic1.input_method_transport)
        ic1.input_method_id ic1.id
        (XCB_XIM_COMMIT_FLAG_KEYSYM ||| XCB_XIM_COMMIT_FLAG_STRING) 0xffffff
        (strlen text) text)
    unfold preedit_flag_agrees at h1 ⊢
    dsimp only at h1 ⊢
    obtain ⟨ht, him, hic, hst⟩ := h1
    refine ⟨?_, him, hic, ?_⟩
    · rw [transport_at_clients _ _ hcl]
      exact ht
    · rw [hfr, preedit_open_other, hst]
      · rw [commit_opcode, hstart]
        decide
      · rw [commit_opcode, hdone]
        decide

theorem deliver_all_agrees (k : wl_text_input_preedit_style_t) (x : x_server_t)
    (hx : x_server_answers x) (t : xcb_xim_transport_t)
    (input_method_id input_context_id : Nat) (es : List wl_text_input_event_t) :
    ∀ s : xcb_xim_server_connection_t × xim_wayland_input_context_t,
      preedit_flag_agrees t input_method_id input_context_id s →
      preedit_flag_agrees t input_method_id input_context_id (deliver_all k x s es) := by
  induction es with
  | nil => intro s h; exact h
  | cons e es ih =>
    intro s h
    unfold deliver_all
    rw [List.foldl_cons]
    exact ih _ (deliver_agrees k x hx t _ _ s e h)


/-! ### Ids of input methods and contexts -/

theorem mem_modify_first {α : Type} (p : α → Bool) (f : α → α) (l : List α) (a : α)
    (h : l.find? p = some a) : ∀ b ∈ modify_first p f l, b = f a ∨ b ∈ l := by
  induction l with
  | nil => simp at h
  | cons c l ih =>
    intro b hb
    unfold modify_first at hb
    by_cases hc : p c = true
    · rw [List.find?_cons_of_pos _ hc] at h
      cases h
      rw [if_pos hc, List.mem_cons] at hb
      rcases hb with hb | hb
      · exact Or.inl hb
      · exact Or.inr (List.mem_cons_of_mem _ hb)
    · rw [List.find?_cons_of_neg _ hc] at h
      rw [if_neg hc, List.mem_cons] at hb
      rcases hb with hb | hb
      · exact Or.inr (by rw [hb]; exact List.mem_cons_self _ _)
      · rcases ih h b hb with h1 | h1
        · exact Or.inl h1
        · exact Or.inr (List.mem_cons_of_mem _ h1)

theorem map_modify_first {α β : Type} (p : α → Bool) (f : α → α) (g : α → β)
    (hg : ∀ a, g (f a) = g a) (l : List α) : (modify_first p f l).map g = l.map g := by
  induction l with
  | nil => rfl
  | cons c l ih =>
    unfold modify_first
    by_cases hc : p c = true
    · rw [if_pos hc, List.map_cons, List.map_cons, hg]
    · rw [if_neg hc, List.map_cons, List.map_cons, ih]

theorem lifecycle_invariant_mono (n m n1 m1 : Nat) (xw : xim_wayland_t) (hn : n ≤ n1)
    (hm : m ≤ m1) (h : lifecycle_invariant n m xw) : lifecycle_invariant n1 m1 xw := by
  obtain ⟨h1, h2, h3⟩ := h
  refine ⟨by omega, h2, fun im him => ?_⟩
  obtain ⟨a, b, c, d⟩ := h3 im him
  exact ⟨a, by omega, c, d⟩

theorem lifecycle_invariant_xim (n m : Nat) (xw : xim_wayland_t)
    (xim : xcb_xim_server_connection_t) (h : lifecycle_invariant n m xw) :
    lifecycle_invariant n m { xw with xim := xim } := h

theorem ids_unique_of_invariant (n m : Nat) (xw : xim_wayland_t)
    (h : lifecycle_invariant n m xw) : ids_unique xw :=
  ⟨h.2.1, fun im him => (h.2.2 im him).2.2.2⟩

theorem open_keeps_invariant (x : x_server_t) (n m : Nat) (xw xw1 : xim_wayland_t)
    (request : List Nat) (requestor : Nat) (b : Bool) (hn : n < 65535)
    (h : lifecycle_invariant n m xw)
    (hr : handle_xim_open_request x xw request requestor = some (xw1, b)) :
    lifecycle_invariant (n + 1) m xw1 := by
  obtain ⟨h1, h2, h3⟩ := h
  have hs := input_method_new_specs xw.xim requestor ((xw.input_method_counter + 1) % 65536)
  have hc : (xw.input_method_counter + 1) % 65536 = xw.input_method_counter + 1 :=
    Nat.mod_eq_of_lt (by omega)
  unfold handle_xim_open_request at hr
  dsimp only at hr
  rw [hs.1, hs.2.1] at hr
  dsimp only at hr
  split at hr
  · cases hr
    refine ⟨by dsimp only; omega, h2, fun im him => ?_⟩
    obtain ⟨a, b, c, d⟩ := h3 im him
    exact ⟨by dsimp only; omega, b, c, d⟩
  · cases hr
    have hid : (xim_wayland_input_method_new xw.xim requestor
        ((xw.input_method_counter + 1) % 65536)).id = xw.input_method_counter + 1 := by
      rw [hs.2.2.1, Nat.mod_mod, hc]
    refine ⟨by dsimp only; omega, ?_, ?_⟩
    · unfold input_method_ids
      dsimp only
      rw [List.map_cons, List.nodup_cons]
      refine ⟨?_, h2⟩
      intro hmem
      rw [List.mem_map] at hmem
      obtain ⟨im, him, heq⟩ := hmem
      have := (h3 im him).1
      rw [hid] at heq
      omega
    · intro im him
      dsimp only at him ⊢
      rw [List.mem_cons] at him
      rcases him with him | him
      · subst him
        refine ⟨by rw [hid]; omega, by rw [hs.2.2.2.2.2]; omega, ?_, ?_⟩
        · rw [hs.2.2.2.2.1]
          intro ic hic
          simp at hic
        · unfold input_context_ids
          rw [hs.2.2.2.2.1]
          exact List.nodup_nil
      · obtain ⟨a, b, c, d⟩ := h3 im him
        exact ⟨by omega, b, c, d⟩

theorem close_keeps_invariant (x : x_server_t) (n m : Nat) (xw : xim_wayland_t)
    (request : List Nat) (requestor : Nat) (h : lifecycle_invariant n m xw) :
    lifecycle_invariant n m (handle_xim_close_request x xw request requestor).1 := by
  obtain ⟨h1, h2, h3⟩ := h
  unfold handle_xim_close_request
  dsimp only
  split
  · exact ⟨h1, h2, h3⟩
  · refine ⟨h1, ?_, fun im him => h3 im (List.mem_of_mem_eraseP him)⟩
    unfold input_method_ids
    dsimp only
    exact List.Nodup.sublist (List.Sublist.map _ (List.eraseP_sublist _)) h2

theorem store_keeps_invariant (n m m1 : Nat) (xw : xim_wayland_t) (transport id : Nat)
    (f : xim_wayland_input_method_t → xim_wayland_input_method_t)
    (im : xim_wayland_input_method_t) (hm : m ≤ m1)
    (hfind : find_input_method xw transport id = some im)
    (hid : ∀ a, (f a).id = a.id)
    (hf : im.input_context_counter ≤ m →
      (∀ ic ∈ im.input_context_list, ic.id ≤ im.input_context_counter) →
      (input_context_ids im).Nodup →
      (f im).input_context_counter ≤ m1 ∧
      (∀ ic ∈ (f im).input_context_list, ic.id ≤ (f im).input_context_counter) ∧
      (input_context_ids (f im)).Nodup)
    (h : lifecycle_invariant n m xw) :
    lifecycle_invariant n m1 (store_input_method xw transport id f) := by
  obtain ⟨h1, h2, h3⟩ := h
  unfold find_input_method at hfind
  refine ⟨h1, ?_, ?_⟩
  · unfold input_method_ids store_input_method
    dsimp only
    rw [map_modify_first _ _ _ hid]
    exact h2
  · intro b hb
    unfold store_input_method at hb ⊢
    dsimp only at hb ⊢
    rcases mem_modify_first _ f _ im hfind b hb with hb1 | hb1
    · subst hb1
      obtain ⟨a, b, c, d⟩ := h3 im (List.mem_of_find?_eq_some hfind)
      obtain ⟨b1, c1, d1⟩ := hf b c d
      exact ⟨by rw [hid]; exact a, b1, c1, d1⟩
    · obtain ⟨a, b, c, d⟩ := h3 b hb1
      exact ⟨a, by omega, c, d⟩

theorem create_ic_keeps_invariant (fuel : Nat) (x : x_server_t) (wl : wl_proxies_t)
    (n m : Nat) (xw xw1 : xim_wayland_t) (request : List Nat) (requestor : Nat) (b : Bool)
    (hm : m < 65535) (h : lifecycle_invariant n m xw)
    (hr : handle_xim_create_ic_request fuel x wl xw request requestor = some (xw1, b)) :
    lifecycle_invariant n (m + 1) xw1 := by
  unfold handle_xim_create_ic_request at hr
  dsimp only at hr
  cases hfind : find_input_method xw requestor
      (xcb_xim_card16 (transport_at xw.xim requestor) (byte_at request 4) (byte_at request 5))
    with
  | none =>
    rw [hfind] at hr
    cases hr
    exact lifecycle_invariant_mono _ _ _ _ _ (Nat.le_refl _) (Nat.le_succ _) h
  | some im =>
    rw [hfind] at hr
    dsimp only at hr
    have hA := store_keeps_invariant n m (m + 1) xw requestor
      (xcb_xim_card16 (transport_at xw.xim requestor) (byte_at request 4) (byte_at request 5))
      (fun a => { a with input_context_counter := (im.input_context_counter + 1) % 65536 })
      im (Nat.le_succ _) hfind (fun _ => rfl)
      (fun hc hle hnd => ⟨by
          show (im.input_context_counter + 1) % 65536 ≤ m + 1
          rw [Nat.mod_eq_of_lt (by omega)]; omega,
        fun ic hic => by
          show ic.id ≤ (im.input_context_counter + 1) % 65536
          rw [Nat.mod_eq_of_lt (by omega)]
          exact Nat.le_succ_of_le (hle ic hic), hnd⟩) h
    have hfindA : find_input_method
        (store_input_method xw requestor
          (xcb_xim_card16 (transport_at xw.xim requestor) (byte_at request 4)
            (byte_at request 5))
          (fun a => { a with input_context_counter := (im.input_context_counter + 1) % 65536 }))
        requestor
        (xcb_xim_card16 (transport_at xw.xim requestor) (byte_at request 4) (byte_at request 5))
        = some { im with input_context_counter := (im.input_context_counter + 1) % 65536 } := by
      unfold find_input_method store_input_method
      dsimp only
      unfold find_input_method at hfind
      rw [find_modify_first, hfind]
      · rfl
      · intro a; rfl
    split at hr
    · cases hr
      exact hA
    · split at hr
      · cases hr
        exact hA
      · split at hr
        · cases hr
        · split at hr
          · cases hr
            exact lifecycle_invariant_xim _ _ _ _ hA
          · cases hr
            apply lifecycle_invariant_xim
            refine store_keeps_invariant n (m + 1) (m + 1) _ requestor _ _ _ (Nat.le_refl _)
              hfindA (fun _ => rfl) ?_ hA
            intro hc hle hnd
            dsimp only at hc hle hnd ⊢
            have hicid : (xim_wayland_input_context_new xw.xim wl.text_input wl.surface
                im.transport im.id ((im.input_context_counter + 1) % 65536)).id
                = (im.input_context_counter + 1) % 65536 := by
              unfold xim_wayland_input_context_new
              exact Nat.mod_mod _ _
            have hold := (h.2.2 im (List.mem_of_find?_eq_some hfind)).2.2.1
            have hcm := (h.2.2 im (List.mem_of_find?_eq_some hfind)).2.1
            have hc1 : (im.input_context_counter + 1) % 65536 = im.input_context_counter + 1 :=
              Nat.mod_eq_of_lt (by omega)
            refine ⟨hc, ?_, ?_⟩
            · intro ic hic
              rw [List.mem_cons] at hic
              rcases hic with hic | hic
              · subst hic
                exact Nat.le_of_eq hicid
              · exact hle ic hic
            · unfold input_context_ids at hnd ⊢
              dsimp only at hnd ⊢
              rw [List.map_cons, List.nodup_cons]
              refine ⟨?_, hnd⟩
              intro hmem
              rw [List.mem_map] at hmem
              obtain ⟨ic, hic, heq⟩ := hmem
              have := hold ic hic
              rw [hicid, hc1] at heq
              omega

theorem destroy_ic_keeps_invariant (x : x_server_t) (n m : Nat) (xw : xim_wayland_t)
    (request : List Nat) (requestor : Nat) (h : lifecycle_invariant n m xw) :
    lifecycle_invariant n m (handle_xim_destroy_ic_request x xw request requestor).1 := by
  unfold handle_xim_destroy_ic_request
  dsimp only
  cases hfind : find_input_method xw requestor
      (xcb_xim_card16 (transport_at xw.xim requestor) (byte_at request 4) (byte_at request 5))
    with
  | none => exact h
  | some im =>
    dsimp only
    split
    · exact h
    · apply lifecycle_invariant_xim
      refine store_keeps_invariant n m m xw requestor _ _ im (Nat.le_refl _) hfind
        (fun _ => rfl) ?_ h
      intro hc hle hnd
      refine ⟨hc, fun ic hic => hle ic (List.mem_of_mem_eraseP hic), ?_⟩
      unfold input_context_ids at hnd ⊢
      exact List.Nodup.sublist (List.Sublist.map _ (List.eraseP_sublist _)) hnd

theorem count_requests_singleton (opcode : Nat)
    (c : wl_proxies_t × xcb_xim_request_container_t) :
    count_requests opcode [c] = if byte_at c.2.request 0 = opcode then 1 else 0 := by
  unfold count_requests
  by_cases h : byte_at c.2.request 0 = opcode <;> simp [List.countP_cons, h]

theorem handle_xim_request_keeps_invariant (fuel : Nat) (x : x_server_t) (n m : Nat)
    (xw xw1 : xim_wayland_t) (c : wl_proxies_t × xcb_xim_request_container_t) (b : Bool)
    (hc : is_lifecycle_request c)
    (hn : n + count_requests XCB_XIM_OPEN [c] ≤ 65535)
    (hm : m + count_requests XCB_XIM_CREATE_IC [c] ≤ 65535)
    (h : lifecycle_invariant n m xw)
    (hr : handle_xim_request fuel x c.1 xw c.2.request c.2.requestor = some (xw1, b)) :
    lifecycle_invariant (n + count_requests XCB_XIM_OPEN [c])
      (m + count_requests XCB_XIM_CREATE_IC [c]) xw1 := by
  unfold handle_xim_request at hr
  dsimp only at hr
  rw [count_requests_singleton] at hn hm ⊢
  rw [count_requests_singleton]
  rcases hc with hc | hc | hc | hc
  · rw [hc] at hr hn hm ⊢
    rw [if_pos rfl] at hr hn ⊢
    rw [if_neg (by decide)] at hm ⊢
    exact open_keeps_invariant x n m xw xw1 _ _ b (by omega) h hr
  · rw [hc] at hr hn hm ⊢
    rw [if_neg (by decide), if_pos rfl] at hr
    have hr1 : (handle_xim_close_request x xw c.2.request c.2.requestor).1 = xw1 :=
      congrArg Prod.fst (Option.some.inj hr)
    rw [← hr1]
    exact lifecycle_invariant_mono _ _ _ _ _ (Nat.le_add_right _ _) (Nat.le_add_right _ _)
      (close_keeps_invariant x n m xw _ _ h)
  · rw [hc] at hr hn hm ⊢
    rw [if_neg (by decide), if_neg (by decide), if_neg (by decide), if_neg (by decide),
      if_neg (by decide), if_neg (by decide), if_pos rfl] at hr
    rw [if_neg (by decide)] at hn ⊢
    rw [if_pos rfl] at hm ⊢
    exact create_ic_keeps_invariant fuel x c.1 n m xw xw1 _ _ b (by omega) h hr
  · rw [hc] at hr hn hm ⊢
    rw [if_neg (by decide), if_neg (by decide), if_neg (by decide), if_neg (by decide),
      if_neg (by decide), if_neg (by decide), if_neg (by decide), if_pos rfl] at hr
    have hr1 : (handle_xim_destroy_ic_request x xw c.2.request c.2.requestor).1 = xw1 :=
      congrArg Prod.fst (Option.some.inj hr)
    rw [← hr1]
    exact lifecycle_invariant_mono _ _ _ _ _ (Nat.le_add_right _ _) (Nat.le_add_right _ _)
      (destroy_ic_keeps_invariant x n m xw _ _ h)

theorem handle_requests_keeps_invariant (fuel : Nat) (x : x_server_t)
    (rs : List (wl_proxies_t × xcb_xim_request_container_t)) :
    ∀ (n m : Nat) (xw xw1 : xim_wayland_t), (∀ c ∈ rs, is_lifecycle_request c) →
      n + count_requests XCB_XIM_OPEN rs ≤ 65535 →
      m + count_requests XCB_XIM_CREATE_IC rs ≤ 65535 →
      lifecycle_invariant n m xw → handle_requests fuel x xw rs = some xw1 →
      lifecycle_invariant 65535 65535 xw1 := by
  induction rs with
  | nil =>
    intro n m xw xw1 _ hn hm h hr
    unfold handle_requests at hr
    cases hr
    exact lifecycle_invariant_mono _ _ _ _ _ (by omega) (by omega) h
  | cons c rs ih =>
    intro n m xw xw1 hrs hn hm h hr
    have hcount : ∀ op, count_requests op (c :: rs)
        = count_requests op [c] + count_requests op rs := by
      intro op
      unfold count_requests
      rw [List.countP_cons, List.countP_cons, List.countP_nil]
      omega
    rw [hcount] at hn hm
    unfold handle_requests at hr
    cases hreq : handle_xim_request fuel x c.1 xw c.2.request c.2.requestor with
    | none =>
      rw [hreq] at hr
      cases hr
    | some r =>
      obtain ⟨xw2, b⟩ := r
      have h2 := handle_xim_request_keeps_invariant fuel x n m xw xw2 c b
        (hrs c (List.mem_cons_self _ _)) (by omega) (by omega) h hreq
      rw [hreq] at hr
      cases b with
      | true =>
        dsimp only at hr
        exact ih _ _ xw2 xw1 (fun c hc => hrs c (List.mem_cons_of_mem _ hc)) (by omega)
          (by omega) h2 hr
      | false =>
        dsimp only at hr
        cases hr
        exact lifecycle_invariant_mono _ _ _ _ _ (by omega) (by omega) h2

theorem handle_xim_open_request_answered (x : x_server_t) (hx : x_server_answers x)
    (xw : xim_wayland_t) (request : List Nat) (requestor : Nat) :
    ∃ xw1, handle_xim_open_request x xw request requestor = some (xw1, true) ∧
      xw1.input_method_counter = (xw.input_method_counter + 1) % 65536 ∧
      input_method_ids xw1 = (xw.input_method_counter + 1) % 65536 :: input_method_ids xw := by
  have hs := input_method_new_specs xw.xim requestor ((xw.input_method_counter + 1) % 65536)
  have hok := (send_frame_answered x hx xw.xim (transport_at xw.xim requestor)
    (xcb_xim_open_reply_frame (transport_at xw.xim requestor)
      (xim_wayland_input_method_new xw.xim requestor
        ((xw.input_method_counter + 1) % 65536)).id
      (im_specs_wire (transport_at xw.xim requestor))
      (ic_specs_wire (transport_at xw.xim requestor)))).1
  unfold handle_xim_open_request
  dsimp only
  rw [hs.1, hs.2.1]
  dsimp only
  rw [hok]
  refine ⟨_, rfl, rfl, ?_⟩
  unfold input_method_ids
  dsimp only
  rw [List.map_cons, hs.2.2.1, Nat.mod_mod]

theorem handle_requests_open (fuel : Nat) (x : x_server_t) (hx : x_server_answers x)
    (c : wl_proxies_t × xcb_xim_request_container_t)
    (hc : byte_at c.2.request 0 = XCB_XIM_OPEN) :
    ∀ (n : Nat) (xw : xim_wayland_t),
      ∃ xw1, handle_requests fuel x xw (List.replicate n c) = some xw1 ∧
        input_method_ids xw1
          = ((List.range n).reverse.map
              (fun i => (xw.input_method_counter + i + 1) % 65536)) ++ input_method_ids xw := by
  intro n
  induction n with
  | zero => intro xw; exact ⟨xw, rfl, rfl⟩
  | succ n ih =>
    intro xw
    obtain ⟨xw1, h1, hc1, hids1⟩ := handle_xim_open_request_answered x hx xw c.2.request
      c.2.requestor
    obtain ⟨xw2, h2, hids2⟩ := ih xw1
    refine ⟨xw2, ?_, ?_⟩
    · rw [List.replicate_succ]
      unfold handle_requests
      unfold handle_xim_request
      dsimp only
      rw [hc, if_pos rfl, h1]
      exact h2
    · rw [hids2, hids1, hc1, List.range_succ_eq_map, List.reverse_cons, List.map_append,
        List.append_assoc, List.map_reverse, List.map_reverse, List.map_map]
      congr 1
      · congr 1
        apply List.map_congr_left
        intro i _
        simp only [Function.comp]
        omega


/-! ### The queue of requests -/

theorem nodes_linked_live (heap : Nat → Option xcb_xim_list_t)
    (ns : List (Nat × xcb_xim_request_container_t)) (h : nodes_linked heap ns) :
    ∀ n ∈ ns, heap n.1 ≠ none := by
  induction ns with
  | nil => intro n hn; simp at hn
  | cons a ns ih =>
    intro n hn
    rw [List.mem_cons] at hn
    rcases hn with hn | hn
    · subst hn
      rw [h.1]
      simp
    · exact ih h.2 n hn

theorem nodes_linked_update (heap : Nat → Option xcb_xim_list_t)
    (ns : List (Nat × xcb_xim_request_container_t)) (p : Nat) (v : Option xcb_xim_list_t)
    (hp : p ∉ ns.map Prod.fst) (h : nodes_linked heap ns) :
    nodes_linked (Function.update heap p v) ns := by
  induction ns with
  | nil => trivial
  | cons a ns ih =>
    rw [List.map_cons, List.mem_cons, not_or] at hp
    refine ⟨?_, ih hp.2 h.2⟩
    rw [Function.update_noteq (fun e => hp.1 e.symm)]
    exact h.1

theorem nodes_linked_snoc (heap : Nat → Option xcb_xim_list_t) (p : Nat)
    (c : xcb_xim_request_container_t) (last : Nat × xcb_xim_request_container_t) :
    ∀ ns : List (Nat × xcb_xim_request_container_t),
      nodes_linked heap (ns ++ [last]) → ((ns ++ [last]).map Prod.fst).Nodup →
      p ∉ (ns ++ [last]).map Prod.fst →
      nodes_linked
        (Function.update (Function.update heap p (some { data := c, next := 0 })) last.1
          (some { data := last.2, next := p }))
        (ns ++ [last] ++ [(p, c)]) := by
  intro ns
  induction ns with
  | nil =>
    intro _ _ hp
    simp only [List.nil_append, List.map_cons, List.map_nil, List.mem_singleton] at hp
    refine ⟨?_, ?_, trivial⟩
    · simp
    · rw [Function.update_noteq hp, Function.update_same]
      rfl
  | cons a ns ih =>
    intro h hnd hp
    simp only [List.cons_append, List.map_cons, List.nodup_cons, List.mem_cons, not_or]
      at hnd hp
    refine ⟨?_, ih h.2 hnd.2 hp.2⟩
    have ha : a.1 ≠ last.1 := by
      intro e
      apply hnd.1
      rw [e]
      simp
    rw [Function.update_noteq ha, Function.update_noteq (fun e => hp.1 e.symm)]
    have h1 := h.1
    rw [h1]
    cases ns <;> rfl

theorem nodes_linked_last (heap : Nat → Option xcb_xim_list_t)
    (last : Nat × xcb_xim_request_container_t) :
    ∀ ns : List (Nat × xcb_xim_request_container_t), nodes_linked heap (ns ++ [last]) →
      heap last.1 = some { data := last.2, next := 0 } := by
  intro ns
  induction ns with
  | nil => intro h; exact h.1
  | cons a ns ih => intro h; exact ih h.2

theorem requests_hold_null (q : xcb_xim_requests_t)
    (ns : List (Nat × xcb_xim_request_container_t)) (h : requests_hold q ns) :
    (q.requests = 0 ↔ ns = []) ∧ (q.requests_tail = 0 ↔ ns = []) := by
  obtain ⟨_, hz, hh, ht, _⟩ := h
  rcases List.eq_nil_or_concat ns with hns | ⟨ns1, last, hns⟩
  · subst hns
    exact ⟨⟨fun _ => rfl, fun _ => hh⟩, ⟨fun _ => rfl, fun _ => ht⟩⟩
  · rw [List.concat_eq_append] at hns
    subst hns
    have hne : ns1 ++ [last] ≠ [] := by simp
    constructor
    · refine ⟨fun h0 => ?_, fun e => absurd e hne⟩
      rw [hh] at h0
      cases ns1 with
      | nil => exact absurd h0 (hz last (by simp))
      | cons a ns1 => exact absurd h0 (hz a (by simp))
    · refine ⟨fun h0 => ?_, fun e => absurd e hne⟩
      rw [ht, List.getLast?_append] at h0
      exact absurd h0 (hz last (by simp))

theorem queue_request_holds (q : xcb_xim_requests_t)
    (ns : List (Nat × xcb_xim_request_container_t)) (p : Nat)
    (c : xcb_xim_request_container_t) (h : requests_hold q ns) (hp : p ≠ 0)
    (hfresh : q.heap p = none) :
    ∃ q1, q.queue_request p c = some (q1, true) ∧ requests_hold q1 (ns ++ [(p, c)]) := by
  have hnull := requests_hold_null q ns h
  obtain ⟨hnd, hz, hh, ht, hl⟩ := h
  have hpn : p ∉ ns.map Prod.fst := by
    intro hmem
    rw [List.mem_map] at hmem
    obtain ⟨n, hn, e⟩ := hmem
    exact nodes_linked_live q.heap ns hl n hn (by rw [e]; exact hfresh)
  have hnd1 : ((ns ++ [(p, c)]).map Prod.fst).Nodup := by
    rw [List.map_append, List.nodup_append]
    refine ⟨hnd, by simp, ?_⟩
    intro a ha hb
    simp only [List.map_cons, List.map_nil, List.mem_singleton] at hb
    subst hb
    exact hpn ha
  have hz1 : ∀ n ∈ ns ++ [(p, c)], n.1 ≠ 0 := by
    intro n hn
    rw [List.mem_append, List.mem_singleton] at hn
    rcases hn with hn | hn
    · exact hz n hn
    · subst hn; exact hp
  unfold xcb_xim_requests_t.queue_request
  rw [if_neg hp]
  dsimp only
  rcases List.eq_nil_or_concat ns with hns | ⟨ns1, last, hns⟩
  · subst hns
    have hh0 : q.requests = 0 := hh
    rw [if_pos hh0]
    refine ⟨_, rfl, hnd1, hz1, rfl, rfl, ?_, trivial⟩
    dsimp only
    rw [Function.update_same]
    rfl
  · rw [List.concat_eq_append] at hns
    subst hns
    have hr : q.requests ≠ 0 := fun e => absurd (hnull.1.mp e) (by simp)
    have htail : q.requests_tail = last.1 := by
      rw [ht, List.getLast?_append]
      rfl
    have hlast := nodes_linked_last q.heap last ns1 hl
    have hpl : last.1 ≠ p := by
      intro e
      apply hpn
      rw [← e]
      simp
    rw [if_neg hr, htail, Function.update_noteq hpl, hlast]
    dsimp only
    refine ⟨_, rfl, hnd1, hz1, ?_, ?_, nodes_linked_snoc q.heap p c last ns1 hl hnd hpn⟩
    · dsimp only
      rw [hh]
      cases ns1 <;> rfl
    · dsimp only
      rw [List.getLast?_append]
      rfl

theorem poll_request_holds (q : xcb_xim_requests_t)
    (n : Nat × xcb_xim_request_container_t)
    (ns : List (Nat × xcb_xim_request_container_t)) (h : requests_hold q (n :: ns)) :
    ∃ q1, q.poll_request = some (q1, some n.2) ∧ requests_hold q1 ns := by
  obtain ⟨hnd, hz, hh, ht, hl⟩ := h
  have hr : q.requests = n.1 := hh
  have hn0 : n.1 ≠ 0 := hz n (List.mem_cons_self _ _)
  rw [List.map_cons, List.nodup_cons] at hnd
  unfold xcb_xim_requests_t.poll_request
  rw [hr, if_neg hn0, hl.1]
  dsimp only
  refine ⟨_, rfl, hnd.2, fun a ha => hz a (List.mem_cons_of_mem _ ha), rfl, ?_,
    nodes_linked_update q.heap ns n.1 none hnd.1 hl.2⟩
  dsimp only
  cases ns with
  | nil => rfl
  | cons a ns =>
    have ha0 : a.1 ≠ 0 := hz a (by simp)
    have : ((a :: ns).head?.map Prod.fst).getD 0 = a.1 := rfl
    rw [this, if_neg ha0, ht, List.getLast?_cons_cons]

theorem poll_request_empty (q : xcb_xim_requests_t) (h : requests_hold q []) :
    q.poll_request = some (q, none) := by
  have h0 : q.requests = 0 := h.2.2.1
  unfold xcb_xim_requests_t.poll_request
  rw [if_pos h0]

theorem fifo_calls_nil (pending : List xcb_xim_request_container_t) :
    fifo_calls pending [] = (pending, []) := rfl

theorem fifo_calls_queue (pending : List xcb_xim_request_container_t) (list : Nat)
    (c : xcb_xim_request_container_t) (rest : List queue_call_t) :
    fifo_calls pending (.queue list c :: rest)
      = fifo_calls (if list = 0 then pending else pending ++ [c]) rest := rfl

theorem fifo_calls_poll (pending : List xcb_xim_request_container_t)
    (rest : List queue_call_t) :
    fifo_calls pending (.poll :: rest)
      = ((fifo_calls pending.tail rest).1,
          pending.head? :: (fifo_calls pending.tail rest).2) := rfl

theorem run_calls_fifo (calls : List queue_call_t) :
    ∀ (q : xcb_xim_requests_t) (ns : List (Nat × xcb_xim_request_container_t)),
      requests_hold q ns → mallocs_fresh q calls = true →
      ∃ q1 ns1, run_calls q calls
          = some (q1, (fifo_calls (ns.map Prod.snd) calls).2) ∧
        requests_hold q1 ns1 ∧ ns1.map Prod.snd = (fifo_calls (ns.map Prod.snd) calls).1 := by
  induction calls with
  | nil => intro q ns h _; exact ⟨q, ns, rfl, h, rfl⟩
  | cons call calls ih =>
    intro q ns h hf
    cases call with
    | queue list c =>
      unfold mallocs_fresh at hf
      rw [Bool.and_eq_true, Bool.or_eq_true, decide_eq_true_eq, Option.isNone_iff_eq_none] at hf
      unfold run_calls
      rw [fifo_calls_queue]
      by_cases hl : list = 0
      · subst hl
        have h0 : q.queue_request 0 c = some (q, false) := rfl
        rw [h0] at hf ⊢
        rw [if_pos rfl]
        exact ih q ns h hf.2
      · obtain ⟨q1, hq, h1⟩ := queue_request_holds q ns list c h hl
          (hf.1.resolve_left hl)
        rw [hq] at hf ⊢
        rw [if_neg hl]
        have := ih q1 _ h1 hf.2
        rw [List.map_append] at this
        exact this
    | poll =>
      unfold mallocs_fresh at hf
      unfold run_calls
      rw [fifo_calls_poll]
      cases ns with
      | nil =>
        rw [poll_request_empty q h] at hf ⊢
        obtain ⟨q1, ns1, hr, h1, hn⟩ := ih q [] h hf
        refine ⟨q1, ns1, ?_, h1, ?_⟩
        · dsimp only
          rw [hr]
          rfl
        · rw [hn]
          rfl
      | cons n ns =>
        obtain ⟨q1, hq, h1⟩ := poll_request_holds q n ns h
        rw [hq] at hf ⊢
        obtain ⟨q2, ns2, hr, h2, hn⟩ := ih q1 ns h1 hf
        refine ⟨q2, ns2, ?_, h2, ?_⟩
        · dsimp only
          rw [hr]
          rfl
        · rw [hn]
          rfl

/-! ### Selection requests -/

theorem take_length_takeWhile (p : Nat → Bool) (l : List Nat) :
    l.take (l.takeWhile p).length = l.takeWhile p := by
  induction l with
  | nil => rfl
  | cons a l ih =>
    by_cases h : p a = true
    · rw [List.takeWhile_cons_of_pos h, List.length_cons, List.take_succ_cons, ih]
    · rw [List.takeWhile_cons_of_neg h]
      rfl

theorem memcpy_strlen (s : List Nat) :
    memcpy s (strlen s) = s.takeWhile (fun b => b != 0) := by
  unfold strlen
  rw [memcpy_eq_take _ _ (List.Sublist.length_le (List.takeWhile_sublist _)),
    take_length_takeWhile]

theorem strlen_no_zero (s : List Nat) (h : ∀ b ∈ s, b ≠ 0) : strlen s = s.length := by
  unfold strlen
  rw [List.takeWhile_eq_self_iff.mpr]
  intro b hb
  simpa using h b hb

theorem do_selection_request_answer (xim : xcb_xim_server_connection_t)
    (event : xcb_selection_request_event_t) (buffer : List Nat) (hb : ∀ b ∈ buffer, b ≠ 0)
    (h : (event.target = xim.atoms.getD LOCALES 0 ∧
          buffer = locale_head ++ xim.locale.takeWhile (fun b => b != 0)) ∨
        (event.target ≠ xim.atoms.getD LOCALES 0 ∧
          event.target = xim.atoms.getD TRANSPORT 0 ∧ buffer = transport_name)) :
    do_selection_request xim event
      = some ({ xim with selections := xim.selections ++
          [{ mode := XCB_PROP_MODE_REPLACE, window := event.requestor,
             property := event.target, type := event.target, format := 8,
             data := buffer,
             notify_time := event.time, notify_requestor := event.requestor,
             notify_selection := event.selection, notify_target := event.target,
             notify_property := event.property }] },
          xcb_xim_dispatch_result_t.XCB_XIM_DISPATCH_REMOVE) := by
  have hm : memcpy buffer (strlen buffer) = buffer := by
    rw [strlen_no_zero buffer hb, memcpy_self]
  unfold do_selection_request
  dsimp only
  rcases h with ⟨h1, h2⟩ | ⟨h1, h2, h3⟩
  · rw [if_pos h1, memcpy_strlen, ← h2]
    dsimp only
    rw [hm]
  · rw [if_neg h1, if_pos h2, ← h3]
    dsimp only
    rw [hm]

theorem locale_buffer_no_zero (locale : List Nat) :
    ∀ b ∈ locale_head ++ locale.takeWhile (fun b => b != 0), b ≠ 0 := by
  intro b hb
  rw [List.mem_append] at hb
  rcases hb with hb | hb
  · revert b
    decide
  · simpa using List.mem_takeWhile_imp hb

theorem do_selection_request_locales (xim : xcb_xim_server_connection_t)
    (event : xcb_selection_request_event_t)
    (h : event.target = xim.atoms.getD LOCALES 0) :
    do_selection_request xim event
      = some ({ xim with selections := xim.selections ++
          [{ mode := XCB_PROP_MODE_REPLACE, window := event.requestor,
             property := event.target, type := event.target, format := 8,
             data := locale_head ++ xim.locale.takeWhile (fun b => b != 0),
             notify_time := event.time, notify_requestor := event.requestor,
             notify_selection := event.selection, notify_target := event.target,
             notify_property := event.property }] },
          xcb_xim_dispatch_result_t.XCB_XIM_DISPATCH_REMOVE) :=
  do_selection_request_answer xim event _ (locale_buffer_no_zero xim.locale)
    (Or.inl ⟨h, rfl⟩)

theorem do_selection_request_transport (xim : xcb_xim_server_connection_t)
    (event : xcb_selection_request_event_t)
    (h1 : event.target ≠ xim.atoms.getD LOCALES 0)
    (h2 : event.target = xim.atoms.getD TRANSPORT 0) :
    do_selection_request xim event
      = some ({ xim with selections := xim.selections ++
          [{ mode := XCB_PROP_MODE_REPLACE, window := event.requestor,
             property := event.target, type := event.target, format := 8,
             data := transport_name,
             notify_time := event.time, notify_requestor := event.requestor,
             notify_selection := event.selection, notify_target := event.target,
             notify_property := event.property }] },
          xcb_xim_dispatch_result_t.XCB_XIM_DISPATCH_REMOVE) :=
  do_selection_request_answer xim event _ (by decide) (Or.inr ⟨h1, h2, rfl⟩)

/-! ### The layout of `PREEDIT_DRAW` -/

theorem byte_at_skip (pre rest : List Nat) (n k : Nat) (h : pre.length = n) :
    byte_at (pre ++ rest) (n + k) = byte_at rest k := by
  rw [← h, byte_at_append_right]

theorem field16_skip (t : xcb_xim_transport_t) (pre rest : List Nat) (n k : Nat)
    (h : pre.length = n) : field16 t (pre ++ rest) (n + k) = field16 t rest k := by
  rw [← h, field16_append_right]

theorem field32_skip (t : xcb_xim_transport_t) (pre rest : List Nat) (n k : Nat)
    (h : pre.length = n) : field32 t (pre ++ rest) (n + k) = field32 t rest k := by
  rw [← h, field32_append_right]

theorem byte_at_skip2 (a b : Nat) (rest : List Nat) (k : Nat) :
    byte_at (a :: b :: rest) (2 + k) = byte_at rest k :=
  byte_at_skip [a, b] rest 2 k rfl

theorem field16_skip2 (t : xcb_xim_transport_t) (a b : Nat) (rest : List Nat) (k : Nat) :
    field16 t (a :: b :: rest) (2 + k) = field16 t rest k :=
  field16_skip t [a, b] rest 2 k rfl

theorem field32_skip2 (t : xcb_xim_transport_t) (a b : Nat) (rest : List Nat) (k : Nat) :
    field32 t (a :: b :: rest) (2 + k) = field32 t rest k :=
  field32_skip t [a, b] rest 2 k rfl

theorem preedit_draw_layout (t : xcb_xim_transport_t)
    (input_method_id input_context_id : Nat) (caret change_first change_length : Int)
    (status p : Nat) (preedit : List Nat) (f : Nat) (feedbacks : List Nat)
    (hp : p < 65536) (hf : f < 65536) :
    (xcb_xim_preedit_draw_frame t input_method_id input_context_id caret change_first
      change_length status p preedit f feedbacks).payload
      = 75 :: 0 :: (NO16 t ((30 + p + PAD (2 + p) + 4 * f - 4) / 4)
        ++ (NO16 t input_method_id ++ (NO16 t input_context_id
        ++ (NO32i t caret ++ (NO32i t change_first ++ (NO32i t change_length
        ++ (NO32 t status ++ (NO16 t p ++ (memcpy preedit p
        ++ (List.replicate (PAD (2 + p)) 0 ++ (NO16 t f ++ (NO16 t 0
        ++ (List.range f).flatMap
            (fun i => NO32 t (feedbacks.getD i 0)))))))))))))) ∧
    (xcb_xim_preedit_draw_frame t input_method_id input_context_id caret change_first
      change_length status p preedit f feedbacks).length = 30 + p + PAD (2 + p) + 4 * f ∧
    (xcb_xim_preedit_draw_frame t input_method_id input_context_id caret change_first
      change_length status p preedit f feedbacks).alloc = 30 + p + PAD (2 + p) + 4 * f := by
  have hfl := flatMap_NO32_length t (fun i => feedbacks.getD i 0) (List.range f)
  rw [List.length_range] at hfl
  refine ⟨?_, ?_, ?_⟩
  · unfold frame_t.payload xcb_xim_preedit_draw_frame
    dsimp only
    rw [memcpy_self, Nat.mod_eq_of_lt hp, Nat.mod_eq_of_lt hf]
    simp only [List.append_assoc]
    rfl
  · simp only [xcb_xim_preedit_draw_frame, List.length_append, List.length_cons,
      List.length_nil, NO16_length, NO32_length, NO32i_length, memcpy_length,
      List.length_replicate, Nat.mod_eq_of_lt hp, Nat.mod_eq_of_lt hf, hfl]
    omega
  · simp only [xcb_xim_preedit_draw_frame, Nat.mod_eq_of_lt hp, Nat.mod_eq_of_lt hf]

theorem attribute_iterator_next_decreases (mem : List Nat) (i : xcb_xim_attribute_iterator_t)
    (hr : i.remainder < 65536) (h : xcb_xim_attribute_iterator_has_data mem i = true) :
    4 + field16 i.transport mem (i.data + 2) + PAD (field16 i.transport mem (i.data + 2))
      ≤ i.remainder ∧
    (xcb_xim_attribute_iterator_next mem i).data
      = i.data + (4 + field16 i.transport mem (i.data + 2)
          + PAD (field16 i.transport mem (i.data + 2))) ∧
    (xcb_xim_attribute_iterator_next mem i).remainder
      = i.remainder - (4 + field16 i.transport mem (i.data + 2)
          + PAD (field16 i.transport mem (i.data + 2))) ∧
    (xcb_xim_attribute_iterator_next mem i).transport = i.transport := by
  unfold xcb_xim_attribute_iterator_has_data at h
  dsimp only at h
  split at h
  · exact absurd h (by decide)
  · have hle := of_decide_eq_true h
    refine ⟨hle, rfl, ?_, rfl⟩
    unfold xcb_xim_attribute_iterator_next
    dsimp only
    omega

theorem set_values_terminates (mem : List Nat) (t : xcb_xim_transport_t)
    (max_attribute_id : Nat) :
    ∀ (fuel : Nat) (attributes : List (Option (List Nat)))
      (i : xcb_xim_attribute_iterator_t), i.remainder < 65536 → i.remainder / 4 < fuel →
      (set_values mem t max_attribute_id fuel attributes i).isSome = true := by
  intro fuel
  induction fuel with
  | zero => intro _ _ _ h; exact absurd h (Nat.not_lt_zero _)
  | succ fuel ih =>
    intro attributes i hr hfuel
    unfold set_values
    cases hd : xcb_xim_attribute_iterator_has_data mem i with
    | false => rfl
    | true =>
      obtain ⟨hle, _, hrem, _⟩ := attribute_iterator_next_decreases mem i hr hd
      have h1 : (xcb_xim_attribute_iterator_next mem i).remainder < 65536 := by omega
      have h2 : (xcb_xim_attribute_iterator_next mem i).remainder / 4 < fuel := by omega
      rw [if_pos rfl]
      dsimp only
      split
      · exact ih _ _ h1 h2
      · exact ih _ _ h1 h2

theorem attribute_walk_terminates (mem : List Nat) :
    ∀ (fuel : Nat) (i : xcb_xim_attribute_iterator_t), i.remainder < 65536 →
      i.remainder / 4 < fuel → (attribute_walk mem fuel i).isSome = true := by
  intro fuel
  induction fuel with
  | zero => intro _ _ h; exact absurd h (Nat.not_lt_zero _)
  | succ fuel ih =>
    intro i hr hfuel
    unfold attribute_walk
    cases hd : xcb_xim_attribute_iterator_has_data mem i with
    | false => rfl
    | true =>
      obtain ⟨hle, _, hrem, _⟩ := attribute_iterator_next_decreases mem i hr hd
      have h1 : (xcb_xim_attribute_iterator_next mem i).remainder < 65536 := by omega
      have h2 : (xcb_xim_attribute_iterator_next mem i).remainder / 4 < fuel := by omega
      rw [if_pos rfl, Option.isSome_map']
      exact ih _ h1 h2


/-! ### SET_IM_VALUES followed by GET_IM_VALUES -/

theorem set_im_values_request_fields (t : xcb_xim_transport_t) (input_method_id : Nat)
    (es : List (List Nat)) :
    field16 t (set_im_values_request t input_method_id es) 2
      = (4 + (es.map List.length).sum) / 4 % 65536 ∧
    field16 t (set_im_values_request t input_method_id es) 4 = input_method_id % 65536 ∧
    field16 t (set_im_values_request t input_method_id es) 6
      = (es.map List.length).sum % 65536 := by
  by_cases h : t.endian = 66 <;>
    simp [set_im_values_request, NO16, field16, HO16, byte_at, h] <;> omega

theorem set_im_values_request_length (t : xcb_xim_transport_t) (input_method_id : Nat)
    (es : List (List Nat)) :
    (set_im_values_request t input_method_id es).length = 8 + (es.map List.length).sum := by
  simp only [set_im_values_request, List.length_append, NO16_length, List.length_flatten,
    List.length_cons, List.length_nil]

theorem set_im_values_request_set_values (t : xcb_xim_transport_t) (input_method_id : Nat)
    (es : List (List Nat)) (hes : ∀ e ∈ es, attribute_well_sized t e)
    (hsum : 4 + (es.map List.length).sum < 65536) (fuel : Nat) (hfuel : es.length < fuel)
    (attributes : List (Option (List Nat))) :
    set_values (set_im_values_request t input_method_id es) t LAST_IM_ATTRIBUTE fuel
      attributes
      (xcb_xim_set_im_values_request_attribute_iterator t
        (set_im_values_request t input_method_id es))
      = some (es.foldl (fun table e =>
          if field16 t e 0 ≥ LAST_IM_ATTRIBUTE then table
          else table.set (field16 t e 0) (some (attribute_copy t e))) attributes) := by
  have hf := set_im_values_request_fields t input_method_id es
  have hit : xcb_xim_set_im_values_request_attribute_iterator t
      (set_im_values_request t input_method_id es)
      = { transport := t, data := 8, index := 0, remainder := (es.map List.length).sum } := by
    unfold xcb_xim_set_im_values_request_attribute_iterator
    dsimp only
    rw [hf.1, hf.2.2]
    have h1 : (4 + (es.map List.length).sum) / 4 % 65536 * 4 % 65536
        > (es.map List.length).sum % 65536 := by omega
    unfold MIN
    rw [if_pos h1, Nat.mod_eq_of_lt (by omega)]
  rw [hit]
  have h := set_values_flatten t LAST_IM_ATTRIBUTE es hes []
    ([42, 0] ++ NO16 t ((4 + (es.map List.length).sum) / 4) ++ NO16 t input_method_id
      ++ NO16 t (es.map List.length).sum) attributes 0 fuel (by omega) hfuel
  rw [List.append_nil] at h
  have hl : ([42, 0] ++ NO16 t ((4 + (es.map List.length).sum) / 4) ++ NO16 t input_method_id
      ++ NO16 t (es.map List.length).sum).length = 8 := by
    simp [NO16_length]
  rw [hl] at h
  exact h

theorem handle_xim_set_im_values_request_found (fuel : Nat) (x : x_server_t)
    (xw : xim_wayland_t) (request : List Nat) (requestor : Nat)
    (im : xim_wayland_input_method_t) (table : List (Option (List Nat)))
    (hfind : find_input_method xw requestor
      (field16 (transport_at xw.xim requestor) request 4) = some im)
    (hset : set_values request (transport_at xw.xim requestor) LAST_IM_ATTRIBUTE fuel im.attrs
      (xcb_xim_set_im_values_request_attribute_iterator (transport_at xw.xim requestor)
        request) = some table) :
    ∃ xw1, handle_xim_set_im_values_request fuel x xw request requestor = some (xw1, true) ∧
      frames_sent xw1.xim = frames_sent xw.xim ++
        [[43, 0] ++ NO16 (transport_at xw.xim requestor) 1
          ++ NO16 (transport_at xw.xim requestor)
              (field16 (transport_at xw.xim requestor) request 4)
          ++ NO16 (transport_at xw.xim requestor) 0] ∧
      xw1.xim.clients = xw.xim.clients ∧
      find_input_method xw1 requestor (field16 (transport_at xw.xim requestor) request 4)
        = some { im with attrs := table } := by
  have h4 : xcb_xim_card16 (transport_at xw.xim requestor) (byte_at request 4)
      (byte_at request 5) = field16 (transport_at xw.xim requestor) request 4 := rfl
  have hs := frame_8_sent x xw.xim (transport_at xw.xim requestor) 43
    (field16 (transport_at xw.xim requestor) request 4) 0
  unfold handle_xim_set_im_values_request
  dsimp only
  rw [h4, hfind]
  dsimp only
  rw [hset]
  dsimp only
  unfold xcb_xim_set_im_values_reply_frame
  rw [hs.1]
  refine ⟨_, rfl, hs.2, ?_, ?_⟩
  · unfold send_frame write_data
    have hl : (frame_8 (transport_at xw.xim requestor) 43
        (field16 (transport_at xw.xim requestor) request 4) 0).length = 8 := rfl
    rw [hl, if_neg (by omega)]
  · unfold find_input_method store_input_method
    dsimp only
    unfold find_input_method at hfind
    rw [find_modify_first, hfind]
    · rfl
    · intro a; rfl

theorem byte_at_take (l : List Nat) (n j : Nat) (hj : j < n) :
    byte_at (l.take n) j = byte_at l j := by
  unfold byte_at
  simp [List.getD_eq_getElem?_getD, List.getElem?_take, hj]

theorem get_im_values_reply_single (t : xcb_xim_transport_t) (input_method_id : Nat)
    (a : List Nat) (ha : attribute_well_sized t a) (hlen : a.length < 65536) :
    (xcb_xim_get_im_values_reply_frame t input_method_id [attribute_copy t a]).payload.length
      = 8 + a.length ∧
    byte_at (xcb_xim_get_im_values_reply_frame t input_method_id
      [attribute_copy t a]).payload 0 = 45 ∧
    field16 t (xcb_xim_get_im_values_reply_frame t input_method_id
      [attribute_copy t a]).payload 2 = (4 + a.length) / 4 ∧
    field16 t (xcb_xim_get_im_values_reply_frame t input_method_id
      [attribute_copy t a]).payload 4 = input_method_id % 65536 ∧
    field16 t (xcb_xim_get_im_values_reply_frame t input_method_id
      [attribute_copy t a]).payload 6 = a.length ∧
    field16 t (xcb_xim_get_im_values_reply_frame t input_method_id
      [attribute_copy t a]).payload 8 = field16 t a 0 ∧
    field16 t (xcb_xim_get_im_values_reply_frame t input_method_id
      [attribute_copy t a]).payload 10 = field16 t a 2 ∧
    (∀ k, k < field16 t a 2 →
      byte_at (xcb_xim_get_im_values_reply_frame t input_method_id
        [attribute_copy t a]).payload (12 + k) = byte_at a (4 + k)) := by
  have hl := well_sized_length t a ha
  have hc2 : field16 t (attribute_copy t a) 2 = field16 t a 2 := by
    unfold attribute_copy
    rw [field16_take _ _ _ _ (by omega)]
  have hc0 : field16 t (attribute_copy t a) 0 = field16 t a 0 := by
    unfold attribute_copy
    rw [field16_take _ _ _ _ (by omega)]
  have habl : attribute_byte_length t (attribute_copy t a) = a.length := by
    unfold attribute_byte_length
    rw [hc2, hl]
  have hsum : sum16 (attribute_byte_length t) [attribute_copy t a] = a.length := by
    unfold sum16
    rw [List.foldl_cons, List.foldl_nil, habl]
    omega
  have hpay : (xcb_xim_get_im_values_reply_frame t input_method_id
      [attribute_copy t a]).payload
      = 45 :: 0 :: (NO16 t ((4 + 4 + a.length - 4) / 4) ++ (NO16 t input_method_id
        ++ (NO16 t a.length ++ memcpy (attribute_copy t a) a.length))) := by
    unfold frame_t.payload xcb_xim_get_im_values_reply_frame
    dsimp only
    rw [memcpy_self, hsum]
    unfold copy_records
    rw [List.flatMap_cons, List.flatMap_nil, List.append_nil, habl]
    simp only [List.append_assoc]
    rfl
  rw [hpay]
  refine ⟨?_, rfl, ?_, ?_, ?_, ?_, ?_, ?_⟩
  · simp only [List.length_cons, List.length_append, NO16_length, memcpy_length]
    omega
  · rw [field16_header, Nat.mod_eq_of_lt (by omega)]
    congr 1
    omega
  · rw [show (4 : Nat) = 2 + (2 + 0) from rfl, field16_skip2,
      field16_skip t _ _ 2 _ (NO16_length t _), field16_NO16]
  · rw [show (6 : Nat) = 2 + (2 + (2 + 0)) from rfl, field16_skip2,
      field16_skip t _ _ 2 _ (NO16_length t _), field16_skip t _ _ 2 _ (NO16_length t _),
      field16_NO16, Nat.mod_eq_of_lt hlen]
  · rw [show (8 : Nat) = 2 + (2 + (2 + (2 + 0))) from rfl, field16_skip2,
      field16_skip t _ _ 2 _ (NO16_length t _), field16_skip t _ _ 2 _ (NO16_length t _),
      field16_skip t _ _ 2 _ (NO16_length t _), field16_memcpy _ _ _ _ (by omega), hc0]
  · rw [show (10 : Nat) = 2 + (2 + (2 + (2 + 2))) from rfl, field16_skip2,
      field16_skip t _ _ 2 _ (NO16_length t _), field16_skip t _ _ 2 _ (NO16_length t _),
      field16_skip t _ _ 2 _ (NO16_length t _), field16_memcpy _ _ _ _ (by omega), hc2]
  · intro k hk
    rw [show 12 + k = 2 + (2 + (2 + (2 + (4 + k)))) by omega, byte_at_skip2,
      byte_at_skip _ _ 2 _ (NO16_length t _), byte_at_skip _ _ 2 _ (NO16_length t _),
      byte_at_skip _ _ 2 _ (NO16_length t _), byte_at_memcpy _ _ _ (by omega)]
    unfold attribute_copy
    rw [byte_at_take _ _ _ (by omega)]

theorem set_get_im_values_round_trip (fuel : Nat) (x : x_server_t) (hx : x_server_answers x)
    (xw : xim_wayland_t) (requestor input_method_id : Nat) (a : List Nat)
    (im : xim_wayland_input_method_t)
    (hfind : find_input_method xw requestor input_method_id = some im)
    (himid : input_method_id < 65536) (hattrs : im.attrs.length = LAST_IM_ATTRIBUTE)
    (ha : attribute_well_sized (transport_at xw.xim requestor) a)
    (hid : field16 (transport_at xw.xim requestor) a 0 = 0)
    (hfit : 4 + a.length < 65536) (hfuel : 1 < fuel) :
    ∃ xw1 xw2 reply,
      handle_xim_set_im_values_request fuel x xw
        (set_im_values_request (transport_at xw.xim requestor) input_method_id [a]) requestor
        = some (xw1, true) ∧
      handle_xim_get_im_values_request fuel x xw1
        (get_im_values_request (transport_at xw.xim requestor) input_method_id [0]) requestor
        = some (xw2, true) ∧
      frames_sent xw2.xim = frames_sent xw.xim ++
        [[43, 0] ++ NO16 (transport_at xw.xim requestor) 1
          ++ NO16 (transport_at xw.xim requestor) input_method_id
          ++ NO16 (transport_at xw.xim requestor) 0, reply] ∧
      reply.length = 8 + a.length ∧ byte_at reply 0 = 45 ∧
      field16 (transport_at xw.xim requestor) reply 2 = (4 + a.length) / 4 ∧
      field16 (transport_at xw.xim requestor) reply 4 = input_method_id ∧
      field16 (transport_at xw.xim requestor) reply 6 = a.length ∧
      field16 (transport_at xw.xim requestor) reply 8 = 0 ∧
      field16 (transport_at xw.xim requestor) reply 10
        = field16 (transport_at xw.xim requestor) a 2 ∧
      (∀ k, k < field16 (transport_at xw.xim requestor) a 2 →
        byte_at reply (12 + k) = byte_at a (4 + k)) := by
  have hsum1 : ([a].map List.length).sum = a.length := by simp
  have hf := set_im_values_request_fields (transport_at xw.xim requestor) input_method_id [a]
  have h4 : field16 (transport_at xw.xim requestor)
      (set_im_values_request (transport_at xw.xim requestor) input_method_id [a]) 4
      = input_method_id := by
    rw [hf.2.1, Nat.mod_eq_of_lt himid]
  have hset := set_im_values_request_set_values (transport_at xw.xim requestor)
    input_method_id [a] (by intro e he; rw [List.mem_singleton] at he; rw [he]; exact ha)
    (by rw [hsum1]; exact hfit) fuel (by simpa using (by omega : 1 < fuel)) im.attrs
  rw [List.foldl_cons, List.foldl_nil, hid, if_neg (by decide)] at hset
  obtain ⟨xw1, h1, hsent1, hcl1, hfind1⟩ := handle_xim_set_im_values_request_found fuel x xw
    (set_im_values_request (transport_at xw.xim requestor) input_method_id [a]) requestor im _
    (by rw [h4]; exact hfind) hset
  rw [h4] at hsent1 hfind1
  have ht1 : transport_at xw1.xim requestor = transport_at xw.xim requestor :=
    transport_at_clients _ _ hcl1 _
  have h2 := handle_xim_get_im_values_request_filtered fuel x xw1 requestor input_method_id
    [0] _ (fun _ => attribute_copy (transport_at xw.xim requestor) a)
    (transport_at xw.xim requestor) ht1 himid (by decide) (by decide) hfind1
    (by
      intro id hlt
      have h0 : id = 0 := by
        have : id < 1 := hlt
        omega
      subst h0
      have hpos : 0 < im.attrs.length := by rw [hattrs]; decide
      simp [List.getD_eq_getElem?_getD, List.getElem?_set, hpos])
    (by simpa using (by omega : 1 < fuel))
  have hfl : ([0].filter (fun id => decide (id < LAST_IM_ATTRIBUTE))).map
      (fun _ => attribute_copy (transport_at xw.xim requestor) a)
      = [attribute_copy (transport_at xw.xim requestor) a] := rfl
  rw [hfl] at h2
  obtain ⟨hok, hfr, _⟩ := send_frame_answered x hx xw1.xim (transport_at xw.xim requestor)
    (xcb_xim_get_im_values_reply_frame (transport_at xw.xim requestor) input_method_id
      [attribute_copy (transport_at xw.xim requestor) a])
  rw [hok] at h2
  obtain ⟨r1, r2, r3, r4, r5, r6, r7, r8⟩ := get_im_values_reply_single
    (transport_at xw.xim requestor) input_method_id a ha (by omega)
  refine ⟨xw1, _, _, h1, h2, ?_, r1, r2, r3, ?_, r5, ?_, r7, r8⟩
  · dsimp only
    rw [hfr, hsent1, List.append_assoc]
    rfl
  · rw [r4, Nat.mod_eq_of_lt himid]
  · rw [r6, hid]

theorem attribute_65528_fields :
    attribute_65528.length = 65532 ∧ field16 transport_l attribute_65528 0 = 0 ∧
    field16 transport_l attribute_65528 2 = 65528 ∧
    attribute_well_sized transport_l attribute_65528 := by
  have hlen : attribute_65528.length = 65532 := by
    unfold attribute_65528
    rw [List.length_append, List.length_append, NO16_length, List.length_replicate]
    rfl
  have h2 : field16 transport_l attribute_65528 2 = 65528 := by
    unfold attribute_65528
    rw [field16_at transport_l [0, 0] 65528 _ 2 rfl]
  refine ⟨hlen, rfl, h2, ?_⟩
  unfold attribute_well_sized attribute_byte_length
  rw [h2, hlen]
  rfl

theorem set_get_im_values_big_endian :
    ∃ xw1 xw2 reply,
      handle_xim_set_im_values_request 2 x_server_ok xw_opened_B
        (set_im_values_request transport_B 1 [attribute_5 transport_B]) 0 = some (xw1, true) ∧
      handle_xim_get_im_values_request 2 x_server_ok xw1
        (get_im_values_request transport_B 1 [0]) 0 = some (xw2, true) ∧
      frames_sent xw2.xim = [[43, 0, 0, 1, 0, 1, 0, 0], reply] ∧
      field16 transport_B reply 8 = 0 ∧ field16 transport_B reply 10 = 5 ∧
      ∀ k, k < 5 → byte_at reply (12 + k) = byte_at (attribute_5 transport_B) (4 + k) := by
  obtain ⟨xw1, xw2, reply, h1, h2, h3, _, _, _, _, _, h8, h9, h10⟩ :=
    set_get_im_values_round_trip 2 x_server_ok (fun _ => ⟨rfl, rfl⟩) xw_opened_B 0 1
      (attribute_5 transport_B) (xim_wayland_input_method_new xw_opened_B.xim 0 1)
      (by decide) (by decide) (by decide) (by decide) (by decide) (by decide) (by decide)
  exact ⟨xw1, xw2, reply, h1, h2, h3, h8, h9, h10⟩


/-! ### The loop over the encodings -/

theorem encoding_walk_stuck (mem : List Nat) (hb : byte_at mem 8 = 255)
    (hs : strncmp_eq (mem.drop 9) utf8_name 255 = false) :
    ∀ (fuel idx : Nat),
      encoding_walk mem fuel { data := 8, index := idx, remainder := 256 } = none := by
  intro fuel
  induction fuel with
  | zero => intro idx; rfl
  | succ fuel ih =>
    intro idx
    have hd : xcb_xim_str_iterator_has_data mem { data := 8, index := idx, remainder := 256 }
        = true := by
      unfold xcb_xim_str_iterator_has_data
      dsimp only
      rw [hb]
      rfl
    have hn : xcb_xim_str_iterator_next mem { data := 8, index := idx, remainder := 256 }
        = { data := 8, index := (idx + 1) % 65536, remainder := 256 } := by
      unfold xcb_xim_str_iterator_next
      dsimp only
      rw [hb]
    unfold encoding_walk
    rw [hd, if_pos rfl]
    dsimp only
    rw [hb, hs, hn]
    exact ih _

set_option maxRecDepth 16000

theorem encoding_request_255_bytes :
    byte_at encoding_request_255 8 = 255 ∧
    strncmp_eq (encoding_request_255.drop 9) utf8_name 255 = false ∧
    xcb_xim_encoding_negotiation_request_encoding_iterator transport_l encoding_request_255
      = { data := 8, index := 0, remainder := 256 } ∧
    encoding_request_255.length = 268 ∧ request_length transport_l encoding_request_255 = 268 := by
  decide

set_option maxRecDepth 512


/-! ### The feedback array does not depend on the order of the runs -/

theorem feedbacks_or_cells (b : feedbacks_t) (k f : Nat) :
    (feedbacks_or b k f).cells.length = b.cells.length ∧
    ∀ j, (feedbacks_or b k f).cells.getD j 0
      = if j = k ∧ k < b.cells.length then b.cells.getD j 0 ||| f else b.cells.getD j 0 := by
  by_cases hk : k < b.cells.length
  · obtain ⟨h1, _, h3⟩ := feedbacks_or_inside b k f hk
    refine ⟨h1, fun j => ?_⟩
    rw [h3 j]
    by_cases hj : j = k
    · rw [if_pos hj, if_pos ⟨hj, hk⟩]
    · rw [if_neg hj, if_neg (fun h => hj h.1)]
  · have h : feedbacks_or b k f = { b with outside := b.outside ++ [k] } := by
      unfold feedbacks_or
      rw [if_neg hk]
    rw [h]
    refine ⟨rfl, fun j => ?_⟩
    rw [if_neg (fun h => hk h.2)]

theorem styling_fill_cells (index f : Nat) :
    ∀ (n i : Nat) (b : feedbacks_t),
      (styling_fill index f n i b).cells.length = b.cells.length ∧
      ∀ j, (styling_fill index f n i b).cells.getD j 0
        = if index + i ≤ j ∧ j < index + i + n ∧ j < b.cells.length
          then b.cells.getD j 0 ||| f else b.cells.getD j 0 := by
  intro n
  induction n with
  | zero =>
    intro i b
    refine ⟨rfl, fun j => ?_⟩
    have : ¬ (index + i ≤ j ∧ j < index + i + 0 ∧ j < b.cells.length) := by omega
    simp only [styling_fill]
    rw [if_neg this]
  | succ n ih =>
    intro i b
    obtain ⟨hlen, hget⟩ := feedbacks_or_cells b (i + index) f
    obtain ⟨ilen, iget⟩ := ih (i + 1) (feedbacks_or b (i + index) f)
    refine ⟨?_, fun j => ?_⟩
    · simp only [styling_fill]; rw [ilen, hlen]
    · simp only [styling_fill]
      rw [iget j, hget j, hlen]
      by_cases h1 : j = i + index ∧ i + index < b.cells.length
      · have c1 : ¬ (index + (i + 1) ≤ j ∧ j < index + (i + 1) + n ∧ j < b.cells.length) := by
          omega
        have c2 : index + i ≤ j ∧ j < index + i + (n + 1) ∧ j < b.cells.length := by omega
        rw [if_neg c1, if_pos h1, if_pos c2]
      · by_cases h2 : index + (i + 1) ≤ j ∧ j < index + (i + 1) + n ∧ j < b.cells.length
        · have c2 : index + i ≤ j ∧ j < index + i + (n + 1) ∧ j < b.cells.length := by omega
          rw [if_pos h2, if_neg h1, if_pos c2]
        · have c2 : ¬ (index + i ≤ j ∧ j < index + i + (n + 1) ∧ j < b.cells.length) := by
            omega
          rw [if_neg h2, if_neg h1, if_neg c2]

theorem styling_apply_cells (n : Nat) (b : feedbacks_t) (s : xim_wayland_styling_t)
    (hb : b.cells.length = n) :
    (styling_apply n b s).cells.length = n ∧
    ∀ j, (styling_apply n b s).cells.getD j 0
      = if run_stores n j s = true then b.cells.getD j 0 ||| s.feedback
        else b.cells.getD j 0 := by
  by_cases hgt : (s.index + s.length) % 4294967296 > n
  · have hc : ∀ j, ¬ (run_stores n j s = true) := by
      intro j
      simp only [run_stores, Bool.and_eq_true, decide_eq_true_eq]
      omega
    have h : styling_apply n b s = b := by
      unfold styling_apply
      rw [if_pos hgt]
    rw [h]
    exact ⟨hb, fun j => by rw [if_neg (hc j)]⟩
  · obtain ⟨hlen, hget⟩ := styling_fill_cells s.index s.feedback s.length 0 b
    have h : styling_apply n b s = styling_fill s.index s.feedback s.length 0 b := by
      unfold styling_apply
      rw [if_neg hgt]
    rw [h]
    refine ⟨by rw [hlen]; exact hb, fun j => ?_⟩
    rw [hget j, hb]
    by_cases hc : run_stores n j s = true
    · have hc' := hc
      simp only [run_stores, Bool.and_eq_true, decide_eq_true_eq] at hc'
      have c : s.index + 0 ≤ j ∧ j < s.index + 0 + s.length ∧ j < n := by omega
      rw [if_pos c, if_pos hc]
    · have hc' := hc
      simp only [run_stores, Bool.and_eq_true, decide_eq_true_eq] at hc'
      have c : ¬ (s.index + 0 ≤ j ∧ j < s.index + 0 + s.length ∧ j < n) := by omega
      rw [if_neg c, if_neg hc]

theorem foldl_styling_cells (n : Nat) :
    ∀ (l : List xim_wayland_styling_t) (b : feedbacks_t), b.cells.length = n →
      (l.foldl (styling_apply n) b).cells.length = n ∧
      ∀ j, (l.foldl (styling_apply n) b).cells.getD j 0
        = ((l.filter (run_stores n j)).map (fun s => s.feedback)).foldl (fun a f => a ||| f)
            (b.cells.getD j 0) := by
  intro l
  induction l with
  | nil => intro b hb; exact ⟨hb, fun j => rfl⟩
  | cons s l ih =>
    intro b hb
    obtain ⟨alen, aget⟩ := styling_apply_cells n b s hb
    obtain ⟨ilen, iget⟩ := ih (styling_apply n b s) alen
    refine ⟨?_, fun j => ?_⟩
    · simpa only [List.foldl_cons] using ilen
    · simp only [List.foldl_cons]
      rw [iget j, aget j]
      by_cases hc : run_stores n j s = true
      · rw [if_pos hc, List.filter_cons_of_pos hc]
        simp only [List.map_cons, List.foldl_cons]
      · rw [if_neg hc, List.filter_cons_of_neg hc]

theorem preedit_feedbacks_perm (n : Nat) (l1 l2 : List xim_wayland_styling_t)
    (h : l1.Perm l2) : (preedit_feedbacks n l1).cells = (preedit_feedbacks n l2).cells := by
  obtain ⟨len1, get1⟩ := foldl_styling_cells n l1 { cells := List.replicate n 0, outside := [] }
    (List.length_replicate n 0)
  obtain ⟨len2, get2⟩ := foldl_styling_cells n l2 { cells := List.replicate n 0, outside := [] }
    (List.length_replicate n 0)
  have hcomm : ∀ (a : Nat) (f1 f2 : Nat), (a ||| f1) ||| f2 = (a ||| f2) ||| f1 := by
    intro a f1 f2
    rw [Nat.lor_assoc, Nat.lor_comm f1 f2, ← Nat.lor_assoc]
  unfold preedit_feedbacks
  apply List.ext_getElem (by rw [len1, len2])
  intro j h1 h2
  have e1 := get1 j
  have e2 := get2 j
  rw [List.getD_eq_getElem _ _ h1] at e1
  rw [List.getD_eq_getElem _ _ h2] at e2
  rw [e1, e2]
  exact List.Perm.foldl_eq' ((h.filter _).map _) (fun x _ y _ z => hcomm z x y) _

theorem handle_wayland_preedit_styling_cons (k : wl_text_input_preedit_style_t)
    (ic : xim_wayland_input_context_t) (index length style : Nat) :
    handle_wayland_preedit_styling k ic index length style
      = { ic with preedit_styling_list :=
            (handle_wayland_preedit_styling k { ic with preedit_styling_list := [] }
              index length style).preedit_styling_list ++ ic.preedit_styling_list } := by
  unfold handle_wayland_preedit_styling
  dsimp only
  split <;> rfl

theorem deliver_all_stylings (k : wl_text_input_preedit_style_t) (x : x_server_t)
    (xim : xcb_xim_server_connection_t) (cs : List (Nat × Nat × Nat)) :
    ∀ ic : xim_wayland_input_context_t,
      deliver_all k x (xim, ic) (styling_events cs)
        = (xim, { ic with preedit_styling_list :=
            (cs.reverse.flatMap (fun c =>
              (handle_wayland_preedit_styling k { ic with preedit_styling_list := [] }
                c.1 c.2.1 c.2.2).preedit_styling_list)) ++ ic.preedit_styling_list }) := by
  induction cs with
  | nil => intro ic; rfl
  | cons c cs ih =>
    intro ic
    unfold deliver_all styling_events at ih ⊢
    rw [List.map_cons, List.foldl_cons]
    have hd : deliver k x (xim, ic) (wl_text_input_event_t.preedit_styling c.1 c.2.1 c.2.2)
        = (xim, handle_wayland_preedit_styling k ic c.1 c.2.1 c.2.2) := rfl
    rw [hd, ih, handle_wayland_preedit_styling_cons k ic]
    simp only [List.reverse_cons, List.flatMap_append, List.flatMap_cons, List.flatMap_nil,
      List.append_nil, List.append_assoc]

/-- C1 (code defect): an encoding list whose only entry is the 3-byte string
UTF, a proper prefix of UTF-8, is accepted: the handler succeeds and replies
with category 0 and index 0, although no entry equals UTF-8. -/
theorem encoding_negotiation_accepts_prefix :
    str_of [85, 84, 70] ≠ str_of utf8_name ∧
    (handle_xim_encoding_negotiation_request 4 x_server_ok
        { xim := xim_l, input_method_counter := 0, input_method_list := [] }
        (encoding_request (str_of [85, 84, 70])) 0).map
      (fun r => (frames_sent r.1.xim, r.2))
      = some ([(xcb_xim_encoding_negotiation_reply_frame transport_l 1 0 0).payload], true) := by
  decide

/-- The scenario of the spec: the list COMPOUND_TEXT, UTF-8, GB2312 is
answered with category 0 and index 1. -/
theorem encoding_negotiation_scenario :
    (handle_xim_encoding_negotiation_request 4 x_server_ok
        { xim := xim_l, input_method_counter := 0, input_method_list := [] }
        (encoding_request (str_of [67, 79, 77, 80, 79, 85, 78, 68, 95, 84, 69, 88, 84]
          ++ str_of utf8_name ++ str_of [71, 66, 50, 51, 49, 50])) 0).map
      (fun r => (frames_sent r.1.xim, r.2))
      = some ([(xcb_xim_encoding_negotiation_reply_frame transport_l 1 0 1).payload], true) := by
  decide

/-- C2 (code defect): the test before `xcb_xim_preedit_done` is inverted.  On
a context that never had a preedit an empty preedit_string emits PREEDIT_DRAW
(75) and PREEDIT_DONE (78); on a context that is ACTIVE it emits PREEDIT_DRAW
only. -/
theorem empty_preedit_string_done_inverted :
    ic_fresh.preedit_started = false ∧
    input_style_of transport_l ic_fresh &&& XCB_XIM_PREEDIT_CALLBACKS ≠ 0 ∧
    opcodes_sent (handle_wayland_preedit_string x_server_ok xim_l ic_fresh []).1 = [75, 78] ∧
    ic_active.preedit_started = true ∧
    input_style_of transport_l ic_active &&& XCB_XIM_PREEDIT_CALLBACKS ≠ 0 ∧
    opcodes_sent (handle_wayland_preedit_string x_server_ok xim_l ic_active []).1 = [75] := by
  decide

/-- C3 (code defect, the one of C2): starting from a fresh context, the
callbacks preedit_string with the text a and then preedit_string with the
empty text, all sends succeeding, leave preedit_started true with
preedit_length 0. -/
theorem preedit_started_outlives_preedit :
    (deliver_all wl_text_input_preedit_style x_server_ok (xim_l, ic_fresh)
        [.preedit_string [97], .preedit_string []]).1.sent.length = 3 ∧
    (deliver_all wl_text_input_preedit_style x_server_ok (xim_l, ic_fresh)
        [.preedit_string [97], .preedit_string []]).2.preedit_started = true ∧
    (deliver_all wl_text_input_preedit_style x_server_ok (xim_l, ic_fresh)
        [.preedit_string [97], .preedit_string []]).2.preedit_length = 0 := by
  decide

/-- C4 (code defect): `xcb_xim_get_ic_values_reply` computes its length from
an 8-byte fixed part but stores a 12-byte one.  For the reply carrying the
default inputStyle attribute the frame handed to `write_data` has 20 bytes and
a length field of 3 instead of (20 - 4) / 4 = 4, and it is 4 bytes longer than
the buffer; the sibling `xcb_xim_get_im_values_reply` gets both right. -/
theorem get_ic_values_reply_length_field :
    (xcb_xim_get_ic_values_reply_frame transport_l 1 1
        [xcb_xim_attribute_card32_new transport_l 0 514]).payload.length = 20 ∧
    field16 transport_l (xcb_xim_get_ic_values_reply_frame transport_l 1 1
        [xcb_xim_attribute_card32_new transport_l 0 514]).payload 2 = 3 ∧
    (xcb_xim_get_ic_values_reply_frame transport_l 1 1
        [xcb_xim_attribute_card32_new transport_l 0 514]).alloc = 16 ∧
    (xcb_xim_get_im_values_reply_frame transport_l 1
        [xcb_xim_attribute_card32_new transport_l 0 514]).payload.length = 16 ∧
    field16 transport_l (xcb_xim_get_im_values_reply_frame transport_l 1
        [xcb_xim_attribute_card32_new transport_l 0 514]).payload 2 = 3 := by
  decide

/-- C5: for a non-empty text of `n` bytes and pending runs whose
`index + length` does not overflow 32 bits, the array `feedbacks` that
`update_preedit_string` passes to `xcb_xim_preedit_draw` has exactly `n`
entries, entry `j` is the bitwise OR of the flags of the runs with
`index + length <= n` and `index <= j < index + length` (0 when there is
none), and no store falls outside the array.  When every send succeeds the
frames sent are PREEDIT_START (if the context was not started) and the
PREEDIT_DRAW built from that array; the count handed over with the array is
the `uint16_t` conversion of `n`. -/
theorem update_preedit_string_feedbacks (x : x_server_t)
    (xim : xcb_xim_server_connection_t) (ic : xim_wayland_input_context_t)
    (text : List Nat) (htext : byte_at text 0 ≠ 0)
    (hruns : ∀ s ∈ ic.preedit_styling_list, s.index + s.length < 4294967296) :
    (preedit_feedbacks (strlen text) ic.preedit_styling_list).cells.length = strlen text ∧
    (∀ j, j < strlen text →
      (preedit_feedbacks (strlen text) ic.preedit_styling_list).cells.getD j 0
        = feedback_spec (strlen text) ic.preedit_styling_list j) ∧
    (preedit_feedbacks (strlen text) ic.preedit_styling_list).outside = [] ∧
    (x_server_answers x →
      frames_sent (update_preedit_string x xim ic text).xim
        = frames_sent xim
          ++ (if ic.preedit_started = true then []
              else [(xcb_xim_preedit_start_frame (transport_at xim ic.input_method_transport)
                      ic.input_method_id ic.id).payload])
          ++ [(xcb_xim_preedit_draw_frame (transport_at xim ic.input_method_transport)
                ic.input_method_id ic.id (strlen text) 0 ic.preedit_length 0 (strlen text)
                text (strlen text)
                (preedit_feedbacks (strlen text) ic.preedit_styling_list).cells).payload]) := by
  obtain ⟨hlen, hout, hget⟩ :=
    preedit_feedbacks_spec (strlen text) ic.preedit_styling_list hruns
  exact ⟨hlen, hget, hout,
    fun hx => (update_preedit_string_nonempty x hx xim ic text htext).2.2.2⟩

/-- Witness of `update_preedit_string_feedbacks`: the pending run (0, 3,
HIGHLIGHT) and the 9-byte text `text_aiu`; the array is HIGHLIGHT on the
bytes 0, 1, 2 and 0 on the six others. -/
theorem update_preedit_string_feedbacks_witness :
    byte_at text_aiu 0 ≠ 0 ∧
    (∀ s ∈ ic_styled.preedit_styling_list, s.index + s.length < 4294967296) ∧
    (preedit_feedbacks (strlen text_aiu) ic_styled.preedit_styling_list).cells
      = [4, 4, 4, 0, 0, 0, 0, 0, 0] ∧
    (preedit_feedbacks (strlen text_aiu) ic_styled.preedit_styling_list).cells.length
      = strlen text_aiu ∧
    (∀ j, j < strlen text_aiu →
      (preedit_feedbacks (strlen text_aiu) ic_styled.preedit_styling_list).cells.getD j 0
        = feedback_spec (strlen text_aiu) ic_styled.preedit_styling_list j) ∧
    (preedit_feedbacks (strlen text_aiu) ic_styled.preedit_styling_list).outside = [] ∧
    (x_server_answers x_server_ok →
      frames_sent (update_preedit_string x_server_ok xim_l ic_styled text_aiu).xim
        = frames_sent xim_l
          ++ (if ic_styled.preedit_started = true then []
              else [(xcb_xim_preedit_start_frame
                      (transport_at xim_l ic_styled.input_method_transport)
                      ic_styled.input_method_id ic_styled.id).payload])
          ++ [(xcb_xim_preedit_draw_frame
                (transport_at xim_l ic_styled.input_method_transport)
                ic_styled.input_method_id ic_styled.id (strlen text_aiu) 0
                ic_styled.preedit_length 0 (strlen text_aiu) text_aiu (strlen text_aiu)
                (preedit_feedbacks (strlen text_aiu)
                  ic_styled.preedit_styling_list).cells).payload]) :=
  ⟨by decide, by decide, by decide,
    update_preedit_string_feedbacks x_server_ok xim_l ic_styled text_aiu
      (by decide) (by decide)⟩

/-- A run whose `index + length` exceeds the length of the text and does not
overflow 32 bits is skipped: the array and the stores outside of it are as if
the run were absent. -/
theorem styling_apply_skips (n : Nat) (b : feedbacks_t) (s : xim_wayland_styling_t)
    (hs : s.index + s.length < 4294967296) (hgt : s.index + s.length > n) :
    styling_apply n b s = b := by
  unfold styling_apply
  rw [Nat.mod_eq_of_lt hs, if_pos hgt]

/-- C6 (code defect): the sum `index + length` is taken in 32 bits.  For a
text of 1 byte and the run with index 4294967295 and length 2 the sum wraps to
1, the run is not skipped, and the loop stores at the indices 4294967295 and
4294967296, both outside the 1-entry array. -/
theorem styling_run_overflow_stores_outside :
    4294967295 + 2 > strlen [97] ∧
    preedit_feedbacks (strlen [97])
        [{ index := 4294967295, length := 2, feedback := XCB_XIM_FEEDBACK_HIGHLIGHT }]
      = { cells := [0], outside := [4294967295, 4294967296] } := by
  decide

/-- C7 (code defect): the branch for a non-empty text never clears the pending
styling list.  After styling (0, 1, HIGHLIGHT) and preedit_string with the
text a the list still holds the run, and a following preedit_string with the
text b, with no styling in between, is drawn with the feedback HIGHLIGHT. -/
theorem styling_list_survives_redraw :
    (deliver_all wl_text_input_preedit_style x_server_ok (xim_l, ic_fresh)
        [.preedit_styling 0 1 wl_text_input_preedit_style.HIGHLIGHT,
         .preedit_string [97]]).2.preedit_styling_list
      = [{ index := 0, length := 1, feedback := XCB_XIM_FEEDBACK_HIGHLIGHT }] ∧
    (frames_sent (deliver_all wl_text_input_preedit_style x_server_ok (xim_l, ic_fresh)
        [.preedit_styling 0 1 wl_text_input_preedit_style.HIGHLIGHT,
         .preedit_string [97], .preedit_string [98]]).1).getLast?
      = some (xcb_xim_preedit_draw_frame transport_l 1 1 1 0 1 0 1 [98] 1
          [XCB_XIM_FEEDBACK_HIGHLIGHT]).payload := by
  decide

/-- C8 (code defect): the case SELECTION has no `break` and runs into
`default: return`, so a styling callback with the style SELECTION adds no
run.  The styles HIGHLIGHT, UNDERLINE, ACTIVE and INACTIVE push one run with
the feedback HIGHLIGHT, UNDERLINE, PRIMARY and SECONDARY at the head of the
pending list, and every other style leaves the context unchanged. -/
theorem styling_selection_adds_no_run (k : wl_text_input_preedit_style_t)
    (ic : xim_wayland_input_context_t) (index length : Nat) :
    handle_wayland_preedit_styling k ic index length k.SELECTION = ic ∧
    (handle_wayland_preedit_styling k ic index length k.HIGHLIGHT).preedit_styling_list
      = { index := index % 4294967296, length := length % 4294967296,
          feedback := XCB_XIM_FEEDBACK_HIGHLIGHT } :: ic.preedit_styling_list ∧
    (handle_wayland_preedit_styling k ic index length k.UNDERLINE).preedit_styling_list
      = { index := index % 4294967296, length := length % 4294967296,
          feedback := XCB_XIM_FEEDBACK_UNDERLINE } :: ic.preedit_styling_list ∧
    (handle_wayland_preedit_styling k ic index length k.ACTIVE).preedit_styling_list
      = { index := index % 4294967296, length := length % 4294967296,
          feedback := XCB_XIM_FEEDBACK_PRIMARY } :: ic.preedit_styling_list ∧
    (handle_wayland_preedit_styling k ic index length k.INACTIVE).preedit_styling_list
      = { index := index % 4294967296, length := length % 4294967296,
          feedback := XCB_XIM_FEEDBACK_SECONDARY } :: ic.preedit_styling_list ∧
    ∀ style, style ≠ k.HIGHLIGHT → style ≠ k.UNDERLINE → style ≠ k.ACTIVE →
      style ≠ k.INACTIVE → handle_wayland_preedit_styling k ic index length style = ic := by
  have h := k.distinct
  simp only [List.nodup_cons, List.mem_cons, List.mem_singleton, List.not_mem_nil,
    not_or, or_false] at h
  have h1 : k.SELECTION ≠ k.HIGHLIGHT := by omega
  have h2 : k.SELECTION ≠ k.UNDERLINE := by omega
  have h3 : k.SELECTION ≠ k.ACTIVE := by omega
  have h4 : k.SELECTION ≠ k.INACTIVE := by omega
  have h5 : k.UNDERLINE ≠ k.HIGHLIGHT := by omega
  have h6 : k.ACTIVE ≠ k.HIGHLIGHT := by omega
  have h7 : k.ACTIVE ≠ k.UNDERLINE := by omega
  have h8 : k.INACTIVE ≠ k.HIGHLIGHT := by omega
  have h9 : k.INACTIVE ≠ k.UNDERLINE := by omega
  have h10 : k.INACTIVE ≠ k.ACTIVE := by omega
  refine ⟨?_, ?_, ?_, ?_, ?_, ?_⟩
  · simp [handle_wayland_preedit_styling, h1, h2, h3, h4]
  · simp [handle_wayland_preedit_styling]
  · simp [handle_wayland_preedit_styling, h5]
  · simp [handle_wayland_preedit_styling, h6, h7]
  · simp [handle_wayland_preedit_styling, h8, h9, h10]
  · intro style s1 s2 s3 s4
    simp [handle_wayland_preedit_styling, s1, s2, s3, s4]

/-- C9 (code defect): the comparison is inverted.  With a preedit of 9 bytes
and the caret at 0, a reply reporting position 2 leaves the caret at 0 and a
reply reporting position 12 moves it to 12. -/
theorem preedit_caret_reply_inverted :
    (lookup_input_context xw_active 0 1 1).map (fun ic => (ic.preedit_length, ic.preedit_caret))
      = some (9, 0) ∧
    caret_after (handle_xim_preedit_caret_reply xw_active (caret_reply_request 1 1 2) 0)
      = some 0 ∧
    (handle_xim_preedit_caret_reply xw_active (caret_reply_request 1 1 2) 0).2 = true ∧
    caret_after (handle_xim_preedit_caret_reply xw_active (caret_reply_request 1 1 12) 0)
      = some 12 := by
  decide

/-- C10 (code defect, the one of C2): on the ACTIVE context with a stored
preedit of 9 bytes, commit_string with the 3-byte text emits two frames,
PREEDIT_DRAW (empty text, change_first 0, change_length 9) and COMMIT (flag 6,
keysym 0xffffff, the text); no PREEDIT_DONE is sent and preedit_started stays
true. -/
theorem commit_string_sends_no_preedit_done :
    ic_active.preedit_started = true ∧ ic_active.preedit_length = 9 ∧
    frames_sent (handle_wayland_commit_string x_server_ok xim_l ic_active text_ai).1
      = [(xcb_xim_preedit_draw_frame transport_l 1 1 0 0 9 0 0 [] 0 []).payload,
         (xcb_xim_commit_frame transport_l 1 1 6 0xffffff 3 text_ai).payload] ∧
    opcodes_sent (handle_wayland_commit_string x_server_ok xim_l ic_active text_ai).1
      = [75, 63] ∧
    (handle_wayland_commit_string x_server_ok xim_l ic_active text_ai).2.preedit_started
      = true ∧
    (handle_wayland_commit_string x_server_ok xim_l ic_active text_ai).2.preedit_length
      = 0 := by
  decide

/-- C12 (code defect): only `handle_wayland_preedit_string` tests the bit
`PREEDIT_CALLBACKS`.  On a context whose input style is
`PREEDIT_NOTHING | STATUS_NOTHING` the callback preedit_string sends nothing
and changes nothing, but preedit_cursor sends PREEDIT_CARET (76) and
preedit_styling adds a run to the pending list. -/
theorem preedit_callbacks_not_gated :
    input_style_of transport_l ic_nothing &&& XCB_XIM_PREEDIT_CALLBACKS = 0 ∧
    handle_wayland_preedit_string x_server_ok xim_l ic_nothing text_aiu = (xim_l, ic_nothing) ∧
    opcodes_sent (handle_wayland_preedit_cursor x_server_ok xim_l ic_nothing 1).1 = [76] ∧
    (handle_wayland_preedit_styling wl_text_input_preedit_style ic_nothing 0 1
        wl_text_input_preedit_style.HIGHLIGHT).preedit_styling_list
      = [{ index := 0, length := 1, feedback := XCB_XIM_FEEDBACK_HIGHLIGHT }] := by
  decide


/-! ## Claim C13 -/

/-- Claim C13 fails on the code for the longest requests: the well-formed
`GET_IM_VALUES` request of 65540 bytes for input method 1 whose 32765 ids
start with the known id 0 is answered with an empty attribute list.  The
iterator keeps `4 * length` (here `4 * 16384`) in a `uint16_t`, which is 0, and
so has no data. -/
theorem get_im_values_drops_known_id :
    (get_im_values_request transport_l 1 ids_32765).length
      = request_length transport_l (get_im_values_request transport_l 1 ids_32765) ∧
    (get_im_values_request transport_l 1 ids_32765).length = 65540 ∧
    ids_32765.head? = some 0 ∧
    xcb_xim_get_im_values_request_attribute_id_iterator transport_l
        (get_im_values_request transport_l 1 ids_32765)
      = { transport := transport_l, data := 8, index := 0, remainder := 0 } ∧
    (handle_xim_get_im_values_request 1 x_server_ok xw_opened
        (get_im_values_request transport_l 1 ids_32765) 0).map
        (fun r => (frames_sent r.1.xim, r.2))
      = some ([[45, 0, 1, 0, 1, 0, 0, 0]], true) := by
  have hf := get_im_values_request_fields transport_l 1 ids_32765
  have hl := get_im_values_request_length transport_l 1 ids_32765
  rw [ids_32765_length] at hf hl
  have ht : transport_at xw_opened.xim 0 = transport_l := rfl
  have hit : xcb_xim_get_im_values_request_attribute_id_iterator transport_l
      (get_im_values_request transport_l 1 ids_32765)
      = { transport := transport_l, data := 8, index := 0, remainder := 0 } := by
    unfold xcb_xim_get_im_values_request_attribute_id_iterator
    rw [hf.1, hf.2.2]
    rfl
  have h := handle_xim_get_im_values_request_empty 0 x_server_ok xw_opened
    (get_im_values_request transport_l 1 ids_32765) 0
    { transport := 0, id := 1, input_context_counter := 0,
      specs := [], attrs := [some im_styles_record], ic_specs := [],
      input_context_list := [] }
    (by rw [ht, hf.2.1]; rfl) (by rw [ht]; exact hit)
  refine ⟨?_, ?_, rfl, hit, ?_⟩
  · rw [request_length_eq, hl, hf.1]
    rfl
  · rw [hl]
    rfl
  · rw [h, ht, hf.2.1]
    rfl


/-! ## Claim C14 -/

/-- Claim C14: let the attributes `es`, each of size `4 + v + PAD (v)` and
together shorter than 65536 bytes, lie one after the other at the offset of
the iterator, whose remainder is their total size.  Then `set_values` ends
with a table of the same length in which every slot `k` below
`max_attribute_id` whose id occurs holds the copy (id, value byte length and
value bytes) of the last attribute with id `k`, and every slot whose id does
not occur, or which is not below `max_attribute_id`, is as before: attributes
with an id of `max_attribute_id` or more change nothing. -/
theorem set_values_slots (t : xcb_xim_transport_t) (max_attribute_id : Nat)
    (attributes : List (Option (List Nat))) (pre rest : List Nat) (es : List (List Nat))
    (idx fuel : Nat) (hes : ∀ e ∈ es, attribute_well_sized t e)
    (hsum : (es.map List.length).sum < 65536) (hfuel : es.length < fuel) :
    ∃ table,
      set_values (pre ++ (es.flatten ++ rest)) t max_attribute_id fuel attributes
        { transport := t, data := pre.length, index := idx,
          remainder := (es.map List.length).sum } = some table ∧
      table.length = attributes.length ∧
      ∀ k, k < attributes.length →
        (k < max_attribute_id → ∀ e, last_attribute_with_id t es k = some e →
          table.getD k none = some (attribute_copy t e)) ∧
        (last_attribute_with_id t es k = none ∨ max_attribute_id ≤ k →
          table.getD k none = attributes.getD k none) :=
  ⟨_, set_values_flatten t max_attribute_id es hes rest pre attributes idx fuel hsum hfuel,
    set_values_fold_slots t max_attribute_id attributes es⟩

/-- The claim for the attributes with ids 0, 7, 0 stored into the table of a
fresh input context (6 slots): slot 0 gets the last attribute with id 0, the
other slots stay. -/
theorem set_values_slots_witness :
    (∃ table,
      set_values ([42, 0, 0, 0, 1, 0, 0, 0] ++ (attributes_0_7_0.flatten ++ []))
        transport_l LAST_IC_ATTRIBUTE 4 ic_fresh.attrs
        { transport := transport_l, data := [42, 0, 0, 0, 1, 0, 0, 0].length, index := 0,
          remainder := (attributes_0_7_0.map List.length).sum } = some table ∧
      table.length = ic_fresh.attrs.length ∧
      ∀ k, k < ic_fresh.attrs.length →
        (k < LAST_IC_ATTRIBUTE → ∀ e, last_attribute_with_id transport_l attributes_0_7_0 k
            = some e → table.getD k none = some (attribute_copy transport_l e)) ∧
        (last_attribute_with_id transport_l attributes_0_7_0 k = none ∨
            LAST_IC_ATTRIBUTE ≤ k → table.getD k none = ic_fresh.attrs.getD k none)) ∧
    set_values (attribute_request attributes_0_7_0) transport_l LAST_IC_ATTRIBUTE 4
        ic_fresh.attrs
        { transport := transport_l, data := 8, index := 0, remainder := 24 }
      = some (ic_fresh.attrs.set 0 (some [0, 0, 4, 0, 2, 0, 0, 0])) :=
  ⟨set_values_slots transport_l LAST_IC_ATTRIBUTE ic_fresh.attrs [42, 0, 0, 0, 1, 0, 0, 0] []
      attributes_0_7_0 0 4 (by decide) (by decide) (by decide),
   by decide⟩


/-! ## Claim C15 -/

/-- Claim C15 fails on the code: each of the seven request-iterator
constructors, on a request whose byte length is `L = 4 + 4 * length`, gives an
iterator that has data for an element ending past the `L` bytes (for
`GET_IC_VALUES` after one `next`).  The remainder is bounded by `4 * length`,
the bytes after the first 4, and not by the bytes after the fixed part. -/
theorem request_iterators_yield_past_end :
    (query_extension_request_12.length = request_length transport_l query_extension_request_12 ∧
      xcb_xim_str_iterator_has_data query_extension_request_12
        (xcb_xim_query_extension_request_extension_iterator transport_l
          query_extension_request_12) = true ∧
      str_element_end query_extension_request_12
        (xcb_xim_query_extension_request_extension_iterator transport_l
          query_extension_request_12) = 16) ∧
    (encoding_negotiation_request_12.length
        = request_length transport_l encoding_negotiation_request_12 ∧
      xcb_xim_str_iterator_has_data encoding_negotiation_request_12
        (xcb_xim_encoding_negotiation_request_encoding_iterator transport_l
          encoding_negotiation_request_12) = true ∧
      str_element_end encoding_negotiation_request_12
        (xcb_xim_encoding_negotiation_request_encoding_iterator transport_l
          encoding_negotiation_request_12) = 16) ∧
    (set_im_values_request_12.length = request_length transport_l set_im_values_request_12 ∧
      xcb_xim_attribute_iterator_has_data set_im_values_request_12
        (xcb_xim_set_im_values_request_attribute_iterator transport_l
          set_im_values_request_12) = true ∧
      attribute_element_end set_im_values_request_12
        (xcb_xim_set_im_values_request_attribute_iterator transport_l
          set_im_values_request_12) = 16) ∧
    (get_im_values_request_8.length = request_length transport_l get_im_values_request_8 ∧
      xcb_xim_attribute_id_iterator_has_data
        (xcb_xim_get_im_values_request_attribute_id_iterator transport_l
          get_im_values_request_8) = true ∧
      attribute_id_element_end
        (xcb_xim_get_im_values_request_attribute_id_iterator transport_l
          get_im_values_request_8) = 10) ∧
    (create_ic_request_12.length = request_length transport_l create_ic_request_12 ∧
      xcb_xim_attribute_iterator_has_data create_ic_request_12
        (xcb_xim_create_ic_request_attribute_iterator transport_l
          create_ic_request_12) = true ∧
      attribute_element_end create_ic_request_12
        (xcb_xim_create_ic_request_attribute_iterator transport_l
          create_ic_request_12) = 16) ∧
    (set_ic_values_request_16.length = request_length transport_l set_ic_values_request_16 ∧
      xcb_xim_attribute_iterator_has_data set_ic_values_request_16
        (xcb_xim_set_ic_values_request_attribute_iterator transport_l
          set_ic_values_request_16) = true ∧
      attribute_element_end set_ic_values_request_16
        (xcb_xim_set_ic_values_request_attribute_iterator transport_l
          set_ic_values_request_16) = 24) ∧
    (get_ic_values_request_12.length = request_length transport_l get_ic_values_request_12 ∧
      xcb_xim_attribute_id_iterator_has_data
        (xcb_xim_attribute_id_iterator_next
          (xcb_xim_get_ic_values_request_attribute_id_iterator transport_l
            get_ic_values_request_12)) = true ∧
      attribute_id_element_end
        (xcb_xim_attribute_id_iterator_next
          (xcb_xim_get_ic_values_request_attribute_id_iterator transport_l
            get_ic_values_request_12)) = 14) := by
  decide

set_option maxRecDepth 16000

/-- C16 (code defect): `xcb_xim_str_iterator_next` keeps `1 + length` in a
`uint8_t`.  On the request whose encoding list is one STR of 255 bytes the
iterator has data (remainder 256, length byte 255), and `next` leaves the
offset at 8 and the remainder at 256 instead of moving both by 256; only the
index changes. -/
theorem str_iterator_next_stuck_at_255 :
    xcb_xim_encoding_negotiation_request_encoding_iterator transport_l encoding_request_255
      = { data := 8, index := 0, remainder := 256 } ∧
    byte_at encoding_request_255 8 = 255 ∧
    xcb_xim_str_iterator_has_data encoding_request_255
      { data := 8, index := 0, remainder := 256 } = true ∧
    xcb_xim_str_iterator_next encoding_request_255
      { data := 8, index := 0, remainder := 256 }
      = { data := 8, index := 1, remainder := 256 } := by
  decide

set_option maxRecDepth 512


/-! ## Claim C17 -/

/-- Claim C17, as stated, fails: the styles factory with 16383 styles builds a
record of 65540 bytes whose header holds `value_byte_length` 0, and the packed
factory with one byte of value builds a record of 5 bytes whose header holds
1, where `4 + 1 + PAD (1)` is 8. -/
theorem attribute_size_rule_fails :
    ¬ attribute_well_sized transport_l
        (xcb_xim_attribute_styles_new transport_l QUERY_INPUT_STYLE 16383
          (List.replicate 16383 0)) ∧
    (xcb_xim_attribute_styles_new transport_l QUERY_INPUT_STYLE 16383
      (List.replicate 16383 0)).length = 65540 ∧
    field16 transport_l (xcb_xim_attribute_styles_new transport_l QUERY_INPUT_STYLE 16383
      (List.replicate 16383 0)) 2 = 0 ∧
    ¬ attribute_well_sized transport_l (xcb_xim_attribute_packed_new transport_l 0 1 [7]) := by
  refine ⟨?_, ?_, ?_, by decide⟩
  · unfold attribute_well_sized attribute_byte_length
    rw [styles_length, styles_value_byte_length]
    decide
  · rw [styles_length]
  · rw [styles_value_byte_length]

/-- Claim C17, amended: for both byte orders, every record built by the
factories card8, card16, card32, string8, rectangle, point and font_set has
total size `4 + v + PAD (v)`, with `v` the `value_byte_length` of its header;
so has the record of styles for at most 16382 styles, of hotkey_triggers for
at most 4095 triggers, of nested_list when the sizes of the elements sum to
less than 65536 (the cases in which the value fits the 16-bit header), and of
packed when the value byte length is a multiple of 4. -/
theorem attribute_factories_well_sized (t : xcb_xim_transport_t) :
    (∀ attribute_id value,
      attribute_well_sized t (xcb_xim_attribute_card8_new t attribute_id value)) ∧
    (∀ attribute_id value,
      attribute_well_sized t (xcb_xim_attribute_card16_new t attribute_id value)) ∧
    (∀ attribute_id value,
      attribute_well_sized t (xcb_xim_attribute_card32_new t attribute_id value)) ∧
    (∀ attribute_id value_length value,
      attribute_well_sized t
        (xcb_xim_attribute_string8_new t attribute_id value_length value)) ∧
    (∀ attribute_id value,
      attribute_well_sized t (xcb_xim_attribute_rectangle_new t attribute_id value)) ∧
    (∀ attribute_id value,
      attribute_well_sized t (xcb_xim_attribute_point_new t attribute_id value)) ∧
    (∀ attribute_id value_length value,
      attribute_well_sized t
        (xcb_xim_attribute_font_set_new t attribute_id value_length value)) ∧
    (∀ attribute_id value_length value, value_length % 65536 ≤ 16382 →
      attribute_well_sized t
        (xcb_xim_attribute_styles_new t attribute_id value_length value)) ∧
    (∀ attribute_id value_length triggers states, value_length % 4294967296 ≤ 4095 →
      attribute_well_sized t
        (xcb_xim_attribute_hotkey_triggers_new t attribute_id value_length triggers
          states)) ∧
    (∀ attribute_id value,
      records_size (attribute_byte_length t) value < 65536 →
      attribute_well_sized t (xcb_xim_attribute_nested_list_new t attribute_id value)) ∧
    (∀ attribute_id value_byte_length value, value_byte_length % 65536 % 4 = 0 →
      attribute_well_sized t
        (xcb_xim_attribute_packed_new t attribute_id value_byte_length value)) :=
  ⟨card8_well_sized t, card16_well_sized t, card32_well_sized t, string8_well_sized t,
   rectangle_well_sized t, point_well_sized t, font_set_well_sized t,
   styles_well_sized t, hotkey_triggers_well_sized t, nested_list_well_sized t,
   packed_well_sized t⟩

/-- The amended claim on the little-endian transport: three styles, one
trigger key, a nested list of two records and four packed bytes. -/
theorem attribute_factories_well_sized_witness :
    attribute_well_sized transport_l
      (xcb_xim_attribute_styles_new transport_l QUERY_INPUT_STYLE 3 [1, 2, 3]) ∧
    attribute_well_sized transport_l
      (xcb_xim_attribute_hotkey_triggers_new transport_l 2 1
        [[1, 0, 0, 0, 2, 0, 0, 0, 3, 0, 0, 0]] [1]) ∧
    attribute_well_sized transport_l
      (xcb_xim_attribute_nested_list_new transport_l 4
        [xcb_xim_attribute_card32_new transport_l 0 1,
         xcb_xim_attribute_string8_new transport_l 1 3 [97, 98, 99]]) ∧
    attribute_well_sized transport_l
      (xcb_xim_attribute_packed_new transport_l 3 4 [1, 2, 3, 4]) :=
  ⟨(attribute_factories_well_sized transport_l).2.2.2.2.2.2.2.1 QUERY_INPUT_STYLE 3
      [1, 2, 3] (by decide),
   (attribute_factories_well_sized transport_l).2.2.2.2.2.2.2.2.1 2 1
      [[1, 0, 0, 0, 2, 0, 0, 0, 3, 0, 0, 0]] [1] (by decide),
   (attribute_factories_well_sized transport_l).2.2.2.2.2.2.2.2.2.1 4
      [xcb_xim_attribute_card32_new transport_l 0 1,
       xcb_xim_attribute_string8_new transport_l 1 3 [97, 98, 99]] (by decide),
   (attribute_factories_well_sized transport_l).2.2.2.2.2.2.2.2.2.2 3 4 [1, 2, 3, 4]
      (by decide)⟩


/-! ## Claim C18 -/

/-- Claim C18, as stated, fails for the styles factory: with 16382 styles the
record is well sized (header 65532, size 65536), but its size is not a value
of the 16-bit remainder of the iterator, which is 0 and has no data; the record
is not walked.  With 16381 styles (65532 bytes) it is. -/
theorem styles_record_too_long_for_walk :
    (xcb_xim_attribute_styles_new transport_l QUERY_INPUT_STYLE 16382
      (List.replicate 16382 0)).length = 65536 ∧
    field16 transport_l (xcb_xim_attribute_styles_new transport_l QUERY_INPUT_STYLE 16382
      (List.replicate 16382 0)) 2 = 65532 ∧
    xcb_xim_attribute_iterator_has_data
      (xcb_xim_attribute_styles_new transport_l QUERY_INPUT_STYLE 16382
        (List.replicate 16382 0))
      { transport := transport_l, data := 0, index := 0,
        remainder := (xcb_xim_attribute_styles_new transport_l QUERY_INPUT_STYLE 16382
          (List.replicate 16382 0)).length % 65536 } = false ∧
    ¬ attribute_walks_once transport_l
        (xcb_xim_attribute_styles_new transport_l QUERY_INPUT_STYLE 16382
          (List.replicate 16382 0)) QUERY_INPUT_STYLE ∧
    (xcb_xim_attribute_styles_new transport_l QUERY_INPUT_STYLE 16381
      (List.replicate 16381 0)).length = 65532 := by
  have hdata : xcb_xim_attribute_iterator_has_data
      (xcb_xim_attribute_styles_new transport_l QUERY_INPUT_STYLE 16382
        (List.replicate 16382 0))
      { transport := transport_l, data := 0, index := 0,
        remainder := (xcb_xim_attribute_styles_new transport_l QUERY_INPUT_STYLE 16382
          (List.replicate 16382 0)).length % 65536 } = false := by
    unfold xcb_xim_attribute_iterator_has_data
    rw [styles_length]
    rfl
  refine ⟨?_, ?_, hdata, ?_, ?_⟩
  · rw [styles_length]
  · rw [styles_value_byte_length]
  · intro h
    have h1 := h.1
    rw [hdata] at h1
    exact Bool.noConfusion h1
  · rw [styles_length]

/-- Claim C18, amended: for a transport of either byte order and an attribute
id below 65536, the record built by each of the factories card8, card16,
card32, string8, rectangle and point from a value of its C type, and by the
factory styles from at most 16381 styles (the record sizes that fit the 16-bit
remainder), is walked once by the attribute iterator: with the size of the
record as remainder it has data, `xcb_xim_card16` of the id field is the id
given, after one `next` the remainder is 0 and it has no data; and the value
decoded in the byte order of the transport is the value given. -/
theorem attribute_round_trip (t : xcb_xim_transport_t) (attribute_id : Nat)
    (hid : attribute_id < 65536) :
    (∀ value, value < 256 →
      attribute_walks_once t (xcb_xim_attribute_card8_new t attribute_id value)
        attribute_id ∧
      byte_at (xcb_xim_attribute_card8_new t attribute_id value) 4 = value) ∧
    (∀ value, value < 65536 →
      attribute_walks_once t (xcb_xim_attribute_card16_new t attribute_id value)
        attribute_id ∧
      xcb_xim_uint16 t (byte_at (xcb_xim_attribute_card16_new t attribute_id value) 4)
        (byte_at (xcb_xim_attribute_card16_new t attribute_id value) 5) = value) ∧
    (∀ value, value < 4294967296 →
      attribute_walks_once t (xcb_xim_attribute_card32_new t attribute_id value)
        attribute_id ∧
      xcb_xim_uint32 t (byte_at (xcb_xim_attribute_card32_new t attribute_id value) 4)
        (byte_at (xcb_xim_attribute_card32_new t attribute_id value) 5)
        (byte_at (xcb_xim_attribute_card32_new t attribute_id value) 6)
        (byte_at (xcb_xim_attribute_card32_new t attribute_id value) 7) = value) ∧
    (∀ value : List Nat, value.length < 256 →
      attribute_walks_once t
        (xcb_xim_attribute_string8_new t attribute_id value.length value) attribute_id ∧
      field16 t (xcb_xim_attribute_string8_new t attribute_id value.length value) 2
        = value.length ∧
      memcpy ((xcb_xim_attribute_string8_new t attribute_id value.length value).drop 4)
        value.length = value) ∧
    (∀ value : List Nat, value.length ≤ 16381 →
      (∀ k, k < value.length → value.getD k 0 < 4294967296) →
      attribute_walks_once t
        (xcb_xim_attribute_styles_new t attribute_id value.length value) attribute_id ∧
      xcb_xim_uint16 t
        (byte_at (xcb_xim_attribute_styles_new t attribute_id value.length value) 4)
        (byte_at (xcb_xim_attribute_styles_new t attribute_id value.length value) 5)
        = value.length ∧
      ∀ k, k < value.length →
        field32 t (xcb_xim_attribute_styles_new t attribute_id value.length value)
          (8 + 4 * k) = value.getD k 0) ∧
    (∀ value : xcb_rectangle_t,
      -32768 ≤ value.x ∧ value.x < 32768 → -32768 ≤ value.y ∧ value.y < 32768 →
      value.width < 65536 → value.height < 65536 →
      attribute_walks_once t (xcb_xim_attribute_rectangle_new t attribute_id value)
        attribute_id ∧
      ({ x := int16_of_uint16
            (field16 t (xcb_xim_attribute_rectangle_new t attribute_id value) 4),
         y := int16_of_uint16
            (field16 t (xcb_xim_attribute_rectangle_new t attribute_id value) 6),
         width := field16 t (xcb_xim_attribute_rectangle_new t attribute_id value) 8,
         height := field16 t (xcb_xim_attribute_rectangle_new t attribute_id value) 10 }
        : xcb_rectangle_t) = value) ∧
    (∀ value : xcb_point_t,
      -32768 ≤ value.x ∧ value.x < 32768 → -32768 ≤ value.y ∧ value.y < 32768 →
      attribute_walks_once t (xcb_xim_attribute_point_new t attribute_id value)
        attribute_id ∧
      ({ x := int16_of_uint16
            (field16 t (xcb_xim_attribute_point_new t attribute_id value) 4),
         y := int16_of_uint16
            (field16 t (xcb_xim_attribute_point_new t attribute_id value) 6) }
        : xcb_point_t) = value) :=
  ⟨fun value hv => card8_round_trip t attribute_id value hid hv,
   fun value hv => card16_round_trip t attribute_id value hid hv,
   fun value hv => card32_round_trip t attribute_id value hid hv,
   fun value hv => string8_round_trip t attribute_id value hid hv,
   fun value hn hv => styles_round_trip t attribute_id value hid hn hv,
   fun value hx hy hw hh => rectangle_round_trip t attribute_id value hid hx hy hw hh,
   fun value hx hy => point_round_trip t attribute_id value hid hx hy⟩

/-- The amended claim for a CARD32 of id 5 on the big-endian transport, for a
rectangle with a negative corner of id 3 on the little-endian transport and
for three styles of id 0 on the big-endian transport. -/
theorem attribute_round_trip_witness :
    (attribute_walks_once transport_B (xcb_xim_attribute_card32_new transport_B 5 305419896)
        5 ∧
      xcb_xim_uint32 transport_B
        (byte_at (xcb_xim_attribute_card32_new transport_B 5 305419896) 4)
        (byte_at (xcb_xim_attribute_card32_new transport_B 5 305419896) 5)
        (byte_at (xcb_xim_attribute_card32_new transport_B 5 305419896) 6)
        (byte_at (xcb_xim_attribute_card32_new transport_B 5 305419896) 7) = 305419896) ∧
    xcb_xim_attribute_card32_new transport_B 5 305419896 = [0, 5, 0, 4, 18, 52, 86, 120] ∧
    (attribute_walks_once transport_l
        (xcb_xim_attribute_rectangle_new transport_l 3
          { x := -2, y := 7, width := 640, height := 480 }) 3 ∧
      ({ x := int16_of_uint16
            (field16 transport_l (xcb_xim_attribute_rectangle_new transport_l 3
              { x := -2, y := 7, width := 640, height := 480 }) 4),
         y := int16_of_uint16
            (field16 transport_l (xcb_xim_attribute_rectangle_new transport_l 3
              { x := -2, y := 7, width := 640, height := 480 }) 6),
         width := field16 transport_l (xcb_xim_attribute_rectangle_new transport_l 3
              { x := -2, y := 7, width := 640, height := 480 }) 8,
         height := field16 transport_l (xcb_xim_attribute_rectangle_new transport_l 3
              { x := -2, y := 7, width := 640, height := 480 }) 10 }
        : xcb_rectangle_t) = { x := -2, y := 7, width := 640, height := 480 }) ∧
    (attribute_walks_once transport_B
        (xcb_xim_attribute_styles_new transport_B 0 [514, 1026, 1032].length
          [514, 1026, 1032]) 0 ∧
      xcb_xim_uint16 transport_B
        (byte_at (xcb_xim_attribute_styles_new transport_B 0 [514, 1026, 1032].length
          [514, 1026, 1032]) 4)
        (byte_at (xcb_xim_attribute_styles_new transport_B 0 [514, 1026, 1032].length
          [514, 1026, 1032]) 5) = [514, 1026, 1032].length ∧
      ∀ k, k < [514, 1026, 1032].length →
        field32 transport_B
          (xcb_xim_attribute_styles_new transport_B 0 [514, 1026, 1032].length
            [514, 1026, 1032]) (8 + 4 * k) = [514, 1026, 1032].getD k 0) ∧
    xcb_xim_attribute_styles_new transport_B 0 3 [514, 1026, 1032]
      = [0, 0, 0, 16, 0, 3, 0, 0, 0, 0, 2, 2, 0, 0, 4, 2, 0, 0, 4, 8] :=
  ⟨(attribute_round_trip transport_B 5 (by decide)).2.2.1 305419896 (by decide),
   by decide,
   (attribute_round_trip transport_l 3 (by decide)).2.2.2.2.2.1
     { x := -2, y := 7, width := 640, height := 480 }
     (by decide) (by decide) (by decide) (by decide),
   (attribute_round_trip transport_B 0 (by decide)).2.2.2.2.1 [514, 1026, 1032]
     (by decide) (by decide),
   by decide⟩


/-! ## Claim C19 -/

/-- Claim C19: for well-formed attribute records `es` (each of size
`4 + v + PAD (v)`) whose sizes sum to less than 65536, the walk of the iterator
that `xcb_xim_attribute_nested_list_attribute_iterator` returns on the record
built by `xcb_xim_attribute_nested_list_new` ends and yields exactly the
records of `es`, byte for byte and in order; after the last one `has_data` is
false. -/
theorem nested_list_walk (t : xcb_xim_transport_t) (attribute_id : Nat)
    (es : List (List Nat)) (hes : ∀ e ∈ es, attribute_well_sized t e)
    (hsum : records_size (attribute_byte_length t) es < 65536) :
    attribute_walk (xcb_xim_attribute_nested_list_new t attribute_id es) (es.length + 1)
      (xcb_xim_attribute_nested_list_attribute_iterator t
        (xcb_xim_attribute_nested_list_new t attribute_id es) 0) = some es := by
  have hc := copy_records_well_sized t es hes
  have hv := nested_list_value_byte_length t attribute_id es
  unfold xcb_xim_attribute_nested_list_attribute_iterator
  dsimp only
  rw [Nat.zero_add, hv, Nat.mod_eq_of_lt hsum, hc.2]
  unfold xcb_xim_attribute_nested_list_new
  dsimp only
  rw [hc.1]
  have h := attribute_walk_flatten t es hes []
    (NO16 t attribute_id ++ NO16 t (4 + records_size (attribute_byte_length t) es - 4))
    0 (es.length + 1) (by rw [← hc.2]; exact hsum) (Nat.lt_succ_self _)
  rw [List.append_nil, List.length_append, NO16_length, NO16_length] at h
  exact h

/-- The claim on the little-endian transport for a nested list of a CARD32
and a STRING8 record: the walk gives the two records back. -/
theorem nested_list_walk_witness :
    attribute_walk
      (xcb_xim_attribute_nested_list_new transport_l 4
        [xcb_xim_attribute_card32_new transport_l 0 1,
         xcb_xim_attribute_string8_new transport_l 1 3 [97, 98, 99]]) 3
      (xcb_xim_attribute_nested_list_attribute_iterator transport_l
        (xcb_xim_attribute_nested_list_new transport_l 4
          [xcb_xim_attribute_card32_new transport_l 0 1,
           xcb_xim_attribute_string8_new transport_l 1 3 [97, 98, 99]]) 0)
      = some [xcb_xim_attribute_card32_new transport_l 0 1,
              xcb_xim_attribute_string8_new transport_l 1 3 [97, 98, 99]] :=
  nested_list_walk transport_l 4
    [xcb_xim_attribute_card32_new transport_l 0 1,
     xcb_xim_attribute_string8_new transport_l 1 3 [97, 98, 99]]
    (by decide) (by decide)


/-! ## Claim C20 -/

/-- Claim C20: `write_data` puts a payload of `length` bytes into a format-8
`_XIM_PROTOCOL` client message exactly when `length <= 20`.  A longer payload,
when the two round trips are answered, is appended to the STRING property whose
atom was interned under the name made of the serial, on the client window, and
announced by a format-32 client message with data `[length, atom, 0, 0, 0]`;
when a round trip fails nothing is sent.  No message of format 8 is ever sent
for a payload longer than 20 bytes. -/
theorem write_data_inline_or_property (x : x_server_t)
    (xim : xcb_xim_server_connection_t) (client : xcb_xim_transport_t)
    (length : Nat) (data : List Nat) (hlen : length < 4294967296) :
    (length ≤ 20 →
      write_data x xim client length data =
        ({ xim with sent := xim.sent ++
            [{ window := client.client_window, type := xim.atoms.getD _XIM_PROTOCOL 0,
               format := 8,
               data := memcpy data length ++ List.replicate (20 - length) 0,
               payload := memcpy data length, property := none }] }, true)) ∧
    (20 < length →
      (∀ atom, x.intern_atom_reply xim.round_trips = some atom → atom < 4294967296 →
        x.get_property_reply (xim.round_trips + 1) = true →
        (write_data x xim client length data).2 = true ∧
        (write_data x xim client length data).1.sent = xim.sent ++
          [{ window := client.client_window, type := xim.atoms.getD _XIM_PROTOCOL 0,
             format := 32, data := [length, atom, 0, 0, 0],
             payload := memcpy data length,
             property := some
               { mode := XCB_PROP_MODE_APPEND, window := client.client_window,
                 property := atom, name := xim.serial, type := XCB_ATOM_STRING,
                 format := 8, payload := memcpy data length } }]) ∧
      ((write_data x xim client length data).2 = false →
        (write_data x xim client length data).1.sent = xim.sent) ∧
      (∀ m ∈ (write_data x xim client length data).1.sent, m ∉ xim.sent →
        m.format = 32)) := by
  refine ⟨fun h => ?_, fun h => ⟨?_, ?_, ?_⟩⟩
  · unfold write_data
    rw [if_neg (by omega)]
  · intro atom hatom hlt hprop
    unfold write_data
    rw [if_pos h]
    simp only [hatom, hprop, if_true]
    simp [Nat.mod_eq_of_lt hlen, Nat.mod_eq_of_lt hlt]
  · unfold write_data
    rw [if_pos h]
    dsimp only
    cases hi : x.intern_atom_reply xim.round_trips with
    | none => simp
    | some atom =>
      cases hp : x.get_property_reply (xim.round_trips + 1) <;> simp
  · unfold write_data
    rw [if_pos h]
    dsimp only
    cases hi : x.intern_atom_reply xim.round_trips with
    | none => intro m hm hn; exact absurd hm hn
    | some atom =>
      cases hp : x.get_property_reply (xim.round_trips + 1) with
      | false => intro m hm hn; exact absurd hm hn
      | true =>
        intro m hm hn
        simp only [if_true, List.mem_append, List.mem_singleton] at hm
        rcases hm with hm | hm
        · exact absurd hm hn
        · rw [hm]

/-- The claim on the connection `xim_l` with an X server that answers: the
20-byte frame of `PREEDIT_CARET` goes inline; the 64-byte frame of
`GET_IM_VALUES_REPLY` goes through the property interned first, announced by
`[64, 1000, 0, 0, 0]`; so does a payload of 21 bytes. -/
theorem write_data_inline_or_property_witness :
    (write_data x_server_ok xim_l transport_l frame_caret_20.length frame_caret_20.bytes
      = ({ xim_l with sent := xim_l.sent ++
            [{ window := transport_l.client_window,
               type := xim_l.atoms.getD _XIM_PROTOCOL 0, format := 8,
               data := memcpy frame_caret_20.bytes frame_caret_20.length
                 ++ List.replicate (20 - frame_caret_20.length) 0,
               payload := memcpy frame_caret_20.bytes frame_caret_20.length,
               property := none }] }, true)) ∧
    ((write_data x_server_ok xim_l transport_l frame_values_64.length
        frame_values_64.bytes).2 = true ∧
      (write_data x_server_ok xim_l transport_l frame_values_64.length
        frame_values_64.bytes).1.sent = xim_l.sent ++
          [{ window := transport_l.client_window,
             type := xim_l.atoms.getD _XIM_PROTOCOL 0,
             format := 32, data := [frame_values_64.length, 1000, 0, 0, 0],
             payload := memcpy frame_values_64.bytes frame_values_64.length,
             property := some
               { mode := XCB_PROP_MODE_APPEND, window := transport_l.client_window,
                 property := 1000, name := xim_l.serial, type := XCB_ATOM_STRING,
                 format := 8,
                 payload := memcpy frame_values_64.bytes frame_values_64.length } }]) ∧
    (frame_caret_20.length, frame_values_64.length) = (20, 64) ∧
    (write_data x_server_ok xim_l transport_l 21 (List.replicate 21 1)).1.sent.map
        (fun m => (m.format, m.data)) = [(32, [21, 1000, 0, 0, 0])] :=
  ⟨(write_data_inline_or_property x_server_ok xim_l transport_l frame_caret_20.length
      frame_caret_20.bytes (by decide)).1 (by decide),
   ((write_data_inline_or_property x_server_ok xim_l transport_l frame_values_64.length
      frame_values_64.bytes (by decide)).2 (by decide)).1 1000 rfl (by decide) rfl,
   by decide, by decide⟩



/-! ## Claim C21 -/

/-- Claim C21 fails on the code: no handler compares the byte length of the
request with the fixed part it reads.  For the 4-byte `CLOSE` frame (length
field 0) the handler reads the id from bytes 4..5, which lie behind the
request: with the bytes 1, 0 there it closes input method 1 and returns
`true`, with 0, 0 there it returns `false`.  For the 4-byte
`PREEDIT_CARET_REPLY` frame it reads bytes 4..11 and, with the ids 1, 1 and
the position 10 there, stores the caret 10 and returns `true`. -/
theorem short_request_reads_past_end :
    (close_request_4.length = request_length transport_l close_request_4 ∧
      close_request_4.length = 4) ∧
    (handle_xim_request 0 x_server_ok wl_none xw_two (close_request_4 ++ [1, 0]) 0).map
        (fun r => (r.1.input_method_list, opcodes_sent r.1.xim, r.2))
      = some ([], [33], true) ∧
    handle_xim_request 0 x_server_ok wl_none xw_two (close_request_4 ++ [0, 0]) 0
      = some (xw_two, false) ∧
    (caret_reply_request_4.length = request_length transport_l caret_reply_request_4 ∧
      caret_after (xw_two, true) = some 0) ∧
    (handle_xim_request 0 x_server_ok wl_none xw_two
        (caret_reply_request_4 ++ [1, 0, 1, 0, 10, 0, 0, 0]) 0).map
        (fun r => (caret_after r, r.2))
      = some (some 10, true) := by
  decide


/-! ## Claim C22 -/

/-- Claim C22, as stated, fails: a `SYNC` request (opcode 61, none of the
opcodes of the handler table and not `FORWARD_EVENT`) makes
`handle_xim_request` return `true`, with the state as it was. -/
theorem unknown_opcode_is_accepted :
    byte_at sync_request 0 ∉ handled_opcodes ++ [XCB_XIM_FORWARD_EVENT] ∧
    handle_xim_request 0 x_server_ok wl_none xw_opened sync_request 0
      = some (xw_opened, true) := by
  decide

/-- Claim C22, amended: for every request whose major opcode is not one of
the thirteen opcodes of the table `xim_request_handlers`, `handle_xim_request`
returns `true`, changes nothing and sends nothing; `FORWARD_EVENT` and the
opcodes the engine does not know are ignored alike. -/
theorem unhandled_opcode_is_ignored (fuel : Nat) (x : x_server_t) (wl : wl_proxies_t)
    (xw : xim_wayland_t) (request : List Nat) (requestor : Nat)
    (h : byte_at request 0 ∉ handled_opcodes) :
    handle_xim_request fuel x wl xw request requestor = some (xw, true) :=
  handle_xim_request_unhandled fuel x wl xw request requestor h

/-- The amended claim at a `FORWARD_EVENT` request and at a request with the
opcode 200. -/
theorem unhandled_opcode_is_ignored_witness :
    handle_xim_request 0 x_server_ok wl_none xw_opened [60, 0, 1, 0, 1, 0, 1, 0] 0
      = some (xw_opened, true) ∧
    handle_xim_request 0 x_server_ok wl_none xw_opened [200, 0, 0, 0] 0
      = some (xw_opened, true) :=
  ⟨unhandled_opcode_is_ignored 0 x_server_ok wl_none xw_opened [60, 0, 1, 0, 1, 0, 1, 0] 0
      (by decide),
   unhandled_opcode_is_ignored 0 x_server_ok wl_none xw_opened [200, 0, 0, 0] 0
      (by decide)⟩


/-! ## Claim C23 -/

/-- Claim C23, as stated, fails: after the dispatch of a `DISCONNECT` frame
from client 0 of `xim_two` the reply `[4, 0, 0, 0]` has been sent, but the
connection still has its two clients and `find_transport` on the server window
8 of client 0 still finds it. -/
theorem disconnect_does_not_release_transport :
    xim_two.clients.length = 2 ∧ find_transport xim_two 8 = some 0 ∧
    (xcb_xim_server_connection_dispatch false x_server_ok fresh_slot xim_two
        (client_message_event (protocol_event 8 disconnect_frame))).map
        (fun r => (r.2, frames_sent r.1, r.1.clients.length, find_transport r.1 8))
      = some (xcb_xim_dispatch_result_t.XCB_XIM_DISPATCH_REMOVE, [[4, 0, 0, 0]], 2,
          some 0) := by
  decide

/-- Claim C23, amended: let a client message of type `_XIM_PROTOCOL` come from
the window of a connected transport `T` and let `read_data` give a frame whose
major opcode is `DISCONNECT`.  Then `xcb_xim_server_connection_dispatch` sends
the 4-byte frame `DISCONNECT_REPLY` to the client window of `T`, queues
nothing and returns `REMOVE`; the array of transports is as before, so the
client count is the same and `find_transport` on the server window of `T`
still finds `T`. -/
theorem disconnect_keeps_transport (host_big_endian : Bool) (x : x_server_t)
    (fresh : xcb_xim_transport_t) (xim xim1 : xcb_xim_server_connection_t)
    (event : xcb_generic_event_t) (transport : Nat) (data : List Nat) (length : Nat)
    (hr : event.response_type % 256 % 128 = XCB_CLIENT_MESSAGE)
    (hx : event.client_message.type ≠ xim.atoms.getD _XIM_XCONNECT 0)
    (hp : event.client_message.type = xim.atoms.getD _XIM_PROTOCOL 0)
    (hfind : find_transport xim event.client_message.window = some transport)
    (hread : read_data host_big_endian x xim (transport_at xim transport)
      event.client_message = (xim1, some (data, length)))
    (hop : byte_at data 0 = XCB_XIM_DISCONNECT) :
    xcb_xim_server_connection_dispatch host_big_endian x fresh xim event
      = some ({ xim1 with
          sent := xim1.sent ++
            [{ window := (transport_at xim transport).client_window,
               type := xim.atoms.getD _XIM_PROTOCOL 0, format := 8,
               data := [4, 0, 0, 0] ++ List.replicate 16 0,
               payload := [4, 0, 0, 0], property := none }] },
        xcb_xim_dispatch_result_t.XCB_XIM_DISPATCH_REMOVE) ∧
    xim1.clients = xim.clients ∧ xim1.requests = xim.requests ∧
    find_transport { xim1 with
        sent := xim1.sent ++
          [{ window := (transport_at xim transport).client_window,
             type := xim.atoms.getD _XIM_PROTOCOL 0, format := 8,
             data := [4, 0, 0, 0] ++ List.replicate 16 0,
             payload := [4, 0, 0, 0], property := none }] }
      event.client_message.window = some transport := by
  obtain ⟨hl4, _, hxim1⟩ := read_data_some host_big_endian x xim xim1 _ _ data length hread
  have hclients : xim1.clients = xim.clients := by rw [hxim1]
  have hreq : xim1.requests = xim.requests := by rw [hxim1]
  have hatoms : xim1.atoms = xim.atoms := by rw [hxim1]
  have hta : transport_at xim1 transport = transport_at xim transport := by
    unfold transport_at; rw [hclients]
  have hop2 : byte_at (memcpy data length) 0 = XCB_XIM_DISCONNECT := by
    rw [byte_at_memcpy _ _ _ (by omega), hop]
  refine ⟨?_, hclients, hreq, ?_⟩
  · unfold xcb_xim_server_connection_dispatch
    rw [if_neg (by rw [hr]; decide), if_pos hr]
    unfold do_client_message
    rw [if_neg hx, if_pos hp, hfind]
    dsimp only
    rw [hread]
    dsimp only
    rw [if_neg (by rw [hop2]; decide), if_pos hop2, hta]
    unfold send_frame write_data
    rw [(disconnect_reply_payload _).1, if_neg (by omega), (disconnect_reply_payload _).2,
      hatoms]
  · exact (find_transport_congr xim _ hclients _).trans hfind

/-- The amended claim on `xim_two` for a `DISCONNECT` frame from client 1. -/
theorem disconnect_keeps_transport_witness :
    xcb_xim_server_connection_dispatch false x_server_ok fresh_slot xim_two
        (client_message_event (protocol_event 10 disconnect_frame))
      = some ({ xim_two with
          sent := xim_two.sent ++
            [{ window := (transport_at xim_two 1).client_window,
               type := xim_two.atoms.getD _XIM_PROTOCOL 0, format := 8,
               data := [4, 0, 0, 0] ++ List.replicate 16 0,
               payload := [4, 0, 0, 0], property := none }] },
        xcb_xim_dispatch_result_t.XCB_XIM_DISPATCH_REMOVE) ∧
    xim_two.clients = xim_two.clients ∧ xim_two.requests = xim_two.requests ∧
    find_transport { xim_two with
        sent := xim_two.sent ++
          [{ window := (transport_at xim_two 1).client_window,
             type := xim_two.atoms.getD _XIM_PROTOCOL 0, format := 8,
             data := [4, 0, 0, 0] ++ List.replicate 16 0,
             payload := [4, 0, 0, 0], property := none }] }
      (client_message_event (protocol_event 10 disconnect_frame)).client_message.window
      = some 1 :=
  disconnect_keeps_transport false x_server_ok fresh_slot xim_two xim_two
    (client_message_event (protocol_event 10 disconnect_frame)) 1 disconnect_frame 4
    (by decide) (by decide) (by decide) (by decide) (by decide) (by decide)

/-! ## Claim C24 -/

/-- Claim C24 fails when the counter of input methods wraps: after 65537
`OPEN` requests of client 0, each answered, the list holds 65537 input methods
of which the newest and the oldest both have the id 1.  The counter is a
`uint16_t` that is incremented at every `OPEN` and never compared with the ids
in use. -/
theorem open_reuses_input_method_id :
    ∃ xw, handle_requests 1 x_server_ok (xim_wayland_init xim_l)
        (List.replicate 65537 open_by_client_0) = some xw ∧
      (input_method_ids xw).length = 65537 ∧
      (input_method_ids xw).head? = some 1 ∧
      (input_method_ids xw).getLast? = some 1 ∧
      ¬ ids_unique xw := by
  obtain ⟨xw, hrun, hids⟩ := handle_requests_open 1 x_server_ok (fun _ => ⟨rfl, rfl⟩)
    open_by_client_0 rfl 65537 (xim_wayland_init xim_l)
  have h0 : (xim_wayland_init xim_l).input_method_counter = 0 := rfl
  have hnil : input_method_ids (xim_wayland_init xim_l) = [] := rfl
  rw [h0, hnil, List.append_nil] at hids
  have hsplit : (List.range 65537).reverse.map (fun i => (0 + i + 1) % 65536)
      = 1 :: ((List.range 65536).reverse.map (fun i => (0 + i + 1) % 65536)) := by
    rw [show (65537 : Nat) = 65536 + 1 from rfl, List.range_succ, List.reverse_append,
      List.reverse_singleton, List.singleton_append, List.map_cons]
  have hmem : 1 ∈ (List.range 65536).reverse.map (fun i => (0 + i + 1) % 65536) := by
    rw [List.mem_map]
    exact ⟨0, by rw [List.mem_reverse, List.mem_range]; decide, rfl⟩
  have hlast : ((List.range 65537).reverse.map (fun i => (0 + i + 1) % 65536)).getLast?
      = some 1 := by
    rw [show (65537 : Nat) = 65536 + 1 from rfl, List.range_succ_eq_map, List.reverse_cons,
      List.map_append, List.getLast?_append]
    rfl
  refine ⟨xw, hrun, ?_, ?_, ?_, ?_⟩
  · rw [hids, List.length_map, List.length_reverse, List.length_range]
  · rw [hids, hsplit]
    rfl
  · rw [hids, hlast]
  · intro hu
    have hnd := hu.1
    rw [hids, hsplit, List.nodup_cons] at hnd
    exact hnd.1 hmem

/-- Claim C24, amended: in every state that the loop over the requests reaches
from the state set up by `main` through a finite sequence of `OPEN`, `CLOSE`,
`CREATE_IC` and `DESTROY_IC` requests of which at most 65535 are `OPEN` and at
most 65535 are `CREATE_IC`, no two input methods have the same id and no two
contexts of the same input method have the same id, whatever the X server and
the compositor answer. -/
theorem ids_unique_below_wrap (fuel : Nat) (x : x_server_t)
    (xim : xcb_xim_server_connection_t)
    (rs : List (wl_proxies_t × xcb_xim_request_container_t)) (xw : xim_wayland_t)
    (hrs : ∀ c ∈ rs, is_lifecycle_request c)
    (hopen : count_requests XCB_XIM_OPEN rs ≤ 65535)
    (hcreate : count_requests XCB_XIM_CREATE_IC rs ≤ 65535)
    (hrun : handle_requests fuel x (xim_wayland_init xim) rs = some xw) :
    ids_unique xw :=
  ids_unique_of_invariant _ _ _
    (handle_requests_keeps_invariant fuel x rs 0 0 (xim_wayland_init xim) xw hrs
      (by omega) (by omega)
      ⟨Nat.le_refl _, List.nodup_nil, fun _ him => absurd him (List.not_mem_nil _)⟩ hrun)

/-- The amended claim for the six requests `lifecycle_requests` of client 0:
the run ends in a state whose only input method has the id 2. -/
theorem ids_unique_below_wrap_witness :
    (∀ c ∈ lifecycle_requests, is_lifecycle_request c) ∧
    count_requests XCB_XIM_OPEN lifecycle_requests = 2 ∧
    count_requests XCB_XIM_CREATE_IC lifecycle_requests = 2 ∧
    ∃ xw, handle_requests 1 x_server_ok (xim_wayland_init xim_l) lifecycle_requests
        = some xw ∧
      input_method_ids xw = [2] ∧ ids_unique xw := by
  have hsome : (handle_requests 1 x_server_ok (xim_wayland_init xim_l)
      lifecycle_requests).isSome = true := by decide
  obtain ⟨xw, hrun⟩ := Option.isSome_iff_exists.mp hsome
  have hids : (handle_requests 1 x_server_ok (xim_wayland_init xim_l)
      lifecycle_requests).map input_method_ids = some [2] := by decide
  refine ⟨by decide, by decide, by decide, xw, hrun, ?_,
    ids_unique_below_wrap 1 x_server_ok xim_l lifecycle_requests xw (by decide) (by decide)
      (by decide) hrun⟩
  rw [hrun] at hids
  exact Option.some.inj hids

/-! ## Claim C25 -/

/-- Claim C25: let every round trip to the X server be answered, so that
every send succeeds, and let the flag `preedit_started` of a context agree
with the frames sent so far: it is true if and only if a `PREEDIT_START` for
the context has been sent and no `PREEDIT_DONE` for it after the most recent
one (as for a new context, whose flag is false and for which nothing has been
sent).  Then the same holds after every finite sequence of preedit callbacks
(preedit string, preedit styling, preedit cursor, commit string), hence after
each callback of a sequence; the context keeps its id, its input method and
its transport. -/
theorem preedit_started_iff_start_pending (k : wl_text_input_preedit_style_t)
    (x : x_server_t) (hx : x_server_answers x) (xim : xcb_xim_server_connection_t)
    (ic : xim_wayland_input_context_t) (es : List wl_text_input_event_t)
    (h0 : ic.preedit_started = true ↔
      preedit_start_pending
        (xcb_xim_preedit_start_frame (transport_at xim ic.input_method_transport)
          ic.input_method_id ic.id).payload
        (xcb_xim_preedit_done_frame (transport_at xim ic.input_method_transport)
          ic.input_method_id ic.id).payload
        (frames_sent xim)) :
    ((deliver_all k x (xim, ic) es).2.preedit_started = true ↔
      preedit_start_pending
        (xcb_xim_preedit_start_frame (transport_at xim ic.input_method_transport)
          ic.input_method_id ic.id).payload
        (xcb_xim_preedit_done_frame (transport_at xim ic.input_method_transport)
          ic.input_method_id ic.id).payload
        (frames_sent (deliver_all k x (xim, ic) es).1)) ∧
    (deliver_all k x (xim, ic) es).2.id = ic.id ∧
    (deliver_all k x (xim, ic) es).2.input_method_id = ic.input_method_id ∧
    transport_at (deliver_all k x (xim, ic) es).1
        (deliver_all k x (xim, ic) es).2.input_method_transport
      = transport_at xim ic.input_method_transport := by
  have hSD : (xcb_xim_preedit_done_frame (transport_at xim ic.input_method_transport)
      ic.input_method_id ic.id).payload
      ≠ (xcb_xim_preedit_start_frame (transport_at xim ic.input_method_transport)
      ic.input_method_id ic.id).payload := by
    intro h
    have h1 := congrArg (fun f => byte_at f 0) h
    unfold xcb_xim_preedit_done_frame xcb_xim_preedit_start_frame at h1
    dsimp only at h1
    rw [frame_8_opcode, frame_8_opcode] at h1
    exact absurd h1 (by decide)
  have hiff := preedit_open_iff _ _ hSD
  have hinit : preedit_flag_agrees (transport_at xim ic.input_method_transport)
      ic.input_method_id ic.id (xim, ic) :=
    ⟨rfl, rfl, rfl, Bool.eq_iff_iff.mpr (h0.trans (hiff _).symm)⟩
  obtain ⟨ht, him, hic, hst⟩ := deliver_all_agrees k x hx _ _ _ es _ hinit
  refine ⟨?_, hic, him, ht⟩
  rw [hst]
  exact hiff _

/-- The claim for a new context and four callbacks, an empty preedit string,
a text, an empty preedit string and a commit: the frames sent are DRAW, DONE,
START, DRAW, DRAW, DRAW, COMMIT and the flag is true at the end. -/
theorem preedit_started_iff_start_pending_witness :
    x_server_answers x_server_ok ∧
    ic_fresh.preedit_started = false ∧ frames_sent xim_l = [] ∧
    opcodes_sent (deliver_all wl_text_input_preedit_style x_server_ok (xim_l, ic_fresh)
      events_empty_text_empty_commit).1 = [75, 78, 73, 75, 75, 75, 63] ∧
    (deliver_all wl_text_input_preedit_style x_server_ok (xim_l, ic_fresh)
      events_empty_text_empty_commit).2.preedit_started = true ∧
    preedit_start_pending
      (xcb_xim_preedit_start_frame (transport_at xim_l ic_fresh.input_method_transport)
        ic_fresh.input_method_id ic_fresh.id).payload
      (xcb_xim_preedit_done_frame (transport_at xim_l ic_fresh.input_method_transport)
        ic_fresh.input_method_id ic_fresh.id).payload
      (frames_sent (deliver_all wl_text_input_preedit_style x_server_ok (xim_l, ic_fresh)
        events_empty_text_empty_commit).1) :=
  ⟨fun _ => ⟨rfl, rfl⟩, rfl, rfl, by decide, by decide,
    (preedit_started_iff_start_pending wl_text_input_preedit_style x_server_ok
      (fun _ => ⟨rfl, rfl⟩) xim_l ic_fresh events_empty_text_empty_commit
      ⟨fun h => absurd h (by decide), fun ⟨_, _, h, _⟩ => by simp [frames_sent, xim_l] at h⟩).1.mp
      (by decide)⟩


/-! ## Claim C26 -/

/-- Claim C26 fails on the code: `do_client_message` takes the frame from
`read_data`, which loads the length field in the byte order of the host.  On a
little-endian host the 12-byte `CONNECT` frame of a big-endian client (mark
`B`, length field 2 stored as 0, 2) arriving on the known transport 0 is read
as 2052 bytes and refused: the result is `ERROR`, nothing is sent and the
endian byte of the transport is not set.  A big-endian host answers the same
frame as the claim says, and refuses the frame of a little-endian client in
turn; each host answers the frame written in its own order. -/
theorem connect_frame_refused_in_other_order :
    byte_at connect_frame_B 0 = XCB_XIM_CONNECT ∧
    connect_frame_B.length = 12 ∧
    byte_at connect_frame_B 4 = 66 ∧
    4 + 4 * HO16 transport_B (byte_at connect_frame_B 2) (byte_at connect_frame_B 3) = 12 ∧
    find_transport xim_two 8 = some 0 ∧
    do_client_message false x_server_ok fresh_slot xim_two (protocol_event 8 connect_frame_B)
      = (xim_two, xcb_xim_dispatch_result_t.XCB_XIM_DISPATCH_ERROR) ∧
    do_client_message true x_server_ok fresh_slot xim_two (protocol_event 8 connect_frame_B)
      = ({ xim_two with
           clients := [{ transport_l with endian := 66 }, transport_B],
           sent := [{ window := 7, type := 304, format := 8,
                      data := [2, 0, 0, 1, 0, 1, 0, 0] ++ List.replicate 12 0,
                      payload := [2, 0, 0, 1, 0, 1, 0, 0], property := none }] },
          xcb_xim_dispatch_result_t.XCB_XIM_DISPATCH_REMOVE) ∧
    do_client_message true x_server_ok fresh_slot xim_two
        (protocol_event 8 (connect_frame 108))
      = (xim_two, xcb_xim_dispatch_result_t.XCB_XIM_DISPATCH_ERROR) ∧
    do_client_message false x_server_ok fresh_slot xim_two
        (protocol_event 8 (connect_frame 108))
      = ({ xim_two with
           sent := [{ window := 7, type := 304, format := 8,
                      data := [2, 0, 1, 0, 1, 0, 0, 0] ++ List.replicate 12 0,
                      payload := [2, 0, 1, 0, 1, 0, 0, 0], property := none }] },
          xcb_xim_dispatch_result_t.XCB_XIM_DISPATCH_REMOVE) := by
  decide


/-! ## Claim C27 -/

/-- Claim C27 fails on the code: `read_data` loads the length field in the
byte order of the host.  On a little-endian host the 8-byte `CLOSE` frame of a
big-endian client (length field 1 stored as 0, 1) is read as 256 units and
refused; a big-endian host takes it and returns its 8 bytes, and refuses the
frame of a little-endian client in turn. -/
theorem read_data_length_in_host_order :
    HO16 transport_B (byte_at (protocol_event 10 [32, 0, 0, 1, 0, 1, 0, 0]).data8 2)
      (byte_at (protocol_event 10 [32, 0, 0, 1, 0, 1, 0, 0]).data8 3) = 1 ∧
    read_data false x_server_ok xim_two transport_B
        (protocol_event 10 [32, 0, 0, 1, 0, 1, 0, 0]) = (xim_two, none) ∧
    read_data true x_server_ok xim_two transport_B
        (protocol_event 10 [32, 0, 0, 1, 0, 1, 0, 0])
      = (xim_two, some ([32, 0, 0, 1, 0, 1, 0, 0], 8)) ∧
    HO16 transport_l (byte_at (protocol_event 8 [32, 0, 1, 0, 1, 0, 0, 0]).data8 2)
      (byte_at (protocol_event 8 [32, 0, 1, 0, 1, 0, 0, 0]).data8 3) = 1 ∧
    read_data true x_server_ok xim_two transport_l
        (protocol_event 8 [32, 0, 1, 0, 1, 0, 0, 0]) = (xim_two, none) := by
  decide

/-! ## Claim C28 -/

/-- Claim C28: for every `OPEN` request, whatever its bytes, the handler
increments the counter of input methods (a `uint16_t`) and hands to
`write_data` the 160 bytes of `open_reply_wire` for the new id: opcode 31,
length field 39, the new id, the IM spec `queryInputStyle` (id 0, type 10) and
the six IC specs with ids 0..5, names `inputStyle`, `filterEvents`,
`clientWindow`, `focusWindow`, `preeditAttributes`, `statusAttributes` and types
3, 3, 5, 5, 0x7fff, 0x7fff.  A spec of a name of `n` bytes takes
`6 + n + PAD (2 + n)` bytes: 24 for the IM spec and 16, 20, 20, 20, 24, 24 for
the IC specs.  When the send succeeds the input method with the new id is put at
the head of the list; when the X server answers every round trip the send
succeeds and the frame sent is `open_reply_wire`. -/
theorem open_reply_contents (x : x_server_t) (xw : xim_wayland_t) (request : List Nat)
    (requestor : Nat) :
    (∀ a ty name, (attribute_spec_wire (transport_at xw.xim requestor) a ty name).length
      = 6 + name.length + PAD (2 + name.length)) ∧
    (im_specs_wire (transport_at xw.xim requestor)).map List.length = [24] ∧
    (ic_specs_wire (transport_at xw.xim requestor)).map List.length
      = [16, 20, 20, 20, 24, 24] ∧
    (open_reply_wire (transport_at xw.xim requestor)
      ((xw.input_method_counter + 1) % 65536)).length = 160 ∧
    ∃ r, handle_xim_open_request x xw request requestor = some r ∧
      (r.1.xim, r.2) = write_data x xw.xim (transport_at xw.xim requestor) 160
        (open_reply_wire (transport_at xw.xim requestor)
          ((xw.input_method_counter + 1) % 65536)) ∧
      r.1.input_method_counter = (xw.input_method_counter + 1) % 65536 ∧
      (r.2 = true →
        r.1.input_method_list
          = xim_wayland_input_method_new xw.xim requestor
              ((xw.input_method_counter + 1) % 65536) :: xw.input_method_list ∧
        (xim_wayland_input_method_new xw.xim requestor
          ((xw.input_method_counter + 1) % 65536)).id
          = (xw.input_method_counter + 1) % 65536) ∧
      (r.2 = false → r.1.input_method_list = xw.input_method_list) ∧
      (x_server_answers x →
        r.2 = true ∧
        frames_sent r.1.xim = frames_sent xw.xim ++
          [open_reply_wire (transport_at xw.xim requestor)
            ((xw.input_method_counter + 1) % 65536)]) := by
  have hs := specs_wire_sizes (transport_at xw.xim requestor)
  have hn := input_method_new_specs xw.xim requestor ((xw.input_method_counter + 1) % 65536)
  have hlen := open_reply_wire_length (transport_at xw.xim requestor)
    ((xw.input_method_counter + 1) % 65536)
  refine ⟨?_, ?_, ?_, hlen, ?_⟩
  · intro a ty name
    simp only [attribute_spec_wire, List.length_append, NO16_length, List.length_replicate]
  · rw [← hs.2.2.1]
    exact List.map_congr_left (fun e he => (hs.1 e he).symm)
  · rw [← hs.2.2.2]
    exact List.map_congr_left (fun e he => (hs.2.1 e he).symm)
  · have hid : (xim_wayland_input_method_new xw.xim requestor
        ((xw.input_method_counter + 1) % 65536)).id
        = (xw.input_method_counter + 1) % 65536 := by
      rw [hn.2.2.1, Nat.mod_mod]
    unfold handle_xim_open_request
    dsimp only
    rw [hn.1, hn.2.1]
    dsimp only
    rw [hid, open_reply_frame_wire]
    unfold send_frame
    dsimp only
    cases hb : (write_data x xw.xim (transport_at xw.xim requestor) 160
        (open_reply_wire (transport_at xw.xim requestor)
          ((xw.input_method_counter + 1) % 65536))).2
    · refine ⟨_, rfl, ?_, rfl, ?_, ?_, ?_⟩
      · simp [← hb]
      · intro h; simp at h
      · intro _; rfl
      · intro hx
        have := (write_data_answered x hx xw.xim (transport_at xw.xim requestor) 160
          (open_reply_wire (transport_at xw.xim requestor)
            ((xw.input_method_counter + 1) % 65536))).1
        rw [hb] at this
        exact absurd this (by simp)
    · refine ⟨_, rfl, ?_, rfl, ?_, ?_, ?_⟩
      · simp [← hb]
      · intro _; exact ⟨rfl, rfl⟩
      · intro h; simp at h
      · intro hx
        have h2 := (write_data_answered x hx xw.xim (transport_at xw.xim requestor) 160
          (open_reply_wire (transport_at xw.xim requestor)
            ((xw.input_method_counter + 1) % 65536))).2.1
        have h160 := memcpy_self (open_reply_wire (transport_at xw.xim requestor)
          ((xw.input_method_counter + 1) % 65536))
        rw [hlen] at h160
        rw [h160] at h2
        exact ⟨rfl, h2⟩

/-! ## Claim C29 -/

/-- Claim C29 fails on the code for the longest requests: the well-formed
`CREATE_IC` request of 65540 bytes for input method 1 (counter 0) whose
attribute list starts with the input style `PREEDIT_NOTHING | STATUS_NOTHING`
(0x0408) makes the context 1 and is answered with `CREATE_IC_REPLY` for id 1,
but the slot `inputStyle` of the new context holds the default 0x0202.  The
iterator keeps `4 * length` (here `4 * 16384`) in a `uint16_t`, which is 0, so
`set_values` sees no attribute. -/
theorem create_ic_drops_long_attribute_list :
    (create_ic_request transport_l 1 attributes_65532).length = 65540 ∧
    request_length transport_l (create_ic_request transport_l 1 attributes_65532) = 65540 ∧
    (∀ e ∈ attributes_65532, attribute_well_sized transport_l e) ∧
    last_attribute_with_id transport_l attributes_65532 INPUT_STYLE
      = some (xcb_xim_attribute_card32_new transport_l INPUT_STYLE 0x0408) ∧
    xcb_xim_create_ic_request_attribute_iterator transport_l
        (create_ic_request transport_l 1 attributes_65532)
      = { transport := transport_l, data := 8, index := 0, remainder := 0 } ∧
    ∀ fuel, ∃ r,
      handle_xim_create_ic_request (fuel + 1) x_server_ok wl_some xw_opened
        (create_ic_request transport_l 1 attributes_65532) 0 = some (r, true) ∧
      frames_sent r.xim = [[51, 0, 1, 0, 1, 0, 1, 0]] ∧
      (lookup_input_context r 0 1 1).map (fun ic => (ic.id, ic.attrs.getD INPUT_STYLE none))
        = some (1, some (xcb_xim_attribute_card32_new transport_l INPUT_STYLE
            (XCB_XIM_PREEDIT_CALLBACKS ||| XCB_XIM_STATUS_CALLBACKS))) := by
  have hf := create_ic_request_fields transport_l 1 attributes_65532
  have hl := create_ic_request_length transport_l 1 attributes_65532
  rw [attributes_65532_sum] at hf hl
  have ht : transport_at xw_opened.xim 0 = transport_l := rfl
  have hit : xcb_xim_create_ic_request_attribute_iterator transport_l
      (create_ic_request transport_l 1 attributes_65532)
      = { transport := transport_l, data := 8, index := 0, remainder := 0 } := by
    unfold xcb_xim_create_ic_request_attribute_iterator
    rw [hf.1, hf.2.2]
    rfl
  refine ⟨hl, ?_, ?_, ?_, hit, ?_⟩
  · rw [request_length_eq, hf.1]
  · intro e he
    unfold attributes_65532 at he
    rw [List.mem_cons, List.mem_replicate] at he
    rcases he with he | ⟨_, he⟩ <;> subst he <;> decide
  · exact last_attribute_with_id_replicate transport_l _ _ _ _ (by decide) (by decide)
  · intro fuel
    obtain ⟨r, hr, hsent, hfound⟩ := handle_xim_create_ic_request_found (fuel + 1) x_server_ok
      wl_some xw_opened (create_ic_request transport_l 1 attributes_65532) 0
      { transport := 0, id := 1, input_context_counter := 0,
        specs := [], attrs := [some im_styles_record], ic_specs := [],
        input_context_list := [] }
      (init_ic_attributes transport_l)
      (by rw [ht, hf.2.1]; rfl) (by decide) (by decide)
      (by rw [ht, hit]; exact set_values_done _ _ _ _ _ _ _)
    rw [ht, hf.2.1] at hsent hfound
    refine ⟨r, hr, ?_, ?_⟩
    · rw [hsent]
      rfl
    · unfold lookup_input_context
      rw [hfound]
      rfl


/-! ## Claim C30 -/

/-- Claim C30 fails on the code for `DESTROY_IC`: `xim.h` gives
`XCB_XIM_DESTROY_IC` the value 53, so the table of handlers has no entry for
the opcode 52 of the `DESTROY_IC` request.  On `xw_two`, where input method 1
with context 1 belongs to client 0 and client 1 owns no input method, the
request `DESTROY_IC` (opcode 52, input method 1, context 1) arriving from
client 1 returns `true`, not failure; the state is as before.  The frame with
the opcode 53 and the `CLOSE` request for the same id from client 1 return
`false`. -/
theorem destroy_ic_on_other_transport_accepted :
    XCB_XIM_DESTROY_IC = 53 ∧
    (find_input_method xw_two 0 1).isSome = true ∧
    find_input_method xw_two 1 1 = none ∧
    xcb_xim_card16 (transport_at xw_two.xim 1) (byte_at [52, 0, 0, 1, 0, 1, 0, 1] 4)
      (byte_at [52, 0, 0, 1, 0, 1, 0, 1] 5) = 1 ∧
    handle_xim_request 0 x_server_ok wl_none xw_two [52, 0, 0, 1, 0, 1, 0, 1] 1
      = some (xw_two, true) ∧
    handle_xim_request 0 x_server_ok wl_none xw_two [53, 0, 0, 1, 0, 1, 0, 1] 1
      = some (xw_two, false) ∧
    handle_xim_request 0 x_server_ok wl_none xw_two [32, 0, 0, 1, 0, 1, 0, 0] 1
      = some (xw_two, false) := by
  decide


/-! ## Claim C31 -/

/-- Claim C31: start from the empty queue and run any finite sequence of
calls of `queue_request` and `xcb_xim_server_connection_poll_request` in which
every `malloc` returns `NULL` or a block that is not live.  Then no call
follows a dangling pointer, and the polls return exactly what a first-in
first-out queue returns: the containers in the order they were queued (a call
whose `malloc` failed queued nothing) and `NULL` exactly when no queued
container is left.  After the run, hence after every call, `requests` is
`NULL` if and only if no container is left, and if and only if `requests_tail`
is `NULL`. -/
theorem requests_first_in_first_out (calls : List queue_call_t)
    (hf : mallocs_fresh requests_empty calls = true) :
    ∃ q, run_calls requests_empty calls = some (q, (fifo_calls [] calls).2) ∧
      (q.requests = 0 ↔ (fifo_calls [] calls).1 = []) ∧
      (q.requests = 0 ↔ q.requests_tail = 0) := by
  obtain ⟨q, ns, hr, h, hn⟩ := run_calls_fifo calls requests_empty []
    ⟨List.nodup_nil, fun _ hn => absurd hn (List.not_mem_nil _), rfl, rfl, trivial⟩ hf
  have hnull := requests_hold_null q ns h
  rw [List.map_nil] at hr hn
  refine ⟨q, hr, ?_, hnull.1.trans hnull.2.symm⟩
  rw [hnull.1]
  change ns = [] ↔ (fifo_calls [] calls).1 = []
  rw [← hn]
  exact List.map_eq_nil_iff.symm

/-- The claim for the calls `queue_calls`: the polls return nothing, then the
containers 1, 2, 3 and 5 in this order, then nothing; container 4, whose
`malloc` failed, was never queued, and the address 16 is used twice. -/
theorem requests_first_in_first_out_witness :
    mallocs_fresh requests_empty queue_calls = true ∧
    (fifo_calls [] queue_calls).2
      = [none, some (container_of 1), some (container_of 2), some (container_of 3),
         some (container_of 5), none] ∧
    ∃ q, run_calls requests_empty queue_calls = some (q, (fifo_calls [] queue_calls).2) ∧
      (q.requests = 0 ↔ (fifo_calls [] queue_calls).1 = []) ∧
      (q.requests = 0 ↔ q.requests_tail = 0) :=
  ⟨by decide, by decide, requests_first_in_first_out queue_calls (by decide)⟩

/-! ## Claim C32 -/

/-- Claim C32 fails on the code for a selection request whose target is
neither `LOCALES` nor `TRANSPORT`: `buffer` stays `NULL`, `strlen (buffer)`
reads through it, and no `SELECTION_NOTIFY` is sent and nothing is returned.
So it is for every such request, here for the target 400 on a server with the
atoms 305 (`LOCALES`) and 306 (`TRANSPORT`), also when the request comes in
through the dispatcher. -/
theorem selection_request_other_target_reads_null :
    (∀ (xim : xcb_xim_server_connection_t) (event : xcb_selection_request_event_t),
      event.target ≠ xim.atoms.getD LOCALES 0 → event.target ≠ xim.atoms.getD TRANSPORT 0 →
      do_selection_request xim event = none) ∧
    xim_ja.atoms.getD LOCALES 0 = 305 ∧ xim_ja.atoms.getD TRANSPORT 0 = 306 ∧
    do_selection_request xim_ja (selection_request 400) = none ∧
    xcb_xim_server_connection_dispatch false x_server_ok fresh_slot xim_ja
      (selection_request_event (selection_request 400)) = none ∧
    (do_selection_request xim_ja (selection_request 305)).map
        (fun r => (r.1.selections.map (fun s => (s.window, s.property, s.data)), r.2))
      = some ([(7, 305, locale_head ++ locale_ja)],
          xcb_xim_dispatch_result_t.XCB_XIM_DISPATCH_REMOVE) := by
  refine ⟨?_, by decide, by decide, by decide, by decide, by decide⟩
  intro xim event h1 h2
  unfold do_selection_request
  dsimp only
  rw [if_neg h1, if_neg h2]

/-! ## Claim C33 -/

/-- Claim C34: for every block of memory and every attribute iterator whose
remainder is in the range of its `uint16_t`, if `has_data` is true then the
size `4 + v + PAD (v)` of the current attribute (`v` its `value_byte_length` in
the byte order of the transport) is at most the remainder, and `next` advances
the offset by it and lowers the remainder by it.  Hence the walk with
`has_data` and `next` and the loop of `set_values` end within
`remainder / 4` steps (`remainder / 4 + 1` calls of `has_data`), whatever the
memory holds. -/
theorem attribute_walk_ends (mem : List Nat) (i : xcb_xim_attribute_iterator_t)
    (hr : i.remainder < 65536) :
    (xcb_xim_attribute_iterator_has_data mem i = true →
      4 + field16 i.transport mem (i.data + 2) + PAD (field16 i.transport mem (i.data + 2))
        ≤ i.remainder ∧
      (xcb_xim_attribute_iterator_next mem i).data
        = i.data + (4 + field16 i.transport mem (i.data + 2)
            + PAD (field16 i.transport mem (i.data + 2))) ∧
      (xcb_xim_attribute_iterator_next mem i).remainder
        = i.remainder - (4 + field16 i.transport mem (i.data + 2)
            + PAD (field16 i.transport mem (i.data + 2)))) ∧
    (∀ fuel, i.remainder / 4 < fuel →
      (attribute_walk mem fuel i).isSome = true ∧
      ∀ (t : xcb_xim_transport_t) (max_attribute_id : Nat)
        (attributes : List (Option (List Nat))),
        (set_values mem t max_attribute_id fuel attributes i).isSome = true) := by
  refine ⟨fun h => ?_, fun fuel hfuel => ⟨attribute_walk_terminates mem fuel i hr hfuel,
    fun t m a => set_values_terminates mem t m fuel a i hr hfuel⟩⟩
  obtain ⟨h1, h2, h3, _⟩ := attribute_iterator_next_decreases mem i hr h
  exact ⟨h1, h2, h3⟩

/-- The claim for the three attributes `attributes_0_7_0` (24 bytes) behind an
8-byte fixed part: the walk yields three records with 7 units of fuel. -/
theorem attribute_walk_ends_witness :
    (24 : Nat) < 65536 ∧ 24 / 4 < 7 ∧
    (attribute_walk (attribute_request attributes_0_7_0) 7
      { transport := transport_l, data := 8, index := 0, remainder := 24 }).map List.length
      = some 3 ∧
    (attribute_walk (attribute_request attributes_0_7_0) 7
      { transport := transport_l, data := 8, index := 0, remainder := 24 }).isSome = true :=
  ⟨by decide, by decide, by decide,
    ((attribute_walk_ends (attribute_request attributes_0_7_0)
      { transport := transport_l, data := 8, index := 0, remainder := 24 } (by decide)).2 7
      (by decide)).1⟩

/-! ## Claim C35 -/

/-- Claim C35: for every preedit length `p` and feedback count `f` (both
`uint16_t`) with `30 + p + PAD (2 + p) + 4 * f ≤ 262144`, the frame of
`xcb_xim_preedit_draw` is allocated with, and handed to `write_data` with,
`30 + p + PAD (2 + p) + 4 * f` bytes, a multiple of 4; its length field is
`(length - 4) / 4`; the 16-bit field at offset 24 is `p` and the bytes 26 to
`26 + p` are the text; the feedback count is the 16-bit field at offset
`26 + p + PAD (2 + p)` and feedback `i` is the 32-bit field `4 + 4 * i` bytes
after it. -/
theorem preedit_draw_frame_layout (t : xcb_xim_transport_t)
    (input_method_id input_context_id : Nat) (caret change_first change_length : Int)
    (status p : Nat) (preedit : List Nat) (f : Nat) (feedbacks : List Nat)
    (hp : p < 65536) (hf : f < 65536) (hfit : 30 + p + PAD (2 + p) + 4 * f ≤ 262144) :
    (xcb_xim_preedit_draw_frame t input_method_id input_context_id caret change_first
      change_length status p preedit f feedbacks).alloc = 30 + p + PAD (2 + p) + 4 * f ∧
    (xcb_xim_preedit_draw_frame t input_method_id input_context_id caret change_first
      change_length status p preedit f feedbacks).payload.length
      = 30 + p + PAD (2 + p) + 4 * f ∧
    (30 + p + PAD (2 + p) + 4 * f) % 4 = 0 ∧
    field16 t (xcb_xim_preedit_draw_frame t input_method_id input_context_id caret
      change_first change_length status p preedit f feedbacks).payload 2
      = (30 + p + PAD (2 + p) + 4 * f - 4) / 4 ∧
    field16 t (xcb_xim_preedit_draw_frame t input_method_id input_context_id caret
      change_first change_length status p preedit f feedbacks).payload 24 = p ∧
    (∀ k, k < p →
      byte_at (xcb_xim_preedit_draw_frame t input_method_id input_context_id caret
        change_first change_length status p preedit f feedbacks).payload (26 + k)
        = byte_at preedit k) ∧
    field16 t (xcb_xim_preedit_draw_frame t input_method_id input_context_id caret
      change_first change_length status p preedit f feedbacks).payload
      (26 + p + PAD (2 + p)) = f ∧
    (∀ i, i < f →
      field32 t (xcb_xim_preedit_draw_frame t input_method_id input_context_id caret
        change_first change_length status p preedit f feedbacks).payload
        (26 + p + PAD (2 + p) + 4 + 4 * i) = feedbacks.getD i 0 % 4294967296) := by
  obtain ⟨hpay, hlen, halloc⟩ := preedit_draw_layout t input_method_id input_context_id caret
    change_first change_length status p preedit f feedbacks hp hf
  have hpad := PAD_add_mod (2 + p)
  have hpl := PAD_le (2 + p)
  refine ⟨halloc, ?_, by omega, ?_, ?_, ?_, ?_, ?_⟩
  · unfold frame_t.payload
    rw [memcpy_length, hlen]
  · rw [hpay, field16_header, Nat.mod_eq_of_lt (by omega)]
  · rw [hpay]
    rw [show (24 : Nat) = 2 + (2 + (2 + (2 + (4 + (4 + (4 + (4 + 0))))))) from rfl]
    rw [field16_skip2, field16_skip t _ _ 2 _ (NO16_length t _),
      field16_skip t _ _ 2 _ (NO16_length t _), field16_skip t _ _ 2 _ (NO16_length t _),
      field16_skip t _ _ 4 _ (NO32i_length t _), field16_skip t _ _ 4 _ (NO32i_length t _),
      field16_skip t _ _ 4 _ (NO32i_length t _), field16_skip t _ _ 4 _ (NO32_length t _),
      field16_NO16, Nat.mod_eq_of_lt hp]
  · intro k hk
    rw [hpay]
    rw [show 26 + k = 2 + (2 + (2 + (2 + (4 + (4 + (4 + (4 + (2 + k)))))))) by omega]
    rw [byte_at_skip2, byte_at_skip _ _ 2 _ (NO16_length t _),
      byte_at_skip _ _ 2 _ (NO16_length t _), byte_at_skip _ _ 2 _ (NO16_length t _),
      byte_at_skip _ _ 4 _ (NO32i_length t _), byte_at_skip _ _ 4 _ (NO32i_length t _),
      byte_at_skip _ _ 4 _ (NO32i_length t _), byte_at_skip _ _ 4 _ (NO32_length t _),
      byte_at_skip _ _ 2 _ (NO16_length t _),
      byte_at_append_left _ _ _ (by rw [memcpy_length]; exact hk), byte_at_memcpy _ _ _ hk]
  · rw [hpay]
    rw [show 26 + p + PAD (2 + p)
      = 2 + (2 + (2 + (2 + (4 + (4 + (4 + (4 + (2 + (p + (PAD (2 + p) + 0)))))))))) by omega]
    rw [field16_skip2, field16_skip t _ _ 2 _ (NO16_length t _),
      field16_skip t _ _ 2 _ (NO16_length t _), field16_skip t _ _ 2 _ (NO16_length t _),
      field16_skip t _ _ 4 _ (NO32i_length t _), field16_skip t _ _ 4 _ (NO32i_length t _),
      field16_skip t _ _ 4 _ (NO32i_length t _), field16_skip t _ _ 4 _ (NO32_length t _),
      field16_skip t _ _ 2 _ (NO16_length t _), field16_skip t _ _ p _ (memcpy_length _ _),
      field16_skip t _ _ _ _ (List.length_replicate _ _),
      field16_NO16, Nat.mod_eq_of_lt hf]
  · intro i hi
    rw [hpay]
    rw [show 26 + p + PAD (2 + p) + 4 + 4 * i
      = 2 + (2 + (2 + (2 + (4 + (4 + (4 + (4 + (2 + (p + (PAD (2 + p)
          + (2 + (2 + 4 * i)))))))))))) by omega]
    rw [field32_skip2, field32_skip t _ _ 2 _ (NO16_length t _),
      field32_skip t _ _ 2 _ (NO16_length t _), field32_skip t _ _ 2 _ (NO16_length t _),
      field32_skip t _ _ 4 _ (NO32i_length t _), field32_skip t _ _ 4 _ (NO32i_length t _),
      field32_skip t _ _ 4 _ (NO32i_length t _), field32_skip t _ _ 4 _ (NO32_length t _),
      field32_skip t _ _ 2 _ (NO16_length t _), field32_skip t _ _ p _ (memcpy_length _ _),
      field32_skip t _ _ _ _ (List.length_replicate _ _),
      field32_skip t _ _ 2 _ (NO16_length t _), field32_skip t _ _ 2 _ (NO16_length t _),
      field32_flatMap_NO32 t _ f i hi]

/-- The claim for the 9-byte text `text_aiu` with 9 feedbacks on the
little-endian transport: 76 bytes, the length field 18 and the count 9 at
offset 36. -/
theorem preedit_draw_frame_layout_witness :
    30 + 9 + PAD (2 + 9) + 4 * 9 ≤ 262144 ∧
    (xcb_xim_preedit_draw_frame transport_l 1 1 9 0 0 0 9 text_aiu 9
      [4, 4, 4, 0, 0, 0, 0, 0, 0]).payload.length = 30 + 9 + PAD (2 + 9) + 4 * 9 ∧
    field16 transport_l (xcb_xim_preedit_draw_frame transport_l 1 1 9 0 0 0 9 text_aiu 9
      [4, 4, 4, 0, 0, 0, 0, 0, 0]).payload 2 = (30 + 9 + PAD (2 + 9) + 4 * 9 - 4) / 4 ∧
    field16 transport_l (xcb_xim_preedit_draw_frame transport_l 1 1 9 0 0 0 9 text_aiu 9
      [4, 4, 4, 0, 0, 0, 0, 0, 0]).payload (26 + 9 + PAD (2 + 9)) = 9 ∧
    (30 + 9 + PAD (2 + 9) + 4 * 9 = 76 ∧ 26 + 9 + PAD (2 + 9) = 36) :=
  ⟨by decide,
   (preedit_draw_frame_layout transport_l 1 1 9 0 0 0 9 text_aiu 9 [4, 4, 4, 0, 0, 0, 0, 0, 0]
      (by decide) (by decide) (by decide)).2.1,
   (preedit_draw_frame_layout transport_l 1 1 9 0 0 0 9 text_aiu 9 [4, 4, 4, 0, 0, 0, 0, 0, 0]
      (by decide) (by decide) (by decide)).2.2.2.1,
   (preedit_draw_frame_layout transport_l 1 1 9 0 0 0 9 text_aiu 9 [4, 4, 4, 0, 0, 0, 0, 0, 0]
      (by decide) (by decide) (by decide)).2.2.2.2.2.2.1,
   by decide⟩

/-! ## Claim C36 -/

/-- Claim C36: for every natural number `n`, `PAD (n)` is at most 3,
`n + PAD (n)` is a multiple of 4, no smaller number added to `n` gives a
multiple of 4, and `PAD (n)` is 0 exactly when `n` is a multiple of 4. -/
theorem PAD_least (n : Nat) :
    PAD n = (4 - n % 4) % 4 ∧ 0 ≤ PAD n ∧ PAD n ≤ 3 ∧ (n + PAD n) % 4 = 0 ∧
    (∀ k, (n + k) % 4 = 0 → PAD n ≤ k) ∧ (PAD n = 0 ↔ n % 4 = 0) := by
  have h : PAD n = (4 - n % 4) % 4 := rfl
  refine ⟨h, Nat.zero_le _, by omega, by omega, fun k hk => by omega, by omega⟩

/-! ## Claim C37 -/

/-- Claim C37 fails on the code for the longest attribute that fits a
request: the well-formed `SET_IM_VALUES` request of 65540 bytes for input
method 1 that carries the attribute with id 0 and a value of 65528 bytes is
answered with `SET_IM_VALUES_REPLY`, but nothing is stored, and the
`GET_IM_VALUES` request for id 0 that follows is answered with the styles
record of 16 value bytes that the input method had before.  The iterator
keeps `4 * length` (here `4 * 16384`) in a `uint16_t`, which is 0, so
`set_values` sees no attribute. -/
theorem set_im_values_drops_long_attribute :
    (set_im_values_request transport_l 1 [attribute_65528]).length = 65540 ∧
    request_length transport_l (set_im_values_request transport_l 1 [attribute_65528])
      = 65540 ∧
    attribute_well_sized transport_l attribute_65528 ∧
    field16 transport_l attribute_65528 0 = 0 ∧
    field16 transport_l attribute_65528 2 = 65528 ∧
    xcb_xim_set_im_values_request_attribute_iterator transport_l
        (set_im_values_request transport_l 1 [attribute_65528])
      = { transport := transport_l, data := 8, index := 0, remainder := 0 } ∧
    ∀ fuel, ∃ xw1 xw2,
      handle_xim_set_im_values_request (fuel + 1) x_server_ok xw_opened
        (set_im_values_request transport_l 1 [attribute_65528]) 0 = some (xw1, true) ∧
      handle_xim_get_im_values_request 2 x_server_ok xw1
        (get_im_values_request transport_l 1 [0]) 0 = some (xw2, true) ∧
      frames_sent xw2.xim
        = [[43, 0, 1, 0, 1, 0, 0, 0],
           [45, 0, 6, 0, 1, 0, 20, 0, 0, 0, 16, 0, 3, 0, 0, 0, 2, 2, 0, 0, 2, 4, 0, 0,
            8, 4, 0, 0]] := by
  obtain ⟨halen, ha0, ha2, haw⟩ := attribute_65528_fields
  have hsum : ([attribute_65528].map List.length).sum = 65532 := by
    rw [List.map_cons, List.map_nil, List.sum_cons, List.sum_nil, halen]
    rfl
  have hf := set_im_values_request_fields transport_l 1 [attribute_65528]
  have hl := set_im_values_request_length transport_l 1 [attribute_65528]
  rw [hsum] at hf hl
  have ht : transport_at xw_opened.xim 0 = transport_l := rfl
  have hit : xcb_xim_set_im_values_request_attribute_iterator transport_l
      (set_im_values_request transport_l 1 [attribute_65528])
      = { transport := transport_l, data := 8, index := 0, remainder := 0 } := by
    unfold xcb_xim_set_im_values_request_attribute_iterator
    rw [hf.1, hf.2.2]
    rfl
  refine ⟨hl, ?_, haw, ha0, ha2, hit, ?_⟩
  · rw [request_length_eq, hf.1]
  · intro fuel
    obtain ⟨xw1, h1, hsent1, hcl1, hfind1⟩ := handle_xim_set_im_values_request_found (fuel + 1)
      x_server_ok xw_opened (set_im_values_request transport_l 1 [attribute_65528]) 0
      { transport := 0, id := 1, input_context_counter := 0,
        specs := [], attrs := [some im_styles_record], ic_specs := [],
        input_context_list := [] }
      [some im_styles_record]
      (by rw [ht, hf.2.1]; rfl) (by rw [ht, hit]; exact set_values_done _ _ _ _ _ _ _)
    rw [ht, hf.2.1] at hsent1 hfind1
    have ht1 : transport_at xw1.xim 0 = transport_l :=
      (transport_at_clients _ _ hcl1 _).trans ht
    have h2 := handle_xim_get_im_values_request_filtered 2 x_server_ok xw1 0 1 [0] _
      (fun _ => im_styles_record) transport_l ht1 (by decide) (by decide) (by decide) hfind1
      (by
        intro id hlt
        have h0 : id = 0 := by
          have : id < 1 := hlt
          omega
        subst h0
        rfl)
      (by decide)
    have hfl : ([0].filter (fun id => decide (id < LAST_IM_ATTRIBUTE))).map
        (fun _ => im_styles_record) = [im_styles_record] := rfl
    rw [hfl] at h2
    obtain ⟨hok, hfr, _⟩ := send_frame_answered x_server_ok (fun _ => ⟨rfl, rfl⟩) xw1.xim
      transport_l (xcb_xim_get_im_values_reply_frame transport_l 1 [im_styles_record])
    rw [hok] at h2
    refine ⟨xw1, _, h1, h2, ?_⟩
    dsimp only
    rw [hfr, hsent1]
    decide

/-! ## Claim C38 -/

/-- Claim C38 fails on the code for a string with the length byte 255: on the
`ENCODING_NEGOTIATION` request of 268 bytes whose list is one STR of 255
letters A, `has_data` is true, the name is not `UTF-8`, and `next`, which keeps
`1 + length` in a `uint8_t`, leaves the offset at 8 and the remainder at 256.
The loop is in the same state after every turn but for the index, so it does
not end: the walk and the handler run out of every amount of fuel. -/
theorem encoding_negotiation_never_ends :
    encoding_request_255.length = 268 ∧
    xcb_xim_encoding_negotiation_request_encoding_iterator transport_l encoding_request_255
      = { data := 8, index := 0, remainder := 256 } ∧
    (∀ idx,
      xcb_xim_str_iterator_has_data encoding_request_255
        { data := 8, index := idx, remainder := 256 } = true ∧
      (xcb_xim_str_iterator_next encoding_request_255
        { data := 8, index := idx, remainder := 256 }).remainder = 256 ∧
      (xcb_xim_str_iterator_next encoding_request_255
        { data := 8, index := idx, remainder := 256 }).data = 8) ∧
    (∀ fuel idx,
      encoding_walk encoding_request_255 fuel { data := 8, index := idx, remainder := 256 }
        = none) ∧
    ∀ fuel, handle_xim_encoding_negotiation_request fuel x_server_ok xw_opened
      encoding_request_255 0 = none := by
  obtain ⟨hb, hs, hit, hlen, _⟩ := encoding_request_255_bytes
  have hw := encoding_walk_stuck encoding_request_255 hb hs
  refine ⟨hlen, hit, ?_, hw, ?_⟩
  · intro idx
    refine ⟨?_, ?_, ?_⟩
    · unfold xcb_xim_str_iterator_has_data
      dsimp only
      rw [hb]
      rfl
    · unfold xcb_xim_str_iterator_next
      dsimp only
      rw [hb]
    · unfold xcb_xim_str_iterator_next
      dsimp only
      rw [hb]
  · intro fuel
    have ht : transport_at xw_opened.xim 0 = transport_l := rfl
    unfold handle_xim_encoding_negotiation_request
    dsimp only
    rw [ht, hit, hw]

/-! ## Claim C39 -/

/-- Claim C39 fails on the code for the slots `preeditAttributes` (4) and
`statusAttributes` (5): `init_ic_attributes` fills the slots 0 to 3 only, so
the context that `CREATE_IC` with an empty attribute list makes has `NULL` in
the slots 4 and 5.  The `GET_IC_VALUES` request for id 4 (or 5) passes that
`NULL` to `xcb_xim_get_ic_values_reply`, which reads through it; the request
for id 3 is answered. -/
theorem get_ic_values_reads_null_slot :
    (∀ t, (init_ic_attributes t).map Option.isSome
      = [true, true, true, true, false, false]) ∧
    (get_ic_values_request 4).length = 12 ∧
    request_length transport_l (get_ic_values_request 4) = 12 ∧
    handle_xim_create_ic_request 1 x_server_ok wl_some xw_opened
      (create_ic_request transport_l 1 []) 0 = some (xw_created, true) ∧
    (lookup_input_context xw_created 0 1 1).map (fun ic => ic.attrs.map Option.isSome)
      = some [true, true, true, true, false, false] ∧
    (lookup_input_context xw_created 0 1 1).bind (fun ic =>
      get_ic_values_walk (get_ic_values_request 4) transport_l ic 2
        (xcb_xim_get_ic_values_request_attribute_id_iterator transport_l
          (get_ic_values_request 4)) []) = some [none] ∧
    deref_all [none] = none ∧
    (∀ fuel, handle_xim_get_ic_values_request fuel x_server_ok xw_created
      (get_ic_values_request 4) 0 = none) ∧
    (∀ fuel, handle_xim_get_ic_values_request fuel x_server_ok xw_created
      (get_ic_values_request 5) 0 = none) ∧
    (handle_xim_get_ic_values_request 2 x_server_ok xw_created
      (get_ic_values_request 3) 0).map (fun r => r.2) = some true := by
  refine ⟨fun t => rfl, by decide, by decide, by decide, by decide, by decide, rfl, ?_, ?_,
    by decide⟩
  · intro fuel
    match fuel with
    | 0 => decide
    | 1 => decide
    | n + 2 => rfl
  · intro fuel
    match fuel with
    | 0 => decide
    | 1 => decide
    | n + 2 => rfl

/-! ## Claim C40 -/

/-- Claim C40: let two sequences of preedit_styling callbacks be permutations
of each other and let them be delivered to the same context.  Then for every
text the array `feedbacks` that `update_preedit_string` fills from the pending
runs is the same after both, whatever the runs are; and when every round trip
to the X server is answered, the preedit_string callback for a non-empty text
that follows sends the same frames after both. -/
theorem feedbacks_independent_of_order (k : wl_text_input_preedit_style_t) (x : x_server_t)
    (xim : xcb_xim_server_connection_t) (ic : xim_wayland_input_context_t)
    (text : List Nat) (cs1 cs2 : List (Nat × Nat × Nat)) (hperm : cs1.Perm cs2) :
    (preedit_feedbacks (strlen text)
        (deliver_all k x (xim, ic) (styling_events cs1)).2.preedit_styling_list).cells
      = (preedit_feedbacks (strlen text)
        (deliver_all k x (xim, ic) (styling_events cs2)).2.preedit_styling_list).cells ∧
    (x_server_answers x → byte_at text 0 ≠ 0 →
      frames_sent (deliver k x (deliver_all k x (xim, ic) (styling_events cs1))
          (wl_text_input_event_t.preedit_string text)).1
        = frames_sent (deliver k x (deliver_all k x (xim, ic) (styling_events cs2))
          (wl_text_input_event_t.preedit_string text)).1) := by
  rw [deliver_all_stylings, deliver_all_stylings]
  have hp : ((cs1.reverse.flatMap (fun c =>
        (handle_wayland_preedit_styling k { ic with preedit_styling_list := [] }
          c.1 c.2.1 c.2.2).preedit_styling_list)) ++ ic.preedit_styling_list).Perm
      ((cs2.reverse.flatMap (fun c =>
        (handle_wayland_preedit_styling k { ic with preedit_styling_list := [] }
          c.1 c.2.1 c.2.2).preedit_styling_list)) ++ ic.preedit_styling_list) :=
    List.Perm.append_right _ (List.Perm.flatMap_right _
      (((List.reverse_perm cs1).trans hperm).trans (List.reverse_perm cs2).symm))
  have hcells := preedit_feedbacks_perm (strlen text) _ _ hp
  refine ⟨hcells, fun hx htext => ?_⟩
  have hd : ∀ ic1 : xim_wayland_input_context_t,
      deliver k x (xim, ic1) (wl_text_input_event_t.preedit_string text)
        = handle_wayland_preedit_string x xim ic1 text := fun _ => rfl
  rw [hd, hd]
  unfold handle_wayland_preedit_string
  dsimp only
  have hstyle : ∀ l : List xim_wayland_styling_t,
      input_style_of (transport_at xim ic.input_method_transport)
        { ic with preedit_styling_list := l }
      = input_style_of (transport_at xim ic.input_method_transport) ic := fun _ => rfl
  simp only [hstyle]
  by_cases hcb : input_style_of (transport_at xim ic.input_method_transport) ic
      &&& XCB_XIM_PREEDIT_CALLBACKS ≠ 0
  · simp only [if_pos hcb]
    rw [(update_preedit_string_nonempty x hx xim _ text htext).2.2.2,
      (update_preedit_string_nonempty x hx xim _ text htext).2.2.2]
    dsimp only
    rw [hcells]
  · simp only [if_neg hcb]

/-- The claim for the callbacks `stylings_a` and `stylings_b`, the same three
callbacks in two orders, on a new context and the 9-byte text `text_aiu`: the
array is underline on the bytes 0 to 2, underline and highlight on the bytes 3
to 5 and highlight on the bytes 6 to 8. -/
theorem feedbacks_independent_of_order_witness :
    stylings_a.Perm stylings_b ∧
    (preedit_feedbacks (strlen text_aiu)
        (deliver_all wl_text_input_preedit_style x_server_ok (xim_l, ic_fresh)
          (styling_events stylings_a)).2.preedit_styling_list).cells
      = [2, 2, 2, 6, 6, 6, 4, 4, 4] ∧
    (preedit_feedbacks (strlen text_aiu)
        (deliver_all wl_text_input_preedit_style x_server_ok (xim_l, ic_fresh)
          (styling_events stylings_a)).2.preedit_styling_list).cells
      = (preedit_feedbacks (strlen text_aiu)
        (deliver_all wl_text_input_preedit_style x_server_ok (xim_l, ic_fresh)
          (styling_events stylings_b)).2.preedit_styling_list).cells :=
  ⟨by decide, by decide,
    (feedbacks_independent_of_order wl_text_input_preedit_style x_server_ok xim_l ic_fresh
      text_aiu stylings_a stylings_b (by decide)).1⟩


end XimWayland
